import Mathlib

/-!
# NCrypt PKCS#11 provider

A shallow embedding of `winpr/libwinpr/ncrypt/ncrypt_pkcs11.c`: the key-name
codec (`wprintKeyName`, `parseHex`, `parseKeyName`), `NCryptP11OpenKey`, the
key-table build (`collect_keys`) and the enumeration call
(`NCryptP11EnumKeys`), followed by the properties proved about them.

Conventions of the embedding.

* Bytes, characters, handles and machine integers are natural numbers.
* A C string is the list of its characters before the terminating NUL.
* A wide string (`LPCWSTR`) is represented by the text it holds, written as
  UTF-8 bytes, so the two text conversions act on the text as the identity and
  only their capacity checks remain.
* A fixed-size C array is a list; an access outside the array is reported as a
  `Fault` instead of being given a meaning.
* The token module is an arbitrary state machine behind `CK_FUNCTION_LIST`;
  every call made on it is appended to the `trace` of the `World`.
-/

set_option autoImplicit false

namespace NCryptP11

/-! ## Constants and basic types -/

def MAX_SLOTS : Nat := 64

def MAX_KEYS : Nat := 64

def MAX_KEYS_PER_SLOT : Nat := 64

/-- The `SECURITY_STATUS` values the provider hands back. -/
inductive SECURITY_STATUS
  | ERROR_SUCCESS
  | ERROR_INVALID_PARAMETER
  | ERROR_INVALID_HANDLE
  | ERROR_CALL_NOT_IMPLEMENTED
  | NTE_BAD_KEY
  | NTE_BAD_DATA
  | NTE_INVALID_PARAMETER
  | NTE_INVALID_HANDLE
  | NTE_NO_MEMORY
  | NTE_FAIL
  | NTE_NO_MORE_ITEMS
  | NTE_NOT_FOUND
  | NTE_NOT_SUPPORTED
  | ERROR_CONVERT_TO_LARGE
  | NTE_PROV_DLL_NOT_FOUND
  | NTE_PROV_TYPE_ENTRY_BAD
  | NTE_PROVIDER_DLL_FAIL
  deriving DecidableEq, Repr

/-- Accesses that leave a C object; the embedding stops there. -/
inductive Fault
  /-- A write past the end of the local `asciiName[128]` of `wprintKeyName`. -/
  | asciiNameOverrun
  /-- A read of `id[i]` past the end of the identifier array. -/
  | idOverread
  /-- A row written to `state->keys[n]` with `n >= MAX_KEYS`. -/
  | keyTableOverrun
  /-- A read of `state->slots[i]` with `i >= MAX_SLOTS`. -/
  | slotListOverread
  /-- A `memcmp` whose length exceeds one of the two compared arrays. -/
  | memcmpOverread
  /-- A string function that runs past the end of a character array holding
  no NUL. -/
  | stringOverread
  /-- A read of `buf[i]` outside the response array `buf[258]`. -/
  | responseOverread
  deriving DecidableEq, Repr

/-- Equality of two results is decidable; this lets concrete runs of the
embedding be checked by evaluation. -/
instance instDecidableEqExcept {ε α : Type} [DecidableEq ε] [DecidableEq α] :
    DecidableEq (Except ε α) := fun a b =>
  match a, b with
  | .ok x, .ok y => if h : x = y then isTrue (by rw [h]) else isFalse (fun e => h (by cases e; rfl))
  | .error x, .error y =>
    if h : x = y then isTrue (by rw [h]) else isFalse (fun e => h (by cases e; rfl))
  | .ok _, .error _ => isFalse (fun e => by cases e)
  | .error _, .ok _ => isFalse (fun e => by cases e)

/-- What the compilation target fixes: `sizeof(CK_SLOT_ID)` (`CK_SLOT_ID`,
`CK_KEY_TYPE` and `CK_ULONG` are all `unsigned long`) and the byte order in
which an integer object lies in memory. -/
structure Abi where
  sizeofSlotId : Nat
  /-- The width of `void*`, which is also that of `size_t`. -/
  sizeofPointer : Nat
  bigEndian : Bool
  deriving DecidableEq, Repr

/-- Linux on x86-64 or AArch64: 8-byte `unsigned long`, little-endian. -/
def lp64 : Abi := { sizeofSlotId := 8, sizeofPointer := 8, bigEndian := false }

/-- A 32-bit little-endian target: 4-byte `unsigned long`. -/
def ilp32 : Abi := { sizeofSlotId := 4, sizeofPointer := 4, bigEndian := false }

/-- A big-endian 64-bit target (s390x, ppc64). -/
def lp64be : Abi := { sizeofSlotId := 8, sizeofPointer := 8, bigEndian := true }

/-! ## Memory images of integers -/

/-- The `n` low bytes of `v`, least significant first. -/
def leBytes : Nat → Nat → List Nat
  | 0, _ => []
  | n + 1, v => v % 256 :: leBytes n (v / 256)

/-- The number whose bytes, least significant first, are the list. -/
def leValue : List Nat → Nat
  | [] => 0
  | b :: bs => b % 256 + 256 * leValue bs

/-- The bytes of a `CK_SLOT_ID` object in address order: what
`(CK_BYTE*)&slotId` walks over. -/
def objectBytes (abi : Abi) (v : Nat) : List Nat :=
  if abi.bigEndian then (leBytes abi.sizeofSlotId v).reverse else leBytes abi.sizeofSlotId v

/-- The value of a `CK_SLOT_ID` object whose bytes in address order are the
list. -/
def objectValue (abi : Abi) (bytes : List Nat) : Nat :=
  if abi.bigEndian then leValue bytes.reverse else leValue bytes

/-- The bytes of a `CK_SLOT_ID`, most significant first (the order the
specification names). -/
def msbFirstBytes (abi : Abi) (v : Nat) : List Nat :=
  (leBytes abi.sizeofSlotId v).reverse

/-! ## C library pieces -/

/-- The first `n` cells of a zero-initialised array after `src` was copied to
its start. -/
def fit (n : Nat) (src : List Nat) : List Nat :=
  (src ++ List.replicate n 0).take n

/-- Characters of the C string that starts at the head of the array. -/
def cstr (buf : List Nat) : List Nat :=
  buf.takeWhile (fun c => c != 0)

/-- The C function `strnlen(buf, n)`. -/
def strnlen (buf : List Nat) (n : Nat) : Nat :=
  (cstr (buf.take n)).length

/-- The C function `strchr(s, c)` for a character `c` other than NUL: offset
of the first `c` in the string, if any. -/
def strchr : List Nat → Nat → Option Nat
  | [], _ => none
  | x :: xs, c => if x = c then some 0 else (strchr xs c).map (fun i => i + 1)

/-- Store `src` at offset `off` of the array `buf`; `none` when a cell lies
outside the array. -/
def store (buf : List Nat) (off : Nat) (src : List Nat) : Option (List Nat) :=
  if off + src.length ≤ buf.length then
    some (buf.take off ++ src ++ buf.drop (off + src.length))
  else none

/-- The C function `memcmp(a, b, n) == 0`, on two arrays of known size. -/
def memcmpEq (a b : List Nat) (n : Nat) : Except Fault Bool :=
  if n ≤ a.length ∧ n ≤ b.length then .ok (decide (a.take n = b.take n))
  else .error Fault.memcmpOverread

/-- One lowercase hexadecimal digit, as `printf("%x")` prints it. -/
def hexDigit (n : Nat) : Nat :=
  if n < 10 then 48 + n else 87 + n

/-- What `snprintf(ptr, 3, "%.2x", b)` stores for a `CK_BYTE` `b`: two digits
and the terminating NUL. -/
def snprintf_02x (b : Nat) : List Nat :=
  [hexDigit (b % 256 / 16), hexDigit (b % 256 % 16), 0]

/-- Number of UTF-16 code units of a text given as UTF-8 bytes: one per
non-continuation byte and one more per lead byte of a four-byte sequence. -/
def utf16Units (s : List Nat) : Nat :=
  (s.filter (fun b => b < 128 || 192 ≤ b)).length + (s.filter (fun b => 240 ≤ b)).length

/-- Modelled from the spec: `ConvertWCharToUtf8`, the UTF-16 to UTF-8 half of
the text-conversion collaborator ("UTF-8 ↔ UTF-16 with explicit
destination-capacity negotiation"), which is not among the sources. It
converts the wide string up to its NUL into a destination of `len` bytes and
fails (a negative result, here `none`) when text and terminator do not fit. -/
def ConvertWCharToUtf8 (wstr : List Nat) (len : Nat) : Option (List Nat) :=
  if (cstr wstr).length + 1 ≤ len then some (cstr wstr) else none

/-- Modelled from the spec: `ConvertUtf8NToWChar`, the UTF-8 to UTF-16 half of
the text-conversion collaborator, which is not among the sources. It converts
at most `len` bytes of `str`, stopping at a NUL, into a destination of `wlen`
code units and fails (`none`) when text and terminator do not fit. -/
def ConvertUtf8NToWChar (str : List Nat) (len : Nat) (wlen : Nat) : Option (List Nat) :=
  if utf16Units (cstr (str.take len)) + 1 ≤ wlen then some (cstr (str.take len)) else none

/-! ## Key-name codec -/

/-- The two loops of `wprintKeyName`: print each byte at `ptr` with
`snprintf(ptr, 3, "%.2x", b)` and advance `ptr` by two. -/
def printHexBytes : List Nat → List Nat → Nat → Except Fault (List Nat × Nat)
  | [], buf, ptr => .ok (buf, ptr)
  | b :: bs, buf, ptr =>
    match store buf ptr (snprintf_02x b) with
    | none => .error Fault.asciiNameOverrun
    | some buf1 => printHexBytes bs buf1 (ptr + 2)

/-- The cells `id[0] .. id[idLen-1]` the second loop of `wprintKeyName` reads. -/
def readId (id : List Nat) (idLen : Nat) : Except Fault (List Nat) :=
  if idLen ≤ id.length then .ok (id.take idLen) else .error Fault.idOverread

/-- The function `wprintKeyName(str, slotId, id, idLen)`; the result is the
wide string left in `str`. -/
def wprintKeyName (abi : Abi) (slotId : Nat) (id : List Nat) (idLen : Nat) :
    Except Fault (List Nat) :=
  let asciiName := List.replicate 128 0
  match store asciiName 0 [92] with
  | none => .error Fault.asciiNameOverrun
  | some buf1 =>
    match printHexBytes (objectBytes abi slotId) buf1 1 with
    | .error e => .error e
    | .ok (buf2, ptr2) =>
      match store buf2 ptr2 [92] with
      | none => .error Fault.asciiNameOverrun
      | some buf3 =>
        match readId id idLen with
        | .error e => .error e
        | .ok idBytes =>
          match printHexBytes idBytes buf3 (ptr2 + 1) with
          | .error e => .error e
          | .ok (buf4, _) =>
            match ConvertUtf8NToWChar buf4 128 (strnlen buf4 128 + 1) with
            | none => .ok []
            | some str => .ok str

/-- The value of one hexadecimal digit character, by the three range tests of
`parseHex`; `none` is its `return 0` branch. -/
def hexValue (c : Nat) : Option Nat :=
  if c ≤ 57 ∧ 48 ≤ c then some (c - 48)
  else if c ≤ 102 ∧ 97 ≤ c then some (10 + c - 97)
  else if c ≤ 70 ∧ 65 ≤ c then some (10 + c - 65)
  else none

/-- The loop of `parseHex`, on the characters between `str` and the first of
`end` and the terminating NUL; `ret` counts the bytes stored so far and
`target` lists them. The result is the returned count and the bytes stored. -/
def parseHexLoop : List Nat → Nat → List Nat → Nat × List Nat
  | [], ret, target => (ret, target)
  | [c1], _, target =>
    match hexValue c1 with
    | none => (0, target)
    | some _ => (0, target)
  | c1 :: c2 :: rest, ret, target =>
    match hexValue c1 with
    | none => (0, target)
    | some hi =>
      match hexValue c2 with
      | none => (0, target)
      | some lo => parseHexLoop rest (ret + 1) (target ++ [((hi <<< 4) ||| lo) &&& 255])

/-- The function `parseHex(str, end, target)`. -/
def parseHex (s : List Nat) : Nat × List Nat :=
  parseHexLoop s 0 []

/-- Outputs of a successful `parseKeyName`. -/
structure ParsedKeyName where
  slotId : Nat
  id : List Nat
  idLen : Nat
  deriving DecidableEq, Repr

/-- The function `parseKeyName(pszKeyName, slotId, id, idLen)`; `id` is the
caller's zero-initialised 64-byte array after the call. An `error` carries
the status returned when it is not `ERROR_SUCCESS`. -/
def parseKeyName (abi : Abi) (pszKeyName : List Nat) : Except SECURITY_STATUS ParsedKeyName :=
  match ConvertWCharToUtf8 pszKeyName 128 with
  | none => .error .NTE_BAD_KEY
  | some asciiKeyName =>
    match asciiKeyName with
    | [] => .error .NTE_BAD_KEY
    | c :: tail =>
      if c ≠ 92 then .error .NTE_BAD_KEY
      else
        match strchr tail 92 with
        | none => .error .NTE_BAD_KEY
        | some pos =>
          if pos > abi.sizeofSlotId * 2 then .error .NTE_BAD_KEY
          else
            let slot := parseHex (tail.take pos)
            if slot.1 ≠ abi.sizeofSlotId then .error .NTE_BAD_KEY
            else
              let key := parseHex (tail.drop (pos + 1))
              if key.1 = 0 then .error .NTE_BAD_KEY
              else .ok { slotId := objectValue abi slot.2, id := fit 64 key.2, idLen := key.1 }

/-- Text of a string literal as a C string. -/
def ofString (s : String) : List Nat :=
  s.toList.map Char.toNat

/-! ### The name format in the words of the specification -/

/-- Hexadecimal digit characters: `0-9`, `a-f`, `A-F`. -/
def IsHexChar (c : Nat) : Prop :=
  (48 ≤ c ∧ c ≤ 57) ∨ (97 ≤ c ∧ c ≤ 102) ∨ (65 ≤ c ∧ c ≤ 70)

instance (c : Nat) : Decidable (IsHexChar c) := by
  unfold IsHexChar
  exact inferInstance

/-- Two hexadecimal characters for one byte. -/
def hex2 (b : Nat) : List Nat :=
  [hexDigit (b % 256 / 16), hexDigit (b % 256 % 16)]

/-- The text `\<slot bytes in hex>\<key id bytes in hex>`, two characters per
byte, for a given order of the slot-id bytes. -/
def keyNameFormat (slotBytes idBytes : List Nat) : List Nat :=
  92 :: (slotBytes.flatMap hex2 ++ 92 :: idBytes.flatMap hex2)

/-- The encoding as the specification words it: the slot id rendered
most-significant-byte-first over its native width. -/
def specKeyName (abi : Abi) (slotId : Nat) (id : List Nat) : List Nat :=
  keyNameFormat (msbFirstBytes abi slotId) id

/-- The malformations of a key name that the specification lists, stated on
the text of the name. -/
inductive Malformed (abi : Abi) : List Nat → Prop
  | noLeadingBackslash (s : List Nat) : s.head? ≠ some 92 → Malformed abi s
  | noSecondBackslash (t : List Nat) : 92 ∉ t → Malformed abi (92 :: t)
  | slotSegmentNotHex (a b : List Nat) :
      92 ∉ a → (∃ c ∈ a, ¬ IsHexChar c) → Malformed abi (92 :: (a ++ 92 :: b))
  | slotSegmentLength (a b : List Nat) :
      92 ∉ a → a.length ≠ 2 * abi.sizeofSlotId → Malformed abi (92 :: (a ++ 92 :: b))
  | keySegmentNotHex (a b : List Nat) :
      92 ∉ a → (∃ c ∈ b, ¬ IsHexChar c) → Malformed abi (92 :: (a ++ 92 :: b))
  | keySegmentEmpty (a : List Nat) : 92 ∉ a → Malformed abi (92 :: (a ++ [92]))

/-! ## The token module -/

def CKR_OK : Nat := 0

def CKR_HOST_MEMORY : Nat := 2

def CKR_ATTRIBUTE_SENSITIVE : Nat := 17

def CKR_ATTRIBUTE_TYPE_INVALID : Nat := 18

def CKR_BUFFER_TOO_SMALL : Nat := 336

def CKF_TOKEN_PRESENT : Nat := 1

def CKA_CLASS : Nat := 0

def CKA_LABEL : Nat := 3

def CKA_CERTIFICATE_TYPE : Nat := 128

def CKA_KEY_TYPE : Nat := 256

def CKA_ID : Nat := 258

def CKA_VERIFY : Nat := 266

def CKA_WRAP_TEMPLATE : Nat := 1073742353

def CKA_UNWRAP_TEMPLATE : Nat := 1073742354

def CKA_ALLOWED_MECHANISMS : Nat := 1073743360

def CKO_CERTIFICATE : Nat := 1

def CKO_PUBLIC_KEY : Nat := 2

def CKC_X_509 : Nat := 0

def CKK_RSA : Nat := 0

def CKK_DSA : Nat := 1

def CKK_DH : Nat := 2

def CKK_EC : Nat := 3

def CKK_RC2 : Nat := 17

def CKK_RC4 : Nat := 18

def CKK_DES : Nat := 19

def CKK_DES3 : Nat := 21

def AT_KEYEXCHANGE : Nat := 1

def AT_SIGNATURE : Nat := 2

def NCRYPT_MACHINE_KEY_FLAG : Nat := 32

/-- The value `CK_UNAVAILABLE_INFORMATION`, that is `~0UL`. -/
def CK_UNAVAILABLE_INFORMATION (abi : Abi) : Nat :=
  256 ^ abi.sizeofSlotId - 1

/-- The fields of `CK_SLOT_INFO` the provider reads: the 64-byte description
and the flags. -/
structure CK_SLOT_INFO where
  slotDescription : List Nat
  flags : Nat
  deriving DecidableEq, Repr

/-- One `CK_ATTRIBUTE`: `pValue` is `none` for a null pointer and otherwise
the content of the array it points to. -/
structure CK_ATTRIBUTE where
  type : Nat
  pValue : Option (List Nat)
  ulValueLen : Nat
  deriving DecidableEq, Repr

/-- The entries of the module's function table the provider calls. The module
is a state machine over `σ`; each entry takes the call's inputs and the
module state and gives what the call stores through its output pointers, the
returned `CK_RV`, and the next module state.

* `C_GetSlotList tokenPresent cap`: `cap` is `none` for a null `pSlotList`
  and otherwise the count passed in through `pulCount`; the result is the
  `CK_RV`, the slot ids written and the count left in `pulCount`.
* `C_FindObjects session max`: the result lists the object handles written,
  their number being the count reported.
* `C_GetAttributeValue session object template`: the result is the template
  as the module leaves it. -/
structure CK_FUNCTION_LIST (σ : Type) where
  C_GetSlotList : Bool → Option Nat → σ → (Nat × List Nat × Nat) × σ
  C_GetSlotInfo : Nat → σ → (Nat × CK_SLOT_INFO) × σ
  C_GetTokenInfo : Nat → σ → Nat × σ
  C_OpenSession : Nat → σ → (Nat × Nat) × σ
  C_CloseSession : Nat → σ → Nat × σ
  C_FindObjectsInit : Nat → List CK_ATTRIBUTE → σ → Nat × σ
  C_FindObjects : Nat → Nat → σ → (Nat × List Nat) × σ
  C_FindObjectsFinal : Nat → σ → Nat × σ
  C_GetAttributeValue : Nat → Nat → List CK_ATTRIBUTE → σ → (Nat × List CK_ATTRIBUTE) × σ

/-- Names of the function-table entries, for the call trace. -/
inductive P11Fn
  | C_GetSlotList
  | C_GetSlotInfo
  | C_GetTokenInfo
  | C_OpenSession
  | C_CloseSession
  | C_FindObjectsInit
  | C_FindObjects
  | C_FindObjectsFinal
  | C_GetAttributeValue
  deriving DecidableEq, Repr

/-- One call made on the module: the entry, its slot or session argument and
the `CK_RV` it returned. -/
structure P11Call where
  fn : P11Fn
  arg : Nat
  rv : Nat
  deriving DecidableEq, Repr

/-- Everything outside the provider: the module state, the calls made on the
module so far (oldest first) and the outcomes of the coming heap allocations
(`false` is a failed one; past the end of the list allocations succeed). -/
structure World (σ : Type) where
  token : σ
  trace : List P11Call
  allocs : List Bool
  deriving DecidableEq

/-- Record a call and install the module state it left. -/
def World.called {σ : Type} (w : World σ) (fn : P11Fn) (arg rv : Nat) (t : σ) : World σ :=
  { w with token := t, trace := w.trace ++ [{ fn := fn, arg := arg, rv := rv }] }

/-- One heap allocation (`calloc`): whether it succeeds, and the world after. -/
def World.calloc {σ : Type} (w : World σ) : Bool × World σ :=
  match w.allocs with
  | [] => (true, w)
  | b :: rest => (b, { w with allocs := rest })

/-- Number of calls of one function-table entry in a trace. -/
def countCalls (fn : P11Fn) (tr : List P11Call) : Nat :=
  (tr.filter (fun c => decide (c.fn = fn))).length

/-- Number of successful calls (`CKR_OK`) of one function-table entry in a
trace. -/
def countSuccessful (fn : P11Fn) (tr : List P11Call) : Nat :=
  (tr.filter (fun c => decide (c.fn = fn ∧ c.rv = CKR_OK))).length

/-! ## Attribute retrieval -/

/-- The loop of `fix_padded_string` with `ptr = &str[p]`: while `ptr > str`
and `*ptr` is a space, store NUL and step back. -/
def fixPaddedLoop : Nat → List Nat → List Nat
  | 0, str => str
  | p + 1, str => if str[p + 1]? = some 32 then fixPaddedLoop p (str.set (p + 1) 0) else str

/-- The function `fix_padded_string(str, maxlen)`. -/
def fix_padded_string (str : List Nat) (maxlen : Nat) : List Nat :=
  if maxlen = 0 then str else fixPaddedLoop (maxlen - 1) str

/-- The function `attributes_have_unallocated_buffers`. -/
def attributes_have_unallocated_buffers (abi : Abi) (attributes : List CK_ATTRIBUTE) : Bool :=
  attributes.any (fun a => a.pValue.isNone && a.ulValueLen != CK_UNAVAILABLE_INFORMATION abi)

/-- The element size `attributes_allocate_buffers` picks for an attribute
type: `sizeof(void*)` for the wrap and unwrap templates, `sizeof(CK_ULONG)`
for the allowed mechanisms, one byte otherwise. -/
def attributeElementSize (abi : Abi) (type : Nat) : Nat :=
  if type = CKA_WRAP_TEMPLATE ∨ type = CKA_UNWRAP_TEMPLATE then abi.sizeofPointer
  else if type = CKA_ALLOWED_MECHANISMS then abi.sizeofSlotId
  else 1

/-- An attribute after `attribute_allocate_attribute_array`,
`attribute_allocate_ulong_array` or `attribute_allocate_buffer`, whichever
its type selects, succeeded on it: `pValue` is a zeroed array of `ulValueLen`
elements. -/
def allocatedAttribute (abi : Abi) (a : CK_ATTRIBUTE) : CK_ATTRIBUTE :=
  { a with pValue := some (List.replicate (a.ulValueLen * attributeElementSize abi a.type) 0) }

/-- The function `attributes_allocate_buffers`: every attribute with a null
buffer and an available length gets a zeroed array of `ulValueLen` elements;
the result is `false` when one of the allocations failed. -/
def attributes_allocate_buffers {σ : Type} (abi : Abi) :
    List CK_ATTRIBUTE → World σ → Bool × List CK_ATTRIBUTE × World σ
  | [], w => (true, [], w)
  | a :: rest, w =>
    if a.pValue.isSome ∨ a.ulValueLen = CK_UNAVAILABLE_INFORMATION abi then
      let r := attributes_allocate_buffers abi rest w
      (r.1, a :: r.2.1, r.2.2)
    else
      let m := w.calloc
      let a1 : CK_ATTRIBUTE :=
        if m.1 then
          { a with pValue := some (List.replicate (a.ulValueLen * attributeElementSize abi a.type) 0) }
        else a
      let r := attributes_allocate_buffers abi rest m.2
      (m.1 && r.1, a1 :: r.2.1, r.2.2)

/-- One call of `C_GetAttributeValue`, recorded in the trace. -/
def callGetAttributeValue {σ : Type} (p11 : CK_FUNCTION_LIST σ) (session object : Nat)
    (attributes : List CK_ATTRIBUTE) (w : World σ) : Nat × List CK_ATTRIBUTE × World σ :=
  let r := p11.C_GetAttributeValue session object attributes w.token
  (r.1.1, r.1.2, w.called P11Fn.C_GetAttributeValue session r.1.1 r.2)

/-- The function `object_load_attributes`: the returned `CK_RV`, the template
afterwards and the world afterwards. -/
def object_load_attributes {σ : Type} (abi : Abi) (p11 : CK_FUNCTION_LIST σ)
    (session object : Nat) (attributes : List CK_ATTRIBUTE) (w : World σ) :
    Nat × List CK_ATTRIBUTE × World σ :=
  let q1 := callGetAttributeValue p11 session object attributes w
  if q1.1 = CKR_OK ∧ attributes_have_unallocated_buffers abi q1.2.1 = false then q1
  else if q1.1 = CKR_OK ∨ q1.1 = CKR_ATTRIBUTE_SENSITIVE ∨ q1.1 = CKR_ATTRIBUTE_TYPE_INVALID
      ∨ q1.1 = CKR_BUFFER_TOO_SMALL then
    let al := attributes_allocate_buffers abi q1.2.1 q1.2.2
    if al.1 = false then (CKR_HOST_MEMORY, al.2.1, al.2.2)
    else callGetAttributeValue p11 session object al.2.1 al.2.2
  else q1

/-! ## The key table -/

/-- One row of the key table (`NCryptKeyEnum`). -/
structure NCryptKeyEnum where
  slotId : Nat
  slotInfo : CK_SLOT_INFO
  keyType : Nat
  keyLabel : List Nat
  idLen : Nat
  id : List Nat
  deriving DecidableEq, Repr

/-- The enumeration state (`P11EnumKeysState`). `slots` is the 64-entry slot
array; `keys` lists the rows written so far, row `n` being `keys[n]` of the
C table. In a state left by `collect_keys` the list has `nKeys` rows, so every
row below `nKeys` is in the list. -/
structure P11EnumKeysState where
  nslots : Nat
  slots : List Nat
  nKeys : Nat
  keys : List NCryptKeyEnum
  keyIndex : Nat
  deriving DecidableEq, Repr

/-- The state `calloc` returns. -/
def P11EnumKeysState.zero : P11EnumKeysState :=
  { nslots := 0, slots := List.replicate MAX_SLOTS 0, nKeys := 0, keys := [], keyIndex := 0 }

/-- The template `key_or_certAttrs` of `collect_keys`, pointing into a fresh
row: the 64-byte `id`, the local `dataClass`, the 256-byte `keyLabel` and the
row's `keyType`. -/
def key_or_certAttrs (abi : Abi) : List CK_ATTRIBUTE :=
  [ { type := CKA_ID, pValue := some (List.replicate 64 0), ulValueLen := 64 },
    { type := CKA_CLASS, pValue := some (objectBytes abi CKO_PUBLIC_KEY),
      ulValueLen := abi.sizeofSlotId },
    { type := CKA_LABEL, pValue := some (List.replicate 256 0), ulValueLen := 256 },
    { type := CKA_KEY_TYPE, pValue := some (List.replicate abi.sizeofSlotId 0),
      ulValueLen := abi.sizeofSlotId } ]

/-- The template `public_key_filter`. -/
def public_key_filter (abi : Abi) : List CK_ATTRIBUTE :=
  [ { type := CKA_CLASS, pValue := some (objectBytes abi CKO_PUBLIC_KEY),
      ulValueLen := abi.sizeofSlotId },
    { type := CKA_VERIFY, pValue := some [1], ulValueLen := 1 },
    { type := CKA_KEY_TYPE, pValue := some (objectBytes abi CKK_RSA),
      ulValueLen := abi.sizeofSlotId } ]

/-- The array an attribute of a template points to after a query. -/
def attributeBuffer (attributes : List CK_ATTRIBUTE) (i : Nat) : List Nat :=
  match attributes[i]? with
  | some a => a.pValue.getD []
  | none => []

/-- The length an attribute of a template reports after a query. -/
def attributeLength (attributes : List CK_ATTRIBUTE) (i : Nat) : Nat :=
  match attributes[i]? with
  | some a => a.ulValueLen
  | none => 0

/-- The inner loop of `collect_keys` over the objects found in one slot: each
object whose attributes load is appended as a row at `keys[nKeys]`. -/
def collectObjects {σ : Type} (abi : Abi) (p11 : CK_FUNCTION_LIST σ) (slotId : Nat)
    (slotInfo : CK_SLOT_INFO) (session : Nat) :
    List Nat → P11EnumKeysState → World σ → Except Fault (P11EnumKeysState × World σ)
  | [], state, w => .ok (state, w)
  | object :: rest, state, w =>
    if MAX_KEYS ≤ state.nKeys then .error Fault.keyTableOverrun
    else
      let r := object_load_attributes abi p11 session object (key_or_certAttrs abi) w
      if r.1 ≠ CKR_OK then collectObjects abi p11 slotId slotInfo session rest state r.2.2
      else
        let key : NCryptKeyEnum :=
          { slotId := slotId
            slotInfo := slotInfo
            keyType := objectValue abi (attributeBuffer r.2.1 3)
            keyLabel := fit 256 (attributeBuffer r.2.1 2)
            idLen := attributeLength r.2.1 0
            id := fit 64 (attributeBuffer r.2.1 0) }
        collectObjects abi p11 slotId slotInfo session rest
          { state with keys := state.keys.take state.nKeys ++ [key], nKeys := state.nKeys + 1 }
          r.2.2

/-- The body of the outer loop of `collect_keys` for the slot `state->slots[i]`. -/
def collectSlot {σ : Type} (abi : Abi) (p11 : CK_FUNCTION_LIST σ) (i : Nat)
    (state : P11EnumKeysState) (w : World σ) : Except Fault (P11EnumKeysState × World σ) :=
  match state.slots[i]? with
  | none => .error Fault.slotListOverread
  | some slot =>
    let si := p11.C_GetSlotInfo slot w.token
    let w1 := w.called P11Fn.C_GetSlotInfo slot si.1.1 si.2
    if si.1.1 ≠ CKR_OK then .ok (state, w1)
    else
      let slotInfo : CK_SLOT_INFO :=
        { si.1.2 with slotDescription := fix_padded_string si.1.2.slotDescription 64 }
      if slotInfo.flags &&& CKF_TOKEN_PRESENT = 0 then .ok (state, w1)
      else
        let ti := p11.C_GetTokenInfo slot w1.token
        let w2 := w1.called P11Fn.C_GetTokenInfo slot ti.1 ti.2
        let os := p11.C_OpenSession slot w2.token
        let w3 := w2.called P11Fn.C_OpenSession slot os.1.1 os.2
        let session := os.1.2
        if os.1.1 ≠ CKR_OK then .ok (state, w3)
        else
          let fi := p11.C_FindObjectsInit session (public_key_filter abi) w3.token
          let w4 := w3.called P11Fn.C_FindObjectsInit session fi.1 fi.2
          if fi.1 ≠ CKR_OK then
            let cs := p11.C_CloseSession session w4.token
            .ok (state, w4.called P11Fn.C_CloseSession session cs.1 cs.2)
          else
            let fo := p11.C_FindObjects session MAX_KEYS_PER_SLOT w4.token
            let w5 := w4.called P11Fn.C_FindObjects session fo.1.1 fo.2
            let rows : Except Fault (P11EnumKeysState × World σ) :=
              if fo.1.1 ≠ CKR_OK then .ok (state, w5)
              else collectObjects abi p11 slot slotInfo session fo.1.2 state w5
            match rows with
            | .error e => .error e
            | .ok (state6, w6) =>
              let ff := p11.C_FindObjectsFinal session w6.token
              let w7 := w6.called P11Fn.C_FindObjectsFinal session ff.1 ff.2
              let cs := p11.C_CloseSession session w7.token
              .ok (state6, w7.called P11Fn.C_CloseSession session cs.1 cs.2)

/-- The outer loop of `collect_keys`, over the slot indices still to visit. -/
def collectSlots {σ : Type} (abi : Abi) (p11 : CK_FUNCTION_LIST σ) :
    List Nat → P11EnumKeysState → World σ → Except Fault (P11EnumKeysState × World σ)
  | [], state, w => .ok (state, w)
  | i :: rest, state, w =>
    match collectSlot abi p11 i state w with
    | .error e => .error e
    | .ok (state1, w1) => collectSlots abi p11 rest state1 w1

/-- The function `collect_keys(provider, state)`; it returns `ERROR_SUCCESS`
whenever it returns. -/
def collect_keys {σ : Type} (abi : Abi) (p11 : CK_FUNCTION_LIST σ) (state : P11EnumKeysState)
    (w : World σ) : Except Fault (SECURITY_STATUS × P11EnumKeysState × World σ) :=
  match collectSlots abi p11 (List.range state.nslots) { state with nKeys := 0 } w with
  | .error e => .error e
  | .ok (state1, w1) => .ok (SECURITY_STATUS.ERROR_SUCCESS, state1, w1)

/-! ## Algorithm names -/

/-- Modelled from the spec: the algorithm-name constants `BCRYPT_*_ALGORITHM`
of `bcrypt.h`, which is not among the sources ("RSA, DSA, Diffie–Hellman, EC,
RC2, RC4, DES, triple-DES recognized"), as the character codes of `RSA`,
`DSA`, `DH`, `ECDSA`, `RC2`, `RC4`, `DES` and `3DES`; the `switch` of
`convertKeyType` selects among them by key type and leaves `r` null
otherwise. -/
def algorithmName (k : Nat) : Option (List Nat) :=
  if k = CKK_RSA then some [82, 83, 65]
  else if k = CKK_DSA then some [68, 83, 65]
  else if k = CKK_DH then some [68, 72]
  else if k = CKK_EC then some [69, 67, 68, 83, 65]
  else if k = CKK_RC2 then some [82, 67, 50]
  else if k = CKK_RC4 then some [82, 67, 52]
  else if k = CKK_DES then some [68, 69, 83]
  else if k = CKK_DES3 then some [51, 68, 69, 83]
  else none

/-- The function `convertKeyType(k, dest, len, outlen)`: `dest` is `none` for
a null destination and otherwise its capacity `len`. The result is the
returned `BOOL`, the string stored in `dest` if one was stored, and the value
stored through `outlen`. -/
def convertKeyType (k : Nat) (dest : Option Nat) : Bool × Option (List Nat) × Nat :=
  match algorithmName k with
  | none =>
    match dest with
    | some len => if 0 < len then (false, some [], 0) else (false, none, 0)
    | none => (false, none, 0)
  | some r =>
    if r.length > 4294967295 then (false, none, 0)
    else
      match dest with
      | none => (true, none, r.length)
      | some len => if r.length + 1 > len then (false, none, r.length) else (true, some r, r.length)

/-! ## Opening a key -/

/-- The key handle (`NCryptP11KeyHandle`): the provider it came from, the slot
id, the 64-byte identifier array and the identifier length. -/
structure NCryptP11KeyHandle where
  provider : Nat
  slotId : Nat
  keyCertId : List Nat
  keyCertIdLen : Nat
  deriving DecidableEq, Repr

/-- The function `NCryptP11OpenKey(hProvider, phKey, pszKeyName, ..)`. `phKey`
is what the caller's output cell holds before the call; the result is the
status, what the cell holds after the call, and the world after the call.
`ncrypt_new_handle` (of `ncrypt.c`, not among the sources) is one heap
allocation. -/
def NCryptP11OpenKey {σ : Type} (abi : Abi) (hProvider : Nat)
    (phKey : Option NCryptP11KeyHandle) (pszKeyName : List Nat) (w : World σ) :
    SECURITY_STATUS × Option NCryptP11KeyHandle × World σ :=
  match parseKeyName abi pszKeyName with
  | .error ret => (ret, phKey, w)
  | .ok parsed =>
    let m := w.calloc
    if m.1 = false then (SECURITY_STATUS.NTE_NO_MEMORY, phKey, m.2)
    else
      (SECURITY_STATUS.ERROR_SUCCESS,
        some { provider := hProvider, slotId := parsed.slotId, keyCertId := parsed.id,
               keyCertIdLen := parsed.idLen },
        m.2)

/-! ## Enumerating keys -/

/-- The record handed back for a key (`NCryptKeyName`). -/
structure NCryptKeyName where
  pszName : List Nat
  pszAlgid : List Nat
  dwLegacyKeySpec : Nat
  dwFlags : Nat
  deriving DecidableEq, Repr

/-- What a call of `NCryptP11EnumKeys` leaves: the status, the caller's
`*ppKeyName` and `*ppEnumState` cells, and the world. -/
structure EnumKeysResult (σ : Type) where
  status : SECURITY_STATUS
  ppKeyName : Option NCryptKeyName
  ppEnumState : Option P11EnumKeysState
  world : World σ
  deriving DecidableEq

/-- The C function `strstr(s, needle)`: offset of the first occurrence. -/
def strstr : List Nat → List Nat → Option Nat
  | [], needle => if needle = [] then some 0 else none
  | c :: s, needle =>
    if needle.isPrefixOf (c :: s) then some 0 else (strstr s needle).map (fun i => i + 1)

/-- The reader filter of a call: the 65-byte `slotFilterBuffer` and
`slotFilterLen`. -/
structure SlotFilter where
  buffer : List Nat
  len : Nat
  deriving DecidableEq, Repr

/-- The scope check at the head of `NCryptP11EnumKeys`, for a non-null
`pszScope`: either the status returned at once, or the reader filter.
`slotFilterLen` is `asciiScopeLen - 5` in `size_t` arithmetic. -/
def parseScope (abi : Abi) (pszScope : List Nat) : Except SECURITY_STATUS SlotFilter :=
  match ConvertWCharToUtf8 pszScope 134 with
  | none => .error .NTE_INVALID_PARAMETER
  | some asciiScope =>
    if strstr asciiScope [92, 92, 46, 92] ≠ some 0 then .error .NTE_INVALID_PARAMETER
    else
      let asciiScopeLen := strnlen (fit 135 asciiScope) 135
      if asciiScopeLen < 1 ∨ (fit 135 asciiScope)[asciiScopeLen - 1]? ≠ some 92 then
        .error .NTE_INVALID_PARAMETER
      else
        let cut := (fit 135 asciiScope).set (asciiScopeLen - 1) 0
        .ok { buffer := fit 65 (cstr (cut.drop 4))
              len := (asciiScopeLen + 256 ^ abi.sizeofPointer - 5) % 256 ^ abi.sizeofPointer }

/-- The template `certificateFilter` for a row. -/
def certificateFilter (abi : Abi) (key : NCryptKeyEnum) : List CK_ATTRIBUTE :=
  [ { type := CKA_CLASS, pValue := some (objectBytes abi CKO_CERTIFICATE),
      ulValueLen := abi.sizeofSlotId },
    { type := CKA_CERTIFICATE_TYPE, pValue := some (objectBytes abi CKC_X_509),
      ulValueLen := abi.sizeofSlotId },
    { type := CKA_ID, pValue := some key.id, ulValueLen := key.idLen } ]

/-- The block under `if (ncertObjects)`: the record for a row, `none` when its
allocation fails. -/
def makeKeyName {σ : Type} (abi : Abi) (key : NCryptKeyEnum) (w : World σ) :
    Except Fault (Option NCryptKeyName × World σ) :=
  let algoSz := (convertKeyType key.keyType none).2.2
  let m := w.calloc
  if m.1 = false then .ok (none, m.2)
  else
    match wprintKeyName abi key.slotId key.id key.idLen with
    | .error e => .error e
    | .ok pszName =>
      .ok (some { pszName := pszName
                  pszAlgid := ((convertKeyType key.keyType (some (algoSz + 1))).2.1).getD []
                  dwLegacyKeySpec := AT_KEYEXCHANGE ||| AT_SIGNATURE
                  dwFlags := NCRYPT_MACHINE_KEY_FLAG }, m.2)

/-- The block `if (!currentSession || (currentSlot != key->slotId))` of the
loop body: close the open session if there is one, then open one on the row's
slot. The result tells whether the body goes on (`false` is the `continue`
after a failed `C_OpenSession`), then `currentSlot`, `currentSession` and the
world. -/
def switchSession {σ : Type} (p11 : CK_FUNCTION_LIST σ) (key : NCryptKeyEnum)
    (currentSlot currentSession : Nat) (w : World σ) : Bool × Nat × Nat × World σ :=
  if currentSession = 0 ∨ currentSlot ≠ key.slotId then
    let w1 :=
      if currentSession ≠ 0 then
        let cs := p11.C_CloseSession currentSession w.token
        w.called P11Fn.C_CloseSession currentSession cs.1 cs.2
      else w
    let os := p11.C_OpenSession key.slotId w1.token
    let w2 := w1.called P11Fn.C_OpenSession key.slotId os.1.1 os.2
    if os.1.1 ≠ CKR_OK then (false, currentSlot, os.1.2, w2)
    else (true, key.slotId, os.1.2, w2)
  else (true, currentSlot, currentSession, w)

/-- The reader-filter test of the loop body: `true` when the row is skipped. -/
def filterMismatch (slotFilter : Option SlotFilter) (key : NCryptKeyEnum) : Except Fault Bool :=
  match slotFilter with
  | none => .ok false
  | some f =>
    match memcmpEq key.slotInfo.slotDescription f.buffer f.len with
    | .error e => .error e
    | .ok same => .ok (!same)

/-- The `for` loop of `NCryptP11EnumKeys`. The first argument counts the rows
left, `state->nKeys - state->keyIndex`, so that `0` is the loop's exit. -/
def enumKeysLoop {σ : Type} (abi : Abi) (p11 : CK_FUNCTION_LIST σ) (slotFilter : Option SlotFilter) :
    Nat → P11EnumKeysState → Nat → Nat → Option NCryptKeyName → World σ →
      Except Fault (EnumKeysResult σ)
  | 0, state, _, _, ppKeyName, w =>
    .ok { status := .NTE_NO_MORE_ITEMS, ppKeyName := ppKeyName, ppEnumState := some state,
          world := w }
  | left + 1, state, currentSlot, currentSession, ppKeyName, w =>
    let next : P11EnumKeysState := { state with keyIndex := state.keyIndex + 1 }
    match state.keys[state.keyIndex]? with
    | none => .error Fault.keyTableOverrun
    | some key =>
      match filterMismatch slotFilter key with
      | .error e => .error e
      | .ok true => enumKeysLoop abi p11 slotFilter left next currentSlot currentSession ppKeyName w
      | .ok false =>
        let sw := switchSession p11 key currentSlot currentSession w
        let slot := sw.2.1
        let session := sw.2.2.1
        if sw.1 = false then enumKeysLoop abi p11 slotFilter left next slot session ppKeyName sw.2.2.2
        else
          let fi := p11.C_FindObjectsInit session (certificateFilter abi key) sw.2.2.2.token
          let w3 := sw.2.2.2.called P11Fn.C_FindObjectsInit session fi.1 fi.2
          if fi.1 ≠ CKR_OK then
            enumKeysLoop abi p11 slotFilter left next slot session ppKeyName w3
          else
            let fo := p11.C_FindObjects session 1 w3.token
            let w4 := w3.called P11Fn.C_FindObjects session fo.1.1 fo.2
            let made : Except Fault (Option NCryptKeyName × World σ) :=
              if fo.1.1 = CKR_OK ∧ fo.1.2 ≠ [] then makeKeyName abi key w4 else .ok (none, w4)
            match made with
            | .error e => .error e
            | .ok (keyName, w5) =>
              let ff := p11.C_FindObjectsFinal session w5.token
              let w6 := w5.called P11Fn.C_FindObjectsFinal session ff.1 ff.2
              match keyName with
              | some kn =>
                .ok { status := .ERROR_SUCCESS, ppKeyName := some kn, ppEnumState := some next,
                      world := w6 }
              | none => enumKeysLoop abi p11 slotFilter left next slot session ppKeyName w6

/-- The two `C_GetSlotList` calls under `if (!state)`: either the status
returned at once, or the state as it is handed to `collect_keys`; each with
the world afterwards. -/
def fetchSlotList {σ : Type} (p11 : CK_FUNCTION_LIST σ) (w : World σ) :
    (Except SECURITY_STATUS P11EnumKeysState) × World σ :=
  let m := w.calloc
  if m.1 = false then (.error .NTE_NO_MEMORY, m.2)
  else
    let g1 := p11.C_GetSlotList true none m.2.token
    let w1 := m.2.called P11Fn.C_GetSlotList 0 g1.1.1 g1.2
    if g1.1.1 ≠ CKR_OK then (.error .NTE_FAIL, w1)
    else
      let nslots := if g1.1.2.2 > MAX_SLOTS then MAX_SLOTS else g1.1.2.2
      let g2 := p11.C_GetSlotList true (some nslots) w1.token
      let w2 := w1.called P11Fn.C_GetSlotList nslots g2.1.1 g2.2
      if g2.1.1 ≠ CKR_OK then (.error .NTE_FAIL, w2)
      else
        (.ok { P11EnumKeysState.zero with nslots := g2.1.2.2, slots := fit MAX_SLOTS g2.1.2.1 },
          w2)

/-- The block under `if (!state)` of `NCryptP11EnumKeys`: either the status
returned at once, or the state built; each with the world afterwards. -/
def buildEnumState {σ : Type} (abi : Abi) (p11 : CK_FUNCTION_LIST σ) (w : World σ) :
    Except Fault ((Except SECURITY_STATUS P11EnumKeysState) × World σ) :=
  match fetchSlotList p11 w with
  | (.error ret, w2) => .ok (.error ret, w2)
  | (.ok state, w2) =>
    match collect_keys abi p11 state w2 with
    | .error e => .error e
    | .ok (ret, state1, w3) =>
      if ret ≠ .ERROR_SUCCESS then .ok (.error ret, w3) else .ok (.ok state1, w3)

/-- The function `NCryptP11EnumKeys(hProvider, pszScope, ppKeyName,
ppEnumState, dwFlags)`. `checkNCryptHandle` is the status the handle check of
`ncrypt.c` (not among the sources) gives for `hProvider`; `pszScope` is `none`
for a null scope; `ppKeyName` and `ppEnumState` are what the caller's cells
hold before the call. -/
def NCryptP11EnumKeys {σ : Type} (abi : Abi) (p11 : CK_FUNCTION_LIST σ)
    (checkNCryptHandle : SECURITY_STATUS) (pszScope : Option (List Nat))
    (ppKeyName : Option NCryptKeyName) (ppEnumState : Option P11EnumKeysState) (w : World σ) :
    Except Fault (EnumKeysResult σ) :=
  if checkNCryptHandle ≠ .ERROR_SUCCESS then
    .ok { status := checkNCryptHandle, ppKeyName := ppKeyName, ppEnumState := ppEnumState,
          world := w }
  else
    let scope : Except SECURITY_STATUS (Option SlotFilter) :=
      match pszScope with
      | none => .ok none
      | some s => (parseScope abi s).map some
    match scope with
    | .error ret =>
      .ok { status := ret, ppKeyName := ppKeyName, ppEnumState := ppEnumState, world := w }
    | .ok slotFilter =>
      let built : Except Fault ((Except SECURITY_STATUS P11EnumKeysState) × World σ) :=
        match ppEnumState with
        | some state => .ok (.ok state, w)
        | none => buildEnumState abi p11 w
      match built with
      | .error e => .error e
      | .ok (.error ret, w1) =>
        .ok { status := ret, ppKeyName := ppKeyName, ppEnumState := ppEnumState, world := w1 }
      | .ok (.ok state, w1) =>
        enumKeysLoop abi p11 slotFilter (state.nKeys - state.keyIndex) state 0 0 ppKeyName w1

/-- The table row a call that handed back a key took it from: the row just
before the cursor the call left. -/
def returnedRow {σ : Type} (r : EnumKeysResult σ) : Option NCryptKeyEnum :=
  match r.ppEnumState with
  | none => none
  | some state => if state.keyIndex = 0 then none else state.keys[state.keyIndex - 1]?

/-- The record the iteration synthesizes for a row whose name is `name`. -/
def keyNameRecord (key : NCryptKeyEnum) (name : List Nat) : NCryptKeyName :=
  { pszName := name
    pszAlgid := (algorithmName key.keyType).getD []
    dwLegacyKeySpec := 3
    dwFlags := 32 }

/-- The iteration step in the words of the specification, for a scan that
starts at the cursor of `state` with `left` rows to go and a caller cell
holding `kn`: either no key is handed back, the status is "no more items" and
the cursor is at the end of the table; or the key of a row `i` at or after the
cursor is handed back, the row passes the reader filter, the record carries
the encoded name of the row and its algorithm name, and the cursor is `i + 1`. -/
def IterationStep (abi : Abi) (slotFilter : Option SlotFilter) (state : P11EnumKeysState)
    (left : Nat) (kn : Option NCryptKeyName) (status : SECURITY_STATUS)
    (ppKeyName : Option NCryptKeyName) (ppEnumState : Option P11EnumKeysState) : Prop :=
  (status = .NTE_NO_MORE_ITEMS ∧ ppKeyName = kn ∧
      ppEnumState = some { state with keyIndex := state.keyIndex + left }) ∨
  (status = .ERROR_SUCCESS ∧ ∃ i key name,
      state.keyIndex ≤ i ∧ i < state.keyIndex + left ∧ state.keys[i]? = some key ∧
      filterMismatch slotFilter key = .ok false ∧
      wprintKeyName abi key.slotId key.id key.idLen = .ok name ∧
      ppKeyName = some (keyNameRecord key name) ∧
      ppEnumState = some { state with keyIndex := i + 1 })

/-- The contract PKCS #11 sets for `C_GetSlotList` with a buffer: when it
returns `CKR_OK`, the count it leaves is at most the capacity it was given. -/
def SlotListWithinCapacity {σ : Type} (p11 : CK_FUNCTION_LIST σ) : Prop :=
  ∀ (tokenPresent : Bool) (cap : Nat) (t : σ),
    (p11.C_GetSlotList tokenPresent (some cap) t).1.1 = CKR_OK →
      (p11.C_GetSlotList tokenPresent (some cap) t).1.2.2 ≤ cap

/-- A module that reports zero token-present slots in the state `t`: the
count query returns `CKR_OK` and the count 0, and so does the query with the
slot array that follows it. -/
def ReportsNoSlots {σ : Type} (p11 : CK_FUNCTION_LIST σ) (t : σ) : Prop :=
  (p11.C_GetSlotList true none t).1.1 = CKR_OK ∧
  (p11.C_GetSlotList true none t).1.2.2 = 0 ∧
  (p11.C_GetSlotList true (some 0) (p11.C_GetSlotList true none t).2).1.1 = CKR_OK ∧
  (p11.C_GetSlotList true (some 0) (p11.C_GetSlotList true none t).2).1.2.2 = 0

/-- The scope string `\\.\<reader>\` for a reader name. -/
def scopeOf (reader : List Nat) : List Nat :=
  [92, 92, 46, 92] ++ reader ++ [92]

/-- The table row whose key a call handed back: the row just before the
cursor, when the call returned `ERROR_SUCCESS`. -/
def keyReturned {σ : Type} (x : Except Fault (EnumKeysResult σ)) : Option NCryptKeyEnum :=
  match x with
  | .error _ => none
  | .ok r => if r.status = .ERROR_SUCCESS then returnedRow r else none

/-- The slot count of the enumeration state a call left in the caller's cell. -/
def builtSlotCount {σ : Type} (x : Except Fault (EnumKeysResult σ)) : Option Nat :=
  match x with
  | .error _ => none
  | .ok r => r.ppEnumState.map (fun state => state.nslots)

/-- The enumeration state a call left in the caller's cell. -/
def stateAfter {σ : Type} (x : Except Fault (EnumKeysResult σ)) : Option P11EnumKeysState :=
  match x with
  | .error _ => none
  | .ok r => r.ppEnumState

/-- The status a call returned, the number of `C_OpenSession` calls that
returned `CKR_OK` and the number of `C_CloseSession` calls, over the calls on
the token module recorded when it returned. -/
def sessionCounts {σ : Type} (x : Except Fault (EnumKeysResult σ)) :
    Option (SECURITY_STATUS × Nat × Nat) :=
  match x with
  | .error _ => none
  | .ok r =>
    some (r.status, countSuccessful P11Fn.C_OpenSession r.world.trace,
      countCalls P11Fn.C_CloseSession r.world.trace)

/-- The calls on the token module recorded when `collect_keys` returned. -/
def collectTrace {σ : Type} (x : Except Fault (SECURITY_STATUS × P11EnumKeysState × World σ)) :
    Option (List P11Call) :=
  match x with
  | .error _ => none
  | .ok r => some r.2.2.trace

/-- The status `collect_keys` returned, the number of rows and the rows of the
table it built. -/
def collectRows {σ : Type} (x : Except Fault (SECURITY_STATUS × P11EnumKeysState × World σ)) :
    Option (SECURITY_STATUS × Nat × List NCryptKeyEnum) :=
  match x with
  | .error _ => none
  | .ok r => some (r.1, r.2.1.nKeys, r.2.1.keys)

/-- The calls on the token module recorded when a call of `NCryptP11EnumKeys`
returned. -/
def enumTrace {σ : Type} (x : Except Fault (EnumKeysResult σ)) : Option (List P11Call) :=
  match x with
  | .error _ => none
  | .ok r => some r.world.trace

/-- A state on which the iteration with the reader filter `f` stays within
its arrays: the key table holds the `nKeys` rows, the name of every row fits
the 128-byte buffer of `wprintKeyName`, and the filter is not longer than the
two arrays the loop compares. -/
def RowsFit (abi : Abi) (f : Option SlotFilter) (state : P11EnumKeysState) : Prop :=
  state.nKeys ≤ state.keys.length ∧
  ∀ key ∈ state.keys,
    2 * abi.sizeofSlotId + 2 * key.idLen + 3 ≤ 128 ∧ key.idLen ≤ key.id.length ∧
    ∀ g, f = some g → g.len ≤ key.slotInfo.slotDescription.length ∧ g.len ≤ g.buffer.length

/-! ## Key properties: collaborators -/

def UINT32_MAX : Nat := 4294967295

def CKA_VALUE : Nat := 17

def SCARD_S_SUCCESS : Nat := 0

def SCARD_PROTOCOL_T0 : Nat := 1

def PIV_CONTAINER_NAME_LEN : Nat := 36

/-- The bytes of a `UINT32` object in address order. -/
def uint32Bytes (abi : Abi) (v : Nat) : List Nat :=
  if abi.bigEndian then (leBytes 4 v).reverse else leBytes 4 v

/-- Modelled from the spec: the value `ConvertUtf8NToWChar` returns ("pass
null/zero to learn required size"). With `wlen = 0` it is the number of code
units of the text and nothing is stored; with `wlen > 0` it is that number
when `ConvertUtf8NToWChar` stores the text, and negative (`none`) when text
and terminator do not fit. -/
def ConvertUtf8NToWChar_rc (str : List Nat) (len : Nat) (wlen : Nat) : Option Nat :=
  if wlen = 0 then some (utf16Units (cstr (str.take len)))
  else (ConvertUtf8NToWChar str len wlen).map utf16Units

/-- Modelled from the spec: `ConvertUtf8ToWChar(str, wstr, wlen)`, the form of
the conversion for a NUL-terminated source, applied to a character array of
known size. It measures the source with `strlen`, so an array without a NUL
is read past its end; otherwise it behaves as `ConvertUtf8NToWChar` on the
string with its terminator. -/
def ConvertUtf8ToWChar (str : List Nat) (wlen : Nat) : Except Fault (Option (List Nat)) :=
  if (cstr str).length < str.length then
    .ok (ConvertUtf8NToWChar str ((cstr str).length + 1) wlen)
  else .error Fault.stringOverread

/-- The C function `strncmp(s1, s2, n) == 0` for an array `s1` of known size
and a string literal whose characters are `s2`. -/
def strncmpEq : List Nat → List Nat → Nat → Except Fault Bool
  | _, _, 0 => .ok true
  | [], _, _ + 1 => .error Fault.stringOverread
  | a :: _, [], _ + 1 => .ok (decide (a = 0))
  | a :: s1, b :: s2, n + 1 =>
    if a ≠ b then .ok false
    else if a = 0 then .ok true
    else strncmpEq s1 s2 n

/-- One call made on the card transport. -/
inductive SCardCall
  | SCardEstablishContext
  | SCardConnectW (context : Nat) (reader : List Nat)
  | SCardTransmit (card : Nat) (apdu : List Nat)
  | SCardDisconnect (card : Nat)
  | SCardReleaseContext (context : Nat)
  deriving DecidableEq, Repr

/-- Modelled from the spec: the card transport ("establish-context → context
or failure; connect(context, reader name, sharing mode, protocol) → card
handle + negotiated protocol; transmit(card, protocol-descriptor, request
bytes, request length) → response bytes + length, or failure; disconnect;
release-context"), a state machine over `κ`. Each entry gives the returned
status first, then what it stores through its output pointers. -/
structure SCardApi (κ : Type) where
  SCardEstablishContext : κ → (Nat × Nat) × κ
  SCardConnectW : Nat → List Nat → κ → (Nat × Nat × Nat) × κ
  SCardTransmit : Nat → Nat → List Nat → κ → (Nat × List Nat) × κ
  SCardDisconnect : Nat → κ → Nat × κ
  SCardReleaseContext : Nat → κ → Nat × κ

/-- The card transport's state and the calls made on it so far, oldest
first. -/
structure CardWorld (κ : Type) where
  card : κ
  calls : List SCardCall
  deriving DecidableEq

/-- Record a call on the transport and install the state it left. -/
def CardWorld.called {κ : Type} (c : CardWorld κ) (call : SCardCall) (k : κ) : CardWorld κ :=
  { card := k, calls := c.calls ++ [call] }

/-- The array `APDU_PIV_SELECT_AID`. -/
def APDU_PIV_SELECT_AID : List Nat :=
  [0x00, 0xA4, 0x04, 0x00, 0x09, 0xA0, 0x00, 0x00, 0x03, 0x08, 0x00, 0x00, 0x10, 0x00, 0x00]

/-- The array `APDU_PIV_GET_CHUID`. -/
def APDU_PIV_GET_CHUID : List Nat :=
  [0x00, 0xCB, 0x3F, 0xFF, 0x05, 0x5C, 0x03, 0x5F, 0xC1, 0x02, 0x00]

/-- One entry of `piv_cert_tags`. -/
structure piv_cert_tags_t where
  label : List Nat
  tag : List Nat
  deriving DecidableEq, Repr

/-- The table `piv_cert_tags`. -/
def piv_cert_tags : List piv_cert_tags_t :=
  [ { label := ofString "Certificate for PIV Authentication", tag := [0x5F, 0xC1, 0x05] },
    { label := ofString "Certificate for Digital Signature", tag := [0x5F, 0xC1, 0x0A] },
    { label := ofString "Certificate for Key Management", tag := [0x5F, 0xC1, 0x0B] },
    { label := ofString "Certificate for Card Authentication", tag := [0x5F, 0xC1, 0x01] } ]

/-- The number whose bytes, most significant first, are the list. -/
def beValue (bytes : List Nat) : Nat :=
  bytes.foldl (fun acc b => acc * 256 + b) 0

/-- Modelled from the spec: the length octets of a BER TLV ("parse the CHUID
response as a BER TLV"): one octet below 128 is the length, an octet
`0x80 + n` is followed by `n` octets holding the length, most significant
first. The result is the length and the input after the octets. -/
def berReadLen : List Nat → Option (Nat × List Nat)
  | [] => none
  | l :: rest =>
    if l < 128 then some (l, rest)
    else if rest.length < l - 128 then none
    else some (beValue (rest.take (l - 128)), rest.drop (l - 128))

/-- Modelled from the spec: `WinPrAsn1DecReadTagAndLen` of the ASN.1
collaborator, on the bytes the decoder has left: a one-octet tag and the
length; the decoder then stands at the value. Nothing is stored on failure. -/
def WinPrAsn1DecReadTagAndLen : List Nat → Option (Nat × Nat × List Nat)
  | [] => none
  | tag :: rest => (berReadLen rest).map (fun r => (tag, r.1, r.2))

/-- Modelled from the spec: `WinPrAsn1DecReadTagLenValue` of the ASN.1
collaborator: tag, length, the value as a decoder of its own, and the bytes
the outer decoder has left after the value. It fails when the value is longer
than what is left; nothing is stored on failure. -/
def WinPrAsn1DecReadTagLenValue (dec : List Nat) : Option (Nat × Nat × List Nat × List Nat) :=
  match WinPrAsn1DecReadTagAndLen dec with
  | none => none
  | some (tag, len, rest) =>
    if rest.length < len then none else some (tag, len, rest.take len, rest.drop len)

/-! ## The PIV container name -/

/-- The response array `buf[258]` after a transmit that returned `resp`. -/
def receive (buf resp : List Nat) : List Nat :=
  (resp ++ buf.drop resp.length).take buf.length

/-- The test `(buf[buf_len - 2] != 0x90 || buf[buf_len - 1] != 0) &&
buf[buf_len - 2] != 0x61` after a transmit, with `buf_len` a `DWORD`. -/
def apduRejected (buf : List Nat) (buf_len : Nat) : Except Fault Bool :=
  match buf[(buf_len + 4294967294) % 4294967296]? with
  | none => .error Fault.responseOverread
  | some sw1 =>
    if sw1 ≠ 0x90 then .ok (decide (sw1 ≠ 0x61))
    else
      match buf[(buf_len + 4294967295) % 4294967296]? with
      | none => .error Fault.responseOverread
      | some sw2 => .ok (decide (sw2 ≠ 0 ∧ sw1 ≠ 0x61))

/-- The loop `while (WinPrAsn1DecReadTagLenValue(&dec, &tag, &len, &dec2) &&
tag != 0x34);` on the bytes `dec` has left, bounded by their number: the
values of `tag`, `len` and `dec2` when it stops. -/
def scanForGuid : Nat → List Nat → Nat → Nat → Option (List Nat) →
    Nat × Nat × Option (List Nat)
  | 0, _, tag, len, dec2 => (tag, len, dec2)
  | fuel + 1, dec, tag, len, dec2 =>
    match WinPrAsn1DecReadTagLenValue dec with
    | none => (tag, len, dec2)
    | some (t, l, value, rest) =>
      if t ≠ 0x34 then scanForGuid fuel rest t l (some value) else (t, l, some value)

/-- The format string of the container name. -/
def containerNameFormat : List Nat :=
  ofString "%.2x%.2x%.2x%.2x-%.2x%.2x-%.2x%.2x-%.2x%.2x-%.2x%.2x%.2x%.2x%.2x%.2x"

/-- What `printf` produces for a format made of `%.2x` conversions and
ordinary characters, the arguments being bytes. -/
def formatBytes : List Nat → List Nat → List Nat
  | [], _ => []
  | 37 :: 46 :: 50 :: 120 :: fmt, a :: args => hex2 a ++ formatBytes fmt args
  | c :: fmt, args => c :: formatBytes fmt args

/-- The array `container_name` after the `snprintf` of
`get_piv_container_name`, `p` being the bytes at `Stream_Buffer(&s)`. -/
def containerName (p piv_tag : List Nat) : List Nat :=
  fit (PIV_CONTAINER_NAME_LEN + 1)
    ((formatBytes containerNameFormat
      ([3, 2, 1, 0, 5, 4, 7, 6, 8, 9, 10, 11, 12].map (fun i => p.getD i 0) ++
        [piv_tag.getD 0 0, piv_tag.getD 1 0, piv_tag.getD 2 0])).take PIV_CONTAINER_NAME_LEN)

/-- The label `out:` of `get_piv_container_name`: disconnect a card and
release a context that are set. -/
def pivRelease {κ : Type} (sc : SCardApi κ) (card context : Nat) (c : CardWorld κ) :
    CardWorld κ :=
  let c1 :=
    if card ≠ 0 then c.called (.SCardDisconnect card) (sc.SCardDisconnect card c.card).2 else c
  if context ≠ 0 then
    c1.called (.SCardReleaseContext context) (sc.SCardReleaseContext context c1.card).2
  else c1

/-- The part of `get_piv_container_name` from the first transmit to the
conversion: the status and what is stored in `output`. -/
def pivExchange {κ : Type} (sc : SCardApi κ) (card pci : Nat) (piv_tag : List Nat)
    (output_len : Nat) (c : CardWorld κ) :
    Except Fault (SECURITY_STATUS × Option (List Nat) × CardWorld κ) :=
  let buf0 := List.replicate 258 0
  let t1 := sc.SCardTransmit card pci APDU_PIV_SELECT_AID c.card
  let c1 := c.called (.SCardTransmit card APDU_PIV_SELECT_AID) t1.2
  if t1.1.1 ≠ SCARD_S_SUCCESS then .ok (.NTE_BAD_KEY, none, c1)
  else
    let buf1 := receive buf0 t1.1.2
    match apduRejected buf1 t1.1.2.length with
    | .error e => .error e
    | .ok true => .ok (.NTE_BAD_KEY, none, c1)
    | .ok false =>
      let t2 := sc.SCardTransmit card pci APDU_PIV_GET_CHUID c1.card
      let c2 := c1.called (.SCardTransmit card APDU_PIV_GET_CHUID) t2.2
      if t2.1.1 ≠ SCARD_S_SUCCESS then .ok (.NTE_BAD_KEY, none, c2)
      else
        let buf2 := receive buf1 t2.1.2
        let buf_len := t2.1.2.length
        match apduRejected buf2 buf_len with
        | .error e => .error e
        | .ok true => .ok (.NTE_BAD_KEY, none, c2)
        | .ok false =>
          match WinPrAsn1DecReadTagAndLen (buf2.take buf_len) with
          | none => .ok (.NTE_BAD_KEY, none, c2)
          | some (tag, len, dec) =>
            if tag ≠ 0x53 then .ok (.NTE_BAD_KEY, none, c2)
            else
              let found := scanForGuid dec.length dec tag len none
              if found.1 ≠ 0x34 ∨ found.2.1 ≠ 16 then .ok (.NTE_BAD_KEY, none, c2)
              else
                match found.2.2 with
                | none => .error Fault.responseOverread
                | some p =>
                  let container_name := containerName p piv_tag
                  match ConvertUtf8NToWChar_rc container_name (PIV_CONTAINER_NAME_LEN + 1)
                      (output_len / 2) with
                  | none => .ok (.NTE_BAD_KEY, none, c2)
                  | some rc =>
                    if rc > 0 then
                      .ok (.ERROR_SUCCESS,
                        if output_len / 2 = 0 then none
                        else ConvertUtf8NToWChar container_name (PIV_CONTAINER_NAME_LEN + 1)
                          (output_len / 2), c2)
                    else .ok (.NTE_BAD_KEY, none, c2)

/-- The function `get_piv_container_name(key, piv_tag, output, output_len)`:
the status, what is stored in `output`, and the token module and the card
transport afterwards. `ConvertUtf8NToWCharAlloc` is one heap allocation. -/
def get_piv_container_name {σ κ : Type} (p11 : CK_FUNCTION_LIST σ) (sc : SCardApi κ)
    (key : NCryptP11KeyHandle) (piv_tag : List Nat) (output_len : Nat) (w : World σ)
    (c : CardWorld κ) :
    Except Fault (SECURITY_STATUS × Option (List Nat) × World σ × CardWorld κ) :=
  let si := p11.C_GetSlotInfo key.slotId w.token
  let w1 := w.called P11Fn.C_GetSlotInfo key.slotId si.1.1 si.2
  if si.1.1 ≠ CKR_OK then .ok (.NTE_BAD_KEY, none, w1, c)
  else
    let slotDescription := fix_padded_string si.1.2.slotDescription 64
    let m := w1.calloc
    if m.1 = false then .ok (.NTE_NO_MEMORY, none, m.2, c)
    else
      let reader := cstr (slotDescription.take 64)
      let ec := sc.SCardEstablishContext c.card
      let c1 := c.called .SCardEstablishContext ec.2
      let context := ec.1.2
      if ec.1.1 ≠ SCARD_S_SUCCESS then .ok (.NTE_BAD_KEY, none, m.2, pivRelease sc 0 context c1)
      else
        let cn := sc.SCardConnectW context reader c1.card
        let c2 := c1.called (.SCardConnectW context reader) cn.2
        let card := cn.1.2.1
        if cn.1.1 ≠ SCARD_S_SUCCESS then
          .ok (.NTE_BAD_KEY, none, m.2, pivRelease sc card context c2)
        else
          let pci := if cn.1.2.2 = SCARD_PROTOCOL_T0 then 0 else 1
          match pivExchange sc card pci piv_tag output_len c2 with
          | .error e => .error e
          | .ok (ret, output, c3) => .ok (ret, output, m.2, pivRelease sc card context c3)

/-- The function `check_for_piv_container_name` from entry `i` of
`piv_cert_tags` on: the status, `*pcbResult`, what is stored in `pbOutput`,
and the two collaborators afterwards. -/
def checkPivEntries {σ κ : Type} (p11 : CK_FUNCTION_LIST σ) (sc : SCardApi κ)
    (key : NCryptP11KeyHandle) (pbOutput : Bool) (cbOutput pcbResult : Nat)
    (label : List Nat) (label_len : Nat) (w : World σ) (c : CardWorld κ) :
    List piv_cert_tags_t →
      Except Fault (SECURITY_STATUS × Nat × Option (List Nat) × World σ × CardWorld κ)
  | [] => .ok (.NTE_NOT_FOUND, pcbResult, none, w, c)
  | cur :: rest =>
    match strncmpEq label cur.label label_len with
    | .error e => .error e
    | .ok false => checkPivEntries p11 sc key pbOutput cbOutput pcbResult label label_len w c rest
    | .ok true =>
      let size := (PIV_CONTAINER_NAME_LEN + 1) * 2
      if pbOutput = false then .ok (.ERROR_SUCCESS, size, none, w, c)
      else if cbOutput < size then .ok (.NTE_NO_MEMORY, size, none, w, c)
      else
        match get_piv_container_name p11 sc key cur.tag cbOutput w c with
        | .error e => .error e
        | .ok (ret, output, w1, c1) => .ok (ret, size, output, w1, c1)

/-- The function `check_for_piv_container_name`. -/
def check_for_piv_container_name {σ κ : Type} (p11 : CK_FUNCTION_LIST σ) (sc : SCardApi κ)
    (key : NCryptP11KeyHandle) (pbOutput : Bool) (cbOutput pcbResult : Nat)
    (label : List Nat) (label_len : Nat) (w : World σ) (c : CardWorld κ) :
    Except Fault (SECURITY_STATUS × Nat × Option (List Nat) × World σ × CardWorld κ) :=
  checkPivEntries p11 sc key pbOutput cbOutput pcbResult label label_len w c piv_cert_tags

/-! ## Reading a key property -/

/-- The property selector `NCryptKeyGetPropertyEnum`. -/
inductive NCryptKeyGetPropertyEnum
  | NCRYPT_PROPERTY_CERTIFICATE
  | NCRYPT_PROPERTY_READER
  | NCRYPT_PROPERTY_SLOTID
  | NCRYPT_PROPERTY_NAME
  | NCRYPT_PROPERTY_UNKNOWN
  deriving DecidableEq, Repr

/-- What a property query leaves behind: the returned status, the value of
`*pcbResult`, what was stored in `pbOutput` (`none` when nothing was: a wide
string is given by its text, as everywhere), the token module and the card
transport. -/
structure GetPropertyResult (σ κ : Type) where
  status : SECURITY_STATUS
  pcbResult : Nat
  pbOutput : Option (List Nat)
  world : World σ
  card : CardWorld κ
  deriving DecidableEq

/-- The template `certificateFilter` of `NCryptP11KeyGetProperties`. -/
def handleCertificateFilter (abi : Abi) (keyHandle : NCryptP11KeyHandle) : List CK_ATTRIBUTE :=
  [ { type := CKA_CLASS, pValue := some (objectBytes abi CKO_CERTIFICATE),
      ulValueLen := abi.sizeofSlotId },
    { type := CKA_CERTIFICATE_TYPE, pValue := some (objectBytes abi CKC_X_509),
      ulValueLen := abi.sizeofSlotId },
    { type := CKA_ID, pValue := some keyHandle.keyCertId, ulValueLen := keyHandle.keyCertIdLen } ]

/-- The labels `out_final:` (`final = true`) and `out:` of
`NCryptP11KeyGetProperties`: `C_FindObjectsFinal` when entered at
`out_final`, then `C_CloseSession`, both on `session`. -/
def propertyCleanup {σ : Type} (p11 : CK_FUNCTION_LIST σ) (final : Bool) (session : Nat)
    (w : World σ) : World σ :=
  let w1 :=
    if final then
      let ff := p11.C_FindObjectsFinal session w.token
      w.called P11Fn.C_FindObjectsFinal session ff.1 ff.2
    else w
  let cs := p11.C_CloseSession session w1.token
  w1.called P11Fn.C_CloseSession session cs.1 cs.2

/-- The case `NCRYPT_PROPERTY_READER`. -/
def readerProperty {σ κ : Type} (p11 : CK_FUNCTION_LIST σ) (keyHandle : NCryptP11KeyHandle)
    (pbOutput : Bool) (cbOutput pcbResult : Nat) (w : World σ) (c : CardWorld κ) :
    Except Fault (GetPropertyResult σ κ) :=
  let si := p11.C_GetSlotInfo keyHandle.slotId w.token
  let w1 := w.called P11Fn.C_GetSlotInfo keyHandle.slotId si.1.1 si.2
  if si.1.1 ≠ CKR_OK then
    .ok { status := .NTE_BAD_KEY, pcbResult := pcbResult, pbOutput := none, world := w1, card := c }
  else
    let slotDescription := fix_padded_string si.1.2.slotDescription 64
    let len := 2 * (strnlen slotDescription 64 + 1)
    if len > UINT32_MAX then
      .ok { status := .NTE_BAD_DATA, pcbResult := pcbResult, pbOutput := none, world := w1,
            card := c }
    else if pbOutput = false then
      .ok { status := .ERROR_SUCCESS, pcbResult := len, pbOutput := none, world := w1, card := c }
    else if cbOutput < len then
      .ok { status := .NTE_NO_MEMORY, pcbResult := len, pbOutput := none, world := w1, card := c }
    else
      match ConvertUtf8ToWChar slotDescription (cbOutput / 2) with
      | .error e => .error e
      | .ok none =>
        .ok { status := .NTE_NO_MEMORY, pcbResult := len, pbOutput := none, world := w1,
              card := c }
      | .ok (some text) =>
        .ok { status := .ERROR_SUCCESS, pcbResult := len, pbOutput := some text, world := w1,
              card := c }

/-- The case `NCRYPT_PROPERTY_SLOTID`. -/
def slotIdProperty {σ κ : Type} (abi : Abi) (p11 : CK_FUNCTION_LIST σ)
    (keyHandle : NCryptP11KeyHandle) (pbOutput : Bool) (cbOutput : Nat) (w : World σ)
    (c : CardWorld κ) : GetPropertyResult σ κ :=
  if pbOutput = false then
    { status := .ERROR_SUCCESS, pcbResult := 4, pbOutput := none, world := w, card := c }
  else if cbOutput < 4 then
    { status := .NTE_NO_MEMORY, pcbResult := 4, pbOutput := none, world := w, card := c }
  else if keyHandle.slotId > UINT32_MAX then
    { status := .NTE_BAD_DATA, pcbResult := 4, pbOutput := none,
      world := propertyCleanup p11 true 0 w, card := c }
  else
    { status := .ERROR_SUCCESS, pcbResult := 4, pbOutput := some (uint32Bytes abi keyHandle.slotId),
      world := w, card := c }

/-- The case `NCRYPT_PROPERTY_CERTIFICATE` of the second `switch`, up to the
jump to `out_final`. -/
def certificateProperty {σ : Type} (p11 : CK_FUNCTION_LIST σ) (session objectHandle : Nat)
    (pbOutput : Bool) (cbOutput pcbResult : Nat) (w : World σ) :
    SECURITY_STATUS × Nat × Option (List Nat) × World σ :=
  let certValue : CK_ATTRIBUTE :=
    { type := CKA_VALUE, pValue := if pbOutput then some (List.replicate cbOutput 0) else none,
      ulValueLen := cbOutput }
  let q := callGetAttributeValue p11 session objectHandle [certValue] w
  let after := q.2.1.headD certValue
  let stored := if pbOutput then after.pValue else none
  if after.ulValueLen > UINT32_MAX then (.NTE_BAD_DATA, pcbResult, stored, q.2.2)
  else (.ERROR_SUCCESS, after.ulValueLen, stored, q.2.2)

/-- The case `NCRYPT_PROPERTY_NAME` of the second `switch`, up to the jump to
`out_final`. -/
def nameProperty {σ κ : Type} (p11 : CK_FUNCTION_LIST σ) (sc : SCardApi κ)
    (keyHandle : NCryptP11KeyHandle) (session objectHandle : Nat) (pbOutput : Bool)
    (cbOutput pcbResult : Nat) (w : World σ) (c : CardWorld κ) :
    Except Fault (SECURITY_STATUS × Nat × Option (List Nat) × World σ × CardWorld κ) :=
  let attr : CK_ATTRIBUTE := { type := CKA_LABEL, pValue := none, ulValueLen := 0 }
  let q1 := callGetAttributeValue p11 session objectHandle [attr] w
  if q1.1 ≠ CKR_OK then .ok (.NTE_FAIL, pcbResult, none, q1.2.2, c)
  else
    let attr1 := q1.2.1.headD attr
    let m := q1.2.2.calloc
    if m.1 = false then .ok (.NTE_NO_MEMORY, pcbResult, none, m.2, c)
    else
      let attr2 : CK_ATTRIBUTE := { attr1 with pValue := some (List.replicate attr1.ulValueLen 0) }
      let q2 := callGetAttributeValue p11 session objectHandle [attr2] m.2
      if q2.1 ≠ CKR_OK then .ok (.NTE_FAIL, pcbResult, none, q2.2.2, c)
      else
        let attr3 := q2.2.1.headD attr2
        let label := attr3.pValue.getD []
        match check_for_piv_container_name p11 sc keyHandle pbOutput cbOutput pcbResult label
            attr3.ulValueLen q2.2.2 c with
        | .error e => .error e
        | .ok (ret, size, output, w1, c1) =>
          if ret = .NTE_NOT_FOUND then
            let olen := if pbOutput then cbOutput / 2 else 0
            match ConvertUtf8NToWChar_rc label attr3.ulValueLen olen with
            | none => .ok (.ERROR_CONVERT_TO_LARGE, size, none, w1, c1)
            | some _ =>
              .ok (.ERROR_SUCCESS, size,
                if olen = 0 then none else ConvertUtf8NToWChar label attr3.ulValueLen olen,
                w1, c1)
          else .ok (ret, size, output, w1, c1)

/-- The function `NCryptP11KeyGetProperties(keyHandle, property, pbOutput,
cbOutput, pcbResult, dwFlags)`. `pbOutput` tells whether the output pointer
is set, `pcbResult` is what the caller's size cell holds before the call. -/
def NCryptP11KeyGetProperties {σ κ : Type} (abi : Abi) (p11 : CK_FUNCTION_LIST σ)
    (sc : SCardApi κ) (keyHandle : NCryptP11KeyHandle) (property : NCryptKeyGetPropertyEnum)
    (pbOutput : Bool) (cbOutput pcbResult : Nat) (w : World σ) (c : CardWorld κ) :
    Except Fault (GetPropertyResult σ κ) :=
  match property with
  | .NCRYPT_PROPERTY_READER => readerProperty p11 keyHandle pbOutput cbOutput pcbResult w c
  | .NCRYPT_PROPERTY_SLOTID => .ok (slotIdProperty abi p11 keyHandle pbOutput cbOutput w c)
  | .NCRYPT_PROPERTY_UNKNOWN =>
    .ok { status := .NTE_NOT_SUPPORTED, pcbResult := pcbResult, pbOutput := none, world := w,
          card := c }
  | _ =>
    let os := p11.C_OpenSession keyHandle.slotId w.token
    let w1 := w.called P11Fn.C_OpenSession keyHandle.slotId os.1.1 os.2
    let session := os.1.2
    if os.1.1 ≠ CKR_OK then
      .ok { status := .NTE_FAIL, pcbResult := pcbResult, pbOutput := none, world := w1, card := c }
    else
      let fi := p11.C_FindObjectsInit session (handleCertificateFilter abi keyHandle) w1.token
      let w2 := w1.called P11Fn.C_FindObjectsInit session fi.1 fi.2
      if fi.1 ≠ CKR_OK then
        .ok { status := .NTE_FAIL, pcbResult := pcbResult, pbOutput := none,
              world := propertyCleanup p11 false session w2, card := c }
      else
        let fo := p11.C_FindObjects session 1 w2.token
        let w3 := w2.called P11Fn.C_FindObjects session fo.1.1 fo.2
        if fo.1.1 ≠ CKR_OK then
          .ok { status := .NTE_FAIL, pcbResult := pcbResult, pbOutput := none,
                world := propertyCleanup p11 true session w3, card := c }
        else
          match fo.1.2 with
          | [] =>
            .ok { status := .NTE_NOT_FOUND, pcbResult := pcbResult, pbOutput := none,
                  world := propertyCleanup p11 true session w3, card := c }
          | objectHandle :: _ =>
            match property with
            | .NCRYPT_PROPERTY_CERTIFICATE =>
              let r := certificateProperty p11 session objectHandle pbOutput cbOutput pcbResult w3
              .ok { status := r.1, pcbResult := r.2.1, pbOutput := r.2.2.1,
                    world := propertyCleanup p11 true session r.2.2.2, card := c }
            | .NCRYPT_PROPERTY_NAME =>
              match nameProperty p11 sc keyHandle session objectHandle pbOutput cbOutput
                  pcbResult w3 c with
              | .error e => .error e
              | .ok (ret, size, output, w4, c1) =>
                .ok { status := ret, pcbResult := size, pbOutput := output,
                      world := propertyCleanup p11 true session w4, card := c1 }
            | _ =>
              .ok { status := .NTE_NOT_SUPPORTED, pcbResult := pcbResult, pbOutput := none,
                    world := propertyCleanup p11 true session w3, card := c }

/-- What the caller of a property query sees: the status, the value of
`*pcbResult` and what was stored in `pbOutput`. -/
def propertyOutcome {σ κ : Type} (x : Except Fault (GetPropertyResult σ κ)) :
    Option (SECURITY_STATUS × Nat × Option (List Nat)) :=
  match x with
  | .error _ => none
  | .ok r => some (r.status, r.pcbResult, r.pbOutput)

/-- The calls on the token module recorded when a property query returned. -/
def propertyTrace {σ κ : Type} (x : Except Fault (GetPropertyResult σ κ)) :
    Option (List P11Call) :=
  match x with
  | .error _ => none
  | .ok r => some r.world.trace

/-- The container name in the words of the specification: the two-digit hex
of `p[3], p[2], p[1], p[0]`, a dash, of `p[5], p[4]`, a dash, of `p[7], p[6]`,
a dash, of `p[8], p[9]`, a dash, of `p[10], p[11], p[12]` and of the three
tag bytes. -/
def containerNameLayout (p t : List Nat) : List Nat :=
  hex2 (p.getD 3 0) ++ hex2 (p.getD 2 0) ++ hex2 (p.getD 1 0) ++ hex2 (p.getD 0 0) ++ [45] ++
    hex2 (p.getD 5 0) ++ hex2 (p.getD 4 0) ++ [45] ++
    hex2 (p.getD 7 0) ++ hex2 (p.getD 6 0) ++ [45] ++
    hex2 (p.getD 8 0) ++ hex2 (p.getD 9 0) ++ [45] ++
    hex2 (p.getD 10 0) ++ hex2 (p.getD 11 0) ++ hex2 (p.getD 12 0) ++
    hex2 (t.getD 0 0) ++ hex2 (t.getD 1 0) ++ hex2 (t.getD 2 0)

/-- A key handle for the key of slot 1 with the one-byte identifier 1. -/
def witnessHandle : NCryptP11KeyHandle :=
  { provider := 1, slotId := 1, keyCertId := fit 64 [1], keyCertIdLen := 1 }

/-! ## The property dispatcher -/

/-- The type tag of a handle (`base->type`, of `ncrypt.h`, which is not among
the sources): the dispatcher tells `WINPR_NCRYPT_PROVIDER` and
`WINPR_NCRYPT_KEY` apart from every other value. -/
inductive NCryptHandleType
  | WINPR_NCRYPT_INVALID
  | WINPR_NCRYPT_PROVIDER
  | WINPR_NCRYPT_KEY
  deriving DecidableEq, Repr

/-- The object behind an `NCRYPT_HANDLE` as the dispatcher sees it: the type
tag of its `NCryptBaseHandle`, and the fields it has when read as an
`NCryptP11KeyHandle`. -/
structure NCryptObject where
  type : NCryptHandleType
  key : NCryptP11KeyHandle
  deriving DecidableEq, Repr

/-- The function `NCryptP11GetProperty(hObject, prop, pbOutput, cbOutput,
pcbResult, dwFlags)`. -/
def NCryptP11GetProperty {σ κ : Type} (abi : Abi) (p11 : CK_FUNCTION_LIST σ) (sc : SCardApi κ)
    (hObject : NCryptObject) (prop : NCryptKeyGetPropertyEnum) (pbOutput : Bool)
    (cbOutput pcbResult : Nat) (w : World σ) (c : CardWorld κ) :
    Except Fault (GetPropertyResult σ κ) :=
  match hObject.type with
  | .WINPR_NCRYPT_PROVIDER =>
    .ok { status := .ERROR_CALL_NOT_IMPLEMENTED, pcbResult := pcbResult, pbOutput := none,
          world := w, card := c }
  | .WINPR_NCRYPT_KEY =>
    NCryptP11KeyGetProperties abi p11 sc hObject.key prop pbOutput cbOutput pcbResult w c
  | _ =>
    .ok { status := .ERROR_INVALID_HANDLE, pcbResult := pcbResult, pbOutput := none,
          world := w, card := c }

/-! ## Opening the provider -/

/-- What a module path leads to once `LoadLibrary` found it: whether the
library exports `C_GetFunctionList`, the `CK_RV` of that function and the
`CK_RV` of the module's `C_Initialize`. -/
structure ModuleImage where
  hasGetFunctionList : Bool
  getFunctionListRv : Nat
  initializeRv : Nat
  deriving DecidableEq, Repr

/-- One call made while opening the provider; a library is named by the path
it was loaded from. -/
inductive LoaderCall
  | LoadLibrary (modulePath : List Nat)
  | GetProcAddress (library : List Nat)
  | C_GetFunctionList (library : List Nat)
  | C_Initialize (library : List Nat)
  | C_Finalize (library : List Nat)
  | FreeLibrary (library : List Nat)
  deriving DecidableEq, Repr

/-- The calls made so far while opening the provider, oldest first, and the
outcomes of the coming heap allocations (as in `World`). -/
structure LoaderWorld where
  calls : List LoaderCall
  allocs : List Bool
  deriving DecidableEq, Repr

/-- Record a call. -/
def LoaderWorld.called (l : LoaderWorld) (call : LoaderCall) : LoaderWorld :=
  { l with calls := l.calls ++ [call] }

/-- One heap allocation: whether it succeeds, and the world after. -/
def LoaderWorld.calloc (l : LoaderWorld) : Bool × LoaderWorld :=
  match l.allocs with
  | [] => (true, l)
  | b :: rest => (b, { l with allocs := rest })

/-- The fields of the provider handle (`NCryptP11ProviderHandle`) set while
opening: the library, whether `p11` is set, and the copy of the module path. -/
structure NCryptP11ProviderHandle where
  library : List Nat
  p11 : Bool
  modulePath : Option (List Nat)
  deriving DecidableEq, Repr

/-- The function `NCryptP11StorageProvider_dtor` as `initialize_pkcs11` runs
it through `releaseFn`: `C_Finalize` when `p11` is set, then `FreeLibrary` on
the library (which is set). -/
def NCryptP11StorageProvider_dtor (provider : NCryptP11ProviderHandle) (l : LoaderWorld) :
    LoaderWorld :=
  let l1 := if provider.p11 then l.called (.C_Finalize provider.library) else l
  l1.called (.FreeLibrary provider.library)

/-- The function `initialize_pkcs11(handle, c_get_function_list, phProvider)`:
the status, the caller's provider cell and the world afterwards.
`ncrypt_new_handle` (of `ncrypt.c`, not among the sources) is one heap
allocation, zero-filled, so `p11` is unset until `C_GetFunctionList` stores
the function list, which it does when it returns `CKR_OK`. -/
def initialize_pkcs11 (handle : List Nat) (image : ModuleImage)
    (phProvider : Option NCryptP11ProviderHandle) (l : LoaderWorld) :
    SECURITY_STATUS × Option NCryptP11ProviderHandle × LoaderWorld :=
  let m := l.calloc
  if m.1 = false then (.NTE_NO_MEMORY, phProvider, m.2)
  else
    let l1 := m.2.called (.C_GetFunctionList handle)
    if image.getFunctionListRv ≠ CKR_OK then
      (.NTE_PROVIDER_DLL_FAIL, phProvider,
        NCryptP11StorageProvider_dtor { library := handle, p11 := false, modulePath := none } l1)
    else
      let l2 := l1.called (.C_Initialize handle)
      if image.initializeRv ≠ CKR_OK then
        (.NTE_PROVIDER_DLL_FAIL, phProvider,
          NCryptP11StorageProvider_dtor { library := handle, p11 := true, modulePath := none } l2)
      else
        (.ERROR_SUCCESS, some { library := handle, p11 := true, modulePath := none }, l2)

/-- The array `defaultPaths`. -/
def defaultPaths : List (List Nat) :=
  [ofString "p11-kit-proxy.so", ofString "opensc-pkcs11.so"]

/-- The `while (*modulePaths)` loop of `NCryptOpenP11StorageProviderEx`, with
`status` as it stands on entry; `LoadLibrary` is the function from paths to
what they lead to. `_strdup` is one heap allocation. -/
def openProviderLoop (LoadLibrary : List Nat → Option ModuleImage) :
    List (List Nat) → SECURITY_STATUS → Option NCryptP11ProviderHandle → LoaderWorld →
      SECURITY_STATUS × Option NCryptP11ProviderHandle × LoaderWorld
  | [], status, phProvider, l => (status, phProvider, l)
  | modulePath :: rest, _, phProvider, l =>
    let l1 := l.called (.LoadLibrary modulePath)
    match LoadLibrary modulePath with
    | none =>
      openProviderLoop LoadLibrary rest .NTE_PROV_DLL_NOT_FOUND phProvider l1
    | some image =>
      let l2 := l1.called (.GetProcAddress modulePath)
      if image.hasGetFunctionList = false then
        openProviderLoop LoadLibrary rest .NTE_PROV_TYPE_ENTRY_BAD phProvider
          (l2.called (.FreeLibrary modulePath))
      else
        let init := initialize_pkcs11 modulePath image phProvider l2
        if init.1 ≠ .ERROR_SUCCESS then
          openProviderLoop LoadLibrary rest .NTE_PROVIDER_DLL_FAIL init.2.1
            (init.2.2.called (.FreeLibrary modulePath))
        else
          let m := init.2.2.calloc
          if m.1 = false then
            openProviderLoop LoadLibrary rest .NTE_NO_MEMORY init.2.1
              (m.2.called (.FreeLibrary modulePath))
          else
            (.ERROR_SUCCESS,
              init.2.1.map (fun provider => { provider with modulePath := some modulePath }),
              m.2)

/-- The function `NCryptOpenP11StorageProviderEx(phProvider, pszProviderName,
dwFlags, modulePaths)`. `phProvider` is `none` for a null pointer and
otherwise what the caller's cell holds; `modulePaths` is `none` for a null
list. The result is the status, the caller's cell and the world afterwards. -/
def NCryptOpenP11StorageProviderEx (LoadLibrary : List Nat → Option ModuleImage)
    (phProvider : Option (Option NCryptP11ProviderHandle))
    (modulePaths : Option (List (List Nat))) (l : LoaderWorld) :
    SECURITY_STATUS × Option NCryptP11ProviderHandle × LoaderWorld :=
  match phProvider with
  | none => (.ERROR_INVALID_PARAMETER, none, l)
  | some cell =>
    openProviderLoop LoadLibrary (modulePaths.getD defaultPaths) .ERROR_INVALID_PARAMETER cell l

/-! ## Status texts -/

/-- The names `CK_RV_error_string` returns, in the order of the `ERR_ENTRY`
lines of its `switch`: each is the spelling of the constant of its `case`. -/
def errorEntries : List (List Nat) :=
  [ofString "CKR_OK", ofString "CKR_CANCEL", ofString "CKR_HOST_MEMORY",
   ofString "CKR_SLOT_ID_INVALID", ofString "CKR_GENERAL_ERROR",
   ofString "CKR_FUNCTION_FAILED", ofString "CKR_ARGUMENTS_BAD", ofString "CKR_NO_EVENT",
   ofString "CKR_NEED_TO_CREATE_THREADS", ofString "CKR_CANT_LOCK",
   ofString "CKR_ATTRIBUTE_READ_ONLY", ofString "CKR_ATTRIBUTE_SENSITIVE",
   ofString "CKR_ATTRIBUTE_TYPE_INVALID", ofString "CKR_ATTRIBUTE_VALUE_INVALID",
   ofString "CKR_DATA_INVALID", ofString "CKR_DATA_LEN_RANGE", ofString "CKR_DEVICE_ERROR",
   ofString "CKR_DEVICE_MEMORY", ofString "CKR_DEVICE_REMOVED",
   ofString "CKR_ENCRYPTED_DATA_INVALID", ofString "CKR_ENCRYPTED_DATA_LEN_RANGE",
   ofString "CKR_FUNCTION_CANCELED", ofString "CKR_FUNCTION_NOT_PARALLEL",
   ofString "CKR_FUNCTION_NOT_SUPPORTED", ofString "CKR_KEY_HANDLE_INVALID",
   ofString "CKR_KEY_SIZE_RANGE", ofString "CKR_KEY_TYPE_INCONSISTENT",
   ofString "CKR_KEY_NOT_NEEDED", ofString "CKR_KEY_CHANGED", ofString "CKR_KEY_NEEDED",
   ofString "CKR_KEY_INDIGESTIBLE", ofString "CKR_KEY_FUNCTION_NOT_PERMITTED",
   ofString "CKR_KEY_NOT_WRAPPABLE", ofString "CKR_KEY_UNEXTRACTABLE",
   ofString "CKR_MECHANISM_INVALID", ofString "CKR_MECHANISM_PARAM_INVALID",
   ofString "CKR_OBJECT_HANDLE_INVALID", ofString "CKR_OPERATION_ACTIVE",
   ofString "CKR_OPERATION_NOT_INITIALIZED", ofString "CKR_PIN_INCORRECT",
   ofString "CKR_PIN_INVALID", ofString "CKR_PIN_LEN_RANGE", ofString "CKR_PIN_EXPIRED",
   ofString "CKR_PIN_LOCKED", ofString "CKR_SESSION_CLOSED", ofString "CKR_SESSION_COUNT",
   ofString "CKR_SESSION_HANDLE_INVALID", ofString "CKR_SESSION_PARALLEL_NOT_SUPPORTED",
   ofString "CKR_SESSION_READ_ONLY", ofString "CKR_SESSION_EXISTS",
   ofString "CKR_SESSION_READ_ONLY_EXISTS", ofString "CKR_SESSION_READ_WRITE_SO_EXISTS",
   ofString "CKR_SIGNATURE_INVALID", ofString "CKR_SIGNATURE_LEN_RANGE",
   ofString "CKR_TEMPLATE_INCOMPLETE", ofString "CKR_TEMPLATE_INCONSISTENT",
   ofString "CKR_TOKEN_NOT_PRESENT", ofString "CKR_TOKEN_NOT_RECOGNIZED",
   ofString "CKR_TOKEN_WRITE_PROTECTED", ofString "CKR_UNWRAPPING_KEY_HANDLE_INVALID",
   ofString "CKR_UNWRAPPING_KEY_SIZE_RANGE", ofString "CKR_UNWRAPPING_KEY_TYPE_INCONSISTENT",
   ofString "CKR_USER_ALREADY_LOGGED_IN", ofString "CKR_USER_NOT_LOGGED_IN",
   ofString "CKR_USER_PIN_NOT_INITIALIZED", ofString "CKR_USER_TYPE_INVALID",
   ofString "CKR_USER_ANOTHER_ALREADY_LOGGED_IN", ofString "CKR_USER_TOO_MANY_TYPES",
   ofString "CKR_WRAPPED_KEY_INVALID", ofString "CKR_WRAPPED_KEY_LEN_RANGE",
   ofString "CKR_WRAPPING_KEY_HANDLE_INVALID", ofString "CKR_WRAPPING_KEY_SIZE_RANGE",
   ofString "CKR_WRAPPING_KEY_TYPE_INCONSISTENT", ofString "CKR_RANDOM_SEED_NOT_SUPPORTED",
   ofString "CKR_RANDOM_NO_RNG", ofString "CKR_DOMAIN_PARAMS_INVALID",
   ofString "CKR_BUFFER_TOO_SMALL", ofString "CKR_SAVED_STATE_INVALID",
   ofString "CKR_INFORMATION_SENSITIVE", ofString "CKR_STATE_UNSAVEABLE",
   ofString "CKR_CRYPTOKI_NOT_INITIALIZED", ofString "CKR_CRYPTOKI_ALREADY_INITIALIZED",
   ofString "CKR_MUTEX_BAD", ofString "CKR_MUTEX_NOT_LOCKED", ofString "CKR_FUNCTION_REJECTED"]

/-- What `printf` prints for `%lx`: the hexadecimal digits of `n`, lowercase
and without leading zeros, when they are at most `digits` many. -/
def printHex : Nat → Nat → List Nat
  | 0, _ => []
  | digits + 1, n =>
    if n < 16 then [hexDigit n] else printHex digits (n / 16) ++ [hexDigit (n % 16)]

/-- The function `CK_RV_error_string(rv)`. The constants `CKR_*` come from the
PKCS #11 header, which is not among the sources: `values` lists their values
in the order of the `ERR_ENTRY` lines. The `default:` branch prints into a
static buffer of 200 bytes; an `unsigned long` has at most 16 hexadecimal
digits. -/
def CK_RV_error_string (values : List Nat) (rv : Nat) : List Nat :=
  match (values.zip errorEntries).find? (fun e => e.1 == rv) with
  | some e => e.2
  | none => ofString "unknown 0x" ++ printHex 16 rv

/-! ## The doubly-linked list -/

/-- The structure `WINPR_LIST_ENTRY`: two pointers, as addresses; 0 is the null
pointer. -/
structure WINPR_LIST_ENTRY where
  Flink : Nat
  Blink : Nat
  deriving DecidableEq, Repr

/-- The list entries in memory: what stands at each address. -/
abbrev ListMemory := Nat → WINPR_LIST_ENTRY

/-- The store `p->Flink = v`. -/
def setFlink (m : ListMemory) (p v : Nat) : ListMemory :=
  fun a => if a = p then { Flink := v, Blink := (m a).Blink } else m a

/-- The store `p->Blink = v`. -/
def setBlink (m : ListMemory) (p v : Nat) : ListMemory :=
  fun a => if a = p then { Flink := (m a).Flink, Blink := v } else m a

/-- The function `InitializeListHead(ListHead)`; `none` is a failed
`WINPR_ASSERT`. -/
def InitializeListHead (ListHead : Nat) (m : ListMemory) : Option ListMemory :=
  if ListHead = 0 then none
  else some (setFlink (setBlink m ListHead ListHead) ListHead ListHead)

/-- The function `IsListEmpty(ListHead)`. -/
def IsListEmpty (ListHead : Nat) (m : ListMemory) : Option Bool :=
  if ListHead = 0 then none else some (decide ((m ListHead).Flink = ListHead))

/-- The function `InsertHeadList(ListHead, Entry)`. -/
def InsertHeadList (ListHead Entry : Nat) (m : ListMemory) : Option ListMemory :=
  if ListHead = 0 ∨ Entry = 0 then none
  else
    let OldFlink := (m ListHead).Flink
    if OldFlink = 0 then none
    else
      some (setFlink (setBlink (setBlink (setFlink m Entry OldFlink) Entry ListHead)
        OldFlink Entry) ListHead Entry)

/-- The function `RemoveHeadList(ListHead)`: the entry returned and the memory
afterwards. -/
def RemoveHeadList (ListHead : Nat) (m : ListMemory) : Option (Nat × ListMemory) :=
  if ListHead = 0 then none
  else
    let Entry := (m ListHead).Flink
    if Entry = 0 then none
    else
      let Flink := (m Entry).Flink
      if Flink = 0 then none
      else some (Entry, setBlink (setFlink m ListHead Flink) Flink ListHead)

/-- The function `InsertTailList(ListHead, Entry)`. -/
def InsertTailList (ListHead Entry : Nat) (m : ListMemory) : Option ListMemory :=
  if ListHead = 0 ∨ Entry = 0 then none
  else
    let OldBlink := (m ListHead).Blink
    if OldBlink = 0 then none
    else
      some (setBlink (setFlink (setBlink (setFlink m Entry ListHead) Entry OldBlink)
        OldBlink Entry) ListHead Entry)

/-- The function `RemoveTailList(ListHead)`: the entry returned and the memory
afterwards. -/
def RemoveTailList (ListHead : Nat) (m : ListMemory) : Option (Nat × ListMemory) :=
  if ListHead = 0 then none
  else
    let Entry := (m ListHead).Blink
    if Entry = 0 then none
    else
      let Blink := (m Entry).Blink
      if Blink = 0 then none
      else some (Entry, setFlink (setBlink m ListHead Blink) Blink ListHead)

/-! ## The CHUID object in the words of the specification -/

/-- Length octets of a BER TLV that stand for the length `n`: the reader
decodes them to `n` and stops right after them, whatever follows. -/
def IsBerLength (octets : List Nat) (n : Nat) : Prop :=
  ∀ rest : List Nat, berReadLen (octets ++ rest) = some (n, rest)

/-- One BER TLV entry: its tag, its length octets and its value. -/
structure BerField where
  tag : Nat
  lenOctets : List Nat
  value : List Nat
  deriving DecidableEq, Repr

/-- The bytes of an entry. -/
def BerField.encode (f : BerField) : List Nat :=
  f.tag :: (f.lenOctets ++ f.value)

/-- A CHUID response: the outer tag `0x53` and its length octets, the entries
`before`, the entry of tag `0x34` and length 16 with the value `guid`, any
bytes `after`, and the status `90 00`. -/
def chuidResponse (outerLen : List Nat) (before : List BerField) (guid after : List Nat) :
    List Nat :=
  0x53 :: (outerLen ++ (before.flatMap BerField.encode ++ ([0x34, 16] ++ guid ++
    (after ++ [0x90, 0x00]))))

/-- The shape `XXXXXXXX-XXXX-XXXX-XXXX-XXXXXXXXXXXX`: groups of 8, 4, 4, 4 and
12 hexadecimal digits separated by dashes. -/
def IsGuidShaped (s : List Nat) : Prop :=
  ∃ a b c d e : List Nat, s = a ++ [45] ++ b ++ [45] ++ c ++ [45] ++ d ++ [45] ++ e ∧
    a.length = 8 ∧ b.length = 4 ∧ c.length = 4 ∧ d.length = 4 ∧ e.length = 12 ∧
    ∀ x ∈ a ++ b ++ c ++ d ++ e, IsHexChar x

/-- The calls made between two worlds, none of them a `C_OpenSession` or a
`C_CloseSession`: the later trace is the earlier one extended by such calls. -/
def NoSessionCalls {σ : Type} (w w1 : World σ) : Prop :=
  ∃ extra : List P11Call, w1.trace = w.trace ++ extra ∧
    ∀ c ∈ extra, c.fn ≠ P11Fn.C_OpenSession ∧ c.fn ≠ P11Fn.C_CloseSession

/-- The calls made between two worlds are balanced: among them, as many
`C_CloseSession` calls as `C_OpenSession` calls that returned `CKR_OK`. -/
def SessionsBalanced {σ : Type} (w w1 : World σ) : Prop :=
  ∃ extra : List P11Call, w1.trace = w.trace ++ extra ∧
    countSuccessful P11Fn.C_OpenSession extra = countCalls P11Fn.C_CloseSession extra

/-- The calls made between two worlds hold `opens` calls of `C_OpenSession`
that returned `CKR_OK` and `closes` calls of `C_CloseSession`. -/
def SessionCalls {σ : Type} (w w1 : World σ) (opens closes : Nat) : Prop :=
  ∃ extra : List P11Call, w1.trace = w.trace ++ extra ∧
    countSuccessful P11Fn.C_OpenSession extra = opens ∧
    countCalls P11Fn.C_CloseSession extra = closes

/-! ## Opening the provider in the words of the specification -/

/-- A module path opens: the library loads, exports `C_GetFunctionList`, and
both that function and `C_Initialize` return `CKR_OK`. -/
def pathOpens (LoadLibrary : List Nat → Option ModuleImage) (modulePath : List Nat) : Bool :=
  match LoadLibrary modulePath with
  | none => false
  | some image =>
    image.hasGetFunctionList && image.getFunctionListRv == CKR_OK && image.initializeRv == CKR_OK

/-- The status a module path that does not open stands for: "provider DLL not
found" when the library does not load, "entry bad" when it lacks
`C_GetFunctionList`, "provider DLL failed" otherwise. -/
def pathFailure (LoadLibrary : List Nat → Option ModuleImage) (modulePath : List Nat) :
    SECURITY_STATUS :=
  match LoadLibrary modulePath with
  | none => .NTE_PROV_DLL_NOT_FOUND
  | some image =>
    if image.hasGetFunctionList = false then .NTE_PROV_TYPE_ENTRY_BAD
    else .NTE_PROVIDER_DLL_FAIL

/-- The module paths `LoadLibrary` was called with, in the order of the
calls. -/
def loadedPaths (calls : List LoaderCall) : List (List Nat) :=
  calls.filterMap (fun call =>
    match call with
    | .LoadLibrary modulePath => some modulePath
    | _ => none)

/-! ## Card responses and sessions in the words of the specification -/

/-- A response whose trailing status is accepted: the last two bytes are
`90 00`, or the second-to-last byte is `0x61`. -/
def StatusAccepted (resp : List Nat) : Prop :=
  (resp.getD (resp.length - 2) 0 = 0x90 ∧ resp.getD (resp.length - 1) 0 = 0x00) ∨
    resp.getD (resp.length - 2) 0 = 0x61

instance (resp : List Nat) : Decidable (StatusAccepted resp) := by
  unfold StatusAccepted
  exact inferInstance

/-- The inner entries of a CHUID object in the order they stand in `dec`, each
as tag, length and value, up to the first one that cannot be read; at most
`fuel` of them. -/
def chuidEntries : Nat → List Nat → List (Nat × Nat × List Nat)
  | 0, _ => []
  | fuel + 1, dec =>
    match WinPrAsn1DecReadTagLenValue dec with
    | none => []
    | some (t, l, value, rest) => (t, l, value) :: chuidEntries fuel rest

/-- The CHUID structure the resolver asks for: the outer tag is `0x53` and the
first inner entry with tag `0x34` exists and has length 16. -/
def guidEntryFound (resp : List Nat) : Bool :=
  match WinPrAsn1DecReadTagAndLen resp with
  | none => false
  | some (tag, _, dec) =>
    tag == 0x53 &&
      match (chuidEntries dec.length dec).find? (fun e => e.1 == 0x34) with
      | none => false
      | some e => e.2.1 == 16

/-- Follow the sessions through a list of calls, starting with `n` sessions
open (0 or 1): a `C_OpenSession` that returns `CKR_OK` needs none open and
leaves one open, a `C_CloseSession` needs one open and leaves none, every
other call changes nothing. The result is the number left open, or `none`
when a session was opened while one was open or closed while none was. -/
def sessionScan : Nat → List P11Call → Option Nat
  | n, [] => some n
  | n, call :: rest =>
    if call.fn = P11Fn.C_OpenSession ∧ call.rv = CKR_OK then
      if n = 0 then sessionScan 1 rest else none
    else if call.fn = P11Fn.C_CloseSession then
      if n = 1 then sessionScan 0 rest else none
    else sessionScan n rest

/-- As `sessionScan`, except that a `C_CloseSession` with no session open is
let pass: the result is `none` exactly when, at some point of the list, a
session was opened while another one was open. -/
def oneSessionScan : Nat → List P11Call → Option Nat
  | n, [] => some n
  | n, call :: rest =>
    if call.fn = P11Fn.C_OpenSession ∧ call.rv = CKR_OK then
      if n = 0 then oneSessionScan 1 rest else none
    else if call.fn = P11Fn.C_CloseSession then oneSessionScan 0 rest
    else oneSessionScan n rest

/-- The calls made between two worlds take `sessionScan` from `n` sessions
open to `m`. -/
def SessionsFollow {σ : Type} (w w1 : World σ) (n m : Nat) : Prop :=
  ∃ extra : List P11Call, w1.trace = w.trace ++ extra ∧ sessionScan n extra = some m

/-- The calls made between two worlds take `oneSessionScan` from `n` sessions
open to `m`: at no point between the two worlds were two sessions open. -/
def OneSessionAtATime {σ : Type} (w w1 : World σ) (n m : Nat) : Prop :=
  ∃ extra : List P11Call, w1.trace = w.trace ++ extra ∧ oneSessionScan n extra = some m

/-- The calls made between two worlds close no session other than
`session`. -/
def ClosesOnly {σ : Type} (w w1 : World σ) (session : Nat) : Prop :=
  ∃ extra : List P11Call, w1.trace = w.trace ++ extra ∧
    ∀ c ∈ extra, c.fn = P11Fn.C_CloseSession → c.arg = session

/-- The contract PKCS #11 sets for session handles: a `C_OpenSession` that
returns `CKR_OK` stores a handle other than 0 (`CK_INVALID_HANDLE`). -/
def OpenSessionGivesHandle {σ : Type} (p11 : CK_FUNCTION_LIST σ) : Prop :=
  ∀ (slot : Nat) (t : σ),
    (p11.C_OpenSession slot t).1.1 = CKR_OK → (p11.C_OpenSession slot t).1.2 ≠ 0

/-- What `check_for_piv_container_name` leaves behind: the status, the value
of `*pcbResult`, what was stored in `pbOutput`, and the calls made so far on
the card transport. -/
structure PivCheckOutcome where
  status : SECURITY_STATUS
  pcbResult : Nat
  pbOutput : Option (List Nat)
  cardCalls : List SCardCall
  deriving DecidableEq, Repr

/-- The outcome of a run of `check_for_piv_container_name`, when it returns. -/
def pivCheckOutcome {σ κ : Type}
    (x : Except Fault (SECURITY_STATUS × Nat × Option (List Nat) × World σ × CardWorld κ)) :
    Option PivCheckOutcome :=
  match x with
  | .error _ => none
  | .ok r =>
    some { status := r.1, pcbResult := r.2.1, pbOutput := r.2.2.1, cardCalls := r.2.2.2.2.calls }

/-- A slot that fails during the table build, the module being in state `t`
when the slot is visited: its slot-info query fails, its token-present flag is
unset, its session open fails, or its object search fails (at
`C_FindObjectsInit` or at `C_FindObjects`). -/
def SlotFails {σ : Type} (abi : Abi) (p11 : CK_FUNCTION_LIST σ) (slot : Nat) (t : σ) : Prop :=
  (p11.C_GetSlotInfo slot t).1.1 ≠ CKR_OK ∨
  (p11.C_GetSlotInfo slot t).1.2.flags &&& CKF_TOKEN_PRESENT = 0 ∨
  (p11.C_OpenSession slot (p11.C_GetTokenInfo slot (p11.C_GetSlotInfo slot t).2).2).1.1 ≠
    CKR_OK ∨
  (p11.C_FindObjectsInit
    (p11.C_OpenSession slot (p11.C_GetTokenInfo slot (p11.C_GetSlotInfo slot t).2).2).1.2
    (public_key_filter abi)
    (p11.C_OpenSession slot (p11.C_GetTokenInfo slot (p11.C_GetSlotInfo slot t).2).2).2).1 ≠
    CKR_OK ∨
  (p11.C_FindObjects
    (p11.C_OpenSession slot (p11.C_GetTokenInfo slot (p11.C_GetSlotInfo slot t).2).2).1.2
    MAX_KEYS_PER_SLOT
    (p11.C_FindObjectsInit
      (p11.C_OpenSession slot (p11.C_GetTokenInfo slot (p11.C_GetSlotInfo slot t).2).2).1.2
      (public_key_filter abi)
      (p11.C_OpenSession slot (p11.C_GetTokenInfo slot (p11.C_GetSlotInfo slot t).2).2).2).2).1.1 ≠
    CKR_OK

/-! ## Small functions in the words of the specification -/

/-- The out-of-bounds access a run ended in, if it ended in one. -/
def faultOf {α : Type} (x : Except Fault α) : Option Fault :=
  match x with
  | .error e => some e
  | .ok _ => none

/-- A fixed-width field with every space of its trailing run of spaces
replaced by NUL. -/
def trimmedField (field : List Nat) : List Nat :=
  field.take (field.length - (field.reverse.takeWhile (fun c => c == 32)).length) ++
    List.replicate (field.reverse.takeWhile (fun c => c == 32)).length 0

/-- The value of a hexadecimal digit character `0-9`, `a-f`, `A-F`. -/
def digitValue (c : Nat) : Nat :=
  if 48 ≤ c ∧ c ≤ 57 then c - 48 else if 97 ≤ c ∧ c ≤ 102 then c - 87 else c - 55

/-- The bytes a text of hexadecimal digits stands for, two digits per byte,
the first digit of each pair being the high one. -/
def hexPairs : List Nat → List Nat
  | c1 :: c2 :: rest => (16 * digitValue c1 + digitValue c2) :: hexPairs rest
  | _ => []

/-- The number a text of hexadecimal digits stands for. -/
def hexNumber (digits : List Nat) : Nat :=
  digits.foldl (fun acc c => 16 * acc + digitValue c) 0

/-- A well-formed circular list on the nodes `nodes` (the list head and its
entries): no node is null, the links of a node lead to nodes, and for each
node `Flink->Blink` and `Blink->Flink` point back to it. -/
def WellFormedList (m : ListMemory) (nodes : List Nat) : Prop :=
  ∀ n ∈ nodes, n ≠ 0 ∧ (m n).Flink ∈ nodes ∧ (m n).Blink ∈ nodes ∧
    (m (m n).Flink).Blink = n ∧ (m (m n).Blink).Flink = n

instance (m : ListMemory) (nodes : List Nat) : Decidable (WellFormedList m nodes) := by
  unfold WellFormedList
  exact inferInstance

/-! ## Token modules used as concrete inputs -/

/-- A stateless token module with `nslots` token-present slots numbered from
1, each in a reader described by `descr` (space-padded to 64 bytes) and each
holding `nkeys` public keys with object handles `1 .. nkeys`; the key with
handle `h` has the identifier made of `idLen` bytes `h` and a certificate of
the same identifier. It follows PKCS #11: a slot list that does not fit is
answered with `CKR_BUFFER_TOO_SMALL`, a search returns no more handles than
asked. -/
def tableModule (descr : List Nat) (nslots nkeys idLen : Nat) : CK_FUNCTION_LIST Unit where
  C_GetSlotList := fun _ cap t =>
    match cap with
    | none => ((CKR_OK, [], nslots), t)
    | some c =>
      if nslots ≤ c then ((CKR_OK, List.range' 1 nslots, nslots), t)
      else ((CKR_BUFFER_TOO_SMALL, [], nslots), t)
  C_GetSlotInfo := fun _ t =>
    ((CKR_OK, { slotDescription := (descr ++ List.replicate 64 32).take 64,
                flags := CKF_TOKEN_PRESENT }), t)
  C_GetTokenInfo := fun _ t => (CKR_OK, t)
  C_OpenSession := fun slot t => ((CKR_OK, slot + 1), t)
  C_CloseSession := fun _ t => (CKR_OK, t)
  C_FindObjectsInit := fun _ _ t => (CKR_OK, t)
  C_FindObjects := fun _ max t => ((CKR_OK, (List.range' 1 nkeys).take max), t)
  C_FindObjectsFinal := fun _ t => (CKR_OK, t)
  C_GetAttributeValue := fun _ object template t =>
    ((CKR_OK, template.map (fun a =>
        if a.type = CKA_ID then
          { a with pValue := some (List.replicate idLen object), ulValueLen := idLen }
        else a)), t)

/-- A token module like `tableModule` with no keys, except that its
`C_GetSlotList` leaves the count 65 in `pulCount` and returns `CKR_OK`
whatever capacity it is given. -/
def overReportingModule : CK_FUNCTION_LIST Unit :=
  { tableModule [] 65 0 0 with C_GetSlotList := fun _ _ t => ((CKR_OK, [], 65), t) }

/-- The row `tableModule (ofString "ReaderA2") 1 1 1` puts in the table: slot
1, the description `ReaderA2` with its padding turned into NULs, an RSA key
with the one-byte identifier 1. -/
def witnessRow : NCryptKeyEnum :=
  { slotId := 1
    slotInfo := { slotDescription := fit 64 (ofString "ReaderA2"), flags := 1 }
    keyType := 0
    keyLabel := List.replicate 256 0
    idLen := 1
    id := fit 64 [1] }

/-- The world before any call: no call made yet, every allocation succeeds. -/
def World.init {σ : Type} (t : σ) : World σ :=
  { token := t, trace := [], allocs := [] }

/-- What a token module following PKCS #11 answers for one attribute whose
value is `value`: the length when the buffer is null, the value when it
fits, and `CKR_BUFFER_TOO_SMALL` with an unavailable length when it does
not. -/
def answerAttribute (abi : Abi) (value : List Nat) (a : CK_ATTRIBUTE) : Nat × CK_ATTRIBUTE :=
  match a.pValue with
  | none => (CKR_OK, { a with ulValueLen := value.length })
  | some buf =>
    if value.length ≤ a.ulValueLen then
      (CKR_OK, { a with pValue := some (value ++ buf.drop value.length),
                        ulValueLen := value.length })
    else (CKR_BUFFER_TOO_SMALL, { a with ulValueLen := CK_UNAVAILABLE_INFORMATION abi })

/-- A token module like `tableModule descr 1 1 1` whose one object also has
the label `label` and the value `cert`. -/
def certificateModule (abi : Abi) (descr label cert : List Nat) : CK_FUNCTION_LIST Unit :=
  { tableModule descr 1 1 1 with
    C_GetAttributeValue := fun _ object template t =>
      let answers := template.map (fun a =>
        if a.type = CKA_LABEL then answerAttribute abi label a
        else if a.type = CKA_VALUE then answerAttribute abi cert a
        else if a.type = CKA_ID then
          (CKR_OK, { a with pValue := some [object], ulValueLen := 1 })
        else (CKR_OK, a))
      ((((answers.map Prod.fst).find? (fun rv => rv != CKR_OK)).getD CKR_OK,
        answers.map Prod.snd), t) }

/-- A token module that keeps the templates it is queried with: its state is
the list of the templates `C_GetAttributeValue` received, oldest first. Every
query is answered with `CKR_BUFFER_TOO_SMALL` and the needed length 4 for
each attribute. -/
def recordingModule : CK_FUNCTION_LIST (List (List CK_ATTRIBUTE)) where
  C_GetSlotList := fun _ _ t => ((CKR_OK, [], 0), t)
  C_GetSlotInfo := fun _ t => ((CKR_OK, { slotDescription := List.replicate 64 32, flags := 0 }), t)
  C_GetTokenInfo := fun _ t => (CKR_OK, t)
  C_OpenSession := fun slot t => ((CKR_OK, slot + 1), t)
  C_CloseSession := fun _ t => (CKR_OK, t)
  C_FindObjectsInit := fun _ _ t => (CKR_OK, t)
  C_FindObjects := fun _ _ t => ((CKR_OK, []), t)
  C_FindObjectsFinal := fun _ t => (CKR_OK, t)
  C_GetAttributeValue := fun _ _ template t =>
    ((CKR_BUFFER_TOO_SMALL, template.map (fun a => { a with ulValueLen := 4 })),
      t ++ [template])

/-- A card transport in which every call succeeds: context 1, card 1,
protocol T=1, the response `select` to `APDU_PIV_SELECT_AID` and the response
`chuid` to any other command. -/
def cannedCard (select chuid : List Nat) : SCardApi Unit where
  SCardEstablishContext := fun k => ((SCARD_S_SUCCESS, 1), k)
  SCardConnectW := fun _ _ k => ((SCARD_S_SUCCESS, 1, 2), k)
  SCardTransmit := fun _ _ apdu k =>
    ((SCARD_S_SUCCESS, if apdu = APDU_PIV_SELECT_AID then select else chuid), k)
  SCardDisconnect := fun _ k => (SCARD_S_SUCCESS, k)
  SCardReleaseContext := fun _ k => (SCARD_S_SUCCESS, k)

/-- The card transport before any call. -/
def CardWorld.init {κ : Type} (k : κ) : CardWorld κ :=
  { card := k, calls := [] }

/-- A CHUID response: the object `53 1C` holding a field `30` of two bytes,
the GUID field `34` with the sixteen bytes `A0 .. AF` and a field `35` of two
bytes, followed by the status `90 00`. -/
def witnessChuid : List Nat :=
  [0x53, 0x1C, 0x30, 0x02, 0xAA, 0xBB, 0x34, 0x10,
   0xA0, 0xA1, 0xA2, 0xA3, 0xA4, 0xA5, 0xA6, 0xA7, 0xA8, 0xA9, 0xAA, 0xAB, 0xAC, 0xAD, 0xAE, 0xAF,
   0x35, 0x02, 0x01, 0x02, 0x90, 0x00]

/-- A token module like `certificateModule` with the label `MyCert`, except
that every `C_GetAttributeValue` returns `rv` and leaves the template as it
was. -/
def failingReadModule (abi : Abi) (rv : Nat) : CK_FUNCTION_LIST Unit :=
  { certificateModule abi [] (ofString "MyCert") [] with
    C_GetAttributeValue := fun _ _ template t => ((rv, template), t) }

/-- The value `CKR_FUNCTION_FAILED`. -/
def CKR_FUNCTION_FAILED : Nat := 6

/-- As `tableModule descr nslots nkeys idLen`, except that `C_OpenSession`
fails with `CKR_FUNCTION_FAILED` on the slot `bad`. -/
def brokenSlotModule (descr : List Nat) (nslots nkeys idLen bad : Nat) :
    CK_FUNCTION_LIST Unit :=
  { tableModule descr nslots nkeys idLen with
    C_OpenSession := fun slot t =>
      if slot = bad then ((CKR_FUNCTION_FAILED, 0), t) else ((CKR_OK, slot + 1), t) }

/-- A list of two nodes in memory: the head at address 1 and one entry at
address 2; every other address holds null links. -/
def twoNodeList : ListMemory :=
  fun a => if a = 1 then { Flink := 2, Blink := 2 } else if a = 2 then { Flink := 1, Blink := 1 }
    else { Flink := 0, Blink := 0 }

/-- The values PKCS #11 gives the constants of `errorEntries`, in the same
order. -/
def pkcs11ReturnValues : List Nat :=
  [0, 1, 2, 3, 5, 6, 7, 8, 9, 0xA, 0x10, 0x11, 0x12, 0x13, 0x20, 0x21, 0x30, 0x31, 0x32, 0x40,
   0x41, 0x50, 0x51, 0x54, 0x60, 0x62, 0x63, 0x64, 0x65, 0x66, 0x67, 0x68, 0x69, 0x6A, 0x70,
   0x71, 0x82, 0x90, 0x91, 0xA0, 0xA1, 0xA2, 0xA3, 0xA4, 0xB0, 0xB1, 0xB3, 0xB4, 0xB5, 0xB6,
   0xB7, 0xB8, 0xC0, 0xC1, 0xD0, 0xD1, 0xE0, 0xE1, 0xE2, 0xF0, 0xF1, 0xF2, 0x100, 0x101, 0x102,
   0x103, 0x104, 0x105, 0x110, 0x112, 0x113, 0x114, 0x115, 0x120, 0x121, 0x130, 0x150, 0x160,
   0x170, 0x180, 0x190, 0x191, 0x1A0, 0x1A1, 0x200]

/-! ## Properties of the codec -/

theorem hexValue_hexDigit : ∀ n, n < 16 → hexValue (hexDigit n) = some n := by
  decide

theorem nibbles_combine : ∀ hi, hi < 16 → ∀ lo, lo < 16 →
    ((hi <<< 4) ||| lo) &&& 255 = hi * 16 + lo := by
  decide

theorem hexValue_lt (c v : Nat) (h : hexValue c = some v) : v < 16 := by
  unfold hexValue at h
  split_ifs at h <;> simp at h <;> omega

theorem hexValue_eq_none_iff (c : Nat) : hexValue c = none ↔ ¬ IsHexChar c := by
  unfold hexValue IsHexChar
  split_ifs <;> simp <;> omega

theorem hexDigit_ne_zero (n : Nat) : hexDigit n ≠ 0 := by
  unfold hexDigit; split_ifs <;> omega

theorem hexDigit_lt_128 (n : Nat) (h : n < 16) : hexDigit n < 128 := by
  unfold hexDigit; split_ifs <;> omega

theorem hexDigit_ne_backslash (n : Nat) (h : n < 16) : hexDigit n ≠ 92 := by
  unfold hexDigit; split_ifs <;> omega

theorem isHexChar_hexDigit (n : Nat) (h : n < 16) : IsHexChar (hexDigit n) := by
  unfold IsHexChar hexDigit; split_ifs <;> omega

theorem parseHexLoop_hex2 (bs : List Nat) : ∀ (ret : Nat) (target : List Nat),
    parseHexLoop (bs.flatMap hex2) ret target
      = (ret + bs.length, target ++ bs.map (fun b => b % 256)) := by
  induction bs with
  | nil => intro ret target; simp [parseHexLoop]
  | cons b bs ih =>
    intro ret target
    have h1 : b % 256 / 16 < 16 := by omega
    have h2 : b % 256 % 16 < 16 := by omega
    have hcons : (b :: bs).flatMap hex2
        = hexDigit (b % 256 / 16) :: hexDigit (b % 256 % 16) :: bs.flatMap hex2 := by
      simp [hex2]
    have h3 : b % 256 / 16 * 16 + b % 256 % 16 = b % 256 := by omega
    rw [hcons]
    simp only [parseHexLoop, hexValue_hexDigit _ h1, hexValue_hexDigit _ h2,
      nibbles_combine _ h1 _ h2, h3]
    rw [ih]
    simp
    omega

theorem parseHex_hex2 (bs : List Nat) :
    parseHex (bs.flatMap hex2) = (bs.length, bs.map (fun b => b % 256)) := by
  simp [parseHex, parseHexLoop_hex2]

theorem parseHexLoop_ne_zero : ∀ (s : List Nat) (ret : Nat) (target : List Nat),
    (parseHexLoop s ret target).1 ≠ 0 →
      (∀ c ∈ s, IsHexChar c) ∧ s.length = 2 * ((parseHexLoop s ret target).1 - ret)
        ∧ ret ≤ (parseHexLoop s ret target).1
  | [], ret, target => by simp [parseHexLoop]
  | [c1], ret, target => by
    intro h
    exfalso; apply h
    simp only [parseHexLoop]
    split <;> rfl
  | c1 :: c2 :: rest, ret, target => by
    intro h
    simp only [parseHexLoop] at h ⊢
    cases h1 : hexValue c1 with
    | none => simp [h1] at h
    | some hi =>
      cases h2 : hexValue c2 with
      | none => simp [h1, h2] at h
      | some lo =>
        simp only [h1, h2] at h ⊢
        have ih := parseHexLoop_ne_zero rest (ret + 1) (target ++ [((hi <<< 4) ||| lo) &&& 255]) h
        obtain ⟨iha, ihb, ihc⟩ := ih
        refine ⟨?_, ?_, ?_⟩
        · intro c hc
          simp only [List.mem_cons] at hc
          rcases hc with rfl | rfl | hc
          · by_contra hn; rw [← hexValue_eq_none_iff] at hn; simp [hn] at h1
          · by_contra hn; rw [← hexValue_eq_none_iff] at hn; simp [hn] at h2
          · exact iha c hc
        · simp only [List.length_cons]; omega
        · omega

theorem parseHex_ne_zero (s : List Nat) (h : (parseHex s).1 ≠ 0) :
    (∀ c ∈ s, IsHexChar c) ∧ s.length = 2 * (parseHex s).1 := by
  have := parseHexLoop_ne_zero s 0 [] h
  simpa [parseHex] using ⟨this.1, this.2.1⟩

theorem parseHex_nil : (parseHex []).1 = 0 := rfl

theorem strchr_append (c : Nat) : ∀ (a b : List Nat), c ∉ a →
    strchr (a ++ c :: b) c = some a.length
  | [], b, _ => by simp [strchr]
  | x :: a, b, h => by
    have hx : x ≠ c := fun e => h (by simp [e])
    have ha : c ∉ a := fun e => h (by simp [e])
    simp [strchr, hx, strchr_append c a b ha]

theorem strchr_eq_none (c : Nat) : ∀ (s : List Nat), c ∉ s → strchr s c = none
  | [], _ => rfl
  | x :: s, h => by
    have hx : x ≠ c := fun e => h (by simp [e])
    have hs : c ∉ s := fun e => h (by simp [e])
    simp [strchr, hx, strchr_eq_none c s hs]

theorem cstr_of_nonzero (s : List Nat) (h : ∀ c ∈ s, c ≠ 0) : cstr s = s := by
  unfold cstr
  rw [List.takeWhile_eq_self_iff]
  intro c hc
  simpa using h c hc

theorem cstr_nonzero (s : List Nat) : ∀ c ∈ cstr s, c ≠ 0 := by
  intro c hc
  have := List.mem_takeWhile_imp hc
  simpa using this

theorem cstr_append_zeros (s : List Nat) (n : Nat) (h : ∀ c ∈ s, c ≠ 0) :
    cstr (s ++ List.replicate n 0) = s := by
  unfold cstr
  induction s with
  | nil => cases n <;> simp [List.replicate, List.takeWhile]
  | cons x s ih =>
    have hx : x ≠ 0 := h x (by simp)
    have hs : ∀ c ∈ s, c ≠ 0 := fun c hc => h c (by simp [hc])
    simp [List.takeWhile_cons, hx, ih hs]

theorem leBytes_length : ∀ (n v : Nat), (leBytes n v).length = n
  | 0, _ => rfl
  | n + 1, v => by simp [leBytes, leBytes_length n]

theorem objectBytes_length (abi : Abi) (v : Nat) : (objectBytes abi v).length = abi.sizeofSlotId := by
  unfold objectBytes; split_ifs <;> simp [leBytes_length]

theorem leValue_leBytes : ∀ (n v : Nat), v < 256 ^ n → leValue (leBytes n v) = v
  | 0, v, h => by simp at h; simp [leBytes, leValue, h]
  | n + 1, v, h => by
    have h1 : v / 256 < 256 ^ n := by
      rw [Nat.div_lt_iff_lt_mul (by norm_num)]
      calc v < 256 ^ (n + 1) := h
        _ = 256 ^ n * 256 := by ring
    simp only [leBytes, leValue, leValue_leBytes n _ h1]
    omega

theorem leBytes_lt : ∀ (n v : Nat), ∀ b ∈ leBytes n v, b < 256
  | 0, _ => by simp [leBytes]
  | n + 1, v => by
    intro b hb
    simp only [leBytes, List.mem_cons] at hb
    rcases hb with rfl | hb
    · omega
    · exact leBytes_lt n _ b hb

theorem objectBytes_lt (abi : Abi) (v : Nat) : ∀ b ∈ objectBytes abi v, b < 256 := by
  intro b hb
  unfold objectBytes at hb
  split_ifs at hb
  · exact leBytes_lt _ _ b (by simpa using hb)
  · exact leBytes_lt _ _ b hb

theorem objectValue_objectBytes (abi : Abi) (v : Nat) (h : v < 256 ^ abi.sizeofSlotId) :
    objectValue abi (objectBytes abi v) = v := by
  unfold objectValue objectBytes
  split_ifs <;> simp [leValue_leBytes _ _ h]

theorem map_mod_of_lt (bs : List Nat) (h : ∀ b ∈ bs, b < 256) :
    bs.map (fun b => b % 256) = bs := by
  induction bs with
  | nil => rfl
  | cons b bs ih =>
    have hb : b < 256 := h b (by simp)
    have hs : ∀ c ∈ bs, c < 256 := fun c hc => h c (by simp [hc])
    simp [Nat.mod_eq_of_lt hb, ih hs]

theorem store_after_text (t src : List Nat) (k : Nat) (h : src.length ≤ k) :
    store (t ++ List.replicate k 0) t.length src
      = some (t ++ src ++ List.replicate (k - src.length) 0) := by
  unfold store
  have hlen : t.length + src.length ≤ (t ++ List.replicate k 0).length := by simp; omega
  rw [if_pos hlen]
  have h1 : (t ++ List.replicate k 0).take t.length = t := by simp
  have h2 : (t ++ List.replicate k 0).drop (t.length + src.length)
      = List.replicate (k - src.length) 0 := by
    rw [List.drop_append_eq_append_drop]
    have : t.length + src.length - t.length = src.length := by omega
    simp [this]
  rw [h1, h2]

theorem store_snprintf (t : List Nat) (k b : Nat) (h : 3 ≤ k) :
    store (t ++ List.replicate k 0) t.length (snprintf_02x b)
      = some ((t ++ hex2 b) ++ List.replicate (k - 2) 0) := by
  rw [store_after_text t _ k (by simpa [snprintf_02x] using h)]
  have hk : k - 2 = (k - 3) + 1 := by omega
  simp [snprintf_02x, hex2, hk, List.replicate_succ]

theorem printHexBytes_text : ∀ (bs t : List Nat) (k : Nat), (bs = [] ∨ 2 * bs.length + 1 ≤ k) →
    printHexBytes bs (t ++ List.replicate k 0) t.length
      = .ok (t ++ bs.flatMap hex2 ++ List.replicate (k - 2 * bs.length) 0,
          t.length + 2 * bs.length)
  | [], t, k, _ => by simp [printHexBytes]
  | b :: bs, t, k, h => by
    have hk : 2 * (bs.length + 1) + 1 ≤ k := by
      rcases h with h | h
      · simp at h
      · simpa using h
    have hstep := store_snprintf t k b (by omega)
    have hptr : t.length + 2 = (t ++ hex2 b).length := by simp [hex2]
    have ih := printHexBytes_text bs (t ++ hex2 b) (k - 2)
      (by by_cases hb : bs = []
          · exact Or.inl hb
          · right; omega)
    simp only [printHexBytes, hstep]
    rw [hptr, ih]
    have e1 : k - 2 - 2 * bs.length = k - 2 * (b :: bs).length := by simp; omega
    have e2 : (t ++ hex2 b).length + 2 * bs.length = t.length + 2 * (b :: bs).length := by
      simp [hex2]; omega
    rw [e1, e2]
    simp only [List.flatMap_cons, List.append_assoc]

theorem hex2_length (b : Nat) : (hex2 b).length = 2 := rfl

theorem flatMap_hex2_length (bs : List Nat) : (bs.flatMap hex2).length = 2 * bs.length := by
  induction bs with
  | nil => rfl
  | cons b bs ih =>
    simp only [List.flatMap_cons, List.length_append, ih, hex2_length, List.length_cons]
    omega

theorem mem_flatMap_hex2 (bs : List Nat) (c : Nat) (h : c ∈ bs.flatMap hex2) :
    ∃ n, n < 16 ∧ c = hexDigit n := by
  simp only [List.mem_flatMap, hex2, List.mem_cons, List.mem_singleton] at h
  obtain ⟨b, _, hc⟩ := h
  simp only [List.not_mem_nil, or_false] at hc
  rcases hc with rfl | rfl
  · exact ⟨_, by omega, rfl⟩
  · exact ⟨_, by omega, rfl⟩

theorem keyNameFormat_length (sb ib : List Nat) :
    (keyNameFormat sb ib).length = 2 + 2 * sb.length + 2 * ib.length := by
  simp only [keyNameFormat, List.length_cons, List.length_append, flatMap_hex2_length]; omega

theorem keyNameFormat_chars (sb ib : List Nat) :
    ∀ c ∈ keyNameFormat sb ib, c ≠ 0 ∧ c < 128 := by
  intro c hc
  simp only [keyNameFormat, List.mem_cons, List.mem_append] at hc
  rcases hc with rfl | hc | rfl | hc
  · omega
  · obtain ⟨n, hn, rfl⟩ := mem_flatMap_hex2 _ _ hc
    exact ⟨hexDigit_ne_zero n, hexDigit_lt_128 n hn⟩
  · omega
  · obtain ⟨n, hn, rfl⟩ := mem_flatMap_hex2 _ _ hc
    exact ⟨hexDigit_ne_zero n, hexDigit_lt_128 n hn⟩

theorem utf16Units_ascii (s : List Nat) (h : ∀ c ∈ s, c < 128) : utf16Units s = s.length := by
  unfold utf16Units
  have h1 : s.filter (fun b => b < 128 || 192 ≤ b) = s := by
    rw [List.filter_eq_self]
    intro c hc
    have := h c hc
    simp [this]
  have h2 : s.filter (fun b => decide (240 ≤ b)) = [] := by
    rw [List.filter_eq_nil_iff]
    intro c hc
    have := h c hc
    simp; omega
  rw [h1, h2]; simp

/-- The text `wprintKeyName` leaves, when text and terminator fit the 128-byte
array: the bytes of the slot id in address order, then the identifier. -/
theorem wprintKeyName_eq (abi : Abi) (slotId : Nat) (id : List Nat) (idLen : Nat)
    (hfit : 2 * abi.sizeofSlotId + 2 * idLen + 3 ≤ 128) (hlen : idLen ≤ id.length) :
    wprintKeyName abi slotId id idLen
      = .ok (keyNameFormat (objectBytes abi slotId) (id.take idLen)) := by
  have hs := objectBytes_length abi slotId
  have hi : (id.take idLen).length = idLen := by simp [hlen]
  have hf := flatMap_hex2_length (objectBytes abi slotId)
  have s1 : store (List.replicate 128 0) 0 [92] = some ([92] ++ List.replicate 127 0) := by
    have := store_after_text [] [92] 128 (by simp)
    simpa using this
  have s2 := printHexBytes_text (objectBytes abi slotId) [92] 127 (Or.inr (by omega))
  have s3 := store_after_text ([92] ++ (objectBytes abi slotId).flatMap hex2) [92]
    (127 - 2 * (objectBytes abi slotId).length) (by simp; omega)
  have s4 := printHexBytes_text (id.take idLen)
    ([92] ++ (objectBytes abi slotId).flatMap hex2 ++ [92])
    (127 - 2 * (objectBytes abi slotId).length - 1) (Or.inr (by rw [hi, hs]; omega))
  have hp2 : ([92] : List Nat).length + 2 * (objectBytes abi slotId).length
      = ([92] ++ (objectBytes abi slotId).flatMap hex2).length := by
    simp only [List.length_append, hf]
  have hp3 : ([92] ++ (objectBytes abi slotId).flatMap hex2).length + 1
      = ([92] ++ (objectBytes abi slotId).flatMap hex2 ++ [92]).length := by
    simp only [List.length_append, List.length_singleton]
  have htext : [92] ++ (objectBytes abi slotId).flatMap hex2 ++ [92] ++ (id.take idLen).flatMap hex2
      = keyNameFormat (objectBytes abi slotId) (id.take idLen) := by
    simp [keyNameFormat]
  simp only [List.length_singleton] at s3
  have s2b : printHexBytes (objectBytes abi slotId) ([92] ++ List.replicate 127 0) 1 = _ := s2
  rw [hp2] at s2
  rw [htext] at s4
  have hch := keyNameFormat_chars (objectBytes abi slotId) (id.take idLen)
  have hl := keyNameFormat_length (objectBytes abi slotId) (id.take idLen)
  rw [hs, hi] at hl
  generalize keyNameFormat (objectBytes abi slotId) (id.take idLen) = text at s4 hch hl ⊢
  generalize hk : 127 - 2 * (objectBytes abi slotId).length - 1 - 2 * (id.take idLen).length = k
    at s4
  have hk2 : text.length + k = 128 := by rw [hl, ← hk, hs, hi]; omega
  have htake : (text ++ List.replicate k 0).take 128 = text ++ List.replicate k 0 := by
    apply List.take_of_length_le; simp; omega
  have hc : cstr (text ++ List.replicate k 0) = text :=
    cstr_append_zeros text k (fun c hc => (hch c hc).1)
  have hu : utf16Units text = text.length := utf16Units_ascii text (fun c hc => (hch c hc).2)
  unfold wprintKeyName
  simp only [s1]
  rw [s2b]
  simp only [hp2, s3, readId, hlen, if_true]
  rw [hp3, s4]
  simp [ConvertUtf8NToWChar, strnlen, htake, hc, hu]

theorem parseKeyName_shape (abi : Abi) (name a b : List Nat)
    (hname : cstr name = 92 :: (a ++ 92 :: b)) (ha : 92 ∉ a) :
    parseKeyName abi name =
      if (cstr name).length + 1 ≤ 128 then
        if a.length > abi.sizeofSlotId * 2 then .error .NTE_BAD_KEY
        else if (parseHex a).1 ≠ abi.sizeofSlotId then .error .NTE_BAD_KEY
        else if (parseHex b).1 = 0 then .error .NTE_BAD_KEY
        else .ok { slotId := objectValue abi (parseHex a).2, id := fit 64 (parseHex b).2,
                   idLen := (parseHex b).1 }
      else .error .NTE_BAD_KEY := by
  have htake : (a ++ 92 :: b).take a.length = a := by simp
  have hdrop : (a ++ 92 :: b).drop (a.length + 1) = b := by
    rw [List.drop_append_eq_append_drop]
    simp
  unfold parseKeyName ConvertWCharToUtf8
  by_cases hfit : (cstr name).length + 1 ≤ 128
  · rw [if_pos hfit, if_pos hfit]
    simp only [hname, strchr_append 92 a b ha, htake, hdrop]
    simp
  · rw [if_neg hfit, if_neg hfit]

theorem parseKeyName_error (abi : Abi) (name : List Nat) (e : SECURITY_STATUS)
    (h : parseKeyName abi name = .error e) : e = .NTE_BAD_KEY := by
  unfold parseKeyName at h
  dsimp only at h
  repeat' split at h
  all_goals first
    | (injection h with h; exact h.symm)
    | cases h

/-- Decoding an encoded name gives back the slot id and the identifier, when
the encoded text and its terminator fit 128 bytes. -/
theorem parseKeyName_wprintKeyName (abi : Abi) (slotId : Nat) (id : List Nat) (idLen : Nat)
    (hfit : 2 * abi.sizeofSlotId + 2 * idLen + 3 ≤ 128) (hlen : idLen ≤ id.length)
    (hpos : 0 < idLen) (hslot : slotId < 256 ^ abi.sizeofSlotId)
    (hbytes : ∀ b ∈ id, b < 256) :
    ∃ name, wprintKeyName abi slotId id idLen = .ok name ∧
      parseKeyName abi name
        = .ok { slotId := slotId, id := fit 64 (id.take idLen), idLen := idLen } := by
  refine ⟨_, wprintKeyName_eq abi slotId id idLen hfit hlen, ?_⟩
  have hs := objectBytes_length abi slotId
  have hi : (id.take idLen).length = idLen := by simp [hlen]
  have hch := keyNameFormat_chars (objectBytes abi slotId) (id.take idLen)
  have hc : cstr (keyNameFormat (objectBytes abi slotId) (id.take idLen))
      = 92 :: ((objectBytes abi slotId).flatMap hex2 ++ 92 :: (id.take idLen).flatMap hex2) :=
    cstr_of_nonzero _ (fun c hc => (hch c hc).1)
  have hno : 92 ∉ (objectBytes abi slotId).flatMap hex2 := by
    intro hmem
    obtain ⟨n, hn, e⟩ := mem_flatMap_hex2 _ _ hmem
    exact hexDigit_ne_backslash n hn e.symm
  rw [parseKeyName_shape abi _ _ _ hc hno]
  have hl : (cstr (keyNameFormat (objectBytes abi slotId) (id.take idLen))).length + 1 ≤ 128 := by
    rw [cstr_of_nonzero _ (fun c hc => (hch c hc).1), keyNameFormat_length, hs, hi]; omega
  have hbt : ∀ b ∈ id.take idLen, b < 256 := fun b hb => hbytes b (List.mem_of_mem_take hb)
  rw [if_pos hl, parseHex_hex2, parseHex_hex2, flatMap_hex2_length, hs, hi,
    map_mod_of_lt _ (objectBytes_lt abi slotId), map_mod_of_lt _ hbt,
    objectValue_objectBytes abi slotId hslot]
  have h1 : ¬ (2 * abi.sizeofSlotId > abi.sizeofSlotId * 2) := by omega
  have h3 : ¬ (idLen = 0) := by omega
  simp [h1, h3]

/-! ## Properties of the enumeration -/

theorem algorithmName_length (k : Nat) (r : List Nat) (h : algorithmName k = some r) :
    r.length ≤ 5 := by
  unfold algorithmName at h
  split_ifs at h <;> cases h <;> decide

theorem convertKeyType_dest (k : Nat) :
    ((convertKeyType k (some ((convertKeyType k none).2.2 + 1))).2.1).getD []
      = (algorithmName k).getD [] := by
  unfold convertKeyType
  cases h : algorithmName k with
  | none => simp
  | some r =>
    have hr : ¬ r.length > 4294967295 := by
      have := algorithmName_length k r h
      omega
    simp [hr]

theorem makeKeyName_some {σ : Type} (abi : Abi) (key : NCryptKeyEnum)
    (w w5 : World σ) (kn : NCryptKeyName)
    (h : makeKeyName abi key w = .ok (some kn, w5)) :
    ∃ name, wprintKeyName abi key.slotId key.id key.idLen = .ok name ∧
      kn = keyNameRecord key name := by
  unfold makeKeyName at h
  dsimp only at h
  split_ifs at h with ha
  · cases h
  · cases hw : wprintKeyName abi key.slotId key.id key.idLen with
    | error e => rw [hw] at h; cases h
    | ok name =>
      rw [hw] at h
      refine ⟨name, rfl, ?_⟩
      simp only [Except.ok.injEq, Prod.mk.injEq, Option.some.injEq] at h
      rw [← h.1, convertKeyType_dest]
      rfl

theorem iterationStep_next (abi : Abi) (f : Option SlotFilter) (state : P11EnumKeysState)
    (left : Nat) (kn : Option NCryptKeyName) (status : SECURITY_STATUS)
    (ppKeyName : Option NCryptKeyName) (ppEnumState : Option P11EnumKeysState)
    (h : IterationStep abi f { state with keyIndex := state.keyIndex + 1 } left kn status
      ppKeyName ppEnumState) :
    IterationStep abi f state (left + 1) kn status ppKeyName ppEnumState := by
  rcases h with ⟨h1, h2, h3⟩ | ⟨h1, i, key, name, h2, h3, h4, h5, h6, h7, h8⟩
  · left
    refine ⟨h1, h2, ?_⟩
    rw [h3]
    simp only [Option.some.injEq, P11EnumKeysState.mk.injEq, true_and]
    omega
  · right
    refine ⟨h1, i, key, name, ?_, ?_, h4, h5, h6, h7, h8⟩
    · simp only at h2; omega
    · simp only at h3; omega

theorem enumKeysLoop_step {σ : Type} (abi : Abi) (p11 : CK_FUNCTION_LIST σ)
    (f : Option SlotFilter) : ∀ (left : Nat) (state : P11EnumKeysState) (cs csess : Nat)
    (kn : Option NCryptKeyName) (w : World σ) (r : EnumKeysResult σ),
    enumKeysLoop abi p11 f left state cs csess kn w = .ok r →
      IterationStep abi f state left kn r.status r.ppKeyName r.ppEnumState := by
  intro left
  induction left with
  | zero =>
    intro state cs csess kn w r h
    simp only [enumKeysLoop, Except.ok.injEq] at h
    subst h
    left
    exact ⟨rfl, rfl, rfl⟩
  | succ left ih =>
    intro state cs csess kn w r h
    rw [enumKeysLoop] at h
    dsimp only at h
    cases hk : state.keys[state.keyIndex]? with
    | none => rw [hk] at h; cases h
    | some key =>
      rw [hk] at h
      dsimp only at h
      cases hf : filterMismatch f key with
      | error e => rw [hf] at h; cases h
      | ok b =>
        rw [hf] at h
        cases b with
        | true => exact iterationStep_next _ _ _ _ _ _ _ _ (ih _ _ _ _ _ _ h)
        | false =>
          dsimp only at h
          split_ifs at h with h1 h2 h3
          · exact iterationStep_next _ _ _ _ _ _ _ _ (ih _ _ _ _ _ _ h)
          · exact iterationStep_next _ _ _ _ _ _ _ _ (ih _ _ _ _ _ _ h)
          · generalize hmade : makeKeyName abi key _ = made at h
            cases made with
            | error e => cases h
            | ok p =>
              obtain ⟨keyName, w5⟩ := p
              cases keyName with
              | none => exact iterationStep_next _ _ _ _ _ _ _ _ (ih _ _ _ _ _ _ h)
              | some kn1 =>
                dsimp only at h
                injection h with h
                subst h
                right
                obtain ⟨name, hn1, hn2⟩ := makeKeyName_some abi key _ w5 kn1 hmade
                exact ⟨rfl, state.keyIndex, key, name, le_refl _, by omega, hk, hf, hn1,
                  by rw [hn2], rfl⟩
          · exact iterationStep_next _ _ _ _ _ _ _ _ (ih _ _ _ _ _ _ h)

/-! ## The slot list during the build -/

theorem printHexBytes_fault : ∀ (bs buf : List Nat) (ptr : Nat) (e : Fault),
    printHexBytes bs buf ptr = .error e → e = Fault.asciiNameOverrun
  | [], _, _, _, h => by simp [printHexBytes] at h
  | b :: bs, buf, ptr, e, h => by
    rw [printHexBytes] at h
    split at h
    · injection h with h; exact h.symm
    · exact printHexBytes_fault bs _ _ e h

theorem readId_fault (id : List Nat) (idLen : Nat) (e : Fault)
    (h : readId id idLen = .error e) : e = Fault.idOverread := by
  unfold readId at h
  split_ifs at h
  injection h with h
  exact h.symm

theorem wprintKeyName_fault (abi : Abi) (slotId : Nat) (id : List Nat) (idLen : Nat) (e : Fault)
    (h : wprintKeyName abi slotId id idLen = .error e) : e ≠ Fault.slotListOverread := by
  unfold wprintKeyName at h
  generalize List.replicate 128 0 = buf0 at h
  dsimp only at h
  cases h1 : store buf0 0 [92] with
  | none => rw [h1] at h; cases h; decide
  | some buf1 =>
    rw [h1] at h
    dsimp only at h
    cases h2 : printHexBytes (objectBytes abi slotId) buf1 1 with
    | error e2 =>
      rw [h2] at h
      cases h
      rw [printHexBytes_fault _ _ _ _ h2]
      decide
    | ok p2 =>
      obtain ⟨buf2, ptr2⟩ := p2
      rw [h2] at h
      dsimp only at h
      cases h3 : store buf2 ptr2 [92] with
      | none => rw [h3] at h; cases h; decide
      | some buf3 =>
        rw [h3] at h
        dsimp only at h
        cases h4 : readId id idLen with
        | error e4 =>
          rw [h4] at h
          cases h
          rw [readId_fault _ _ _ h4]
          decide
        | ok idBytes =>
          rw [h4] at h
          dsimp only at h
          cases h5 : printHexBytes idBytes buf3 (ptr2 + 1) with
          | error e5 =>
            rw [h5] at h
            cases h
            rw [printHexBytes_fault _ _ _ _ h5]
            decide
          | ok p5 =>
            obtain ⟨buf4, ptr4⟩ := p5
            rw [h5] at h
            dsimp only at h
            split at h <;> cases h

theorem makeKeyName_fault {σ : Type} (abi : Abi) (key : NCryptKeyEnum) (w : World σ) (e : Fault)
    (h : makeKeyName abi key w = .error e) : e ≠ Fault.slotListOverread := by
  unfold makeKeyName at h
  dsimp only at h
  by_cases hc : w.calloc.1 = false
  · rw [if_pos hc] at h; cases h
  · rw [if_neg hc] at h
    cases hw : wprintKeyName abi key.slotId key.id key.idLen with
    | error e1 =>
      rw [hw] at h
      injection h with h
      subst h
      exact wprintKeyName_fault _ _ _ _ _ hw
    | ok name => rw [hw] at h; cases h

theorem filterMismatch_fault (f : Option SlotFilter) (key : NCryptKeyEnum) (e : Fault)
    (h : filterMismatch f key = .error e) : e ≠ Fault.slotListOverread := by
  unfold filterMismatch at h
  cases f with
  | none => cases h
  | some f =>
    dsimp only at h
    cases hm : memcmpEq key.slotInfo.slotDescription f.buffer f.len with
    | ok b => rw [hm] at h; cases h
    | error e1 =>
      rw [hm] at h
      injection h with h
      subst h
      unfold memcmpEq at hm
      split_ifs at hm
      injection hm with hm
      subst hm
      decide

theorem enumKeysLoop_fault {σ : Type} (abi : Abi) (p11 : CK_FUNCTION_LIST σ)
    (f : Option SlotFilter) : ∀ (left : Nat) (state : P11EnumKeysState) (cs csess : Nat)
    (kn : Option NCryptKeyName) (w : World σ) (e : Fault),
    enumKeysLoop abi p11 f left state cs csess kn w = .error e → e ≠ Fault.slotListOverread := by
  intro left
  induction left with
  | zero =>
    intro state cs csess kn w e h
    simp [enumKeysLoop] at h
  | succ left ih =>
    intro state cs csess kn w e h
    rw [enumKeysLoop] at h
    dsimp only at h
    cases hk : state.keys[state.keyIndex]? with
    | none =>
      rw [hk] at h
      injection h with h
      subst h
      intro hc; cases hc
    | some key =>
      rw [hk] at h
      dsimp only at h
      cases hf : filterMismatch f key with
      | error e1 =>
        rw [hf] at h
        injection h with h
        subst h
        exact filterMismatch_fault f key _ hf
      | ok b =>
        rw [hf] at h
        cases b with
        | true => exact ih _ _ _ _ _ _ h
        | false =>
          dsimp only at h
          split_ifs at h with h1 h2 h3
          · exact ih _ _ _ _ _ _ h
          · exact ih _ _ _ _ _ _ h
          · generalize hmade : makeKeyName abi key _ = made at h
            cases made with
            | error e1 =>
              injection h with h
              subst h
              exact makeKeyName_fault _ _ _ _ hmade
            | ok p =>
              obtain ⟨keyName, w5⟩ := p
              cases keyName with
              | none => exact ih _ _ _ _ _ _ h
              | some kn1 => cases h
          · exact ih _ _ _ _ _ _ h

theorem collectObjects_slots {σ : Type} (abi : Abi) (p11 : CK_FUNCTION_LIST σ) (slotId : Nat)
    (slotInfo : CK_SLOT_INFO) (session : Nat) : ∀ (objects : List Nat) (state : P11EnumKeysState)
    (w : World σ) (rows : Except Fault (P11EnumKeysState × World σ)),
    collectObjects abi p11 slotId slotInfo session objects state w = rows →
    (∀ e, rows = .error e → e ≠ Fault.slotListOverread) ∧
    (∀ s1 w1, rows = .ok (s1, w1) → s1.nslots = state.nslots ∧ s1.slots = state.slots) := by
  intro objects
  induction objects with
  | nil =>
    intro state w rows hrows
    subst hrows
    constructor
    · intro e h; simp [collectObjects] at h
    · intro s1 w1 h
      simp only [collectObjects, Except.ok.injEq, Prod.mk.injEq] at h
      rw [← h.1]; exact ⟨rfl, rfl⟩
  | cons object rest ih =>
    intro state w rows hrows
    rw [collectObjects] at hrows
    dsimp only at hrows
    split_ifs at hrows with h1 h2
    · subst hrows
      constructor
      · intro e h; injection h with h; subst h; decide
      · intro s1 w1 h; cases h
    · exact ih _ _ _ hrows
    · have := ih _ _ _ hrows
      exact this

theorem collectSlot_slots {σ : Type} (abi : Abi) (p11 : CK_FUNCTION_LIST σ) (i : Nat)
    (state : P11EnumKeysState) (w : World σ) (hi : i < state.slots.length) :
    (∀ e, collectSlot abi p11 i state w = .error e → e ≠ Fault.slotListOverread) ∧
    (∀ s1 w1, collectSlot abi p11 i state w = .ok (s1, w1) →
      s1.nslots = state.nslots ∧ s1.slots = state.slots) := by
  unfold collectSlot
  have hget : state.slots[i]? = some state.slots[i] := List.getElem?_eq_getElem hi
  rw [hget]
  dsimp only
  split_ifs with h1 h2 h3 h4 h5
  · constructor
    · intro e h; cases h
    · intro s1 w1 h
      simp only [Except.ok.injEq, Prod.mk.injEq] at h
      rw [← h.1]; exact ⟨rfl, rfl⟩
  · constructor
    · intro e h; cases h
    · intro s1 w1 h
      simp only [Except.ok.injEq, Prod.mk.injEq] at h
      rw [← h.1]; exact ⟨rfl, rfl⟩
  · constructor
    · intro e h; cases h
    · intro s1 w1 h
      simp only [Except.ok.injEq, Prod.mk.injEq] at h
      rw [← h.1]; exact ⟨rfl, rfl⟩
  · constructor
    · intro e h; cases h
    · intro s1 w1 h
      simp only [Except.ok.injEq, Prod.mk.injEq] at h
      rw [← h.1]; exact ⟨rfl, rfl⟩
  · constructor
    · intro e h; cases h
    · intro s1 w1 h
      simp only [Except.ok.injEq, Prod.mk.injEq] at h
      rw [← h.1]; exact ⟨rfl, rfl⟩
  · generalize hrows : collectObjects abi p11 _ _ _ _ state _ = rows
    have hco := collectObjects_slots abi p11 _ _ _ _ state _ _ hrows
    cases rows with
    | error e1 =>
      constructor
      · intro e h; injection h with h; subst h; exact hco.1 _ rfl
      · intro s1 w1 h; cases h
    | ok p =>
      obtain ⟨s6, w6⟩ := p
      constructor
      · intro e h; cases h
      · intro s1 w1 h
        simp only [Except.ok.injEq, Prod.mk.injEq] at h
        rw [← h.1]; exact hco.2 _ _ rfl

theorem fit_length (n : Nat) (s : List Nat) : (fit n s).length = n := by
  simp [fit]

theorem collectSlots_slots {σ : Type} (abi : Abi) (p11 : CK_FUNCTION_LIST σ) :
    ∀ (indices : List Nat) (state : P11EnumKeysState) (w : World σ),
    (∀ i ∈ indices, i < state.slots.length) →
    (∀ e, collectSlots abi p11 indices state w = .error e → e ≠ Fault.slotListOverread) ∧
    (∀ s1 w1, collectSlots abi p11 indices state w = .ok (s1, w1) →
      s1.nslots = state.nslots ∧ s1.slots = state.slots) := by
  intro indices
  induction indices with
  | nil =>
    intro state w _
    constructor
    · intro e h; simp [collectSlots] at h
    · intro s1 w1 h
      simp only [collectSlots, Except.ok.injEq, Prod.mk.injEq] at h
      rw [← h.1]; exact ⟨rfl, rfl⟩
  | cons i rest ih =>
    intro state w hidx
    have hi : i < state.slots.length := hidx i (by simp)
    have hslot := collectSlot_slots abi p11 i state w hi
    rw [collectSlots]
    cases hc : collectSlot abi p11 i state w with
    | error e1 =>
      constructor
      · intro e h; injection h with h; subst h; exact hslot.1 _ hc
      · intro s1 w1 h; cases h
    | ok p =>
      obtain ⟨s2, w2⟩ := p
      obtain ⟨hn, hs⟩ := hslot.2 s2 w2 hc
      have hrest := ih s2 w2 (fun j hj => by rw [hs]; exact hidx j (by simp [hj]))
      dsimp only
      constructor
      · exact hrest.1
      · intro s1 w1 h
        obtain ⟨h1, h2⟩ := hrest.2 s1 w1 h
        exact ⟨h1.trans hn, h2.trans hs⟩

theorem collect_keys_slots {σ : Type} (abi : Abi) (p11 : CK_FUNCTION_LIST σ)
    (state : P11EnumKeysState) (w : World σ) (hn : state.nslots ≤ state.slots.length) :
    (∀ e, collect_keys abi p11 state w = .error e → e ≠ Fault.slotListOverread) ∧
    (∀ ret s1 w1, collect_keys abi p11 state w = .ok (ret, s1, w1) →
      ret = .ERROR_SUCCESS ∧ s1.nslots = state.nslots ∧ s1.slots = state.slots) := by
  have h := collectSlots_slots abi p11 (List.range state.nslots) { state with nKeys := 0 } w
    (fun i hi => by
      have : i < state.nslots := List.mem_range.mp hi
      show i < state.slots.length
      omega)
  unfold collect_keys
  cases hc : collectSlots abi p11 (List.range state.nslots) { state with nKeys := 0 } w with
  | error e1 =>
    constructor
    · intro e he; injection he with he; subst he; exact h.1 _ hc
    · intro ret s1 w1 he; cases he
  | ok p =>
    obtain ⟨s2, w2⟩ := p
    dsimp only
    constructor
    · intro e he; cases he
    · intro ret s1 w1 he
      simp only [Except.ok.injEq, Prod.mk.injEq] at he
      obtain ⟨h1, h2, _⟩ := he
      obtain ⟨h3, h4⟩ := h.2 s2 w2 hc
      rw [← h1, ← h2]
      exact ⟨rfl, h3, h4⟩

theorem fetchSlotList_ok {σ : Type} (p11 : CK_FUNCTION_LIST σ) (w w2 : World σ)
    (st : P11EnumKeysState) (hconf : SlotListWithinCapacity p11)
    (h : fetchSlotList p11 w = (.ok st, w2)) :
    st.nslots ≤ MAX_SLOTS ∧ st.slots.length = MAX_SLOTS := by
  unfold fetchSlotList at h
  dsimp only at h
  split_ifs at h with h1 h2 h3 h4 h5
  · simp only [Prod.mk.injEq, reduceCtorEq, false_and] at h
  · simp only [Prod.mk.injEq, reduceCtorEq, false_and] at h
  · simp only [Prod.mk.injEq, reduceCtorEq, false_and] at h
  · simp only [Prod.mk.injEq, Except.ok.injEq] at h
    rw [← h.1]
    simp only [not_not] at h4
    exact ⟨hconf true _ _ h4, fit_length _ _⟩
  · simp only [Prod.mk.injEq, reduceCtorEq, false_and] at h
  · simp only [Prod.mk.injEq, Except.ok.injEq] at h
    rw [← h.1]
    simp only [not_not] at h5
    simp only [gt_iff_lt, not_lt] at h3
    exact ⟨le_trans (hconf true _ _ h5) h3, fit_length _ _⟩

theorem buildEnumState_slots {σ : Type} (abi : Abi) (p11 : CK_FUNCTION_LIST σ) (w : World σ)
    (hconf : SlotListWithinCapacity p11) :
    (∀ e, buildEnumState abi p11 w = .error e → e ≠ Fault.slotListOverread) ∧
    (∀ st w1, buildEnumState abi p11 w = .ok (.ok st, w1) → st.nslots ≤ MAX_SLOTS) := by
  unfold buildEnumState
  cases hf : fetchSlotList p11 w with
  | mk res w2 =>
    cases res with
    | error ret =>
      dsimp only
      constructor
      · intro e h; cases h
      · intro st w1 h; simp at h
    | ok st0 =>
      obtain ⟨hn, hl⟩ := fetchSlotList_ok p11 w w2 st0 hconf hf
      have hck := collect_keys_slots abi p11 st0 w2 (by rw [hl]; exact hn)
      dsimp only
      cases hc : collect_keys abi p11 st0 w2 with
      | error e1 =>
        dsimp only
        constructor
        · intro e h; injection h with h; subst h; exact hck.1 _ hc
        · intro st w1 h; cases h
      | ok p =>
        obtain ⟨ret, st1, w3⟩ := p
        obtain ⟨hr, hn1, _⟩ := hck.2 ret st1 w3 hc
        subst hr
        dsimp only
        constructor
        · intro e h; simp at h
        · intro st w1 h
          simp only [ne_eq, not_true_eq_false, if_false, Except.ok.injEq, Prod.mk.injEq] at h
          rw [← h.1, hn1]
          exact hn

theorem enumKeys_slot_cap {σ : Type} (abi : Abi) (p11 : CK_FUNCTION_LIST σ)
    (hconf : SlotListWithinCapacity p11) (checkNCryptHandle : SECURITY_STATUS)
    (pszScope : Option (List Nat)) (ppKeyName : Option NCryptKeyName) (w : World σ) :
    NCryptP11EnumKeys abi p11 checkNCryptHandle pszScope ppKeyName none w
        ≠ .error Fault.slotListOverread ∧
      ∀ r st, NCryptP11EnumKeys abi p11 checkNCryptHandle pszScope ppKeyName none w = .ok r →
        r.ppEnumState = some st → st.nslots ≤ MAX_SLOTS := by
  unfold NCryptP11EnumKeys
  by_cases hchk : checkNCryptHandle ≠ .ERROR_SUCCESS
  · rw [if_pos hchk]
    constructor
    · intro h; cases h
    · intro r st h hs
      injection h with h
      subst h
      cases hs
  · rw [if_neg hchk]
    dsimp only
    generalize (match pszScope with
      | none => (Except.ok none : Except SECURITY_STATUS (Option SlotFilter))
      | some s => Except.map some (parseScope abi s)) = scope
    cases scope with
    | error ret =>
      dsimp only
      constructor
      · intro h; cases h
      · intro r st h hs
        injection h with h
        subst h
        cases hs
    | ok f =>
      dsimp only
      have hb := buildEnumState_slots abi p11 w hconf
      cases hbuild : buildEnumState abi p11 w with
      | error e1 =>
        dsimp only
        constructor
        · intro h; injection h with h; exact hb.1 _ hbuild h
        · intro r st h hs; cases h
      | ok p =>
        obtain ⟨res, w1⟩ := p
        cases res with
        | error ret =>
          dsimp only
          constructor
          · intro h; cases h
          · intro r st h hs
            injection h with h
            subst h
            cases hs
        | ok state =>
          dsimp only
          have hcap := hb.2 state w1 hbuild
          constructor
          · intro h
            exact enumKeysLoop_fault abi p11 f _ _ _ _ _ _ _ h rfl
          · intro r st h hs
            have hstep := enumKeysLoop_step abi p11 f _ _ _ _ _ _ r h
            rcases hstep with ⟨_, _, h3⟩ | ⟨_, i, key, name, _, _, _, _, _, _, h3⟩
            · rw [h3] at hs
              injection hs with hs
              rw [← hs]
              exact hcap
            · rw [h3] at hs
              injection hs with hs
              rw [← hs]
              exact hcap

theorem calloc_token {σ : Type} (w : World σ) : w.calloc.2.token = w.token := by
  unfold World.calloc; split <;> rfl

theorem calloc_trace {σ : Type} (w : World σ) : w.calloc.2.trace = w.trace := by
  unfold World.calloc; split <;> rfl

/-! ## The scope string -/

theorem strstr_zero : ∀ (s p : List Nat), strstr s p = some 0 → p.isPrefixOf s = true
  | [], p, h => by
    simp only [strstr] at h
    split_ifs at h with hp
    subst hp
    rfl
  | c :: s, p, h => by
    simp only [strstr] at h
    split_ifs at h with hp
    · exact hp
    · cases hs : strstr s p with
      | none => rw [hs] at h; cases h
      | some i => rw [hs] at h; simp at h

theorem strstr_of_isPrefixOf : ∀ (s p : List Nat), p.isPrefixOf s = true → strstr s p = some 0
  | [], p, h => by
    cases p with
    | nil => rfl
    | cons a p => simp [List.isPrefixOf] at h
  | c :: s, p, h => by simp [strstr, h]

theorem fit_eq_append (n : Nat) (s : List Nat) (h : s.length ≤ n) :
    fit n s = s ++ List.replicate (n - s.length) 0 := by
  unfold fit
  rw [List.take_append_eq_append_take, List.take_of_length_le h, List.take_replicate]
  congr 2
  omega

theorem strnlen_fit (n : Nat) (s : List Nat) (h : s.length ≤ n) (h0 : ∀ c ∈ s, c ≠ 0) :
    strnlen (fit n s) n = s.length := by
  unfold strnlen
  rw [List.take_of_length_le (by rw [fit_length]), fit_eq_append n s h, cstr_append_zeros s _ h0]

theorem parseScope_invalid (abi : Abi) (pszScope : List Nat)
    (h : ¬ ([92, 92, 46, 92] <+: cstr pszScope) ∨ (cstr pszScope).getLast? ≠ some 92) :
    parseScope abi pszScope = .error .NTE_INVALID_PARAMETER := by
  unfold parseScope ConvertWCharToUtf8
  have h0 := cstr_nonzero pszScope
  generalize cstr pszScope = t at h h0
  by_cases hfit : t.length + 1 ≤ 134
  · rw [if_pos hfit]
    dsimp only
    by_cases hs : strstr t [92, 92, 46, 92] ≠ some 0
    · rw [if_pos hs]
    · rw [if_neg hs]
      simp only [ne_eq, not_not] at hs
      have hpre : [92, 92, 46, 92] <+: t := List.isPrefixOf_iff_prefix.mp (strstr_zero _ _ hs)
      have hlast : t.getLast? ≠ some 92 := by
        rcases h with h | h
        · exact absurd hpre h
        · exact h
      have hlen : strnlen (fit 135 t) 135 = t.length := strnlen_fit 135 t (by omega) h0
      rw [hlen]
      have hne : t ≠ [] := by
        intro he; subst he; simp at hpre
      have hpos : 0 < t.length := List.length_pos.mpr hne
      have hget : (fit 135 t)[t.length - 1]? = t.getLast? := by
        rw [fit_eq_append 135 t (by omega), List.getElem?_append_left (by omega),
          List.getLast?_eq_getElem?]
      rw [hget]
      have hc : t.length < 1 ∨ t.getLast? ≠ some 92 := Or.inr hlast
      rw [if_pos hc]
  · rw [if_neg hfit]

theorem scopeOf_length (reader : List Nat) : (scopeOf reader).length = reader.length + 5 := by
  simp [scopeOf]

theorem parseScope_scopeOf (abi : Abi) (hp : 0 < abi.sizeofPointer) (reader : List Nat)
    (h0 : ∀ c ∈ reader, c ≠ 0) (f : SlotFilter)
    (h : parseScope abi (scopeOf reader) = .ok f) :
    f.buffer = fit 65 reader ∧ f.len = reader.length := by
  have hz : ∀ c ∈ scopeOf reader, c ≠ 0 := by
    intro c hc
    simp only [scopeOf, List.mem_append, List.mem_cons, List.mem_singleton,
      List.not_mem_nil, or_false] at hc
    rcases hc with (hc | hc) | hc
    · rcases hc with rfl | rfl | rfl | rfl <;> omega
    · exact h0 c hc
    · omega
  have hcs : cstr (scopeOf reader) = scopeOf reader := cstr_of_nonzero _ hz
  have hl := scopeOf_length reader
  unfold parseScope ConvertWCharToUtf8 at h
  rw [hcs] at h
  by_cases hfit : (scopeOf reader).length + 1 ≤ 134
  · rw [if_pos hfit] at h
    dsimp only at h
    have hlen : strnlen (fit 135 (scopeOf reader)) 135 = (scopeOf reader).length :=
      strnlen_fit 135 _ (by omega) hz
    rw [hlen] at h
    split_ifs at h with h1 h2
    simp only [Except.ok.injEq] at h
    rw [← h]
    dsimp only
    constructor
    · congr 1
      rw [fit_eq_append 135 _ (by omega), hl]
      have e1 : (scopeOf reader ++ List.replicate (135 - (reader.length + 5)) 0).set
            (reader.length + 5 - 1) 0
          = [92, 92, 46, 92] ++ (reader ++ List.replicate (135 - (reader.length + 4)) 0) := by
        have hk : 135 - (reader.length + 4) = (135 - (reader.length + 5)) + 1 := by omega
        rw [hk, List.replicate_succ]
        simp only [scopeOf, List.append_assoc, List.singleton_append]
        rw [List.set_append_right _ _ (by simp), List.set_append_right _ _ (by simp)]
        have hidx : reader.length + 5 - 1 - [92, 92, 46, 92].length - reader.length = 0 := by
          simp
        rw [hidx]
        rfl
      rw [e1, List.drop_left' (by rfl)]
      exact cstr_append_zeros reader _ h0
    · rw [hl]
      have hpow : 256 ≤ 256 ^ abi.sizeofPointer := by
        calc 256 = 256 ^ 1 := by norm_num
          _ ≤ 256 ^ abi.sizeofPointer := Nat.pow_le_pow_right (by norm_num) hp
      have e2 : reader.length + 5 + 256 ^ abi.sizeofPointer - 5
          = reader.length + 256 ^ abi.sizeofPointer := by omega
      rw [e2, Nat.add_mod_right, Nat.mod_eq_of_lt (by omega)]
  · rw [if_neg hfit] at h
    cases h

theorem buildEnumState_status {σ : Type} (abi : Abi) (p11 : CK_FUNCTION_LIST σ) (w w1 : World σ)
    (ret : SECURITY_STATUS) (h : buildEnumState abi p11 w = .ok (.error ret, w1)) :
    ret ≠ .ERROR_SUCCESS := by
  unfold buildEnumState at h
  cases hf : fetchSlotList p11 w with
  | mk res w2 =>
    rw [hf] at h
    cases res with
    | error ret0 =>
      simp only [Except.ok.injEq, Prod.mk.injEq, Except.error.injEq] at h
      rw [← h.1]
      unfold fetchSlotList at hf
      dsimp only at hf
      split_ifs at hf <;> simp only [Prod.mk.injEq, Except.error.injEq, reduceCtorEq,
        false_and] at hf <;> rw [← hf.1] <;> decide
    | ok st0 =>
      dsimp only at h
      cases hc : collect_keys abi p11 st0 w2 with
      | error e1 => rw [hc] at h; cases h
      | ok p =>
        obtain ⟨ret1, st1, w3⟩ := p
        rw [hc] at h
        dsimp only at h
        split_ifs at h with hr
        · simp only [Except.ok.injEq, Prod.mk.injEq, Except.error.injEq] at h
          rw [← h.1]; exact hr
        · simp at h

theorem printHexBytes_overrun : ∀ (bs t : List Nat) (k : Nat), bs ≠ [] → k < 2 * bs.length + 1 →
    printHexBytes bs (t ++ List.replicate k 0) t.length = .error Fault.asciiNameOverrun
  | [], _, _, h, _ => absurd rfl h
  | b :: bs, t, k, _, hk => by
    rw [printHexBytes]
    by_cases h3 : 3 ≤ k
    · rw [store_snprintf t k b h3]
      dsimp only
      have hptr : t.length + 2 = (t ++ hex2 b).length := by simp [hex2]
      have hne : bs ≠ [] := by
        intro he
        subst he
        simp at hk
        omega
      rw [hptr]
      exact printHexBytes_overrun bs (t ++ hex2 b) (k - 2) hne (by simp at hk; omega)
    · have : store (t ++ List.replicate k 0) t.length (snprintf_02x b) = none := by
        unfold store
        rw [if_neg]
        simp [snprintf_02x]
        omega
      rw [this]

/-- The encoder stores past `asciiName[128]` as soon as text and terminator
need more than 128 bytes. -/
theorem wprintKeyName_overrun (abi : Abi) (slotId : Nat) (id : List Nat) (idLen : Nat)
    (hsz : 2 * abi.sizeofSlotId + 3 ≤ 128) (hpos : 0 < idLen) (hlen : idLen ≤ id.length)
    (hbig : 128 < 2 * abi.sizeofSlotId + 2 * idLen + 3) :
    wprintKeyName abi slotId id idLen = .error Fault.asciiNameOverrun := by
  have hs := objectBytes_length abi slotId
  have hi : (id.take idLen).length = idLen := by simp [hlen]
  have hf := flatMap_hex2_length (objectBytes abi slotId)
  have s1 : store (List.replicate 128 0) 0 [92] = some ([92] ++ List.replicate 127 0) := by
    have := store_after_text [] [92] 128 (by simp)
    simpa using this
  have s2 := printHexBytes_text (objectBytes abi slotId) [92] 127 (Or.inr (by omega))
  have s3 := store_after_text ([92] ++ (objectBytes abi slotId).flatMap hex2) [92]
    (127 - 2 * (objectBytes abi slotId).length) (by simp; omega)
  have hne : id.take idLen ≠ [] := by
    intro he
    rw [he] at hi
    simp at hi
    omega
  have s4 := printHexBytes_overrun (id.take idLen)
    ([92] ++ (objectBytes abi slotId).flatMap hex2 ++ [92])
    (127 - 2 * (objectBytes abi slotId).length - 1) hne (by rw [hi, hs]; omega)
  have hp2 : ([92] : List Nat).length + 2 * (objectBytes abi slotId).length
      = ([92] ++ (objectBytes abi slotId).flatMap hex2).length := by
    simp only [List.length_append, hf]
  have hp3 : ([92] ++ (objectBytes abi slotId).flatMap hex2).length + 1
      = ([92] ++ (objectBytes abi slotId).flatMap hex2 ++ [92]).length := by
    simp only [List.length_append, List.length_singleton]
  simp only [List.length_singleton] at s3
  have s2b : printHexBytes (objectBytes abi slotId) ([92] ++ List.replicate 127 0) 1 = _ := s2
  unfold wprintKeyName
  simp only [s1]
  rw [s2b]
  simp only [hp2, s3, readId, hlen, if_true]
  rw [hp3, s4]

theorem parseScope_error (abi : Abi) (pszScope : List Nat) (e : SECURITY_STATUS)
    (h : parseScope abi pszScope = .error e) : e = .NTE_INVALID_PARAMETER := by
  unfold parseScope at h
  dsimp only at h
  repeat' split at h
  all_goals first
    | (injection h with h; exact h.symm)
    | cases h

theorem scopeFilter_cases (abi : Abi) (pszScope : Option (List Nat))
    (sc : Except SECURITY_STATUS (Option SlotFilter))
    (hsc : (match pszScope with
      | none => (Except.ok none : Except SECURITY_STATUS (Option SlotFilter))
      | some s => Except.map some (parseScope abi s)) = sc) :
    (∀ e, sc = .error e → e ≠ .ERROR_SUCCESS) ∧
    (∀ f, sc = .ok f →
      (pszScope = none ∧ f = none ∨
        ∃ s g, pszScope = some s ∧ parseScope abi s = .ok g ∧ f = some g)) := by
  cases pszScope with
  | none =>
    dsimp only at hsc
    subst hsc
    constructor
    · intro e he; cases he
    · intro f hf; injection hf with hf; exact Or.inl ⟨rfl, hf.symm⟩
  | some s =>
    dsimp only at hsc
    cases hp : parseScope abi s with
    | error e1 =>
      rw [hp] at hsc
      subst hsc
      constructor
      · intro e he
        simp only [Except.map, Except.error.injEq] at he
        rw [← he, parseScope_error abi s e1 hp]
        decide
      · intro f hf; simp [Except.map] at hf
    | ok g =>
      rw [hp] at hsc
      subst hsc
      constructor
      · intro e he; simp [Except.map] at he
      · intro f hf
        simp only [Except.map, Except.ok.injEq] at hf
        exact Or.inr ⟨s, g, rfl, hp, hf.symm⟩

/-- A call that returns leaves either a status other than success with the
caller's cells as they were, or the outcome of an iteration over a state: the
caller's state, or the state the call built. -/
theorem enumKeys_ok_cases {σ : Type} (abi : Abi) (p11 : CK_FUNCTION_LIST σ)
    (checkNCryptHandle : SECURITY_STATUS) (pszScope : Option (List Nat))
    (ppKeyName : Option NCryptKeyName) (ppEnumState : Option P11EnumKeysState) (w : World σ)
    (r : EnumKeysResult σ)
    (h : NCryptP11EnumKeys abi p11 checkNCryptHandle pszScope ppKeyName ppEnumState w = .ok r) :
    (r.status ≠ .ERROR_SUCCESS ∧ r.ppKeyName = ppKeyName ∧ r.ppEnumState = ppEnumState) ∨
    ∃ f state,
      (pszScope = none ∧ f = none ∨ ∃ s g, pszScope = some s ∧ parseScope abi s = .ok g ∧ f = some g) ∧
      (ppEnumState = some state ∨
        ppEnumState = none ∧ ∃ w1, buildEnumState abi p11 w = .ok (.ok state, w1)) ∧
      IterationStep abi f state (state.nKeys - state.keyIndex) ppKeyName r.status r.ppKeyName
        r.ppEnumState := by
  unfold NCryptP11EnumKeys at h
  by_cases hchk : checkNCryptHandle ≠ .ERROR_SUCCESS
  · rw [if_pos hchk] at h
    injection h with h
    subst h
    exact Or.inl ⟨hchk, rfl, rfl⟩
  · rw [if_neg hchk] at h
    dsimp only at h
    generalize hsc : (match pszScope with
      | none => (Except.ok none : Except SECURITY_STATUS (Option SlotFilter))
      | some s => Except.map some (parseScope abi s)) = scope at h
    obtain ⟨hse, hso⟩ := scopeFilter_cases abi pszScope scope hsc
    cases scope with
    | error ret =>
      dsimp only at h
      injection h with h
      subst h
      exact Or.inl ⟨hse ret rfl, rfl, rfl⟩
    | ok f =>
      dsimp only at h
      cases ppEnumState with
      | some state =>
        dsimp only at h
        exact Or.inr ⟨f, state, hso f rfl, Or.inl rfl, enumKeysLoop_step abi p11 f _ _ _ _ _ _ r h⟩
      | none =>
        dsimp only at h
        cases hbuild : buildEnumState abi p11 w with
        | error e1 => rw [hbuild] at h; cases h
        | ok p =>
          obtain ⟨res, w1⟩ := p
          rw [hbuild] at h
          cases res with
          | error ret =>
            dsimp only at h
            injection h with h
            subst h
            exact Or.inl ⟨buildEnumState_status abi p11 w w1 ret hbuild, rfl, rfl⟩
          | ok state =>
            dsimp only at h
            exact Or.inr ⟨f, state, hso f rfl, Or.inr ⟨rfl, w1, rfl⟩,
              enumKeysLoop_step abi p11 f _ _ _ _ _ _ r h⟩

theorem fit_take (n : Nat) (s : List Nat) (h : s.length ≤ n) : (fit n s).take s.length = s := by
  rw [fit_eq_append n s h]
  simp

/-! ## The claims C1 to C10 -/

set_option maxRecDepth 100000

/-- C1 (failing input). On an LP64 target the round trip breaks at a 55-byte
key identifier: `wprintKeyName` stores past its `asciiName[128]`; and the name
the specification's format gives for this key has 128 characters, which
`parseKeyName` refuses with `NTE_BAD_KEY` because the name and its terminator
do not fit `asciiKeyName[128]`. -/
theorem keyName_roundtrip_breaks_at_55_bytes :
    wprintKeyName lp64 0 (List.replicate 64 0) 55 = .error Fault.asciiNameOverrun ∧
    (specKeyName lp64 0 (List.replicate 55 0)).length = 128 ∧
    parseKeyName lp64 (specKeyName lp64 0 (List.replicate 55 0)) = .error .NTE_BAD_KEY := by
  decide

/-- C2. `parseKeyName` returns `NTE_BAD_KEY` for every key name whose text is
malformed in one of the listed ways: no leading backslash, no second
backslash, a non-hex character in the slot-id or in the key-id segment, a
slot-id segment whose length is not `2 * sizeof(CK_SLOT_ID)`, or an empty
key-id segment. -/
theorem parseKeyName_rejects_malformed (abi : Abi) (hsz : 0 < abi.sizeofSlotId)
    (pszKeyName : List Nat) (hm : Malformed abi (cstr pszKeyName)) :
    parseKeyName abi pszKeyName = .error .NTE_BAD_KEY := by
  generalize ht : cstr pszKeyName = t at hm
  cases hm with
  | noLeadingBackslash _ h =>
    unfold parseKeyName ConvertWCharToUtf8
    rw [ht]
    split_ifs
    · cases t with
      | nil => rfl
      | cons c tail =>
        have hc : c ≠ 92 := by simpa using h
        simp [hc]
    · rfl
  | noSecondBackslash u h =>
    unfold parseKeyName ConvertWCharToUtf8
    rw [ht]
    split_ifs
    · simp [strchr_eq_none 92 u h]
    · rfl
  | slotSegmentNotHex a b ha hx =>
    rw [parseKeyName_shape abi pszKeyName a b ht ha]
    have h0 : (parseHex a).1 = 0 := by
      by_contra hne
      obtain ⟨c, hc, hnot⟩ := hx
      exact hnot ((parseHex_ne_zero a hne).1 c hc)
    have : (parseHex a).1 ≠ abi.sizeofSlotId := by omega
    split_ifs <;> rfl
  | slotSegmentLength a b ha hl =>
    rw [parseKeyName_shape abi pszKeyName a b ht ha]
    by_cases hp : (parseHex a).1 = abi.sizeofSlotId
    · have hne : (parseHex a).1 ≠ 0 := by omega
      have := (parseHex_ne_zero a hne).2
      rw [hp] at this
      exact absurd this hl
    · split_ifs <;> rfl
  | keySegmentNotHex a b ha hx =>
    rw [parseKeyName_shape abi pszKeyName a b ht ha]
    have h0 : (parseHex b).1 = 0 := by
      by_contra hne
      obtain ⟨c, hc, hnot⟩ := hx
      exact hnot ((parseHex_ne_zero b hne).1 c hc)
    split_ifs <;> rfl
  | keySegmentEmpty a ha =>
    rw [parseKeyName_shape abi pszKeyName a [] ht ha]
    have h0 : (parseHex []).1 = 0 := rfl
    split_ifs <;> rfl

/-- Witness for C2: a name with the characters `zz` in its slot-id segment. -/
theorem parseKeyName_rejects_malformed_witness :
    0 < lp64.sizeofSlotId ∧
    Malformed lp64 (cstr (ofString "\\00zz000000000000\\ab")) ∧
    parseKeyName lp64 (ofString "\\00zz000000000000\\ab") = .error .NTE_BAD_KEY :=
  have hm : Malformed lp64 (cstr (ofString "\\00zz000000000000\\ab")) :=
    Malformed.slotSegmentNotHex (ofString "00zz000000000000") (ofString "ab") (by decide)
      ⟨122, by decide, by unfold IsHexChar; omega⟩
  ⟨by decide, hm, parseKeyName_rejects_malformed lp64 (by decide) _ hm⟩

/-- C3 (counterexample). On a little-endian target the slot id 1 is rendered
`0100000000000000`, least significant byte first, while the format of the
specification, most significant byte first, is `0000000000000001`. -/
theorem wprintKeyName_not_msb_first :
    wprintKeyName lp64 1 [171] 1 = .ok (ofString "\\0100000000000000\\ab") ∧
    specKeyName lp64 1 [171] = ofString "\\0000000000000001\\ab" ∧
    wprintKeyName lp64 1 [171] 1 ≠ .ok (specKeyName lp64 1 [171]) := by
  decide

/-- C3 (amended). Whenever the text and its terminator fit the 128-byte
working array, `wprintKeyName` produces a backslash, the bytes of the slot id
in the order they lie in memory as two lowercase hex digits each, a backslash,
and the identifier bytes in order as two lowercase hex digits each, and
nothing else; the text has `2 + 2 * sizeof(CK_SLOT_ID) + 2 * idLen`
characters, and on a big-endian target it is the format of the specification. -/
theorem wprintKeyName_format (abi : Abi) (slotId : Nat) (id : List Nat) (idLen : Nat)
    (hfit : 2 * abi.sizeofSlotId + 2 * idLen + 3 ≤ 128) (hlen : idLen ≤ id.length) :
    wprintKeyName abi slotId id idLen
        = .ok (keyNameFormat (objectBytes abi slotId) (id.take idLen)) ∧
    (keyNameFormat (objectBytes abi slotId) (id.take idLen)).length
        = 2 + 2 * abi.sizeofSlotId + 2 * idLen ∧
    (abi.bigEndian = true →
      wprintKeyName abi slotId id idLen = .ok (specKeyName abi slotId (id.take idLen))) := by
  have h := wprintKeyName_eq abi slotId id idLen hfit hlen
  refine ⟨h, ?_, ?_⟩
  · rw [keyNameFormat_length, objectBytes_length]
    simp [hlen]
  · intro hbe
    rw [h]
    simp [specKeyName, msbFirstBytes, objectBytes, hbe]

/-- Witness for C3 (amended): slot id 258 and a three-byte identifier on LP64. -/
theorem wprintKeyName_format_witness :
    2 * lp64.sizeofSlotId + 2 * 3 + 3 ≤ 128 ∧ 3 ≤ [1, 35, 255].length ∧
    wprintKeyName lp64 258 [1, 35, 255] 3 = .ok (ofString "\\0201000000000000\\0123ff") :=
  ⟨by decide, by decide,
    (wprintKeyName_format lp64 258 [1, 35, 255] 3 (by decide) (by decide)).1.trans (by decide)⟩

/-- C4. `NCryptP11OpenKey` returns `ERROR_SUCCESS` exactly when the name
decodes and the handle can be allocated; the handle then holds the given
provider, the decoded slot id, the decoded identifier array and its length.
When the name does not decode, the status is `NTE_BAD_KEY`, and the caller's
handle cell and the world (so the calls made on the token module) are as
before. In every case the trace of token-module calls is unchanged. -/
theorem openKey_contract {σ : Type} (abi : Abi) (hProvider : Nat)
    (phKey : Option NCryptP11KeyHandle) (pszKeyName : List Nat) (w : World σ) :
    ((NCryptP11OpenKey abi hProvider phKey pszKeyName w).1 = .ERROR_SUCCESS ↔
      (∃ p, parseKeyName abi pszKeyName = .ok p) ∧ w.calloc.1 = true) ∧
    (∀ p, parseKeyName abi pszKeyName = .ok p → w.calloc.1 = true →
      NCryptP11OpenKey abi hProvider phKey pszKeyName w
        = (.ERROR_SUCCESS,
            some { provider := hProvider, slotId := p.slotId, keyCertId := p.id,
                   keyCertIdLen := p.idLen },
            w.calloc.2)) ∧
    ((∀ p, parseKeyName abi pszKeyName ≠ .ok p) →
      NCryptP11OpenKey abi hProvider phKey pszKeyName w = (.NTE_BAD_KEY, phKey, w)) ∧
    (NCryptP11OpenKey abi hProvider phKey pszKeyName w).2.2.trace = w.trace := by
  unfold NCryptP11OpenKey
  cases hp : parseKeyName abi pszKeyName with
  | error e =>
    have he := parseKeyName_error abi pszKeyName e hp
    subst he
    dsimp only
    refine ⟨?_, ?_, ?_, rfl⟩
    · constructor
      · intro h; cases h
      · rintro ⟨⟨p, h⟩, _⟩; cases h
    · intro p h; cases h
    · intro _; rfl
  | ok parsed =>
    dsimp only
    by_cases hc : w.calloc.1 = false
    · rw [if_pos hc]
      refine ⟨?_, ?_, ?_, calloc_trace w⟩
      · constructor
        · intro h; cases h
        · rintro ⟨_, h⟩; rw [hc] at h; cases h
      · intro p _ h; rw [hc] at h; cases h
      · intro h; exact absurd rfl (h parsed)
    · rw [if_neg hc]
      have hc1 : w.calloc.1 = true := by simpa using hc
      refine ⟨?_, ?_, ?_, calloc_trace w⟩
      · constructor
        · intro _; exact ⟨⟨parsed, rfl⟩, hc1⟩
        · intro _; rfl
      · intro p h _
        injection h with h
        subst h
        rfl
      · intro h; exact absurd rfl (h parsed)

/-- Witness for C4: opening the key named `\0100000000000000\abcd`. -/
theorem openKey_contract_witness :
    NCryptP11OpenKey lp64 7 none (ofString "\\0100000000000000\\abcd") (World.init ())
      = (.ERROR_SUCCESS,
          some { provider := 7, slotId := 1, keyCertId := fit 64 [171, 205],
                 keyCertIdLen := 2 },
          World.init ()) :=
  (openKey_contract lp64 7 none (ofString "\\0100000000000000\\abcd") (World.init ())).2.1
    { slotId := 1, id := fit 64 [171, 205], idLen := 2 } (by decide) (by decide)

/-- C5 (failing input). A token module with one slot holding one public key
whose identifier has 64 bytes (what the `id` field of a row holds), with a
matching certificate: the first call of `NCryptP11EnumKeys` builds the table,
finds the certificate of row 0 and then stores past `asciiName[128]` in
`wprintKeyName` instead of handing back the key with its encoded name; the
encoded name of that row would have 146 characters. -/
theorem enumKeys_overruns_name_buffer :
    NCryptP11EnumKeys lp64 (tableModule [] 1 1 64) .ERROR_SUCCESS none none none (World.init ())
      = .error Fault.asciiNameOverrun ∧
    (keyNameFormat (objectBytes lp64 1) (List.replicate 64 1)).length = 146 := by
  decide

/-- C6 (counterexample). With the scope `\\.\ReaderA\` a call hands back the
key of a row whose reader description is `ReaderA2`. -/
theorem enumKeys_returns_key_of_longer_reader :
    (keyReturned (NCryptP11EnumKeys lp64 (tableModule (ofString "ReaderA2") 1 1 1)
        .ERROR_SUCCESS (some (scopeOf (ofString "ReaderA"))) none none (World.init ()))).map
      (fun key => cstr key.slotInfo.slotDescription) = some (ofString "ReaderA2") ∧
    scopeOf (ofString "ReaderA") = ofString "\\\\.\\ReaderA\\" ∧
    ofString "ReaderA2" ≠ ofString "ReaderA" := by
  decide

/-- C6 (amended). For a scope `\\.\<reader>\`, every key a call hands back
comes from a table row whose slot description starts with `<reader>`: its
first `length <reader>` bytes are `<reader>`, byte for byte. -/
theorem enumKeys_reader_filter {σ : Type} (abi : Abi) (hp : 0 < abi.sizeofPointer)
    (p11 : CK_FUNCTION_LIST σ) (checkNCryptHandle : SECURITY_STATUS) (reader : List Nat)
    (h0 : ∀ c ∈ reader, c ≠ 0) (ppKeyName : Option NCryptKeyName)
    (ppEnumState : Option P11EnumKeysState) (w : World σ) (key : NCryptKeyEnum)
    (h : keyReturned (NCryptP11EnumKeys abi p11 checkNCryptHandle (some (scopeOf reader))
      ppKeyName ppEnumState w) = some key) :
    key.slotInfo.slotDescription.take reader.length = reader := by
  unfold keyReturned at h
  cases hr : NCryptP11EnumKeys abi p11 checkNCryptHandle (some (scopeOf reader)) ppKeyName
      ppEnumState w with
  | error e => rw [hr] at h; cases h
  | ok r =>
    rw [hr] at h
    dsimp only at h
    split_ifs at h with hs
    rcases enumKeys_ok_cases abi p11 _ _ _ _ _ r hr with ⟨hne, _, _⟩ | ⟨f, state, hf, _, hstep⟩
    · exact absurd hs hne
    · rcases hstep with ⟨h1, _, _⟩ | ⟨_, i, key1, name, _, _, hk, hm, _, _, hst⟩
      · rw [hs] at h1; cases h1
      · have hkey : key1 = key := by
          unfold returnedRow at h
          rw [hst] at h
          simp only [Nat.add_one_ne_zero, if_false, Nat.add_sub_cancel] at h
          rw [hk] at h
          injection h
        subst hkey
        rcases hf with ⟨hn, _⟩ | ⟨s, g, hsome, hg, hfg⟩
        · cases hn
        · have hsc := Option.some.inj hsome
          subst hsc
          obtain ⟨hb, hl⟩ := parseScope_scopeOf abi hp reader h0 g hg
          subst hfg
          unfold filterMismatch memcmpEq at hm
          dsimp only at hm
          rw [hb, hl] at hm
          split_ifs at hm with hc
          simp only [Except.ok.injEq, Bool.not_eq_false', decide_eq_true_eq] at hm
          have h65 : reader.length ≤ 65 := by
            have := hc.2
            rw [fit_length] at this
            exact this
          rw [hm, fit_take 65 reader h65]

/-- Witness for C6 (amended): the scope `\\.\ReaderA\` on a module whose
reader is described as `ReaderA2`. -/
theorem enumKeys_reader_filter_witness :
    0 < lp64.sizeofPointer ∧ (∀ c ∈ ofString "ReaderA", c ≠ 0) ∧
    keyReturned (NCryptP11EnumKeys lp64 (tableModule (ofString "ReaderA2") 1 1 1)
      .ERROR_SUCCESS (some (scopeOf (ofString "ReaderA"))) none none (World.init ()))
        = some witnessRow ∧
    witnessRow.slotInfo.slotDescription.take (ofString "ReaderA").length = ofString "ReaderA" :=
  ⟨by decide, by decide, by decide,
    enumKeys_reader_filter lp64 (by decide) (tableModule (ofString "ReaderA2") 1 1 1)
      .ERROR_SUCCESS (ofString "ReaderA") (by decide) none none (World.init ()) witnessRow
      (by decide)⟩

/-- C7. For a valid provider handle and every non-null scope whose text does
not start with `\\.\` or does not end with a backslash, `NCryptP11EnumKeys`
returns `NTE_INVALID_PARAMETER`; the world (so the trace of token-module
calls) and the caller's key-name and enumeration-state cells are as before. -/
theorem enumKeys_rejects_bad_scope {σ : Type} (abi : Abi) (p11 : CK_FUNCTION_LIST σ)
    (pszScope : List Nat) (ppKeyName : Option NCryptKeyName)
    (ppEnumState : Option P11EnumKeysState) (w : World σ)
    (h : ¬ ([92, 92, 46, 92] <+: cstr pszScope) ∨ (cstr pszScope).getLast? ≠ some 92) :
    NCryptP11EnumKeys abi p11 .ERROR_SUCCESS (some pszScope) ppKeyName ppEnumState w
      = .ok { status := .NTE_INVALID_PARAMETER, ppKeyName := ppKeyName,
              ppEnumState := ppEnumState, world := w } := by
  unfold NCryptP11EnumKeys
  simp [parseScope_invalid abi pszScope h, Except.map]

/-- Witness for C7: the scope `\\.\ReaderA`, which lacks the closing
backslash, on a module with one slot and one key. -/
theorem enumKeys_rejects_bad_scope_witness :
    (¬ ([92, 92, 46, 92] <+: cstr (ofString "\\\\.\\ReaderA")) ∨
      (cstr (ofString "\\\\.\\ReaderA")).getLast? ≠ some 92) ∧
    NCryptP11EnumKeys lp64 (tableModule [] 1 1 1) .ERROR_SUCCESS
        (some (ofString "\\\\.\\ReaderA")) none none (World.init ())
      = .ok { status := .NTE_INVALID_PARAMETER, ppKeyName := none, ppEnumState := none,
              world := World.init () } :=
  ⟨Or.inr (by decide),
    enumKeys_rejects_bad_scope lp64 (tableModule [] 1 1 1) (ofString "\\\\.\\ReaderA") none none
      (World.init ()) (Or.inr (by decide))⟩

/-- C8 (failing input). A token module with two token-present slots of 33
public keys each: after the 64 rows of the table are filled, `collect_keys`
hands the module the row `keys[64]`, outside the table, to be written; the
same happens in the first call of `NCryptP11EnumKeys` on this module. -/
theorem collect_keys_overruns_key_table :
    collect_keys lp64 (tableModule [] 2 33 1)
        { P11EnumKeysState.zero with nslots := 2, slots := fit MAX_SLOTS [1, 2] } (World.init ())
      = .error Fault.keyTableOverrun ∧
    NCryptP11EnumKeys lp64 (tableModule [] 2 33 1) .ERROR_SUCCESS none none none (World.init ())
      = .error Fault.keyTableOverrun := by
  decide

/-- C9 (counterexample). A token module whose `C_GetSlotList` returns `CKR_OK`
and leaves the count 65 whatever capacity it is given: the state handed to
`collect_keys` has `nslots = 65`, and the scan reads `slots[64]`, past the
64-entry slot list. -/
theorem enumKeys_reads_past_slot_list :
    (fetchSlotList overReportingModule (World.init ())).1.map (fun state => state.nslots)
      = .ok 65 ∧
    NCryptP11EnumKeys lp64 overReportingModule .ERROR_SUCCESS none none none (World.init ())
      = .error Fault.slotListOverread := by
  decide

/-- C9 (amended). For every token module whose `C_GetSlotList`, when it returns
`CKR_OK`, leaves a count no larger than the capacity it was given, a call of
`NCryptP11EnumKeys` with a null cursor never reads past the 64-entry slot
list, and the enumeration state it leaves has a slot count of at most 64. -/
theorem enumKeys_slot_count_capped {σ : Type} (abi : Abi) (p11 : CK_FUNCTION_LIST σ)
    (hconf : SlotListWithinCapacity p11) (checkNCryptHandle : SECURITY_STATUS)
    (pszScope : Option (List Nat)) (ppKeyName : Option NCryptKeyName) (w : World σ) :
    NCryptP11EnumKeys abi p11 checkNCryptHandle pszScope ppKeyName none w
        ≠ .error Fault.slotListOverread ∧
    ∀ n, builtSlotCount (NCryptP11EnumKeys abi p11 checkNCryptHandle pszScope ppKeyName none w)
        = some n → n ≤ MAX_SLOTS := by
  have h := enumKeys_slot_cap abi p11 hconf checkNCryptHandle pszScope ppKeyName w
  refine ⟨h.1, ?_⟩
  intro n hn
  unfold builtSlotCount at hn
  cases hr : NCryptP11EnumKeys abi p11 checkNCryptHandle pszScope ppKeyName none w with
  | error e => rw [hr] at hn; cases hn
  | ok r =>
    rw [hr] at hn
    dsimp only at hn
    cases hs : r.ppEnumState with
    | none => rw [hs] at hn; cases hn
    | some st =>
      rw [hs] at hn
      simp only [Option.map_some', Option.some.injEq] at hn
      rw [← hn]
      exact h.2 r st hr hs

/-- The table module honours the capacity contract of `C_GetSlotList`. -/
theorem tableModule_within_capacity (descr : List Nat) (nslots nkeys idLen : Nat) :
    SlotListWithinCapacity (tableModule descr nslots nkeys idLen) := by
  intro tokenPresent cap t
  unfold tableModule
  dsimp only
  split_ifs with hle
  · intro _; exact hle
  · intro h
    have h336 : (336 : Nat) ≠ 0 := by decide
    exact absurd h h336

/-- Witness for C9 (amended): a module with two slots of one key each. -/
theorem enumKeys_slot_count_capped_witness :
    SlotListWithinCapacity (tableModule [] 2 1 1) ∧
    builtSlotCount (NCryptP11EnumKeys lp64 (tableModule [] 2 1 1) .ERROR_SUCCESS none none
      none (World.init ())) = some 2 ∧
    (NCryptP11EnumKeys lp64 (tableModule [] 2 1 1) .ERROR_SUCCESS none none none (World.init ())
        ≠ .error Fault.slotListOverread ∧
      ∀ n, builtSlotCount (NCryptP11EnumKeys lp64 (tableModule [] 2 1 1) .ERROR_SUCCESS none
        none none (World.init ())) = some n → n ≤ MAX_SLOTS) :=
  ⟨tableModule_within_capacity [] 2 1 1, by decide,
    enumKeys_slot_count_capped lp64 (tableModule [] 2 1 1) (tableModule_within_capacity [] 2 1 1)
      .ERROR_SUCCESS none none (World.init ())⟩

/-- C10. When the token module reports zero token-present slots, the first
call of `NCryptP11EnumKeys` (valid provider handle, null cursor, no scope, the
state allocated) returns `NTE_NO_MORE_ITEMS`; the only calls it makes on the
module are the two `C_GetSlotList` queries, so no session is opened. -/
theorem enumKeys_empty_module {σ : Type} (abi : Abi) (p11 : CK_FUNCTION_LIST σ)
    (ppKeyName : Option NCryptKeyName) (w : World σ)
    (halloc : w.calloc.1 = true) (hzero : ReportsNoSlots p11 w.token) :
    ∃ r, NCryptP11EnumKeys abi p11 .ERROR_SUCCESS none ppKeyName none w = .ok r ∧
      r.status = .NTE_NO_MORE_ITEMS ∧
      r.world.trace = w.trace ++ [{ fn := .C_GetSlotList, arg := 0, rv := CKR_OK },
                                  { fn := .C_GetSlotList, arg := 0, rv := CKR_OK }] ∧
      countCalls .C_OpenSession r.world.trace = countCalls .C_OpenSession w.trace := by
  obtain ⟨h1, h2, h3, h4⟩ := hzero
  rw [← calloc_token w] at h1 h2 h3 h4
  have hf : ∃ slots w2, fetchSlotList p11 w
      = (.ok { P11EnumKeysState.zero with nslots := 0, slots := slots }, w2) ∧
      w2.trace = w.trace ++ [{ fn := .C_GetSlotList, arg := 0, rv := CKR_OK },
                             { fn := .C_GetSlotList, arg := 0, rv := CKR_OK }] := by
    unfold fetchSlotList
    dsimp only
    have hm : ¬ ((0 : Nat) > MAX_SLOTS) := by decide
    simp only [halloc, Bool.true_eq_false, if_false, h1, h2, ne_eq, not_true_eq_false, hm,
      World.called, h3, h4]
    refine ⟨_, _, rfl, ?_⟩
    simp [calloc_trace]
  obtain ⟨slots, w2, hf1, hf2⟩ := hf
  have hb : buildEnumState abi p11 w
      = .ok (.ok { P11EnumKeysState.zero with nslots := 0, slots := slots }, w2) := by
    unfold buildEnumState
    rw [hf1]
    simp [collect_keys, collectSlots, P11EnumKeysState.zero]
  refine ⟨{ status := .NTE_NO_MORE_ITEMS, ppKeyName := ppKeyName,
            ppEnumState := some { P11EnumKeysState.zero with nslots := 0, slots := slots },
            world := w2 }, ?_, rfl, hf2, ?_⟩
  · unfold NCryptP11EnumKeys
    simp only [ne_eq, not_true_eq_false, if_false, hb]
    simp [P11EnumKeysState.zero, enumKeysLoop]
  · show countCalls .C_OpenSession w2.trace = _
    rw [hf2]
    simp [countCalls, List.filter_append]

/-- Witness for C10: the table module with no slot. -/
theorem enumKeys_empty_module_witness :
    (World.init ()).calloc.1 = true ∧ ReportsNoSlots (tableModule [] 0 0 0) (World.init ()).token ∧
    ∃ r, NCryptP11EnumKeys lp64 (tableModule [] 0 0 0) .ERROR_SUCCESS none none none
        (World.init ()) = .ok r ∧
      r.status = .NTE_NO_MORE_ITEMS ∧
      r.world.trace = (World.init ()).trace ++
        [{ fn := .C_GetSlotList, arg := 0, rv := CKR_OK },
         { fn := .C_GetSlotList, arg := 0, rv := CKR_OK }] ∧
      countCalls .C_OpenSession r.world.trace
        = countCalls .C_OpenSession (World.init ()).trace :=
  ⟨rfl, ⟨rfl, rfl, rfl, rfl⟩,
    enumKeys_empty_module lp64 (tableModule [] 0 0 0) none (World.init ()) rfl
      ⟨rfl, rfl, rfl, rfl⟩⟩

/-! ## Properties of the attribute retrieval -/

theorem allocate_buffers_trace {σ : Type} (abi : Abi) :
    ∀ (t : List CK_ATTRIBUTE) (w : World σ),
      (attributes_allocate_buffers abi t w).2.2.trace = w.trace ∧
        (attributes_allocate_buffers abi t w).2.2.token = w.token
  | [], w => ⟨rfl, rfl⟩
  | a :: rest, w => by
    unfold attributes_allocate_buffers
    by_cases hskip : a.pValue.isSome ∨ a.ulValueLen = CK_UNAVAILABLE_INFORMATION abi
    · rw [if_pos hskip]
      exact allocate_buffers_trace abi rest w
    · rw [if_neg hskip]
      have ih := allocate_buffers_trace abi rest w.calloc.2
      exact ⟨ih.1.trans (calloc_trace w), ih.2.trans (calloc_token w)⟩

theorem allocate_buffers_template {σ : Type} (abi : Abi) :
    ∀ (t : List CK_ATTRIBUTE) (w : World σ),
      (attributes_allocate_buffers abi t w).1 = true →
        (attributes_allocate_buffers abi t w).2.1 = t.map (fun a =>
          if a.pValue.isSome ∨ a.ulValueLen = CK_UNAVAILABLE_INFORMATION abi then a
          else allocatedAttribute abi a)
  | [], _, _ => rfl
  | a :: rest, w, h => by
    unfold attributes_allocate_buffers at h ⊢
    by_cases hskip : a.pValue.isSome ∨ a.ulValueLen = CK_UNAVAILABLE_INFORMATION abi
    · rw [if_pos hskip] at h ⊢
      have ih := allocate_buffers_template abi rest w h
      simp only [List.map_cons, if_pos hskip]
      exact congrArg (List.cons a) ih
    · rw [if_neg hskip] at h ⊢
      have h2 : w.calloc.1 = true ∧ (attributes_allocate_buffers abi rest w.calloc.2).1 = true := by
        simpa [Bool.and_eq_true] using h
      have ih := allocate_buffers_template abi rest w.calloc.2 h2.2
      simp only [List.map_cons, if_neg hskip, h2.1, if_true]
      exact congrArg (List.cons _) ih

theorem object_load_attributes_retry {σ : Type} (abi : Abi) (p11 : CK_FUNCTION_LIST σ)
    (session object : Nat) (attributes : List CK_ATTRIBUTE) (w : World σ)
    (hretry :
      ((callGetAttributeValue p11 session object attributes w).1 = CKR_OK ∧
        attributes_have_unallocated_buffers abi
          (callGetAttributeValue p11 session object attributes w).2.1 = true) ∨
      (callGetAttributeValue p11 session object attributes w).1 = CKR_ATTRIBUTE_SENSITIVE ∨
      (callGetAttributeValue p11 session object attributes w).1 = CKR_ATTRIBUTE_TYPE_INVALID ∨
      (callGetAttributeValue p11 session object attributes w).1 = CKR_BUFFER_TOO_SMALL) :
    object_load_attributes abi p11 session object attributes w =
      if (attributes_allocate_buffers abi
          (callGetAttributeValue p11 session object attributes w).2.1
          (callGetAttributeValue p11 session object attributes w).2.2).1 = false then
        (CKR_HOST_MEMORY,
          (attributes_allocate_buffers abi
            (callGetAttributeValue p11 session object attributes w).2.1
            (callGetAttributeValue p11 session object attributes w).2.2).2.1,
          (attributes_allocate_buffers abi
            (callGetAttributeValue p11 session object attributes w).2.1
            (callGetAttributeValue p11 session object attributes w).2.2).2.2)
      else
        callGetAttributeValue p11 session object
          (attributes_allocate_buffers abi
            (callGetAttributeValue p11 session object attributes w).2.1
            (callGetAttributeValue p11 session object attributes w).2.2).2.1
          (attributes_allocate_buffers abi
            (callGetAttributeValue p11 session object attributes w).2.1
            (callGetAttributeValue p11 session object attributes w).2.2).2.2 := by
  unfold object_load_attributes
  generalize callGetAttributeValue p11 session object attributes w = q1 at hretry ⊢
  have h1 : ¬ (q1.1 = CKR_OK ∧ attributes_have_unallocated_buffers abi q1.2.1 = false) := by
    rintro ⟨hok, hno⟩
    rcases hretry with ⟨_, hyes⟩ | hs | hs | hs
    · rw [hno] at hyes
      cases hyes
    · rw [hok] at hs; revert hs; decide
    · rw [hok] at hs; revert hs; decide
    · rw [hok] at hs; revert hs; decide
  have h2 : q1.1 = CKR_OK ∨ q1.1 = CKR_ATTRIBUTE_SENSITIVE ∨ q1.1 = CKR_ATTRIBUTE_TYPE_INVALID
      ∨ q1.1 = CKR_BUFFER_TOO_SMALL := by
    rcases hretry with ⟨hok, _⟩ | hs | hs | hs
    · exact Or.inl hok
    · exact Or.inr (Or.inl hs)
    · exact Or.inr (Or.inr (Or.inl hs))
    · exact Or.inr (Or.inr (Or.inr hs))
  simp only [if_neg h1, if_pos h2]

theorem callGetAttributeValue_trace {σ : Type} (p11 : CK_FUNCTION_LIST σ) (session object : Nat)
    (attributes : List CK_ATTRIBUTE) (w : World σ) :
    (callGetAttributeValue p11 session object attributes w).2.2.trace =
      w.trace ++ [{ fn := P11Fn.C_GetAttributeValue, arg := session,
                    rv := (callGetAttributeValue p11 session object attributes w).1 }] := rfl

/-! ## Properties of the container name -/

theorem containerNameFormat_eq : containerNameFormat =
    [37, 46, 50, 120, 37, 46, 50, 120, 37, 46, 50, 120, 37, 46, 50, 120, 45,
     37, 46, 50, 120, 37, 46, 50, 120, 45, 37, 46, 50, 120, 37, 46, 50, 120, 45,
     37, 46, 50, 120, 37, 46, 50, 120, 45, 37, 46, 50, 120, 37, 46, 50, 120,
     37, 46, 50, 120, 37, 46, 50, 120, 37, 46, 50, 120, 37, 46, 50, 120] := by
  decide

theorem containerName_eq (p t : List Nat) :
    containerName p t = containerNameLayout p t ++ [0] := by
  unfold containerName
  rw [containerNameFormat_eq]
  simp [formatBytes, containerNameLayout, hex2, fit, PIV_CONTAINER_NAME_LEN]

theorem containerNameLayout_length (p t : List Nat) : (containerNameLayout p t).length = 36 := by
  simp [containerNameLayout, hex2]

theorem mem_hex2 (b c : Nat) (h : c ∈ hex2 b) : ∃ n, n < 16 ∧ c = hexDigit n := by
  simp only [hex2, List.mem_cons, List.mem_singleton, List.not_mem_nil, or_false] at h
  rcases h with h | h
  · exact ⟨_, by omega, h⟩
  · exact ⟨_, by omega, h⟩

theorem containerNameLayout_chars (p t : List Nat) :
    ∀ c ∈ containerNameLayout p t, c = 45 ∨ ∃ n, n < 16 ∧ c = hexDigit n := by
  intro c hc
  simp only [containerNameLayout, List.mem_append, List.mem_singleton] at hc
  casesm* _ ∨ _
  all_goals first
    | exact Or.inl (by assumption)
    | exact Or.inr (mem_hex2 _ c (by assumption))

theorem containerNameLayout_ne_zero (p t : List Nat) : ∀ c ∈ containerNameLayout p t, c ≠ 0 := by
  intro c hc
  rcases containerNameLayout_chars p t c hc with h | ⟨n, _, h⟩
  · omega
  · rw [h]
    exact hexDigit_ne_zero n

theorem containerNameLayout_ascii (p t : List Nat) : ∀ c ∈ containerNameLayout p t, c < 128 := by
  intro c hc
  rcases containerNameLayout_chars p t c hc with h | ⟨n, hn, h⟩
  · omega
  · rw [h]
    exact hexDigit_lt_128 n hn

theorem cstr_containerName (p t : List Nat) :
    cstr (containerName p t) = containerNameLayout p t := by
  rw [containerName_eq]
  exact cstr_append_zeros _ 1 (containerNameLayout_ne_zero p t)

theorem containerName_length (p t : List Nat) : (containerName p t).length = 37 := by
  rw [containerName_eq, List.length_append, containerNameLayout_length]
  rfl

theorem convert_containerName (p t : List Nat) (wlen : Nat) (h : 37 ≤ wlen) :
    ConvertUtf8NToWChar (containerName p t) (PIV_CONTAINER_NAME_LEN + 1) wlen =
        some (containerNameLayout p t) ∧
      ConvertUtf8NToWChar_rc (containerName p t) (PIV_CONTAINER_NAME_LEN + 1) wlen = some 36 := by
  have htake : (containerName p t).take (PIV_CONTAINER_NAME_LEN + 1) = containerName p t :=
    List.take_of_length_le (by rw [containerName_length]; decide)
  have hu : utf16Units (containerNameLayout p t) = 36 := by
    rw [utf16Units_ascii _ (containerNameLayout_ascii p t), containerNameLayout_length]
  have h1 : ConvertUtf8NToWChar (containerName p t) (PIV_CONTAINER_NAME_LEN + 1) wlen =
      some (containerNameLayout p t) := by
    unfold ConvertUtf8NToWChar
    rw [htake, cstr_containerName, hu, if_pos (by omega)]
  refine ⟨h1, ?_⟩
  unfold ConvertUtf8NToWChar_rc
  rw [if_neg (by omega), h1, Option.map_some', hu]

/-! ## The card exchange and the CHUID object -/

theorem receive_getElem (buf resp : List Nat) (h : resp.length ≤ buf.length) (i : Nat)
    (hi : i < resp.length) : (receive buf resp)[i]? = resp[i]? := by
  unfold receive
  rw [List.getElem?_take_of_lt (by omega), List.getElem?_append_left hi]

theorem receive_take (buf resp : List Nat) (h : resp.length ≤ buf.length) :
    (receive buf resp).take resp.length = resp := by
  unfold receive
  rw [List.take_take, Nat.min_eq_left h, List.take_left']
  rfl

theorem receive_length (buf resp : List Nat) (h : resp.length ≤ buf.length) :
    (receive buf resp).length = buf.length := by
  unfold receive
  simp
  omega

theorem apduRejected_ok (buf s : List Nat) (h : (s ++ [0x90, 0x00]).length ≤ buf.length)
    (hb : buf.length ≤ 258) :
    apduRejected (receive buf (s ++ [0x90, 0x00])) (s ++ [0x90, 0x00]).length = .ok false := by
  have hlen : (s ++ [0x90, 0x00]).length = s.length + 2 := by simp
  have i1 : ((s ++ [0x90, 0x00]).length + 4294967294) % 4294967296 = s.length := by
    rw [hlen]; omega
  have i2 : ((s ++ [0x90, 0x00]).length + 4294967295) % 4294967296 = s.length + 1 := by
    rw [hlen]; omega
  have g1 : (receive buf (s ++ [0x90, 0x00]))[s.length]? = some 0x90 := by
    rw [receive_getElem buf _ h _ (by rw [hlen]; omega),
      List.getElem?_append_right (Nat.le_refl _), Nat.sub_self]
    rfl
  have g2 : (receive buf (s ++ [0x90, 0x00]))[s.length + 1]? = some 0x00 := by
    rw [receive_getElem buf _ h _ (by rw [hlen]; omega),
      List.getElem?_append_right (Nat.le_succ _)]
    have : s.length.succ - s.length = 1 := by omega
    rw [this]
    rfl
  unfold apduRejected
  rw [i1, i2, g1]
  simp only [g2]
  decide

theorem readTagLenValue_field (f : BerField) (rest : List Nat)
    (hf : IsBerLength f.lenOctets f.value.length) :
    WinPrAsn1DecReadTagLenValue (f.encode ++ rest) =
      some (f.tag, f.value.length, f.value, rest) := by
  unfold WinPrAsn1DecReadTagLenValue WinPrAsn1DecReadTagAndLen BerField.encode
  have := hf (f.value ++ rest)
  simp only [List.cons_append, List.append_assoc, this, Option.map_some']
  simp

theorem encode_length_pos (f : BerField) : 0 < f.encode.length := by
  simp [BerField.encode]

theorem scanForGuid_fields (guid rest : List Nat) (hg : guid.length = 16) :
    ∀ (before : List BerField) (fuel tag len : Nat) (dec2 : Option (List Nat)),
      (∀ f ∈ before, IsBerLength f.lenOctets f.value.length ∧ f.tag ≠ 0x34) →
      before.length < fuel →
      scanForGuid fuel (before.flatMap BerField.encode ++ ([0x34, 16] ++ guid ++ rest))
        tag len dec2 = (0x34, 16, some guid)
  | [], fuel, tag, len, dec2, _, hfuel => by
    obtain ⟨n, rfl⟩ : ∃ n, fuel = n + 1 := ⟨fuel - 1, by simp at hfuel; omega⟩
    have h := readTagLenValue_field ⟨0x34, [16], guid⟩ rest (by
      intro r
      simp [berReadLen, hg])
    simp only [BerField.encode, hg] at h
    simp only [List.flatMap_nil, List.nil_append, scanForGuid]
    have h2 : ([0x34, 16] ++ guid ++ rest) = 0x34 :: ([16] ++ guid) ++ rest := by simp
    rw [h2, h]
    simp
  | f :: before, fuel, tag, len, dec2, hwf, hfuel => by
    obtain ⟨n, rfl⟩ : ∃ n, fuel = n + 1 := ⟨fuel - 1, by simp at hfuel; omega⟩
    have hf := hwf f (List.mem_cons_self _ _)
    simp only [List.flatMap_cons, List.append_assoc, scanForGuid]
    rw [readTagLenValue_field f _ hf.1]
    simp only [if_pos hf.2]
    have := scanForGuid_fields guid rest hg before n f.tag f.value.length (some f.value)
      (fun g hgm => hwf g (List.mem_cons_of_mem _ hgm))
      (by simp at hfuel; omega)
    simpa [List.append_assoc] using this

theorem flatMap_encode_length (before : List BerField) :
    before.length ≤ (before.flatMap BerField.encode).length := by
  induction before with
  | nil => simp
  | cons f before ih =>
    have := encode_length_pos f
    simp only [List.flatMap_cons, List.length_append, List.length_cons]
    omega

theorem chuidResponse_eq (outerLen : List Nat) (before : List BerField) (guid after : List Nat) :
    chuidResponse outerLen before guid after =
      (0x53 :: (outerLen ++ (before.flatMap BerField.encode ++ ([0x34, 16] ++ guid ++ after))))
        ++ [0x90, 0x00] := by
  simp [chuidResponse]

theorem readTagAndLen_chuid (outerLen : List Nat) (before : List BerField)
    (guid after : List Nat) (n : Nat) (hn : IsBerLength outerLen n) :
    WinPrAsn1DecReadTagAndLen (chuidResponse outerLen before guid after) =
      some (0x53, n, before.flatMap BerField.encode ++ ([0x34, 16] ++ guid ++
        (after ++ [0x90, 0x00]))) := by
  unfold chuidResponse
  show Option.map _ (berReadLen (outerLen ++ _)) = _
  rw [hn]
  rfl

theorem pivExchange_canned (s outerLen : List Nat) (before : List BerField)
    (guid after tag : List Nat) (n card pci output_len : Nat) (c : CardWorld Unit)
    (hs : (s ++ [0x90, 0x00]).length ≤ 258)
    (hn : IsBerLength outerLen n)
    (hb : ∀ f ∈ before, IsBerLength f.lenOctets f.value.length ∧ f.tag ≠ 0x34)
    (hg : guid.length = 16)
    (hc : (chuidResponse outerLen before guid after).length ≤ 258)
    (ho : 37 ≤ output_len / 2) :
    pivExchange (cannedCard (s ++ [0x90, 0x00]) (chuidResponse outerLen before guid after))
      card pci tag output_len c = .ok (.ERROR_SUCCESS, some (containerNameLayout guid tag),
        (c.called (SCardCall.SCardTransmit card APDU_PIV_SELECT_AID) ()).called
          (SCardCall.SCardTransmit card APDU_PIV_GET_CHUID) ()) := by
  have hbuf0 : (List.replicate 258 0).length = 258 := List.length_replicate _ _
  have hbuf1 : (receive (List.replicate 258 0) (s ++ [0x90, 0x00])).length = 258 := by
    rw [receive_length _ _ (by rw [hbuf0]; exact hs), hbuf0]
  have r1 := apduRejected_ok (List.replicate 258 0) s (by rw [hbuf0]; exact hs)
    (by rw [hbuf0])
  have r2 : apduRejected (receive (receive (List.replicate 258 0) (s ++ [0x90, 0x00]))
      (chuidResponse outerLen before guid after))
      (chuidResponse outerLen before guid after).length = .ok false := by
    rw [chuidResponse_eq]
    apply apduRejected_ok
    · rw [← chuidResponse_eq, hbuf1]; exact hc
    · rw [hbuf1]
  have htake := receive_take (receive (List.replicate 258 0) (s ++ [0x90, 0x00]))
    (chuidResponse outerLen before guid after) (by rw [hbuf1]; exact hc)
  have hdec := readTagAndLen_chuid outerLen before guid after n hn
  have hscan := scanForGuid_fields guid (after ++ [0x90, 0x00]) hg before
    (before.flatMap BerField.encode ++ ([0x34, 16] ++ guid ++ (after ++ [0x90, 0x00]))).length
    0x53 n none hb (by
      have := flatMap_encode_length before
      simp only [List.length_append, List.length_cons]
      omega)
  have hconv := convert_containerName guid tag (output_len / 2) ho
  have hsel : (if APDU_PIV_GET_CHUID = APDU_PIV_SELECT_AID then s ++ [0x90, 0x00]
      else chuidResponse outerLen before guid after) = chuidResponse outerLen before guid after :=
    if_neg (by decide)
  unfold pivExchange
  simp only [cannedCard, if_true, hsel, SCARD_S_SUCCESS, ne_eq, not_true_eq_false, if_false,
    r1, r2, htake, hdec, hscan, hconv.1, hconv.2]
  simp
  omega

theorem get_piv_container_name_canned (abi : Abi) (descr label cert s outerLen : List Nat)
    (before : List BerField) (guid after tag : List Nat) (n output_len : Nat)
    (key : NCryptP11KeyHandle) (tr : List P11Call) (c : CardWorld Unit)
    (hs : (s ++ [0x90, 0x00]).length ≤ 258)
    (hn : IsBerLength outerLen n)
    (hb : ∀ f ∈ before, IsBerLength f.lenOctets f.value.length ∧ f.tag ≠ 0x34)
    (hg : guid.length = 16)
    (hc : (chuidResponse outerLen before guid after).length ≤ 258)
    (ho : 37 ≤ output_len / 2) :
    ∃ w1 c1, get_piv_container_name (certificateModule abi descr label cert)
      (cannedCard (s ++ [0x90, 0x00]) (chuidResponse outerLen before guid after)) key tag
      output_len { token := (), trace := tr, allocs := [] } c =
        .ok (.ERROR_SUCCESS, some (containerNameLayout guid tag), w1, c1) := by
  have hex := fun card pci c => pivExchange_canned s outerLen before guid after tag n card pci
    output_len c hs hn hb hg hc ho
  unfold get_piv_container_name
  simp only [certificateModule, tableModule, World.called, World.calloc, CKR_OK, ne_eq,
    not_true_eq_false, if_false, cannedCard, SCARD_S_SUCCESS] at hex ⊢
  simp only [hex]
  exact ⟨_, _, rfl⟩

theorem certificateModule_label_length (abi : Abi) (descr label cert : List Nat)
    (session object : Nat) (tr : List P11Call) (al : List Bool) :
    callGetAttributeValue (certificateModule abi descr label cert) session object
        [{ type := CKA_LABEL, pValue := none, ulValueLen := 0 }]
        { token := (), trace := tr, allocs := al } =
      (CKR_OK, [{ type := CKA_LABEL, pValue := none, ulValueLen := label.length }],
        { token := (), trace := tr ++ [P11Call.mk P11Fn.C_GetAttributeValue session CKR_OK],
          allocs := al }) := by
  simp [callGetAttributeValue, certificateModule, answerAttribute, World.called, CKR_OK]

theorem certificateModule_label_value (abi : Abi) (descr label cert : List Nat)
    (session object : Nat) (tr : List P11Call) (al : List Bool) :
    callGetAttributeValue (certificateModule abi descr label cert) session object
        [{ type := CKA_LABEL, pValue := some (List.replicate label.length 0),
           ulValueLen := label.length }]
        { token := (), trace := tr, allocs := al } =
      (CKR_OK, [{ type := CKA_LABEL, pValue := some label, ulValueLen := label.length }],
        { token := (), trace := tr ++ [P11Call.mk P11Fn.C_GetAttributeValue session CKR_OK],
          allocs := al }) := by
  simp [callGetAttributeValue, certificateModule, answerAttribute, World.called, CKR_OK]

theorem checkPiv_first_label (abi : Abi) (descr cert s outerLen : List Nat)
    (before : List BerField) (guid after : List Nat) (n cbOutput pcbResult : Nat)
    (keyHandle : NCryptP11KeyHandle) (tr : List P11Call) (c : CardWorld Unit)
    (hs : (s ++ [0x90, 0x00]).length ≤ 258)
    (hn : IsBerLength outerLen n)
    (hb : ∀ f ∈ before, IsBerLength f.lenOctets f.value.length ∧ f.tag ≠ 0x34)
    (hg : guid.length = 16)
    (hc : (chuidResponse outerLen before guid after).length ≤ 258)
    (ho : 74 ≤ cbOutput) :
    ∃ w1 c1, check_for_piv_container_name
      (certificateModule abi descr (ofString "Certificate for PIV Authentication") cert)
      (cannedCard (s ++ [0x90, 0x00]) (chuidResponse outerLen before guid after)) keyHandle
      true cbOutput pcbResult (ofString "Certificate for PIV Authentication")
      (ofString "Certificate for PIV Authentication").length
      { token := (), trace := tr, allocs := [] } c =
        .ok (.ERROR_SUCCESS, 74, some (containerNameLayout guid [0x5F, 0xC1, 0x05]), w1, c1) := by
  obtain ⟨w1, c1, hpiv⟩ := get_piv_container_name_canned abi descr
    (ofString "Certificate for PIV Authentication") cert s outerLen before guid after
    [0x5F, 0xC1, 0x05] n cbOutput keyHandle tr c hs hn hb hg hc (by omega)
  have hcmp : strncmpEq (ofString "Certificate for PIV Authentication")
      (ofString "Certificate for PIV Authentication")
      (ofString "Certificate for PIV Authentication").length = .ok true := by decide
  have hsize : ¬ cbOutput < (PIV_CONTAINER_NAME_LEN + 1) * 2 := by
    have : (PIV_CONTAINER_NAME_LEN + 1) * 2 = 74 := rfl
    omega
  refine ⟨w1, c1, ?_⟩
  unfold check_for_piv_container_name piv_cert_tags
  unfold checkPivEntries
  simp only [hcmp, Bool.true_eq_false, if_false, if_neg hsize, hpiv]
  rfl

theorem nameProperty_piv (abi : Abi) (descr cert s outerLen : List Nat)
    (before : List BerField) (guid after : List Nat) (n cbOutput pcbResult : Nat)
    (keyHandle : NCryptP11KeyHandle) (session object : Nat) (tr : List P11Call)
    (c : CardWorld Unit)
    (hs : (s ++ [0x90, 0x00]).length ≤ 258)
    (hn : IsBerLength outerLen n)
    (hb : ∀ f ∈ before, IsBerLength f.lenOctets f.value.length ∧ f.tag ≠ 0x34)
    (hg : guid.length = 16)
    (hc : (chuidResponse outerLen before guid after).length ≤ 258)
    (ho : 74 ≤ cbOutput) :
    ∃ w1 c1, nameProperty
      (certificateModule abi descr (ofString "Certificate for PIV Authentication") cert)
      (cannedCard (s ++ [0x90, 0x00]) (chuidResponse outerLen before guid after)) keyHandle
      session object true cbOutput pcbResult { token := (), trace := tr, allocs := [] } c =
        .ok (.ERROR_SUCCESS, 74, some (containerNameLayout guid [0x5F, 0xC1, 0x05]), w1, c1) := by
  choose W C hWC using fun tr c => checkPiv_first_label abi descr cert s outerLen before guid
    after n cbOutput pcbResult keyHandle tr c hs hn hb hg hc ho
  unfold nameProperty
  simp only [certificateModule_label_length, certificateModule_label_value, World.calloc,
    List.headD_cons, ne_eq, not_true_eq_false, if_false, Bool.true_eq_false, Option.getD_some,
    hWC]
  simp

/-! ## The iteration on a state that fits its arrays -/

theorem makeKeyName_returns {σ : Type} (abi : Abi) (key : NCryptKeyEnum) (w : World σ)
    (made : Except Fault (Option NCryptKeyName × World σ))
    (hfit : 2 * abi.sizeofSlotId + 2 * key.idLen + 3 ≤ 128) (hlen : key.idLen ≤ key.id.length)
    (h : makeKeyName abi key w = made) : ∃ p, made = .ok p := by
  subst h
  unfold makeKeyName
  dsimp only
  rw [wprintKeyName_eq abi key.slotId key.id key.idLen hfit hlen]
  split_ifs
  · exact ⟨_, rfl⟩
  · exact ⟨_, rfl⟩

theorem enumKeysLoop_returns {σ : Type} (abi : Abi) (p11 : CK_FUNCTION_LIST σ)
    (f : Option SlotFilter) : ∀ (left : Nat) (state : P11EnumKeysState) (cs csess : Nat)
    (kn : Option NCryptKeyName) (w : World σ),
    state.keyIndex + left ≤ state.keys.length →
    (∀ key ∈ state.keys,
      2 * abi.sizeofSlotId + 2 * key.idLen + 3 ≤ 128 ∧ key.idLen ≤ key.id.length ∧
      ∀ g, f = some g → g.len ≤ key.slotInfo.slotDescription.length ∧ g.len ≤ g.buffer.length) →
    ∃ r, enumKeysLoop abi p11 f left state cs csess kn w = .ok r := by
  intro left
  induction left with
  | zero =>
    intro state cs csess kn w _ _
    exact ⟨_, rfl⟩
  | succ left ih =>
    intro state cs csess kn w hidx hrows
    have hnext : ∀ (cs1 csess1 : Nat) (w1 : World σ),
        ∃ r, enumKeysLoop abi p11 f left { state with keyIndex := state.keyIndex + 1 } cs1 csess1
          kn w1 = .ok r :=
      fun cs1 csess1 w1 => ih { state with keyIndex := state.keyIndex + 1 } cs1 csess1 kn w1
        (by show state.keyIndex + 1 + left ≤ state.keys.length; omega) hrows
    have hlt : state.keyIndex < state.keys.length := by omega
    have hk : state.keys[state.keyIndex]? = some (state.keys[state.keyIndex]) :=
      List.getElem?_eq_getElem hlt
    have hrow := hrows _ (List.getElem_mem hlt)
    generalize state.keys[state.keyIndex] = key at hk hrow
    have hf : ∃ b, filterMismatch f key = .ok b := by
      unfold filterMismatch
      cases f with
      | none => exact ⟨_, rfl⟩
      | some g =>
        dsimp only
        unfold memcmpEq
        rw [if_pos (hrow.2.2 g rfl)]
        exact ⟨_, rfl⟩
    obtain ⟨b, hf⟩ := hf
    rw [enumKeysLoop]
    dsimp only
    rw [hk]
    dsimp only
    rw [hf]
    cases b with
    | true => exact hnext _ _ _
    | false =>
      dsimp only
      split_ifs with h1 h2 h3
      · exact hnext _ _ _
      · exact hnext _ _ _
      · generalize hmade : makeKeyName abi key _ = made
        obtain ⟨p, rfl⟩ := makeKeyName_returns abi key _ made hrow.1 hrow.2.1 hmade
        obtain ⟨keyName, w5⟩ := p
        cases keyName with
        | none => exact hnext _ _ _
        | some kn1 => exact ⟨_, rfl⟩
      · exact hnext _ _ _

theorem enumKeys_returns_on_state {σ : Type} (abi : Abi) (p11 : CK_FUNCTION_LIST σ)
    (checkNCryptHandle : SECURITY_STATUS) (pszScope : Option (List Nat))
    (ppKeyName : Option NCryptKeyName) (state : P11EnumKeysState) (w : World σ)
    (hcursor : state.keyIndex ≤ state.nKeys)
    (hfit : ∀ f, (pszScope = none ∧ f = none ∨
        ∃ s g, pszScope = some s ∧ parseScope abi s = .ok g ∧ f = some g) →
      RowsFit abi f state) :
    ∃ after, stateAfter (NCryptP11EnumKeys abi p11 checkNCryptHandle pszScope ppKeyName
      (some state) w) = some after := by
  unfold NCryptP11EnumKeys
  by_cases hchk : checkNCryptHandle ≠ .ERROR_SUCCESS
  · rw [if_pos hchk]
    exact ⟨state, rfl⟩
  · rw [if_neg hchk]
    dsimp only
    generalize hsc : (match pszScope with
      | none => (Except.ok none : Except SECURITY_STATUS (Option SlotFilter))
      | some s => Except.map some (parseScope abi s)) = scope
    obtain ⟨_, hso⟩ := scopeFilter_cases abi pszScope scope hsc
    cases scope with
    | error ret => exact ⟨state, rfl⟩
    | ok f =>
      dsimp only
      obtain ⟨hn, hrows⟩ := hfit f (hso f rfl)
      obtain ⟨r, hr⟩ := enumKeysLoop_returns abi p11 f (state.nKeys - state.keyIndex) state 0 0
        ppKeyName w (by omega) hrows
      rw [hr]
      rcases enumKeysLoop_step abi p11 f _ _ _ _ _ _ r hr with ⟨_, _, he⟩ | ⟨_, i, _, _, _, _, _, _, _, _, he⟩
      · exact ⟨_, he⟩
      · exact ⟨_, he⟩

/-! ## The reader property -/

theorem fixPaddedLoop_length : ∀ (p : Nat) (str : List Nat), (fixPaddedLoop p str).length = str.length
  | 0, _ => rfl
  | p + 1, str => by
    unfold fixPaddedLoop
    split_ifs
    · rw [fixPaddedLoop_length p, List.length_set]
    · rfl

theorem fix_padded_string_length (str : List Nat) (maxlen : Nat) :
    (fix_padded_string str maxlen).length = str.length := by
  unfold fix_padded_string
  split_ifs
  · rfl
  · exact fixPaddedLoop_length _ _

theorem cstr_take (s : List Nat) (k : Nat) (h : (cstr s).length ≤ k) (hs : (cstr s).length < s.length) :
    cstr (s.take k) = cstr s := by
  unfold cstr at *
  induction s generalizing k with
  | nil => simp
  | cons a s ih =>
    by_cases ha : (a != 0) = true
    · cases k with
      | zero => simp [List.takeWhile_cons, ha] at h
      | succ k =>
        simp only [List.takeWhile_cons, ha, if_true, List.length_cons, List.take_succ_cons] at h hs ⊢
        rw [ih k (by omega) (by omega)]
    · cases k with
      | zero => simp [List.takeWhile_cons, ha]
      | succ k => simp [List.takeWhile_cons, ha]

/-- The reader property on a slot whose description, once trimmed, holds a NUL
within its 64 bytes and is plain ASCII: the size is `2 * (n + 1)` for the
string length `n`; a null buffer gives success and stores nothing, a shorter
buffer gives `NTE_NO_MEMORY` with the size reported, a buffer of at least the
size gives success and the description. -/
theorem readerProperty_protocol {σ κ : Type} (abi : Abi) (p11 : CK_FUNCTION_LIST σ)
    (sc : SCardApi κ) (keyHandle : NCryptP11KeyHandle) (pbOutput : Bool)
    (cbOutput pcbResult : Nat) (w : World σ) (c : CardWorld κ) (descr : List Nat)
    (hinfo : (p11.C_GetSlotInfo keyHandle.slotId w.token).1.1 = CKR_OK)
    (hdescr : fix_padded_string (p11.C_GetSlotInfo keyHandle.slotId w.token).1.2.slotDescription 64
      = descr)
    (hsize : descr.length = 64)
    (hterm : (cstr descr).length < 64)
    (hascii : ∀ ch ∈ cstr descr, ch < 128) :
    ∃ r, NCryptP11KeyGetProperties abi p11 sc keyHandle .NCRYPT_PROPERTY_READER pbOutput cbOutput
        pcbResult w c = .ok r ∧ r.pcbResult = 2 * ((cstr descr).length + 1) ∧
      (pbOutput = false → r.status = .ERROR_SUCCESS ∧ r.pbOutput = none) ∧
      (pbOutput = true → cbOutput < 2 * ((cstr descr).length + 1) →
        r.status = .NTE_NO_MEMORY ∧ r.pbOutput = none) ∧
      (pbOutput = true → 2 * ((cstr descr).length + 1) ≤ cbOutput →
        r.status = .ERROR_SUCCESS ∧ r.pbOutput = some (cstr descr)) := by
  have hn : strnlen descr 64 = (cstr descr).length := by
    unfold strnlen
    rw [List.take_of_length_le (by omega)]
  have hbig : ¬ 2 * ((cstr descr).length + 1) > UINT32_MAX := by
    unfold UINT32_MAX
    omega
  have hconv : ∀ wlen, (cstr descr).length + 1 ≤ wlen →
      ConvertUtf8ToWChar descr wlen = .ok (some (cstr descr)) := by
    intro wlen hw
    unfold ConvertUtf8ToWChar
    rw [if_pos (by omega)]
    unfold ConvertUtf8NToWChar
    rw [cstr_take descr _ (by omega) (by omega), utf16Units_ascii _ hascii, if_pos hw]
  show ∃ r, readerProperty p11 keyHandle pbOutput cbOutput pcbResult w c = .ok r ∧ _
  cases pbOutput with
  | false =>
    have hval : readerProperty p11 keyHandle false cbOutput pcbResult w c =
        .ok { status := .ERROR_SUCCESS, pcbResult := 2 * ((cstr descr).length + 1),
              pbOutput := none,
              world := w.called P11Fn.C_GetSlotInfo keyHandle.slotId
                (p11.C_GetSlotInfo keyHandle.slotId w.token).1.1
                (p11.C_GetSlotInfo keyHandle.slotId w.token).2,
              card := c } := by
      unfold readerProperty
      simp only [hinfo, ne_eq, not_true_eq_false, if_false, hdescr, hn, if_neg hbig, if_true]
    refine ⟨_, hval, rfl, ?_, ?_, ?_⟩
    · intro _; exact ⟨rfl, rfl⟩
    · intro h; cases h
    · intro h; cases h
  | true =>
    by_cases hcb : cbOutput < 2 * ((cstr descr).length + 1)
    · have hval : readerProperty p11 keyHandle true cbOutput pcbResult w c =
          .ok { status := .NTE_NO_MEMORY, pcbResult := 2 * ((cstr descr).length + 1),
                pbOutput := none,
                world := w.called P11Fn.C_GetSlotInfo keyHandle.slotId
                  (p11.C_GetSlotInfo keyHandle.slotId w.token).1.1
                  (p11.C_GetSlotInfo keyHandle.slotId w.token).2,
                card := c } := by
        unfold readerProperty
        simp only [hinfo, ne_eq, not_true_eq_false, if_false, hdescr, hn, if_neg hbig,
          Bool.true_eq_false, if_pos hcb]
      refine ⟨_, hval, rfl, ?_, ?_, ?_⟩
      · intro h; cases h
      · intro _ _; exact ⟨rfl, rfl⟩
      · intro _ h; omega
    · have hval : readerProperty p11 keyHandle true cbOutput pcbResult w c =
          .ok { status := .ERROR_SUCCESS, pcbResult := 2 * ((cstr descr).length + 1),
                pbOutput := some (cstr descr),
                world := w.called P11Fn.C_GetSlotInfo keyHandle.slotId
                  (p11.C_GetSlotInfo keyHandle.slotId w.token).1.1
                  (p11.C_GetSlotInfo keyHandle.slotId w.token).2,
                card := c } := by
        unfold readerProperty
        simp only [hinfo, ne_eq, not_true_eq_false, if_false, hdescr, hn, if_neg hbig,
          Bool.true_eq_false, if_neg hcb, hconv (cbOutput / 2) (by omega)]
      refine ⟨_, hval, rfl, ?_, ?_, ?_⟩
      · intro h; cases h
      · intro _ h; exact absurd h hcb
      · intro _ _; exact ⟨rfl, rfl⟩

/-! ## Session calls of a property query -/

theorem noSessionCalls_refl {σ : Type} (w : World σ) : NoSessionCalls w w :=
  ⟨[], by simp, by simp⟩

theorem noSessionCalls_trans {σ : Type} {w w1 w2 : World σ} (h1 : NoSessionCalls w w1)
    (h2 : NoSessionCalls w1 w2) : NoSessionCalls w w2 := by
  obtain ⟨e1, t1, n1⟩ := h1
  obtain ⟨e2, t2, n2⟩ := h2
  refine ⟨e1 ++ e2, by rw [t2, t1, List.append_assoc], ?_⟩
  intro c hc
  rcases List.mem_append.mp hc with h | h
  · exact n1 c h
  · exact n2 c h

theorem noSessionCalls_called {σ : Type} (w : World σ) (fn : P11Fn) (arg rv : Nat) (t : σ)
    (h1 : fn ≠ P11Fn.C_OpenSession) (h2 : fn ≠ P11Fn.C_CloseSession) :
    NoSessionCalls w (w.called fn arg rv t) := by
  refine ⟨[P11Call.mk fn arg rv], rfl, ?_⟩
  intro c hc
  rw [List.mem_singleton] at hc
  subst hc
  exact ⟨h1, h2⟩

theorem noSessionCalls_calloc {σ : Type} (w : World σ) : NoSessionCalls w w.calloc.2 :=
  ⟨[], by rw [calloc_trace]; simp, by simp⟩

theorem noSessionCalls_getAttributeValue {σ : Type} (p11 : CK_FUNCTION_LIST σ)
    (session object : Nat) (attributes : List CK_ATTRIBUTE) (w : World σ) :
    NoSessionCalls w (callGetAttributeValue p11 session object attributes w).2.2 :=
  noSessionCalls_called w _ _ _ _ (by decide) (by decide)

theorem get_piv_container_name_calls {σ κ : Type} (p11 : CK_FUNCTION_LIST σ) (sc : SCardApi κ)
    (key : NCryptP11KeyHandle) (piv_tag : List Nat) (output_len : Nat) (w : World σ)
    (c : CardWorld κ) (ret : SECURITY_STATUS) (output : Option (List Nat)) (w1 : World σ)
    (c1 : CardWorld κ)
    (h : get_piv_container_name p11 sc key piv_tag output_len w c = .ok (ret, output, w1, c1)) :
    NoSessionCalls w w1 := by
  have hinfo := noSessionCalls_called w P11Fn.C_GetSlotInfo key.slotId
    (p11.C_GetSlotInfo key.slotId w.token).1.1 (p11.C_GetSlotInfo key.slotId w.token).2
    (by decide) (by decide)
  have hall := noSessionCalls_trans hinfo (noSessionCalls_calloc _)
  unfold get_piv_container_name at h
  dsimp only at h
  split_ifs at h with h1 h2 h3 h4 h5
  · simp only [Except.ok.injEq, Prod.mk.injEq] at h
    rw [← h.2.2.1]; exact hinfo
  · simp only [Except.ok.injEq, Prod.mk.injEq] at h
    rw [← h.2.2.1]; exact hall
  · simp only [Except.ok.injEq, Prod.mk.injEq] at h
    rw [← h.2.2.1]; exact hall
  · simp only [Except.ok.injEq, Prod.mk.injEq] at h
    rw [← h.2.2.1]; exact hall
  all_goals
    generalize pivExchange sc _ _ piv_tag output_len _ = ex at h
    cases ex with
    | error e => cases h
    | ok p =>
      obtain ⟨r, o, c3⟩ := p
      simp only [Except.ok.injEq, Prod.mk.injEq] at h
      rw [← h.2.2.1]; exact hall

theorem checkPivEntries_calls {σ κ : Type} (p11 : CK_FUNCTION_LIST σ) (sc : SCardApi κ)
    (key : NCryptP11KeyHandle) (pbOutput : Bool) (cbOutput pcbResult : Nat)
    (label : List Nat) (label_len : Nat) (w : World σ) (c : CardWorld κ) :
    ∀ (entries : List piv_cert_tags_t) (ret : SECURITY_STATUS) (size : Nat)
      (output : Option (List Nat)) (w1 : World σ) (c1 : CardWorld κ),
      checkPivEntries p11 sc key pbOutput cbOutput pcbResult label label_len w c entries =
        .ok (ret, size, output, w1, c1) → NoSessionCalls w w1
  | [], ret, size, output, w1, c1, h => by
    simp only [checkPivEntries, Except.ok.injEq, Prod.mk.injEq] at h
    rw [← h.2.2.2.1]; exact noSessionCalls_refl w
  | cur :: rest, ret, size, output, w1, c1, h => by
    rw [checkPivEntries] at h
    cases hcmp : strncmpEq label cur.label label_len with
    | error e => rw [hcmp] at h; cases h
    | ok b =>
      rw [hcmp] at h
      cases b with
      | false =>
        exact checkPivEntries_calls p11 sc key pbOutput cbOutput pcbResult label label_len w c
          rest ret size output w1 c1 h
      | true =>
        dsimp only at h
        split_ifs at h with h1 h2
        · simp only [Except.ok.injEq, Prod.mk.injEq] at h
          rw [← h.2.2.2.1]; exact noSessionCalls_refl w
        · simp only [Except.ok.injEq, Prod.mk.injEq] at h
          rw [← h.2.2.2.1]; exact noSessionCalls_refl w
        · cases hp : get_piv_container_name p11 sc key cur.tag cbOutput w c with
          | error e => rw [hp] at h; cases h
          | ok p =>
            obtain ⟨r, o, w2, c2⟩ := p
            rw [hp] at h
            simp only [Except.ok.injEq, Prod.mk.injEq] at h
            rw [← h.2.2.2.1]
            exact get_piv_container_name_calls p11 sc key cur.tag cbOutput w c r o w2 c2 hp

theorem nameProperty_calls {σ κ : Type} (p11 : CK_FUNCTION_LIST σ) (sc : SCardApi κ)
    (keyHandle : NCryptP11KeyHandle) (session objectHandle : Nat) (pbOutput : Bool)
    (cbOutput pcbResult : Nat) (w : World σ) (c : CardWorld κ) (ret : SECURITY_STATUS)
    (size : Nat) (output : Option (List Nat)) (w1 : World σ) (c1 : CardWorld κ)
    (h : nameProperty p11 sc keyHandle session objectHandle pbOutput cbOutput pcbResult w c =
      .ok (ret, size, output, w1, c1)) : NoSessionCalls w w1 := by
  have hq1 := noSessionCalls_getAttributeValue p11 session objectHandle
    [{ type := CKA_LABEL, pValue := none, ulValueLen := 0 }] w
  unfold nameProperty at h
  dsimp only at h
  generalize callGetAttributeValue p11 session objectHandle
    [{ type := CKA_LABEL, pValue := none, ulValueLen := 0 }] w = q1 at h hq1
  split_ifs at h with h1 h2
  · simp only [Except.ok.injEq, Prod.mk.injEq] at h
    rw [← h.2.2.2.1]; exact hq1
  · simp only [Except.ok.injEq, Prod.mk.injEq] at h
    rw [← h.2.2.2.1]; exact noSessionCalls_trans hq1 (noSessionCalls_calloc _)
  all_goals
    have hq2 := noSessionCalls_trans (noSessionCalls_trans hq1 (noSessionCalls_calloc _))
      (noSessionCalls_getAttributeValue p11 session objectHandle
        [{ q1.2.1.headD { type := CKA_LABEL, pValue := none, ulValueLen := 0 } with
            pValue := some (List.replicate
              (q1.2.1.headD { type := CKA_LABEL, pValue := none, ulValueLen := 0 }).ulValueLen 0) }]
        q1.2.2.calloc.2)
    generalize callGetAttributeValue p11 session objectHandle _ q1.2.2.calloc.2 = q2 at h hq2
    first
    | (simp only [Except.ok.injEq, Prod.mk.injEq] at h
       rw [← h.2.2.2.1]; exact hq2)
    | (cases hc : check_for_piv_container_name p11 sc keyHandle pbOutput cbOutput pcbResult
          (Option.getD (List.headD q2.2.1 _).pValue []) (List.headD q2.2.1 _).ulValueLen q2.2.2 c with
       | error e => rw [hc] at h; cases h
       | ok p =>
         obtain ⟨r, sz, o, w2, c2⟩ := p
         have hw2 := noSessionCalls_trans hq2
           (checkPivEntries_calls p11 sc keyHandle pbOutput cbOutput pcbResult _ _ _ c
             piv_cert_tags r sz o w2 c2 hc)
         rw [hc] at h
         dsimp only at h
         split_ifs at h
         · split at h
           · simp only [Except.ok.injEq, Prod.mk.injEq] at h
             rw [← h.2.2.2.1]; exact hw2
           · simp only [Except.ok.injEq, Prod.mk.injEq] at h
             rw [← h.2.2.2.1]; exact hw2
         · simp only [Except.ok.injEq, Prod.mk.injEq] at h
           rw [← h.2.2.2.1]; exact hw2)

theorem sessionCalls_of_noSessionCalls {σ : Type} {w w1 : World σ} (h : NoSessionCalls w w1) :
    SessionCalls w w1 0 0 := by
  obtain ⟨extra, ht, hn⟩ := h
  refine ⟨extra, ht, ?_, ?_⟩
  · unfold countSuccessful
    rw [List.length_eq_zero, List.filter_eq_nil_iff]
    intro c hc
    have := (hn c hc).1
    simp [this]
  · unfold countCalls
    rw [List.length_eq_zero, List.filter_eq_nil_iff]
    intro c hc
    have := (hn c hc).2
    simp [this]

theorem sessionCalls_trans {σ : Type} {w w1 w2 : World σ} {o1 c1 o2 c2 : Nat}
    (h1 : SessionCalls w w1 o1 c1) (h2 : SessionCalls w1 w2 o2 c2) :
    SessionCalls w w2 (o1 + o2) (c1 + c2) := by
  obtain ⟨e1, t1, a1, b1⟩ := h1
  obtain ⟨e2, t2, a2, b2⟩ := h2
  refine ⟨e1 ++ e2, by rw [t2, t1, List.append_assoc], ?_, ?_⟩
  · unfold countSuccessful at a1 a2 ⊢
    rw [List.filter_append, List.length_append, a1, a2]
  · unfold countCalls at b1 b2 ⊢
    rw [List.filter_append, List.length_append, b1, b2]

theorem sessionCalls_open {σ : Type} (w : World σ) (arg : Nat) (t : σ) :
    SessionCalls w (w.called P11Fn.C_OpenSession arg CKR_OK t) 1 0 :=
  ⟨[P11Call.mk P11Fn.C_OpenSession arg CKR_OK], rfl, by simp [countSuccessful],
    by simp [countCalls]⟩

theorem sessionCalls_open_failed {σ : Type} (w : World σ) (arg rv : Nat) (t : σ)
    (h : rv ≠ CKR_OK) : SessionCalls w (w.called P11Fn.C_OpenSession arg rv t) 0 0 := by
  refine ⟨[P11Call.mk P11Fn.C_OpenSession arg rv], rfl, ?_, by simp [countCalls]⟩
  simp [countSuccessful, h]

theorem sessionCalls_cleanup {σ : Type} (p11 : CK_FUNCTION_LIST σ) (final : Bool)
    (session : Nat) (w : World σ) : SessionCalls w (propertyCleanup p11 final session w) 0 1 := by
  unfold propertyCleanup
  cases final with
  | false =>
    exact ⟨[P11Call.mk P11Fn.C_CloseSession session _], rfl, by simp [countSuccessful],
      by simp [countCalls]⟩
  | true =>
    exact ⟨[P11Call.mk P11Fn.C_FindObjectsFinal session (p11.C_FindObjectsFinal session w.token).1,
      P11Call.mk P11Fn.C_CloseSession session
        (p11.C_CloseSession session (p11.C_FindObjectsFinal session w.token).2).1],
      by simp [World.called], by simp [countSuccessful], by simp [countCalls]⟩

theorem readerProperty_calls {σ κ : Type} (p11 : CK_FUNCTION_LIST σ)
    (keyHandle : NCryptP11KeyHandle) (pbOutput : Bool) (cbOutput pcbResult : Nat) (w : World σ)
    (c : CardWorld κ) (r : GetPropertyResult σ κ)
    (h : readerProperty p11 keyHandle pbOutput cbOutput pcbResult w c = .ok r) :
    NoSessionCalls w r.world := by
  have hinfo := noSessionCalls_called w P11Fn.C_GetSlotInfo keyHandle.slotId
    (p11.C_GetSlotInfo keyHandle.slotId w.token).1.1 (p11.C_GetSlotInfo keyHandle.slotId w.token).2
    (by decide) (by decide)
  unfold readerProperty at h
  dsimp only at h
  split_ifs at h
  all_goals first
    | (simp only [Except.ok.injEq] at h
       rw [← h]; exact hinfo)
    | (split at h
       · cases h
       · simp only [Except.ok.injEq] at h
         rw [← h]; exact hinfo
       · simp only [Except.ok.injEq] at h
         rw [← h]; exact hinfo)

theorem certificateProperty_calls {σ : Type} (p11 : CK_FUNCTION_LIST σ)
    (session objectHandle : Nat) (pbOutput : Bool) (cbOutput pcbResult : Nat) (w : World σ) :
    NoSessionCalls w
      (certificateProperty p11 session objectHandle pbOutput cbOutput pcbResult w).2.2.2 := by
  unfold certificateProperty
  dsimp only
  split_ifs
  all_goals exact noSessionCalls_getAttributeValue _ _ _ _ _

theorem sessionQuery_balanced {σ : Type} (p11 : CK_FUNCTION_LIST σ) (final : Bool)
    (slot session rv : Nat) (t : σ) (w w1 : World σ) (hrv : rv = CKR_OK)
    (h : NoSessionCalls (w.called P11Fn.C_OpenSession slot rv t) w1) :
    SessionCalls w (propertyCleanup p11 final session w1) 1 1 := by
  subst hrv
  exact sessionCalls_trans
    (sessionCalls_trans (sessionCalls_open w slot _) (sessionCalls_of_noSessionCalls h))
    (sessionCalls_cleanup p11 final session w1)

theorem getProperties_sessions {σ κ : Type} (abi : Abi) (p11 : CK_FUNCTION_LIST σ)
    (sc : SCardApi κ) (keyHandle : NCryptP11KeyHandle) (property : NCryptKeyGetPropertyEnum)
    (pbOutput : Bool) (cbOutput pcbResult : Nat) (w : World σ) (c : CardWorld κ)
    (r : GetPropertyResult σ κ)
    (h : NCryptP11KeyGetProperties abi p11 sc keyHandle property pbOutput cbOutput pcbResult w c =
      .ok r) :
    if property = .NCRYPT_PROPERTY_SLOTID ∧ pbOutput = true ∧ 4 ≤ cbOutput ∧
        UINT32_MAX < keyHandle.slotId then SessionCalls w r.world 0 1
    else ∃ n, SessionCalls w r.world n n := by
  cases property with
  | NCRYPT_PROPERTY_READER =>
    rw [if_neg (by simp)]
    exact ⟨0, sessionCalls_of_noSessionCalls
      (readerProperty_calls p11 keyHandle pbOutput cbOutput pcbResult w c r h)⟩
  | NCRYPT_PROPERTY_UNKNOWN =>
    rw [if_neg (by simp)]
    simp only [NCryptP11KeyGetProperties, Except.ok.injEq] at h
    rw [← h]
    exact ⟨0, sessionCalls_of_noSessionCalls (noSessionCalls_refl w)⟩
  | NCRYPT_PROPERTY_SLOTID =>
    simp only [NCryptP11KeyGetProperties, Except.ok.injEq] at h
    rw [← h]
    unfold slotIdProperty
    by_cases hp : pbOutput = false
    · rw [if_pos hp, if_neg (by simp [hp])]
      exact ⟨0, sessionCalls_of_noSessionCalls (noSessionCalls_refl w)⟩
    · rw [if_neg hp]
      by_cases hcb : cbOutput < 4
      · rw [if_pos hcb, if_neg (by intro hh; omega)]
        exact ⟨0, sessionCalls_of_noSessionCalls (noSessionCalls_refl w)⟩
      · rw [if_neg hcb]
        by_cases hbig : keyHandle.slotId > UINT32_MAX
        · rw [if_pos hbig, if_pos ⟨rfl, by simpa using hp, by omega, hbig⟩]
          exact sessionCalls_cleanup p11 true 0 w
        · rw [if_neg hbig, if_neg (by intro hh; exact hbig hh.2.2.2)]
          exact ⟨0, sessionCalls_of_noSessionCalls (noSessionCalls_refl w)⟩
  | NCRYPT_PROPERTY_CERTIFICATE =>
    rw [if_neg (by simp)]
    unfold NCryptP11KeyGetProperties at h
    dsimp only at h
    split_ifs at h with h1 h2 h3
    · simp only [Except.ok.injEq] at h
      rw [← h]
      exact ⟨0, sessionCalls_open_failed w _ _ _ h1⟩
    · simp only [Except.ok.injEq] at h
      rw [← h]
      exact ⟨1, sessionQuery_balanced p11 false _ _ _ _ w _ (not_not.mp h1)
        (noSessionCalls_called _ _ _ _ _ (by decide) (by decide))⟩
    · simp only [Except.ok.injEq] at h
      rw [← h]
      exact ⟨1, sessionQuery_balanced p11 true _ _ _ _ w _ (not_not.mp h1)
        (noSessionCalls_trans (noSessionCalls_called _ _ _ _ _ (by decide) (by decide))
          (noSessionCalls_called _ _ _ _ _ (by decide) (by decide)))⟩
    · have hfind : ∀ (a1 r1 : Nat) (t1 : σ) (a2 r2 : Nat) (t2 : σ),
          NoSessionCalls (w.called P11Fn.C_OpenSession keyHandle.slotId
            (p11.C_OpenSession keyHandle.slotId w.token).1.1
            (p11.C_OpenSession keyHandle.slotId w.token).2)
          (((w.called P11Fn.C_OpenSession keyHandle.slotId
            (p11.C_OpenSession keyHandle.slotId w.token).1.1
            (p11.C_OpenSession keyHandle.slotId w.token).2).called P11Fn.C_FindObjectsInit a1 r1
              t1).called P11Fn.C_FindObjects a2 r2 t2) :=
        fun a1 r1 t1 a2 r2 t2 => noSessionCalls_trans
          (noSessionCalls_called _ P11Fn.C_FindObjectsInit a1 r1 t1 (by decide) (by decide))
          (noSessionCalls_called _ P11Fn.C_FindObjects a2 r2 t2 (by decide) (by decide))
      split at h
      · simp only [Except.ok.injEq] at h
        rw [← h]
        exact ⟨1, sessionQuery_balanced p11 true _ _ _ _ w _ (not_not.mp h1) (hfind _ _ _ _ _ _)⟩
      · simp only [Except.ok.injEq] at h
        rw [← h]
        exact ⟨1, sessionQuery_balanced p11 true _ _ _ _ w _ (not_not.mp h1)
          (noSessionCalls_trans (hfind _ _ _ _ _ _)
            (certificateProperty_calls p11 _ _ pbOutput cbOutput pcbResult _))⟩
  | NCRYPT_PROPERTY_NAME =>
    rw [if_neg (by simp)]
    unfold NCryptP11KeyGetProperties at h
    dsimp only at h
    split_ifs at h with h1 h2 h3
    · simp only [Except.ok.injEq] at h
      rw [← h]
      exact ⟨0, sessionCalls_open_failed w _ _ _ h1⟩
    · simp only [Except.ok.injEq] at h
      rw [← h]
      exact ⟨1, sessionQuery_balanced p11 false _ _ _ _ w _ (not_not.mp h1)
        (noSessionCalls_called _ _ _ _ _ (by decide) (by decide))⟩
    · simp only [Except.ok.injEq] at h
      rw [← h]
      exact ⟨1, sessionQuery_balanced p11 true _ _ _ _ w _ (not_not.mp h1)
        (noSessionCalls_trans (noSessionCalls_called _ _ _ _ _ (by decide) (by decide))
          (noSessionCalls_called _ _ _ _ _ (by decide) (by decide)))⟩
    · have hfind : ∀ (a1 r1 : Nat) (t1 : σ) (a2 r2 : Nat) (t2 : σ),
          NoSessionCalls (w.called P11Fn.C_OpenSession keyHandle.slotId
            (p11.C_OpenSession keyHandle.slotId w.token).1.1
            (p11.C_OpenSession keyHandle.slotId w.token).2)
          (((w.called P11Fn.C_OpenSession keyHandle.slotId
            (p11.C_OpenSession keyHandle.slotId w.token).1.1
            (p11.C_OpenSession keyHandle.slotId w.token).2).called P11Fn.C_FindObjectsInit a1 r1
              t1).called P11Fn.C_FindObjects a2 r2 t2) :=
        fun a1 r1 t1 a2 r2 t2 => noSessionCalls_trans
          (noSessionCalls_called _ P11Fn.C_FindObjectsInit a1 r1 t1 (by decide) (by decide))
          (noSessionCalls_called _ P11Fn.C_FindObjects a2 r2 t2 (by decide) (by decide))
      split at h
      · simp only [Except.ok.injEq] at h
        rw [← h]
        exact ⟨1, sessionQuery_balanced p11 true _ _ _ _ w _ (not_not.mp h1) (hfind _ _ _ _ _ _)⟩
      · rename_i objectHandle rest hlist
        cases hname : nameProperty p11 sc keyHandle (p11.C_OpenSession keyHandle.slotId w.token).1.2
            objectHandle pbOutput cbOutput pcbResult _ c with
        | error e => rw [hname] at h; cases h
        | ok p =>
          obtain ⟨ret, size, output, w4, c1⟩ := p
          rw [hname] at h
          simp only [Except.ok.injEq] at h
          rw [← h]
          exact ⟨1, sessionQuery_balanced p11 true _ _ _ _ w _ (not_not.mp h1)
            (noSessionCalls_trans (hfind _ _ _ _ _ _)
              (nameProperty_calls p11 sc keyHandle _ _ pbOutput cbOutput pcbResult _ c ret size
                output w4 c1 hname))⟩

/-! ## The claims C11 to C20 -/

/-- C11. A call of `NCryptP11EnumKeys` on a built enumeration state whose
cursor is within the key count leaves the slot count, the slot list, the key
table and the key count as they were; the cursor it leaves is not below the
one it found and not above the key count. And the call does return, with a
state in the caller's cell, whenever the state stays within its arrays for
the reader filter of the call (`RowsFit`). -/
theorem enumKeys_state_invariant {σ : Type} (abi : Abi) (p11 : CK_FUNCTION_LIST σ)
    (checkNCryptHandle : SECURITY_STATUS) (pszScope : Option (List Nat))
    (ppKeyName : Option NCryptKeyName) (state : P11EnumKeysState) (w : World σ)
    (hcursor : state.keyIndex ≤ state.nKeys) :
    (∀ after : P11EnumKeysState,
      stateAfter (NCryptP11EnumKeys abi p11 checkNCryptHandle pszScope ppKeyName
        (some state) w) = some after →
      after.nslots = state.nslots ∧ after.slots = state.slots ∧ after.keys = state.keys ∧
        after.nKeys = state.nKeys ∧ state.keyIndex ≤ after.keyIndex ∧
        after.keyIndex ≤ after.nKeys) ∧
    ((∀ f, (pszScope = none ∧ f = none ∨
          ∃ s g, pszScope = some s ∧ parseScope abi s = .ok g ∧ f = some g) →
        RowsFit abi f state) →
      ∃ after, stateAfter (NCryptP11EnumKeys abi p11 checkNCryptHandle pszScope ppKeyName
        (some state) w) = some after) := by
  refine ⟨?_, fun hfit => enumKeys_returns_on_state abi p11 checkNCryptHandle pszScope
    ppKeyName state w hcursor hfit⟩
  intro after h
  cases hx : NCryptP11EnumKeys abi p11 checkNCryptHandle pszScope ppKeyName (some state) w with
  | error e => rw [hx] at h; simp [stateAfter] at h
  | ok r =>
    rw [hx] at h
    have hr : r.ppEnumState = some after := h
    rcases enumKeys_ok_cases abi p11 checkNCryptHandle pszScope ppKeyName (some state) w r hx with
      ⟨_, _, hst⟩ | ⟨f, st, _, hst, hstep⟩
    · rw [hst] at hr
      have := Option.some.inj hr
      subst this
      exact ⟨rfl, rfl, rfl, rfl, Nat.le_refl _, hcursor⟩
    · have hst2 : st = state := by
        rcases hst with hst | ⟨hst, _⟩
        · exact (Option.some.inj hst).symm
        · cases hst
      subst hst2
      rcases hstep with ⟨_, _, he⟩ | ⟨_, i, key, name, h1, h2, _, _, _, _, he⟩
      · rw [he] at hr
        have := Option.some.inj hr
        subst this
        refine ⟨rfl, rfl, rfl, rfl, ?_, ?_⟩
        · show st.keyIndex ≤ st.keyIndex + (st.nKeys - st.keyIndex)
          omega
        · show st.keyIndex + (st.nKeys - st.keyIndex) ≤ st.nKeys
          omega
      · rw [he] at hr
        have := Option.some.inj hr
        subst this
        refine ⟨rfl, rfl, rfl, rfl, ?_, ?_⟩
        · show st.keyIndex ≤ i + 1
          omega
        · show i + 1 ≤ st.nKeys
          omega

theorem enumKeys_state_invariant_witness :
    (0 ≤ 1 ∧ stateAfter (NCryptP11EnumKeys lp64 (tableModule (ofString "ReaderA2") 1 1 1)
      .ERROR_SUCCESS none none
      (some { nslots := 1, slots := fit 64 [1], nKeys := 1, keys := [witnessRow], keyIndex := 0 })
      (World.init ())) =
      some { nslots := 1, slots := fit 64 [1], nKeys := 1, keys := [witnessRow], keyIndex := 1 }) ∧
    (1 = 1 ∧ fit 64 [1] = fit 64 [1] ∧ [witnessRow] = [witnessRow] ∧ 1 = 1 ∧ 0 ≤ 1 ∧ 1 ≤ 1) ∧
    ∃ after, stateAfter (NCryptP11EnumKeys lp64 (tableModule (ofString "ReaderA2") 1 1 1)
      .ERROR_SUCCESS none none
      (some { nslots := 1, slots := fit 64 [1], nKeys := 1, keys := [witnessRow], keyIndex := 0 })
      (World.init ())) = some after :=
  ⟨⟨by decide, by decide⟩,
    (enumKeys_state_invariant lp64 (tableModule (ofString "ReaderA2") 1 1 1) .ERROR_SUCCESS none
      none { nslots := 1, slots := fit 64 [1], nKeys := 1, keys := [witnessRow], keyIndex := 0 }
      (World.init ()) (by decide)).1
      { nslots := 1, slots := fit 64 [1], nKeys := 1, keys := [witnessRow], keyIndex := 1 }
      (by decide),
    (enumKeys_state_invariant lp64 (tableModule (ofString "ReaderA2") 1 1 1) .ERROR_SUCCESS none
      none { nslots := 1, slots := fit 64 [1], nKeys := 1, keys := [witnessRow], keyIndex := 0 }
      (World.init ()) (by decide)).2
      (by
        intro f hf
        rcases hf with ⟨_, rfl⟩ | ⟨s, g, hs, _⟩
        · refine ⟨by decide, ?_⟩
          intro key hk
          rw [List.mem_singleton] at hk
          subst hk
          exact ⟨by decide, by decide, fun g hg => by cases hg⟩
        · cases hs)⟩

/-- C12 (failing input). On a module with one slot holding one key with
its certificate, the first call of `NCryptP11EnumKeys` returns the key with
`ERROR_SUCCESS` after two successful `C_OpenSession` calls and one
`C_CloseSession` call: the session the iteration opened is still open. -/
theorem enumKeys_leaves_session_open :
    sessionCounts (NCryptP11EnumKeys lp64 (tableModule [] 1 1 1) .ERROR_SUCCESS none none none
      (World.init ())) = some (.ERROR_SUCCESS, 2, 1) := by
  decide

/-- C13 (failing input). The slot-id property of a key handle whose slot
id is 2^32, asked with a four-byte buffer, returns `NTE_BAD_DATA` after
calling `C_FindObjectsFinal` and `C_CloseSession` on the session handle 0,
although it opened no session. -/
theorem slotIdProperty_closes_unopened_session :
    propertyTrace (NCryptP11KeyGetProperties lp64 (tableModule [] 1 1 1) (cannedCard [] [])
      { witnessHandle with slotId := 4294967296 } .NCRYPT_PROPERTY_SLOTID true 4 0
      (World.init ()) (CardWorld.init ())) =
      some [{ fn := P11Fn.C_FindObjectsFinal, arg := 0, rv := 0 },
            { fn := P11Fn.C_CloseSession, arg := 0, rv := 0 }] := by
  decide

/-- C14. When the first query of `object_load_attributes` returned `rv1` and
left the template `t1`, and this sends the helper to the retry (`CKR_OK` with
a null buffer of available length left, or `CKR_ATTRIBUTE_SENSITIVE`,
`CKR_ATTRIBUTE_TYPE_INVALID`, `CKR_BUFFER_TOO_SMALL`), then: if the buffers
were allocated, the helper returns what the second query on the allocated
template returns, so `CKR_OK` exactly when that query does, and the module
saw two queries; if an allocation failed, it returns `CKR_HOST_MEMORY` and
the module saw the first query only. -/
theorem object_load_attributes_result {σ : Type} (abi : Abi) (p11 : CK_FUNCTION_LIST σ)
    (session object : Nat) (attributes : List CK_ATTRIBUTE) (w : World σ)
    (rv1 : Nat) (t1 : List CK_ATTRIBUTE) (w1 : World σ)
    (h1 : callGetAttributeValue p11 session object attributes w = (rv1, t1, w1))
    (hretry : (rv1 = CKR_OK ∧ attributes_have_unallocated_buffers abi t1 = true) ∨
      rv1 = CKR_ATTRIBUTE_SENSITIVE ∨ rv1 = CKR_ATTRIBUTE_TYPE_INVALID ∨
      rv1 = CKR_BUFFER_TOO_SMALL)
    (allocated : Bool) (t2 : List CK_ATTRIBUTE) (w2 : World σ)
    (h2 : attributes_allocate_buffers abi t1 w1 = (allocated, t2, w2)) :
    (allocated = true →
      object_load_attributes abi p11 session object attributes w =
        callGetAttributeValue p11 session object t2 w2 ∧
      ((object_load_attributes abi p11 session object attributes w).1 = CKR_OK ↔
        (callGetAttributeValue p11 session object t2 w2).1 = CKR_OK) ∧
      (object_load_attributes abi p11 session object attributes w).2.2.trace =
        w.trace ++ [{ fn := P11Fn.C_GetAttributeValue, arg := session, rv := rv1 },
          { fn := P11Fn.C_GetAttributeValue, arg := session,
            rv := (callGetAttributeValue p11 session object t2 w2).1 }]) ∧
    (allocated = false →
      (object_load_attributes abi p11 session object attributes w).1 = CKR_HOST_MEMORY ∧
      (object_load_attributes abi p11 session object attributes w).2.2.trace =
        w.trace ++ [{ fn := P11Fn.C_GetAttributeValue, arg := session, rv := rv1 }]) := by
  have hr := object_load_attributes_retry abi p11 session object attributes w
    (by rw [h1]; exact hretry)
  have hw1 : w1.trace = w.trace ++ [P11Call.mk P11Fn.C_GetAttributeValue session rv1] := by
    have := callGetAttributeValue_trace p11 session object attributes w
    rw [h1] at this
    exact this
  have hw2 : w2.trace = w1.trace := by
    have := (allocate_buffers_trace abi t1 w1).1
    rw [h2] at this
    exact this
  rw [h1] at hr
  simp only [h2] at hr
  constructor
  · intro ha
    subst ha
    have hres : object_load_attributes abi p11 session object attributes w =
        callGetAttributeValue p11 session object t2 w2 := by
      rw [hr]; rfl
    refine ⟨hres, by rw [hres], ?_⟩
    rw [hres, callGetAttributeValue_trace, hw2, hw1, List.append_assoc]
    rfl
  · intro ha
    subst ha
    have hres : object_load_attributes abi p11 session object attributes w =
        (CKR_HOST_MEMORY, t2, w2) := by
      rw [hr]; rfl
    rw [hres]
    exact ⟨rfl, hw2.trans hw1⟩

theorem object_load_attributes_result_witness :
    object_load_attributes lp64 (certificateModule lp64 [] (ofString "MyCert") []) 1 1
        [{ type := CKA_LABEL, pValue := none, ulValueLen := 0 }] (World.init ()) =
      callGetAttributeValue (certificateModule lp64 [] (ofString "MyCert") []) 1 1
        [{ type := CKA_LABEL, pValue := some (List.replicate 6 0), ulValueLen := 6 }]
        { token := (), trace := [{ fn := P11Fn.C_GetAttributeValue, arg := 1, rv := 0 }],
          allocs := [] } :=
  ((object_load_attributes_result lp64 (certificateModule lp64 [] (ofString "MyCert") []) 1 1
    [{ type := CKA_LABEL, pValue := none, ulValueLen := 0 }] (World.init ())
    0 [{ type := CKA_LABEL, pValue := none, ulValueLen := 6 }]
    { token := (), trace := [{ fn := P11Fn.C_GetAttributeValue, arg := 1, rv := 0 }],
      allocs := [] }
    (by decide) (Or.inl (by decide))
    true [{ type := CKA_LABEL, pValue := some (List.replicate 6 0), ulValueLen := 6 }]
    { token := (), trace := [{ fn := P11Fn.C_GetAttributeValue, arg := 1, rv := 0 }],
      allocs := [] }
    (by decide)).1 rfl).1

/-- C15 (counterexample). A module is asked for an attribute with a
one-byte buffer and answers `CKR_BUFFER_TOO_SMALL`, reporting the length 4;
the template it receives in the second query still carries the one-byte
buffer. -/
theorem object_load_attributes_keeps_small_buffer :
    (object_load_attributes lp64 recordingModule 1 1
      [{ type := CKA_ID, pValue := some [0], ulValueLen := 1 }] (World.init [])).2.2.token =
      [[{ type := CKA_ID, pValue := some [0], ulValueLen := 1 }],
       [{ type := CKA_ID, pValue := some [0], ulValueLen := 4 }]] := by
  decide

/-- C15 (amended). On the retry of `object_load_attributes` with the buffers
allocated, the second query receives the template `t2` in which every
attribute the first query left with a null buffer and an available length
has a zeroed buffer of exactly the reported length times the element size of
its type (`sizeof(void*)` for the wrap and unwrap templates,
`sizeof(CK_ULONG)` for the allowed mechanisms, one byte otherwise), and every
other attribute, in particular one with a buffer of its own, is as the first
query left it. -/
theorem object_load_attributes_second_template {σ : Type} (abi : Abi)
    (p11 : CK_FUNCTION_LIST σ) (session object : Nat) (attributes : List CK_ATTRIBUTE)
    (w : World σ) (rv1 : Nat) (t1 : List CK_ATTRIBUTE) (w1 : World σ)
    (h1 : callGetAttributeValue p11 session object attributes w = (rv1, t1, w1))
    (hretry : (rv1 = CKR_OK ∧ attributes_have_unallocated_buffers abi t1 = true) ∨
      rv1 = CKR_ATTRIBUTE_SENSITIVE ∨ rv1 = CKR_ATTRIBUTE_TYPE_INVALID ∨
      rv1 = CKR_BUFFER_TOO_SMALL)
    (t2 : List CK_ATTRIBUTE) (w2 : World σ)
    (h2 : attributes_allocate_buffers abi t1 w1 = (true, t2, w2)) :
    object_load_attributes abi p11 session object attributes w =
        callGetAttributeValue p11 session object t2 w2 ∧
      t2.length = t1.length ∧
      ∀ (i : Nat) (a : CK_ATTRIBUTE), t1[i]? = some a →
        (a.pValue = none → a.ulValueLen ≠ CK_UNAVAILABLE_INFORMATION abi →
          t2[i]? = some { a with
            pValue := some (List.replicate (a.ulValueLen * attributeElementSize abi a.type) 0) }) ∧
        (a.pValue ≠ none ∨ a.ulValueLen = CK_UNAVAILABLE_INFORMATION abi → t2[i]? = some a) := by
  have hr := object_load_attributes_retry abi p11 session object attributes w
    (by rw [h1]; exact hretry)
  rw [h1] at hr
  simp only [h2] at hr
  have ht := allocate_buffers_template abi t1 w1 (by rw [h2])
  rw [h2] at ht
  have ht2 : t2 = t1.map (fun a =>
      if a.pValue.isSome ∨ a.ulValueLen = CK_UNAVAILABLE_INFORMATION abi then a
      else allocatedAttribute abi a) := ht
  refine ⟨by rw [hr]; rfl, by rw [ht2, List.length_map], ?_⟩
  intro i a hi
  have hget : t2[i]? = some (if a.pValue.isSome ∨ a.ulValueLen = CK_UNAVAILABLE_INFORMATION abi
      then a else allocatedAttribute abi a) := by
    rw [ht2, List.getElem?_map, hi]
    rfl
  constructor
  · intro hnull havail
    have hc : ¬ (a.pValue.isSome ∨ a.ulValueLen = CK_UNAVAILABLE_INFORMATION abi) := by
      rintro (hs | hu)
      · rw [hnull] at hs
        cases hs
      · exact havail hu
    rw [hget, if_neg hc]
    rfl
  · intro hc
    have hc2 : a.pValue.isSome ∨ a.ulValueLen = CK_UNAVAILABLE_INFORMATION abi := by
      rcases hc with hs | hu
      · left
        cases hp : a.pValue with
        | none => exact absurd hp hs
        | some _ => rfl
      · exact Or.inr hu
    rw [hget, if_pos hc2]

theorem object_load_attributes_second_template_witness :
    object_load_attributes lp64 recordingModule 1 1
        [{ type := CKA_ID, pValue := some [0], ulValueLen := 1 },
         { type := CKA_ALLOWED_MECHANISMS, pValue := none, ulValueLen := 0 }] (World.init []) =
      callGetAttributeValue recordingModule 1 1
        [{ type := CKA_ID, pValue := some [0], ulValueLen := 4 },
         { type := CKA_ALLOWED_MECHANISMS, pValue := some (List.replicate 32 0), ulValueLen := 4 }]
        { token := [[{ type := CKA_ID, pValue := some [0], ulValueLen := 1 },
                     { type := CKA_ALLOWED_MECHANISMS, pValue := none, ulValueLen := 0 }]],
          trace := [{ fn := P11Fn.C_GetAttributeValue, arg := 1, rv := 336 }],
          allocs := [] } :=
  (object_load_attributes_second_template lp64 recordingModule 1 1
    [{ type := CKA_ID, pValue := some [0], ulValueLen := 1 },
     { type := CKA_ALLOWED_MECHANISMS, pValue := none, ulValueLen := 0 }] (World.init [])
    336
    [{ type := CKA_ID, pValue := some [0], ulValueLen := 4 },
     { type := CKA_ALLOWED_MECHANISMS, pValue := none, ulValueLen := 4 }]
    { token := [[{ type := CKA_ID, pValue := some [0], ulValueLen := 1 },
                 { type := CKA_ALLOWED_MECHANISMS, pValue := none, ulValueLen := 0 }]],
      trace := [{ fn := P11Fn.C_GetAttributeValue, arg := 1, rv := 336 }],
      allocs := [] }
    (by decide) (Or.inr (Or.inr (Or.inr (by decide))))
    [{ type := CKA_ID, pValue := some [0], ulValueLen := 4 },
     { type := CKA_ALLOWED_MECHANISMS, pValue := some (List.replicate 32 0), ulValueLen := 4 }]
    { token := [[{ type := CKA_ID, pValue := some [0], ulValueLen := 1 },
                 { type := CKA_ALLOWED_MECHANISMS, pValue := none, ulValueLen := 0 }]],
      trace := [{ fn := P11Fn.C_GetAttributeValue, arg := 1, rv := 336 }],
      allocs := [] }
    (by decide)).1

/-- C16 (counterexample). With the certificate label
`Certificate for PIV Authentication` and a card answering `90 00` and a CHUID
whose GUID field holds `A0 .. AF`, the name property asked with a 74-byte
buffer succeeds with the size 74 and the name
`a3a2a1a0-a5a4-a7a6-a8a9-aaabac5fc105`: its last six characters are `5fc105`,
in lowercase. -/
theorem nameProperty_piv_lowercase :
    propertyOutcome (NCryptP11KeyGetProperties lp64
      (certificateModule lp64 [] (ofString "Certificate for PIV Authentication") [])
      (cannedCard [0x90, 0x00] witnessChuid) witnessHandle .NCRYPT_PROPERTY_NAME true 74 0
      (World.init ()) (CardWorld.init ())) =
      some (.ERROR_SUCCESS, 74, some (ofString "a3a2a1a0-a5a4-a7a6-a8a9-aaabac5fc105")) := by
  decide

/-- C16 (amended). For a certificate labelled `Certificate for PIV
Authentication` and a card that answers the two commands with `.. 90 00` and
with a CHUID object (outer tag `0x53`) in which well-formed entries of tags
other than `0x34` are followed by the entry of tag `0x34` and length 16, both
answers fitting the 258-byte response array, the name property asked with a
buffer of at least 74 bytes succeeds, reports the size 74 and yields the
container name of the GUID value with the tag bytes `5F C1 05`: 36
characters of the shape `XXXXXXXX-XXXX-XXXX-XXXX-XXXXXXXXXXXX` whose last six
are `5fc105`, in lowercase. -/
theorem nameProperty_piv_name (abi : Abi) (descr cert s outerLen : List Nat)
    (before : List BerField) (guid after : List Nat) (n cbOutput pcbResult : Nat)
    (keyHandle : NCryptP11KeyHandle)
    (hs : (s ++ [0x90, 0x00]).length ≤ 258)
    (hn : IsBerLength outerLen n)
    (hb : ∀ f ∈ before, IsBerLength f.lenOctets f.value.length ∧ f.tag ≠ 0x34)
    (hg : guid.length = 16)
    (hc : (chuidResponse outerLen before guid after).length ≤ 258)
    (ho : 74 ≤ cbOutput) :
    propertyOutcome (NCryptP11KeyGetProperties abi
      (certificateModule abi descr (ofString "Certificate for PIV Authentication") cert)
      (cannedCard (s ++ [0x90, 0x00]) (chuidResponse outerLen before guid after)) keyHandle
      .NCRYPT_PROPERTY_NAME true cbOutput pcbResult (World.init ()) (CardWorld.init ())) =
      some (.ERROR_SUCCESS, 74, some (containerNameLayout guid [0x5F, 0xC1, 0x05])) ∧
    (containerNameLayout guid [0x5F, 0xC1, 0x05]).length = 36 ∧
    IsGuidShaped (containerNameLayout guid [0x5F, 0xC1, 0x05]) ∧
    (containerNameLayout guid [0x5F, 0xC1, 0x05]).drop 30 = ofString "5fc105" := by
  refine ⟨?_, containerNameLayout_length _ _, ?_, ?_⟩
  · choose W C hWC using fun session object tr c => nameProperty_piv abi descr cert s outerLen
      before guid after n cbOutput pcbResult keyHandle session object tr c hs hn hb hg hc ho
    have hopen : ∀ (slot : Nat) (t : Unit),
        (certificateModule abi descr (ofString "Certificate for PIV Authentication")
          cert).C_OpenSession slot t = ((CKR_OK, slot + 1), t) := fun _ _ => rfl
    have hinit : ∀ (session : Nat) (f : List CK_ATTRIBUTE) (t : Unit),
        (certificateModule abi descr (ofString "Certificate for PIV Authentication")
          cert).C_FindObjectsInit session f t = (CKR_OK, t) := fun _ _ _ => rfl
    have hfind : ∀ (session : Nat) (t : Unit),
        (certificateModule abi descr (ofString "Certificate for PIV Authentication")
          cert).C_FindObjects session 1 t = ((CKR_OK, [1]), t) := fun _ _ => rfl
    unfold NCryptP11KeyGetProperties
    simp only [hopen, hinit, hfind, World.called, World.init, ne_eq, not_true_eq_false,
      if_false, hWC]
    rfl
  · refine ⟨hex2 (guid.getD 3 0) ++ hex2 (guid.getD 2 0) ++ hex2 (guid.getD 1 0) ++
        hex2 (guid.getD 0 0), hex2 (guid.getD 5 0) ++ hex2 (guid.getD 4 0),
      hex2 (guid.getD 7 0) ++ hex2 (guid.getD 6 0), hex2 (guid.getD 8 0) ++ hex2 (guid.getD 9 0),
      hex2 (guid.getD 10 0) ++ hex2 (guid.getD 11 0) ++ hex2 (guid.getD 12 0) ++
        hex2 0x5F ++ hex2 0xC1 ++ hex2 0x05, ?_, rfl, rfl, rfl, rfl, rfl, ?_⟩
    · simp [containerNameLayout]
    · intro x hx
      simp only [List.mem_append] at hx
      casesm* _ ∨ _
      all_goals
        obtain ⟨k, hk, rfl⟩ := mem_hex2 _ x (by assumption)
        exact isHexChar_hexDigit k hk
  · have hsplit : containerNameLayout guid [0x5F, 0xC1, 0x05] =
        (hex2 (guid.getD 3 0) ++ hex2 (guid.getD 2 0) ++ hex2 (guid.getD 1 0) ++
          hex2 (guid.getD 0 0) ++ [45] ++ hex2 (guid.getD 5 0) ++ hex2 (guid.getD 4 0) ++ [45] ++
          hex2 (guid.getD 7 0) ++ hex2 (guid.getD 6 0) ++ [45] ++
          hex2 (guid.getD 8 0) ++ hex2 (guid.getD 9 0) ++ [45] ++
          hex2 (guid.getD 10 0) ++ hex2 (guid.getD 11 0) ++ hex2 (guid.getD 12 0)) ++
        (hex2 0x5F ++ hex2 0xC1 ++ hex2 0x05) := by
      simp [containerNameLayout]
    rw [hsplit, List.drop_left' (by simp [hex2])]
    decide

theorem nameProperty_piv_name_witness :
    propertyOutcome (NCryptP11KeyGetProperties lp64
      (certificateModule lp64 (ofString "ReaderA2")
        (ofString "Certificate for PIV Authentication") [48, 0])
      (cannedCard ([] ++ [0x90, 0x00])
        (chuidResponse [0x1C] [{ tag := 0x30, lenOctets := [2], value := [0xAA, 0xBB] }]
          [0xA0, 0xA1, 0xA2, 0xA3, 0xA4, 0xA5, 0xA6, 0xA7, 0xA8, 0xA9, 0xAA, 0xAB, 0xAC, 0xAD,
           0xAE, 0xAF] [0x35, 0x02, 0x01, 0x02]))
      witnessHandle .NCRYPT_PROPERTY_NAME true 74 0 (World.init ()) (CardWorld.init ())) =
      some (.ERROR_SUCCESS, 74, some (containerNameLayout
        [0xA0, 0xA1, 0xA2, 0xA3, 0xA4, 0xA5, 0xA6, 0xA7, 0xA8, 0xA9, 0xAA, 0xAB, 0xAC, 0xAD,
         0xAE, 0xAF] [0x5F, 0xC1, 0x05])) :=
  (nameProperty_piv_name lp64 (ofString "ReaderA2") [48, 0] [] [0x1C]
    [{ tag := 0x30, lenOctets := [2], value := [0xAA, 0xBB] }]
    [0xA0, 0xA1, 0xA2, 0xA3, 0xA4, 0xA5, 0xA6, 0xA7, 0xA8, 0xA9, 0xAA, 0xAB, 0xAC, 0xAD,
     0xAE, 0xAF] [0x35, 0x02, 0x01, 0x02] 0x1C 74 0 witnessHandle
    (by decide) (fun _ => rfl)
    (fun f hf => by
      simp only [List.mem_singleton] at hf
      subst hf
      exact ⟨fun _ => rfl, by decide⟩)
    rfl (by decide) (by decide)).1

/-- C17. For the sixteen bytes `p0 .. p15` of a GUID field and the three bytes
`t0 t1 t2` of a PIV tag, the string `get_piv_container_name` builds is the
two-digit hex of `p3 p2 p1 p0`, a dash, of `p5 p4`, a dash, of `p7 p6`, a
dash, of `p8 p9`, a dash, of `p10 p11 p12 t0 t1 t2`; it has 36 characters,
and it is the same whatever the bytes 13 to 15 are. -/
theorem containerName_layout (p0 p1 p2 p3 p4 p5 p6 p7 p8 p9 p10 p11 p12 p13 p14 p15
    t0 t1 t2 : Nat) :
    cstr (containerName [p0, p1, p2, p3, p4, p5, p6, p7, p8, p9, p10, p11, p12, p13, p14, p15]
        [t0, t1, t2]) =
      hex2 p3 ++ hex2 p2 ++ hex2 p1 ++ hex2 p0 ++ [45] ++ hex2 p5 ++ hex2 p4 ++ [45] ++
        hex2 p7 ++ hex2 p6 ++ [45] ++ hex2 p8 ++ hex2 p9 ++ [45] ++
        hex2 p10 ++ hex2 p11 ++ hex2 p12 ++ hex2 t0 ++ hex2 t1 ++ hex2 t2 ∧
    (cstr (containerName [p0, p1, p2, p3, p4, p5, p6, p7, p8, p9, p10, p11, p12, p13, p14, p15]
        [t0, t1, t2])).length = 36 ∧
    ∀ q13 q14 q15 : Nat,
      containerName [p0, p1, p2, p3, p4, p5, p6, p7, p8, p9, p10, p11, p12, q13, q14, q15]
          [t0, t1, t2] =
        containerName [p0, p1, p2, p3, p4, p5, p6, p7, p8, p9, p10, p11, p12, p13, p14, p15]
          [t0, t1, t2] := by
  refine ⟨?_, ?_, ?_⟩
  · rw [cstr_containerName]
    rfl
  · rw [cstr_containerName, containerNameLayout_length]
  · intro q13 q14 q15
    rw [containerName_eq, containerName_eq]
    rfl

/-- C18 (counterexample). The slot-id property of a key handle whose slot
id is 2^32, asked with a null buffer, returns `ERROR_SUCCESS` and the size
4. -/
theorem slotIdProperty_size_query_succeeds :
    propertyOutcome (NCryptP11KeyGetProperties lp64 (tableModule [] 1 1 1) (cannedCard [] [])
      { witnessHandle with slotId := 4294967296 } .NCRYPT_PROPERTY_SLOTID false 0 0
      (World.init ()) (CardWorld.init ())) = some (.ERROR_SUCCESS, 4, none) := by
  decide

/-- C18 (amended). The slot-id property never fails to return, and it always
reports the size 4. Asked with a null buffer it succeeds and stores nothing,
whatever the slot id is; asked with a buffer of fewer than 4 bytes it fails
with `NTE_NO_MEMORY`; asked with a buffer of at least 4 bytes it stores the
slot id as a `UINT32` and succeeds when the slot id fits 32 bits, and fails
with `NTE_BAD_DATA`, storing nothing, when it does not. -/
theorem slotIdProperty_contract {σ κ : Type} (abi : Abi) (p11 : CK_FUNCTION_LIST σ)
    (sc : SCardApi κ) (keyHandle : NCryptP11KeyHandle) (pbOutput : Bool)
    (cbOutput pcbResult : Nat) (w : World σ) (c : CardWorld κ) :
    ∃ r, NCryptP11KeyGetProperties abi p11 sc keyHandle .NCRYPT_PROPERTY_SLOTID pbOutput cbOutput
        pcbResult w c = .ok r ∧ r.pcbResult = 4 ∧
      (pbOutput = false → r.status = .ERROR_SUCCESS ∧ r.pbOutput = none) ∧
      (pbOutput = true → cbOutput < 4 → r.status = .NTE_NO_MEMORY ∧ r.pbOutput = none) ∧
      (pbOutput = true → 4 ≤ cbOutput → keyHandle.slotId ≤ UINT32_MAX →
        r.status = .ERROR_SUCCESS ∧ r.pbOutput = some (uint32Bytes abi keyHandle.slotId)) ∧
      (pbOutput = true → 4 ≤ cbOutput → UINT32_MAX < keyHandle.slotId →
        r.status = .NTE_BAD_DATA ∧ r.pbOutput = none) := by
  refine ⟨slotIdProperty abi p11 keyHandle pbOutput cbOutput w c, rfl, ?_, ?_, ?_, ?_, ?_⟩
  · unfold slotIdProperty
    split_ifs <;> rfl
  · intro hp
    unfold slotIdProperty
    rw [if_pos hp]
    exact ⟨rfl, rfl⟩
  · intro hp hcb
    unfold slotIdProperty
    rw [if_neg (by rw [hp]; decide), if_pos hcb]
    exact ⟨rfl, rfl⟩
  · intro hp hcb hfit
    unfold slotIdProperty
    rw [if_neg (by rw [hp]; decide), if_neg (by omega), if_neg (by omega)]
    exact ⟨rfl, rfl⟩
  · intro hp hcb hbig
    unfold slotIdProperty
    rw [if_neg (by rw [hp]; decide), if_neg (by omega), if_pos hbig]
    exact ⟨rfl, rfl⟩

theorem slotIdProperty_contract_witness :
    ∃ r, NCryptP11KeyGetProperties lp64 (tableModule [] 1 1 1) (cannedCard [] [])
        { witnessHandle with slotId := 258 } .NCRYPT_PROPERTY_SLOTID true 4 0 (World.init ())
        (CardWorld.init ()) = .ok r ∧ r.pcbResult = 4 ∧ r.status = .ERROR_SUCCESS ∧
      r.pbOutput = some [2, 1, 0, 0] := by
  obtain ⟨r, hr, hsize, _, _, hfill, _⟩ := slotIdProperty_contract lp64 (tableModule [] 1 1 1)
    (cannedCard [] []) { witnessHandle with slotId := 258 } true 4 0 (World.init ())
    (CardWorld.init ())
  exact ⟨r, hr, hsize, (hfill rfl (by decide) (by decide)).1,
    (hfill rfl (by decide) (by decide)).2⟩

/-- C19 (failing input). For a slot whose description is 64 letters `A`,
the reader property asked with a null buffer succeeds with the size 130, and
asked with a buffer of 130 bytes it reads the description past its end. -/
theorem readerProperty_reads_past_description :
    propertyOutcome (NCryptP11KeyGetProperties lp64 (tableModule (List.replicate 64 65) 1 1 1)
      (cannedCard [] []) witnessHandle .NCRYPT_PROPERTY_READER false 0 0
      (World.init ()) (CardWorld.init ())) = some (.ERROR_SUCCESS, 130, none) ∧
    NCryptP11KeyGetProperties lp64 (tableModule (List.replicate 64 65) 1 1 1)
      (cannedCard [] []) witnessHandle .NCRYPT_PROPERTY_READER true 130 0
      (World.init ()) (CardWorld.init ()) = .error Fault.stringOverread := by
  decide

/-- C20 (failing input). For a certificate labelled `MyCert` the name
property asked with a null buffer returns `ERROR_SUCCESS` and leaves the
caller's size cell, which held 777, as it was. -/
theorem nameProperty_leaves_size_unwritten :
    propertyOutcome (NCryptP11KeyGetProperties lp64
      (certificateModule lp64 [] (ofString "MyCert") []) (cannedCard [] []) witnessHandle
      .NCRYPT_PROPERTY_NAME false 0 777 (World.init ()) (CardWorld.init ())) =
      some (.ERROR_SUCCESS, 777, none) := by
  decide

/-! ## The label comparison -/

theorem strncmpEq_of_isPrefixOf : ∀ (label lit : List Nat), (∀ ch ∈ label, ch ≠ 0) →
    (∀ ch ∈ lit, ch ≠ 0) →
    strncmpEq label lit label.length = .ok (label.isPrefixOf lit)
  | [], lit, _, _ => by
    cases lit <;> rfl
  | a :: label, [], hl, _ => by
    have ha : a ≠ 0 := hl a (List.mem_cons_self _ _)
    simp [strncmpEq, ha, List.isPrefixOf]
  | a :: label, b :: lit, hl, hb => by
    have ha : a ≠ 0 := hl a (List.mem_cons_self _ _)
    have ih := strncmpEq_of_isPrefixOf label lit (fun ch hc => hl ch (List.mem_cons_of_mem _ hc))
      (fun ch hc => hb ch (List.mem_cons_of_mem _ hc))
    simp only [List.length_cons, strncmpEq, List.isPrefixOf]
    by_cases hab : a = b
    · subst hab
      simp [ha, ih]
    · simp [hab]

theorem check_for_piv_of_isPrefixOf {σ κ : Type} (p11 : CK_FUNCTION_LIST σ) (sc : SCardApi κ)
    (key : NCryptP11KeyHandle) (cbOutput pcbResult : Nat) (label : List Nat) (w : World σ)
    (c : CardWorld κ) (hl : ∀ ch ∈ label, ch ≠ 0)
    (hp : label.isPrefixOf (ofString "Certificate for PIV Authentication") = true) :
    check_for_piv_container_name p11 sc key false cbOutput pcbResult label label.length w c =
      .ok (.ERROR_SUCCESS, 74, none, w, c) := by
  have hcmp := strncmpEq_of_isPrefixOf label (ofString "Certificate for PIV Authentication") hl
    (by decide)
  rw [hp] at hcmp
  unfold check_for_piv_container_name piv_cert_tags
  rw [checkPivEntries]
  simp only [hcmp, if_true]
  rfl

/-! ## The loop over the module paths -/

theorem loadedPaths_called (l : LoaderWorld) (call : LoaderCall) :
    loadedPaths (l.called call).calls =
      loadedPaths l.calls ++ loadedPaths [call] := by
  simp [loadedPaths, LoaderWorld.called, List.filterMap_append]

theorem openProviderLoop_fail (LoadLibrary : List Nat → Option ModuleImage)
    (modulePath : List Nat) (rest : List (List Nat)) (status : SECURITY_STATUS)
    (cell : Option NCryptP11ProviderHandle) (l : LoaderWorld) (hal : l.allocs = [])
    (hp : pathOpens LoadLibrary modulePath = false) :
    ∃ l1 : LoaderWorld, l1.allocs = [] ∧
      loadedPaths l1.calls = loadedPaths l.calls ++ [modulePath] ∧
      openProviderLoop LoadLibrary (modulePath :: rest) status cell l =
        openProviderLoop LoadLibrary rest (pathFailure LoadLibrary modulePath) cell l1 := by
  unfold pathOpens at hp
  rw [openProviderLoop]
  unfold pathFailure
  cases himg : LoadLibrary modulePath with
  | none =>
    refine ⟨l.called (.LoadLibrary modulePath), ?_, ?_, rfl⟩
    · exact hal
    · rw [loadedPaths_called]
      rfl
  | some image =>
    rw [himg] at hp
    dsimp only at hp ⊢
    by_cases hentry : image.hasGetFunctionList = false
    · rw [if_pos hentry, if_pos hentry]
      refine ⟨_, ?_, ?_, rfl⟩
      · exact hal
      · simp only [loadedPaths_called, List.append_assoc]
        rfl
    · rw [if_neg hentry, if_neg hentry]
      have hentry1 : image.hasGetFunctionList = true := by simpa using hentry
      have hrv : ¬ (image.getFunctionListRv = CKR_OK ∧ image.initializeRv = CKR_OK) := by
        intro hc
        rw [hentry1] at hp
        simp [hc.1, hc.2] at hp
      have hcal : ((l.called (.LoadLibrary modulePath)).called
          (.GetProcAddress modulePath)).calloc = (true, (l.called (.LoadLibrary modulePath)).called
            (.GetProcAddress modulePath)) := by
        simp [LoaderWorld.calloc, LoaderWorld.called, hal]
      unfold initialize_pkcs11
      simp only [hcal, Bool.true_eq_false, if_false]
      by_cases hg : image.getFunctionListRv ≠ CKR_OK
      · simp only [if_pos hg, ne_eq, reduceCtorEq, not_false_eq_true, if_true]
        refine ⟨_, ?_, ?_, rfl⟩
        · simp [NCryptP11StorageProvider_dtor, LoaderWorld.called, hal]
        · simp only [NCryptP11StorageProvider_dtor, loadedPaths_called, List.append_assoc,
            Bool.false_eq_true, if_false]
          rfl
      · have hi : image.initializeRv ≠ CKR_OK := fun hc => hrv ⟨not_not.mp hg, hc⟩
        simp only [if_neg hg, if_pos hi, ne_eq, reduceCtorEq, not_false_eq_true, if_true]
        refine ⟨_, ?_, ?_, rfl⟩
        · simp [NCryptP11StorageProvider_dtor, LoaderWorld.called, hal]
        · simp only [NCryptP11StorageProvider_dtor, loadedPaths_called, List.append_assoc,
            if_true]
          rfl

theorem openProviderLoop_open (LoadLibrary : List Nat → Option ModuleImage)
    (modulePath : List Nat) (rest : List (List Nat)) (status : SECURITY_STATUS)
    (cell : Option NCryptP11ProviderHandle) (l : LoaderWorld) (hal : l.allocs = [])
    (hp : pathOpens LoadLibrary modulePath = true) :
    ∃ l1 : LoaderWorld, loadedPaths l1.calls = loadedPaths l.calls ++ [modulePath] ∧
      openProviderLoop LoadLibrary (modulePath :: rest) status cell l =
        (.ERROR_SUCCESS,
          some { library := modulePath, p11 := true, modulePath := some modulePath }, l1) := by
  unfold pathOpens at hp
  rw [openProviderLoop]
  cases himg : LoadLibrary modulePath with
  | none => rw [himg] at hp; cases hp
  | some image =>
    rw [himg] at hp
    simp only [Bool.and_eq_true, beq_iff_eq] at hp
    obtain ⟨⟨hentry, hg⟩, hi⟩ := hp
    have hcal : ∀ l0 : LoaderWorld, l0.allocs = [] → l0.calloc = (true, l0) := by
      intro l0 h0
      simp [LoaderWorld.calloc, h0]
    have hal2 : ((l.called (.LoadLibrary modulePath)).called
        (.GetProcAddress modulePath)).allocs = [] := hal
    have hinit : initialize_pkcs11 modulePath image cell
        ((l.called (.LoadLibrary modulePath)).called (.GetProcAddress modulePath)) =
        (.ERROR_SUCCESS, some { library := modulePath, p11 := true, modulePath := none },
          (((l.called (.LoadLibrary modulePath)).called (.GetProcAddress modulePath)).called
            (.C_GetFunctionList modulePath)).called (.C_Initialize modulePath)) := by
      unfold initialize_pkcs11
      simp [hcal _ hal2, hg, hi]
    dsimp only
    rw [if_neg (by simp [hentry]), hinit]
    dsimp only
    rw [if_neg (by simp), hcal _ (by exact hal)]
    refine ⟨_, ?_, rfl⟩
    simp only [loadedPaths_called, List.append_assoc]
    rfl

theorem openProviderLoop_paths (LoadLibrary : List Nat → Option ModuleImage) :
    ∀ (paths : List (List Nat)) (status : SECURITY_STATUS)
      (cell : Option NCryptP11ProviderHandle) (l : LoaderWorld), l.allocs = [] →
      (∀ p, paths.find? (pathOpens LoadLibrary) = some p →
        (openProviderLoop LoadLibrary paths status cell l).1 = .ERROR_SUCCESS ∧
        (openProviderLoop LoadLibrary paths status cell l).2.1 =
          some { library := p, p11 := true, modulePath := some p } ∧
        loadedPaths (openProviderLoop LoadLibrary paths status cell l).2.2.calls =
          loadedPaths l.calls ++
            (paths.takeWhile (fun q => !pathOpens LoadLibrary q) ++ [p])) ∧
      (paths.find? (pathOpens LoadLibrary) = none →
        (openProviderLoop LoadLibrary paths status cell l).1 =
          ((paths.getLast?).map (pathFailure LoadLibrary)).getD status ∧
        (openProviderLoop LoadLibrary paths status cell l).2.1 = cell ∧
        loadedPaths (openProviderLoop LoadLibrary paths status cell l).2.2.calls =
          loadedPaths l.calls ++ paths) := by
  intro paths
  induction paths with
  | nil =>
    intro status cell l _
    refine ⟨fun p hp => (by cases hp), fun _ => ?_⟩
    simp [openProviderLoop]
  | cons modulePath rest ih =>
    intro status cell l hal
    cases hp : pathOpens LoadLibrary modulePath with
    | true =>
      obtain ⟨l1, hl1, hrun⟩ :=
        openProviderLoop_open LoadLibrary modulePath rest status cell l hal hp
      refine ⟨fun p hfind => ?_, fun hfind => ?_⟩
      · rw [List.find?_cons_of_pos _ hp] at hfind
        cases hfind
        rw [hrun]
        refine ⟨rfl, rfl, ?_⟩
        rw [List.takeWhile_cons_of_neg (by simp [hp])]
        exact hl1
      · rw [List.find?_cons_of_pos _ hp] at hfind
        cases hfind
    | false =>
      obtain ⟨l1, hal1, hl1, hrun⟩ :=
        openProviderLoop_fail LoadLibrary modulePath rest status cell l hal hp
      have hrec := ih (pathFailure LoadLibrary modulePath) cell l1 hal1
      rw [hrun]
      refine ⟨fun p hfind => ?_, fun hfind => ?_⟩
      · rw [List.find?_cons_of_neg _ (by simp [hp])] at hfind
        obtain ⟨h1, h2, h3⟩ := hrec.1 p hfind
        refine ⟨h1, h2, ?_⟩
        rw [h3, hl1, List.takeWhile_cons_of_pos (by simp [hp])]
        simp
      · rw [List.find?_cons_of_neg _ (by simp [hp])] at hfind
        obtain ⟨h1, h2, h3⟩ := hrec.2 hfind
        refine ⟨?_, h2, ?_⟩
        · rw [h1]
          cases rest with
          | nil => rfl
          | cons q rest1 =>
            have hsome : ((q :: rest1).getLast?).isSome := by simp [List.getLast?_isSome]
            obtain ⟨x, hx⟩ := Option.isSome_iff_exists.mp hsome
            rw [List.getLast?_cons_cons, hx]
            rfl
        · rw [h3, hl1]
          simp

/-! ## The status bytes and the outcome of the card exchange -/

theorem apduRejected_status (buf resp : List Nat) (h2 : 2 ≤ resp.length)
    (h : resp.length ≤ buf.length) (hb : buf.length ≤ 258) :
    apduRejected (receive buf resp) resp.length = .ok (decide (¬ StatusAccepted resp)) := by
  have i1 : (resp.length + 4294967294) % 4294967296 = resp.length - 2 := by omega
  have i2 : (resp.length + 4294967295) % 4294967296 = resp.length - 1 := by omega
  have l1 : resp.length - 2 < resp.length := by omega
  have l2 : resp.length - 1 < resp.length := by omega
  have g1 : (receive buf resp)[resp.length - 2]? = some (resp.getD (resp.length - 2) 0) := by
    rw [receive_getElem buf _ h _ l1, List.getD_eq_getElem?_getD, List.getElem?_eq_getElem l1]
    rfl
  have g2 : (receive buf resp)[resp.length - 1]? = some (resp.getD (resp.length - 1) 0) := by
    rw [receive_getElem buf _ h _ l2, List.getD_eq_getElem?_getD, List.getElem?_eq_getElem l2]
    rfl
  unfold apduRejected StatusAccepted
  rw [i1, i2, g1]
  simp only [g2]
  by_cases hs : resp.getD (resp.length - 2) 0 = 0x90
  · have ha : resp.getD (resp.length - 2) 0 ≠ 0x61 := by omega
    rw [if_neg (not_not.mpr hs)]
    refine congrArg Except.ok (decide_eq_decide.mpr ⟨fun hr hacc => ?_, fun hr => ?_⟩)
    · rcases hacc with ⟨_, hz⟩ | h61
      · exact hr.1 hz
      · exact ha h61
    · exact ⟨fun hz => hr (Or.inl ⟨hs, hz⟩), ha⟩
  · rw [if_pos hs]
    refine congrArg Except.ok (decide_eq_decide.mpr ⟨fun hr hacc => ?_, fun hr h61 => ?_⟩)
    · rcases hacc with ⟨h90, _⟩ | h61
      · exact hs h90
      · exact hr h61
    · exact hr (Or.inr h61)

theorem scanForGuid_value : ∀ (fuel : Nat) (dec : List Nat) (tag len : Nat)
    (dec2 : Option (List Nat)), (tag = 0x34 → dec2.isSome) →
    (scanForGuid fuel dec tag len dec2).1 = 0x34 →
    (scanForGuid fuel dec tag len dec2).2.2.isSome := by
  intro fuel
  induction fuel with
  | zero =>
    intro dec tag len dec2 h0 h
    exact h0 h
  | succ fuel ih =>
    intro dec tag len dec2 h0
    rw [scanForGuid]
    cases hread : WinPrAsn1DecReadTagLenValue dec with
    | none => exact fun h => h0 h
    | some r =>
      obtain ⟨t, l, value, rest⟩ := r
      dsimp only
      by_cases ht : t = 0x34
      · rw [if_neg (not_not.mpr ht)]
        exact fun _ => rfl
      · rw [if_pos ht]
        exact ih rest t l (some value) (fun _ => rfl)

theorem pivExchange_outcome {κ : Type} (sc : SCardApi κ) (card pci : Nat)
    (piv_tag : List Nat) (output_len : Nat) (c : CardWorld κ)
    (hresp : ∀ (card pci : Nat) (apdu : List Nat) (k : κ),
      (sc.SCardTransmit card pci apdu k).1.1 = SCARD_S_SUCCESS →
        2 ≤ (sc.SCardTransmit card pci apdu k).1.2.length ∧
        (sc.SCardTransmit card pci apdu k).1.2.length ≤ 258) :
    ∃ ret output c1, pivExchange sc card pci piv_tag output_len c = .ok (ret, output, c1) ∧
      (ret = .ERROR_SUCCESS ∨ ret = .NTE_BAD_KEY) ∧
      (ret = .ERROR_SUCCESS →
        (sc.SCardTransmit card pci APDU_PIV_SELECT_AID c.card).1.1 = SCARD_S_SUCCESS ∧
        StatusAccepted (sc.SCardTransmit card pci APDU_PIV_SELECT_AID c.card).1.2 ∧
        (sc.SCardTransmit card pci APDU_PIV_GET_CHUID
          (sc.SCardTransmit card pci APDU_PIV_SELECT_AID c.card).2).1.1 = SCARD_S_SUCCESS ∧
        StatusAccepted (sc.SCardTransmit card pci APDU_PIV_GET_CHUID
          (sc.SCardTransmit card pci APDU_PIV_SELECT_AID c.card).2).1.2 ∧
        ∃ len dec, WinPrAsn1DecReadTagAndLen (sc.SCardTransmit card pci APDU_PIV_GET_CHUID
            (sc.SCardTransmit card pci APDU_PIV_SELECT_AID c.card).2).1.2 =
              some (0x53, len, dec) ∧
          (scanForGuid dec.length dec 0x53 len none).1 = 0x34 ∧
          (scanForGuid dec.length dec 0x53 len none).2.1 = 16) := by
  have hA := hresp card pci APDU_PIV_SELECT_AID c.card
  have hB := hresp card pci APDU_PIV_GET_CHUID
    (sc.SCardTransmit card pci APDU_PIV_SELECT_AID c.card).2
  unfold pivExchange
  simp only [CardWorld.called]
  generalize sc.SCardTransmit card pci APDU_PIV_SELECT_AID c.card = A at hA hB ⊢
  generalize sc.SCardTransmit card pci APDU_PIV_GET_CHUID A.2 = B at hB ⊢
  have hbuf0 : (List.replicate 258 0).length = 258 := List.length_replicate _ _
  by_cases hA1 : A.1.1 = SCARD_S_SUCCESS
  swap
  · rw [if_pos hA1]
    exact ⟨_, _, _, rfl, Or.inr rfl, fun h => by cases h⟩
  rw [if_neg (not_not.mpr hA1)]
  obtain ⟨hA2, hA3⟩ := hA hA1
  have hbuf1 : (receive (List.replicate 258 0) A.1.2).length = 258 := by
    rw [receive_length _ _ (by rw [hbuf0]; exact hA3), hbuf0]
  rw [apduRejected_status (List.replicate 258 0) A.1.2 hA2 (by rw [hbuf0]; exact hA3)
    (by rw [hbuf0])]
  by_cases hAacc : StatusAccepted A.1.2
  swap
  · simp only [hAacc, not_false_eq_true, decide_True]
    exact ⟨_, _, _, rfl, Or.inr rfl, fun h => by cases h⟩
  simp only [hAacc, not_true_eq_false, decide_False]
  by_cases hB1 : B.1.1 = SCARD_S_SUCCESS
  swap
  · rw [if_pos hB1]
    exact ⟨_, _, _, rfl, Or.inr rfl, fun h => by cases h⟩
  rw [if_neg (not_not.mpr hB1)]
  obtain ⟨hB2, hB3⟩ := hB hB1
  rw [apduRejected_status _ B.1.2 hB2 (by rw [hbuf1]; exact hB3) (by rw [hbuf1]),
    receive_take _ _ (by rw [hbuf1]; exact hB3)]
  by_cases hBacc : StatusAccepted B.1.2
  swap
  · simp only [hBacc, not_false_eq_true, decide_True]
    exact ⟨_, _, _, rfl, Or.inr rfl, fun h => by cases h⟩
  simp only [hBacc, not_true_eq_false, decide_False]
  cases hdec : WinPrAsn1DecReadTagAndLen B.1.2 with
  | none => exact ⟨_, _, _, rfl, Or.inr rfl, fun h => by cases h⟩
  | some r =>
    obtain ⟨tag, len, dec⟩ := r
    dsimp only
    by_cases htag : tag = 0x53
    swap
    · rw [if_pos htag]
      exact ⟨_, _, _, rfl, Or.inr rfl, fun h => by cases h⟩
    rw [if_neg (not_not.mpr htag)]
    subst htag
    by_cases hscan : (scanForGuid dec.length dec 0x53 len none).1 ≠ 0x34 ∨
        (scanForGuid dec.length dec 0x53 len none).2.1 ≠ 16
    · rw [if_pos hscan]
      exact ⟨_, _, _, rfl, Or.inr rfl, fun h => by cases h⟩
    rw [if_neg hscan]
    have hs1 : (scanForGuid dec.length dec 0x53 len none).1 = 0x34 := by
      by_contra hne
      exact hscan (Or.inl hne)
    have hs2 : (scanForGuid dec.length dec 0x53 len none).2.1 = 16 := by
      by_contra hne
      exact hscan (Or.inr hne)
    have hval := scanForGuid_value dec.length dec 0x53 len none (fun h => by cases h) hs1
    obtain ⟨p, hp⟩ := Option.isSome_iff_exists.mp hval
    rw [hp]
    dsimp only
    cases ConvertUtf8NToWChar_rc (containerName p piv_tag) (PIV_CONTAINER_NAME_LEN + 1)
        (output_len / 2) with
    | none => exact ⟨_, _, _, rfl, Or.inr rfl, fun h => by cases h⟩
    | some rc =>
      dsimp only
      by_cases hrc : rc > 0
      · rw [if_pos hrc]
        exact ⟨_, _, _, rfl, Or.inl rfl, fun _ => ⟨hA1, trivial, hB1, trivial, len, dec, rfl, hs1, hs2⟩⟩
      · rw [if_neg hrc]
        exact ⟨_, _, _, rfl, Or.inr rfl, fun h => by cases h⟩

theorem scanForGuid_entries : ∀ (fuel : Nat) (dec : List Nat) (tag len : Nat)
    (dec2 : Option (List Nat)), tag ≠ 0x34 →
    (scanForGuid fuel dec tag len dec2).1 = 0x34 →
    ∃ e, (chuidEntries fuel dec).find? (fun e => e.1 == 0x34) = some e ∧
      e.2.1 = (scanForGuid fuel dec tag len dec2).2.1 := by
  intro fuel
  induction fuel with
  | zero =>
    intro dec tag len dec2 h0 h
    exact absurd h h0
  | succ fuel ih =>
    intro dec tag len dec2 h0
    rw [scanForGuid, chuidEntries]
    cases hread : WinPrAsn1DecReadTagLenValue dec with
    | none => exact fun h => absurd h h0
    | some r =>
      obtain ⟨t, l, value, rest⟩ := r
      dsimp only
      by_cases ht : t = 0x34
      · rw [if_neg (not_not.mpr ht)]
        intro _
        refine ⟨(t, l, value), ?_, rfl⟩
        rw [List.find?_cons_of_pos]
        simp [ht]
      · rw [if_pos ht]
        intro h
        obtain ⟨e, he, hl⟩ := ih rest t l (some value) ht h
        refine ⟨e, ?_, hl⟩
        rw [List.find?_cons_of_neg _ (by simp [ht])]
        exact he

/-! ## Sessions followed through a trace -/

theorem noSessionCalls_of_trace {σ : Type} {w w1 : World σ} (h : w1.trace = w.trace) :
    NoSessionCalls w w1 :=
  ⟨[], by rw [h]; simp, by simp⟩

theorem sessionScan_append : ∀ (a b : List P11Call) (n : Nat),
    sessionScan n (a ++ b) = (sessionScan n a).bind (fun k => sessionScan k b)
  | [], b, n => rfl
  | call :: rest, b, n => by
    rw [List.cons_append, sessionScan, sessionScan]
    split_ifs
    · exact sessionScan_append rest b 1
    · rfl
    · exact sessionScan_append rest b 0
    · rfl
    · exact sessionScan_append rest b n

theorem sessionScan_quiet : ∀ (extra : List P11Call) (n : Nat),
    (∀ c ∈ extra, c.fn ≠ P11Fn.C_OpenSession ∧ c.fn ≠ P11Fn.C_CloseSession) →
    sessionScan n extra = some n
  | [], n, _ => rfl
  | call :: rest, n, h => by
    have hc := h call (List.mem_cons_self _ _)
    rw [sessionScan, if_neg (fun hh => hc.1 hh.1), if_neg hc.2]
    exact sessionScan_quiet rest n (fun c hm => h c (List.mem_cons_of_mem _ hm))

theorem oneSessionScan_append : ∀ (a b : List P11Call) (n : Nat),
    oneSessionScan n (a ++ b) = (oneSessionScan n a).bind (fun k => oneSessionScan k b)
  | [], b, n => rfl
  | call :: rest, b, n => by
    rw [List.cons_append, oneSessionScan, oneSessionScan]
    split_ifs
    · exact oneSessionScan_append rest b 1
    · rfl
    · exact oneSessionScan_append rest b 0
    · exact oneSessionScan_append rest b n

theorem oneSessionScan_of_sessionScan : ∀ (extra : List P11Call) (n m : Nat),
    sessionScan n extra = some m → oneSessionScan n extra = some m
  | [], n, m, h => h
  | call :: rest, n, m, h => by
    rw [sessionScan] at h
    rw [oneSessionScan]
    split_ifs at h ⊢ with h1 h2 h3 h4
    · exact oneSessionScan_of_sessionScan rest 1 m h
    · exact oneSessionScan_of_sessionScan rest 0 m h
    · exact oneSessionScan_of_sessionScan rest n m h

theorem sessionScan_counts : ∀ (extra : List P11Call) (n m : Nat),
    sessionScan n extra = some m →
    countSuccessful P11Fn.C_OpenSession extra + n = countCalls P11Fn.C_CloseSession extra + m
  | [], n, m, h => by
    cases h
    rfl
  | call :: rest, n, m, h => by
    rw [sessionScan] at h
    unfold countSuccessful countCalls
    rw [List.filter_cons, List.filter_cons]
    split_ifs at h with h1 h2 h3 h4
    · have ih := sessionScan_counts rest 1 m h
      unfold countSuccessful countCalls at ih
      have hne : ¬ call.fn = P11Fn.C_CloseSession := by
        rw [h1.1]
        decide
      rw [if_pos (by simpa using h1), if_neg (by simpa using hne), List.length_cons]
      omega
    · have ih := sessionScan_counts rest 0 m h
      unfold countSuccessful countCalls at ih
      rw [if_neg (by simpa using h1), if_pos (by simpa using h3), List.length_cons]
      omega
    · have ih := sessionScan_counts rest n m h
      unfold countSuccessful countCalls at ih
      rw [if_neg (by simpa using h1), if_neg (by simpa using h3)]
      exact ih

theorem sessionsFollow_of_noSessionCalls {σ : Type} {w w1 : World σ} (n : Nat)
    (h : NoSessionCalls w w1) : SessionsFollow w w1 n n := by
  obtain ⟨extra, ht, hq⟩ := h
  exact ⟨extra, ht, sessionScan_quiet extra n hq⟩

theorem sessionsFollow_trans {σ : Type} {w w1 w2 : World σ} {n m k : Nat}
    (h1 : SessionsFollow w w1 n m) (h2 : SessionsFollow w1 w2 m k) :
    SessionsFollow w w2 n k := by
  obtain ⟨e1, t1, s1⟩ := h1
  obtain ⟨e2, t2, s2⟩ := h2
  refine ⟨e1 ++ e2, by rw [t2, t1, List.append_assoc], ?_⟩
  rw [sessionScan_append, s1]
  exact s2

theorem sessionsFollow_open {σ : Type} (w : World σ) (arg rv : Nat) (t : σ)
    (h : rv = CKR_OK) : SessionsFollow w (w.called P11Fn.C_OpenSession arg rv t) 0 1 := by
  refine ⟨[P11Call.mk P11Fn.C_OpenSession arg rv], rfl, ?_⟩
  rw [sessionScan, if_pos ⟨rfl, h⟩, if_pos rfl]
  rfl

theorem sessionsFollow_open_failed {σ : Type} (w : World σ) (arg rv : Nat) (t : σ) (n : Nat)
    (h : rv ≠ CKR_OK) : SessionsFollow w (w.called P11Fn.C_OpenSession arg rv t) n n := by
  refine ⟨[P11Call.mk P11Fn.C_OpenSession arg rv], rfl, ?_⟩
  rw [sessionScan, if_neg (fun hh => h hh.2), if_neg (fun hh => by cases hh)]
  rfl

theorem sessionsFollow_close {σ : Type} (w : World σ) (arg rv : Nat) (t : σ) :
    SessionsFollow w (w.called P11Fn.C_CloseSession arg rv t) 1 0 := by
  refine ⟨[P11Call.mk P11Fn.C_CloseSession arg rv], rfl, ?_⟩
  rw [sessionScan, if_neg (fun hh => by cases hh.1), if_pos rfl, if_pos rfl]
  rfl

theorem oneSession_of_sessionsFollow {σ : Type} {w w1 : World σ} {n m : Nat}
    (h : SessionsFollow w w1 n m) : OneSessionAtATime w w1 n m := by
  obtain ⟨extra, ht, hs⟩ := h
  exact ⟨extra, ht, oneSessionScan_of_sessionScan extra n m hs⟩

theorem oneSession_trans {σ : Type} {w w1 w2 : World σ} {n m k : Nat}
    (h1 : OneSessionAtATime w w1 n m) (h2 : OneSessionAtATime w1 w2 m k) :
    OneSessionAtATime w w2 n k := by
  obtain ⟨e1, t1, s1⟩ := h1
  obtain ⟨e2, t2, s2⟩ := h2
  refine ⟨e1 ++ e2, by rw [t2, t1, List.append_assoc], ?_⟩
  rw [oneSessionScan_append, s1]
  exact s2

theorem oneSession_close {σ : Type} (w : World σ) (arg rv : Nat) (t : σ) (n : Nat) :
    OneSessionAtATime w (w.called P11Fn.C_CloseSession arg rv t) n 0 := by
  refine ⟨[P11Call.mk P11Fn.C_CloseSession arg rv], rfl, ?_⟩
  rw [oneSessionScan, if_neg (fun hh => by cases hh.1), if_pos rfl]
  rfl

theorem closesOnly_of_noSessionCalls {σ : Type} {w w1 : World σ} (session : Nat)
    (h : NoSessionCalls w w1) : ClosesOnly w w1 session := by
  obtain ⟨extra, ht, hq⟩ := h
  exact ⟨extra, ht, fun c hc hfn => absurd hfn (hq c hc).2⟩

theorem closesOnly_trans {σ : Type} {w w1 w2 : World σ} {session : Nat}
    (h1 : ClosesOnly w w1 session) (h2 : ClosesOnly w1 w2 session) :
    ClosesOnly w w2 session := by
  obtain ⟨e1, t1, n1⟩ := h1
  obtain ⟨e2, t2, n2⟩ := h2
  refine ⟨e1 ++ e2, by rw [t2, t1, List.append_assoc], ?_⟩
  intro c hc
  rcases List.mem_append.mp hc with h | h
  · exact n1 c h
  · exact n2 c h

theorem closesOnly_called {σ : Type} (w : World σ) (fn : P11Fn) (arg rv : Nat) (t : σ)
    (session : Nat) (h : fn = P11Fn.C_CloseSession → arg = session) :
    ClosesOnly w (w.called fn arg rv t) session := by
  refine ⟨[P11Call.mk fn arg rv], rfl, ?_⟩
  intro c hc
  rw [List.mem_singleton] at hc
  subst hc
  exact h

theorem object_load_attributes_quiet {σ : Type} (abi : Abi) (p11 : CK_FUNCTION_LIST σ)
    (session object : Nat) (attributes : List CK_ATTRIBUTE) (w : World σ) :
    NoSessionCalls w (object_load_attributes abi p11 session object attributes w).2.2 := by
  have q1 := noSessionCalls_getAttributeValue p11 session object attributes w
  unfold object_load_attributes
  dsimp only
  split_ifs
  · exact q1
  · exact noSessionCalls_trans q1 (noSessionCalls_of_trace (allocate_buffers_trace abi _ _).1)
  · exact noSessionCalls_trans
      (noSessionCalls_trans q1 (noSessionCalls_of_trace (allocate_buffers_trace abi _ _).1))
      (noSessionCalls_getAttributeValue p11 session object _ _)
  · exact q1

theorem collectObjects_quiet {σ : Type} (abi : Abi) (p11 : CK_FUNCTION_LIST σ) (slotId : Nat)
    (slotInfo : CK_SLOT_INFO) (session : Nat) : ∀ (objects : List Nat) (state : P11EnumKeysState)
    (w : World σ) (st : P11EnumKeysState) (w1 : World σ),
    collectObjects abi p11 slotId slotInfo session objects state w = .ok (st, w1) →
    NoSessionCalls w w1 := by
  intro objects
  induction objects with
  | nil =>
    intro state w st w1 h
    simp only [collectObjects, Except.ok.injEq, Prod.mk.injEq] at h
    rw [← h.2]
    exact noSessionCalls_refl w
  | cons object rest ih =>
    intro state w st w1 h
    rw [collectObjects] at h
    dsimp only at h
    have q := object_load_attributes_quiet abi p11 session object (key_or_certAttrs abi) w
    split_ifs at h with h1 h2
    · exact noSessionCalls_trans q (ih _ _ _ _ h)
    · exact noSessionCalls_trans q (ih _ _ _ _ h)

theorem collectSlot_sessions {σ : Type} (abi : Abi) (p11 : CK_FUNCTION_LIST σ) (i : Nat)
    (state : P11EnumKeysState) (w : World σ) (st : P11EnumKeysState) (w1 : World σ)
    (h : collectSlot abi p11 i state w = .ok (st, w1)) :
    SessionsFollow w w1 0 0 ∧
    ∀ slot, state.slots[i]? = some slot →
      ClosesOnly w w1 (p11.C_OpenSession slot
        (p11.C_GetTokenInfo slot (p11.C_GetSlotInfo slot w.token).2).2).1.2 := by
  unfold collectSlot at h
  cases hs : state.slots[i]? with
  | none => rw [hs] at h; cases h
  | some slot =>
    rw [hs] at h
    dsimp only at h
    have q1 := noSessionCalls_called w P11Fn.C_GetSlotInfo slot
      (p11.C_GetSlotInfo slot w.token).1.1 (p11.C_GetSlotInfo slot w.token).2
      (by decide) (by decide)
    have q2 := fun (w0 : World σ) (rv : Nat) (t : σ) =>
      noSessionCalls_called w0 P11Fn.C_GetTokenInfo slot rv t (by decide) (by decide)
    have q3 := fun (w0 : World σ) (arg rv : Nat) (t : σ) =>
      noSessionCalls_called w0 P11Fn.C_FindObjectsInit arg rv t (by decide) (by decide)
    have q4 := fun (w0 : World σ) (arg rv : Nat) (t : σ) =>
      noSessionCalls_called w0 P11Fn.C_FindObjects arg rv t (by decide) (by decide)
    have q5 := fun (w0 : World σ) (arg rv : Nat) (t : σ) =>
      noSessionCalls_called w0 P11Fn.C_FindObjectsFinal arg rv t (by decide) (by decide)
    have qo := fun (w0 : World σ) (rv : Nat) (t : σ) (session : Nat) =>
      closesOnly_called w0 P11Fn.C_OpenSession slot rv t session (fun hh => by cases hh)
    split_ifs at h with h1 h2 h3 h4 h5
    · cases h
      exact ⟨sessionsFollow_of_noSessionCalls 0 q1,
        fun s hs1 => closesOnly_of_noSessionCalls _ q1⟩
    · cases h
      exact ⟨sessionsFollow_of_noSessionCalls 0 q1,
        fun s hs1 => closesOnly_of_noSessionCalls _ q1⟩
    · cases h
      refine ⟨sessionsFollow_trans (sessionsFollow_of_noSessionCalls 0
          (noSessionCalls_trans q1 (q2 _ _ _))) (sessionsFollow_open_failed _ _ _ _ 0 h3),
        fun s hs1 => closesOnly_trans (closesOnly_of_noSessionCalls _
          (noSessionCalls_trans q1 (q2 _ _ _))) (qo _ _ _ _)⟩
    · cases h
      refine ⟨sessionsFollow_trans (sessionsFollow_trans (sessionsFollow_of_noSessionCalls 0
          (noSessionCalls_trans q1 (q2 _ _ _)))
            (sessionsFollow_open _ _ _ _ (not_not.mp h3)))
          (sessionsFollow_trans (sessionsFollow_of_noSessionCalls 1 (q3 _ _ _ _))
            (sessionsFollow_close _ _ _ _)),
        fun s hs1 => ?_⟩
      cases hs1
      exact closesOnly_trans (closesOnly_trans (closesOnly_of_noSessionCalls _
          (noSessionCalls_trans q1 (q2 _ _ _))) (qo _ _ _ _))
        (closesOnly_trans (closesOnly_of_noSessionCalls _ (q3 _ _ _ _))
          (closesOnly_called _ _ _ _ _ _ (fun _ => rfl)))
    · cases h
      refine ⟨sessionsFollow_trans (sessionsFollow_trans (sessionsFollow_of_noSessionCalls 0
          (noSessionCalls_trans q1 (q2 _ _ _)))
            (sessionsFollow_open _ _ _ _ (not_not.mp h3)))
          (sessionsFollow_trans (sessionsFollow_of_noSessionCalls 1
            (noSessionCalls_trans (noSessionCalls_trans (q3 _ _ _ _) (q4 _ _ _ _)) (q5 _ _ _ _)))
            (sessionsFollow_close _ _ _ _)),
        fun s hs1 => ?_⟩
      cases hs1
      exact closesOnly_trans (closesOnly_trans (closesOnly_of_noSessionCalls _
          (noSessionCalls_trans q1 (q2 _ _ _))) (qo _ _ _ _))
        (closesOnly_trans (closesOnly_of_noSessionCalls _
          (noSessionCalls_trans (noSessionCalls_trans (q3 _ _ _ _) (q4 _ _ _ _)) (q5 _ _ _ _)))
          (closesOnly_called _ _ _ _ _ _ (fun _ => rfl)))
    · split at h
      · cases h
      · rename_i state6 w6 hco
        cases h
        have qc := collectObjects_quiet abi p11 _ _ _ _ _ _ _ _ hco
        refine ⟨sessionsFollow_trans (sessionsFollow_trans (sessionsFollow_of_noSessionCalls 0
            (noSessionCalls_trans q1 (q2 _ _ _)))
              (sessionsFollow_open _ _ _ _ (not_not.mp h3)))
            (sessionsFollow_trans (sessionsFollow_of_noSessionCalls 1
              (noSessionCalls_trans (noSessionCalls_trans (noSessionCalls_trans (q3 _ _ _ _)
                (q4 _ _ _ _)) qc) (q5 _ _ _ _)))
              (sessionsFollow_close _ _ _ _)),
          fun s hs1 => ?_⟩
        cases hs1
        exact closesOnly_trans (closesOnly_trans (closesOnly_of_noSessionCalls _
            (noSessionCalls_trans q1 (q2 _ _ _))) (qo _ _ _ _))
          (closesOnly_trans (closesOnly_of_noSessionCalls _
            (noSessionCalls_trans (noSessionCalls_trans (noSessionCalls_trans (q3 _ _ _ _)
                (q4 _ _ _ _)) qc) (q5 _ _ _ _)))
            (closesOnly_called _ _ _ _ _ _ (fun _ => rfl)))

theorem collectSlots_sessions {σ : Type} (abi : Abi) (p11 : CK_FUNCTION_LIST σ) :
    ∀ (indices : List Nat) (state : P11EnumKeysState) (w : World σ) (st : P11EnumKeysState)
      (w1 : World σ), collectSlots abi p11 indices state w = .ok (st, w1) →
      SessionsFollow w w1 0 0 := by
  intro indices
  induction indices with
  | nil =>
    intro state w st w1 h
    simp only [collectSlots, Except.ok.injEq, Prod.mk.injEq] at h
    rw [← h.2]
    exact sessionsFollow_of_noSessionCalls 0 (noSessionCalls_refl w)
  | cons i rest ih =>
    intro state w st w1 h
    rw [collectSlots] at h
    split at h
    · cases h
    · rename_i state1 w2 hslot
      exact sessionsFollow_trans (collectSlot_sessions abi p11 i state w state1 w2 hslot).1
        (ih _ _ _ _ h)

theorem collect_keys_follow {σ : Type} (abi : Abi) (p11 : CK_FUNCTION_LIST σ)
    (state : P11EnumKeysState) (w : World σ) (ret : SECURITY_STATUS) (st : P11EnumKeysState)
    (w1 : World σ) (h : collect_keys abi p11 state w = .ok (ret, st, w1)) :
    SessionsFollow w w1 0 0 := by
  unfold collect_keys at h
  split at h
  · cases h
  · rename_i state1 w2 hslots
    cases h
    exact collectSlots_sessions abi p11 _ _ _ _ _ hslots

/-! ## One session at a time while enumerating -/

theorem oneSession_of_noSessionCalls {σ : Type} {w w1 : World σ} (n : Nat)
    (h : NoSessionCalls w w1) : OneSessionAtATime w w1 n n :=
  oneSession_of_sessionsFollow (sessionsFollow_of_noSessionCalls n h)

theorem makeKeyName_quiet {σ : Type} (abi : Abi) (key : NCryptKeyEnum) (w : World σ)
    (keyName : Option NCryptKeyName) (w1 : World σ)
    (h : makeKeyName abi key w = .ok (keyName, w1)) : NoSessionCalls w w1 := by
  unfold makeKeyName at h
  dsimp only at h
  split_ifs at h with hc
  · cases h
    exact noSessionCalls_calloc w
  · split at h
    · cases h
    · cases h
      exact noSessionCalls_calloc w

theorem switchSession_one {σ : Type} (p11 : CK_FUNCTION_LIST σ) (key : NCryptKeyEnum)
    (currentSlot currentSession : Nat) (w : World σ) (n : Nat)
    (hp : OpenSessionGivesHandle p11) (hn : n ≤ 1) (hs : n = 1 → currentSession ≠ 0) :
    ∃ m, m ≤ 1 ∧
      OneSessionAtATime w (switchSession p11 key currentSlot currentSession w).2.2.2 n m ∧
      (m = 1 → (switchSession p11 key currentSlot currentSession w).2.2.1 ≠ 0) := by
  unfold switchSession
  by_cases hc : currentSession = 0 ∨ currentSlot ≠ key.slotId
  swap
  · rw [if_neg hc]
    exact ⟨n, hn, oneSession_of_noSessionCalls n (noSessionCalls_refl w), hs⟩
  rw [if_pos hc]
  dsimp only
  by_cases h0 : currentSession = 0
  · have hn0 : n = 0 := by
      by_contra hne
      exact hs (by omega) h0
    subst hn0
    rw [if_neg (not_not.mpr h0)]
    by_cases hrv : (p11.C_OpenSession key.slotId w.token).1.1 = CKR_OK
    · rw [if_neg (not_not.mpr hrv)]
      exact ⟨1, Nat.le_refl 1,
        oneSession_of_sessionsFollow (sessionsFollow_open w _ _ _ hrv),
        fun _ => hp key.slotId w.token hrv⟩
    · rw [if_pos hrv]
      exact ⟨0, Nat.zero_le 1,
        oneSession_of_sessionsFollow (sessionsFollow_open_failed w _ _ _ 0 hrv),
        fun h => by cases h⟩
  · rw [if_pos h0]
    have hclose := oneSession_close w currentSession
      (p11.C_CloseSession currentSession w.token).1
      (p11.C_CloseSession currentSession w.token).2 n
    by_cases hrv : (p11.C_OpenSession key.slotId
        (w.called P11Fn.C_CloseSession currentSession
          (p11.C_CloseSession currentSession w.token).1
          (p11.C_CloseSession currentSession w.token).2).token).1.1 = CKR_OK
    · rw [if_neg (not_not.mpr hrv)]
      exact ⟨1, Nat.le_refl 1,
        oneSession_trans hclose
          (oneSession_of_sessionsFollow (sessionsFollow_open _ _ _ _ hrv)),
        fun _ => hp key.slotId _ hrv⟩
    · rw [if_pos hrv]
      exact ⟨0, Nat.zero_le 1,
        oneSession_trans hclose
          (oneSession_of_sessionsFollow (sessionsFollow_open_failed _ _ _ _ 0 hrv)),
        fun h => by cases h⟩

theorem enumKeysLoop_one {σ : Type} (abi : Abi) (p11 : CK_FUNCTION_LIST σ)
    (f : Option SlotFilter) (hp : OpenSessionGivesHandle p11) :
    ∀ (left : Nat) (state : P11EnumKeysState) (cs csess : Nat) (kn : Option NCryptKeyName)
      (w : World σ) (n : Nat) (r : EnumKeysResult σ), n ≤ 1 → (n = 1 → csess ≠ 0) →
      enumKeysLoop abi p11 f left state cs csess kn w = .ok r →
      ∃ m, OneSessionAtATime w r.world n m := by
  intro left
  induction left with
  | zero =>
    intro state cs csess kn w n r _ _ h
    simp only [enumKeysLoop, Except.ok.injEq] at h
    rw [← h]
    exact ⟨n, oneSession_of_noSessionCalls n (noSessionCalls_refl w)⟩
  | succ left ih =>
    intro state cs csess kn w n r hn hs h
    rw [enumKeysLoop] at h
    dsimp only at h
    cases hk : state.keys[state.keyIndex]? with
    | none =>
      rw [hk] at h
      cases h
    | some key =>
      rw [hk] at h
      dsimp only at h
      cases hf : filterMismatch f key with
      | error e1 =>
        rw [hf] at h
        cases h
      | ok b =>
        rw [hf] at h
        cases b with
        | true => exact ih _ _ _ _ _ n r hn hs h
        | false =>
          dsimp only at h
          obtain ⟨m, hm, hsw, hsess⟩ := switchSession_one p11 key cs csess w n hp hn hs
          have q3 := fun (w0 : World σ) (arg rv : Nat) (t : σ) =>
            noSessionCalls_called w0 P11Fn.C_FindObjectsInit arg rv t (by decide) (by decide)
          have q4 := fun (w0 : World σ) (arg rv : Nat) (t : σ) =>
            noSessionCalls_called w0 P11Fn.C_FindObjects arg rv t (by decide) (by decide)
          have q5 := fun (w0 : World σ) (arg rv : Nat) (t : σ) =>
            noSessionCalls_called w0 P11Fn.C_FindObjectsFinal arg rv t (by decide) (by decide)
          split_ifs at h with h1 h2 h3
          · obtain ⟨k, hk1⟩ := ih _ _ _ _ _ m r hm hsess h
            exact ⟨k, oneSession_trans hsw hk1⟩
          · obtain ⟨k, hk1⟩ := ih _ _ _ _ _ m r hm hsess h
            exact ⟨k, oneSession_trans hsw
              (oneSession_trans (oneSession_of_noSessionCalls m (q3 _ _ _ _)) hk1)⟩
          · generalize hmade : makeKeyName abi key _ = made at h
            cases made with
            | error e1 => cases h
            | ok p =>
              obtain ⟨keyName, w5⟩ := p
              have qm := makeKeyName_quiet abi key _ keyName w5 hmade
              have hpre := fun (arg rv : Nat) (t : σ) =>
                oneSession_trans hsw (oneSession_of_noSessionCalls m
                  (noSessionCalls_trans (noSessionCalls_trans (noSessionCalls_trans
                    (q3 _ _ _ _) (q4 _ _ _ _)) qm) (q5 w5 arg rv t)))
              cases keyName with
              | none =>
                obtain ⟨k, hk1⟩ := ih _ _ _ _ _ m r hm hsess h
                exact ⟨k, oneSession_trans (hpre _ _ _) hk1⟩
              | some kn1 =>
                cases h
                exact ⟨m, hpre _ _ _⟩
          · obtain ⟨k, hk1⟩ := ih _ _ _ _ _ m r hm hsess h
            exact ⟨k, oneSession_trans (oneSession_trans hsw (oneSession_of_noSessionCalls m
              (noSessionCalls_trans (noSessionCalls_trans
                (q3 _ _ _ _) (q4 _ _ _ _)) (q5 _ _ _ _)))) hk1⟩

theorem fetchSlotList_quiet {σ : Type} (p11 : CK_FUNCTION_LIST σ) (w : World σ) :
    NoSessionCalls w (fetchSlotList p11 w).2 := by
  have q := fun (w0 : World σ) (arg rv : Nat) (t : σ) =>
    noSessionCalls_called w0 P11Fn.C_GetSlotList arg rv t (by decide) (by decide)
  unfold fetchSlotList
  dsimp only
  split_ifs
  all_goals first
    | exact noSessionCalls_calloc w
    | exact noSessionCalls_trans (noSessionCalls_calloc w) (q _ _ _ _)
    | exact noSessionCalls_trans (noSessionCalls_trans (noSessionCalls_calloc w) (q _ _ _ _))
        (q _ _ _ _)

theorem buildEnumState_one {σ : Type} (abi : Abi) (p11 : CK_FUNCTION_LIST σ) (w : World σ)
    (x : Except SECURITY_STATUS P11EnumKeysState) (w1 : World σ)
    (h : buildEnumState abi p11 w = .ok (x, w1)) : OneSessionAtATime w w1 0 0 := by
  have q := fetchSlotList_quiet p11 w
  unfold buildEnumState at h
  cases hfetch : fetchSlotList p11 w with
  | mk y w2 =>
    rw [hfetch] at h q
    cases y with
    | error ret =>
      cases h
      exact oneSession_of_noSessionCalls 0 q
    | ok state =>
      dsimp only at h
      cases hcol : collect_keys abi p11 state w2 with
      | error e =>
        rw [hcol] at h
        cases h
      | ok r =>
        obtain ⟨ret, state1, w3⟩ := r
        rw [hcol] at h
        have hw : w1 = w3 := by
          dsimp only at h
          split_ifs at h <;> cases h <;> rfl
        rw [hw]
        exact oneSession_trans (oneSession_of_noSessionCalls 0 q)
          (oneSession_of_sessionsFollow (collect_keys_follow abi p11 state w2 ret state1 w3 hcol))

theorem enumKeys_one {σ : Type} (abi : Abi) (p11 : CK_FUNCTION_LIST σ)
    (checkNCryptHandle : SECURITY_STATUS) (pszScope : Option (List Nat))
    (ppKeyName : Option NCryptKeyName) (ppEnumState : Option P11EnumKeysState) (w : World σ)
    (r : EnumKeysResult σ) (hp : OpenSessionGivesHandle p11)
    (h : NCryptP11EnumKeys abi p11 checkNCryptHandle pszScope ppKeyName ppEnumState w = .ok r) :
    ∃ m, OneSessionAtATime w r.world 0 m := by
  have hrefl := oneSession_of_noSessionCalls 0 (noSessionCalls_refl w)
  unfold NCryptP11EnumKeys at h
  split_ifs at h with hc
  · cases h
    exact ⟨0, hrefl⟩
  · dsimp only at h
    split at h
    · cases h
      exact ⟨0, hrefl⟩
    · rename_i slotFilter _
      split at h
      · cases h
      · rename_i ret w1 hbuilt
        cases h
        cases ppEnumState with
        | some state => cases hbuilt
        | none => exact ⟨0, buildEnumState_one abi p11 w _ w1 hbuilt⟩
      · rename_i state w1 hbuilt
        have hpre : OneSessionAtATime w w1 0 0 := by
          cases ppEnumState with
          | some state0 =>
            cases hbuilt
            exact hrefl
          | none => exact buildEnumState_one abi p11 w _ w1 hbuilt
        obtain ⟨m, hm⟩ := enumKeysLoop_one abi p11 slotFilter hp _ _ _ _ _ _ 0 r
          (Nat.zero_le 1) (fun h0 => by cases h0) h
        exact ⟨m, oneSession_trans hpre hm⟩

/-! ## The claims C21 to C30 -/

/-- C21. `NCryptP11GetProperty` on a provider handle returns
`ERROR_CALL_NOT_IMPLEMENTED` for every property identifier, and on a key
handle with a property identifier other than certificate, reader, slot id
and name it returns `NTE_NOT_SUPPORTED`; in both cases the size cell, the
output buffer, the token module with its call trace and the card transport
are left as they were. -/
theorem getProperty_routing {σ κ : Type} (abi : Abi) (p11 : CK_FUNCTION_LIST σ)
    (sc : SCardApi κ) (key : NCryptP11KeyHandle) (prop : NCryptKeyGetPropertyEnum)
    (pbOutput : Bool) (cbOutput pcbResult : Nat) (w : World σ) (c : CardWorld κ) :
    NCryptP11GetProperty abi p11 sc { type := .WINPR_NCRYPT_PROVIDER, key := key } prop pbOutput
        cbOutput pcbResult w c =
      .ok { status := .ERROR_CALL_NOT_IMPLEMENTED, pcbResult := pcbResult, pbOutput := none,
            world := w, card := c } ∧
    (prop ≠ .NCRYPT_PROPERTY_CERTIFICATE → prop ≠ .NCRYPT_PROPERTY_READER →
      prop ≠ .NCRYPT_PROPERTY_SLOTID → prop ≠ .NCRYPT_PROPERTY_NAME →
      NCryptP11GetProperty abi p11 sc { type := .WINPR_NCRYPT_KEY, key := key } prop pbOutput
          cbOutput pcbResult w c =
        .ok { status := .NTE_NOT_SUPPORTED, pcbResult := pcbResult, pbOutput := none,
              world := w, card := c }) := by
  refine ⟨rfl, ?_⟩
  intro h1 h2 h3 h4
  cases prop with
  | NCRYPT_PROPERTY_CERTIFICATE => exact absurd rfl h1
  | NCRYPT_PROPERTY_READER => exact absurd rfl h2
  | NCRYPT_PROPERTY_SLOTID => exact absurd rfl h3
  | NCRYPT_PROPERTY_NAME => exact absurd rfl h4
  | NCRYPT_PROPERTY_UNKNOWN => rfl

/-- Witness for C21: a key handle asked for a property identifier the
provider does not know. -/
theorem getProperty_routing_witness :
    NCryptP11GetProperty lp64 (tableModule [] 1 1 1) (cannedCard [] [])
        { type := .WINPR_NCRYPT_KEY, key := witnessHandle } .NCRYPT_PROPERTY_UNKNOWN true 16 7
        (World.init ()) (CardWorld.init ()) =
      .ok { status := .NTE_NOT_SUPPORTED, pcbResult := 7, pbOutput := none,
            world := World.init (), card := CardWorld.init () } :=
  (getProperty_routing lp64 (tableModule [] 1 1 1) (cannedCard [] []) witnessHandle
    .NCRYPT_PROPERTY_UNKNOWN true 16 7 (World.init ()) (CardWorld.init ())).2
    (by decide) (by decide) (by decide) (by decide)

/-- C22 (counterexample). A single module path whose library loads but does
not export `C_GetFunctionList`: the call fails with `NTE_PROV_TYPE_ENTRY_BAD`,
which is neither "provider not found" nor "DLL failed"; and with an empty
list of paths it fails with `ERROR_INVALID_PARAMETER`. -/
theorem openProvider_entry_bad :
    NCryptOpenP11StorageProviderEx
        (fun _ => some { hasGetFunctionList := false, getFunctionListRv := 0, initializeRv := 0 })
        (some none) (some [ofString "a.so"]) { calls := [], allocs := [] } =
      (.NTE_PROV_TYPE_ENTRY_BAD, none,
        { calls := [.LoadLibrary (ofString "a.so"), .GetProcAddress (ofString "a.so"),
                    .FreeLibrary (ofString "a.so")], allocs := [] }) ∧
    (NCryptOpenP11StorageProviderEx (fun _ => none) (some none) (some [])
        { calls := [], allocs := [] }).1 = .ERROR_INVALID_PARAMETER := by
  decide

/-- C22 (amended). With every allocation succeeding,
`NCryptOpenP11StorageProviderEx` tries the module paths in list order (the
default list `p11-kit-proxy.so`, `opensc-pkcs11.so` for a null list). When
some path opens (loading, entry-point resolution and initialization all
succeed), it returns `ERROR_SUCCESS` with a provider bound to the first such
path, having loaded exactly the paths up to and including that one. When no
path opens, the caller's cell is unchanged, every path was loaded in order,
and the status is the one of the last path: `NTE_PROV_DLL_NOT_FOUND`,
`NTE_PROV_TYPE_ENTRY_BAD` or `NTE_PROVIDER_DLL_FAIL`, and
`ERROR_INVALID_PARAMETER` for an empty list. -/
theorem openProvider_first_path (LoadLibrary : List Nat → Option ModuleImage)
    (cell : Option NCryptP11ProviderHandle) (modulePaths : Option (List (List Nat)))
    (l : LoaderWorld) (hal : l.allocs = []) :
    (∀ p, (modulePaths.getD defaultPaths).find? (pathOpens LoadLibrary) = some p →
      (NCryptOpenP11StorageProviderEx LoadLibrary (some cell) modulePaths l).1 =
        .ERROR_SUCCESS ∧
      (NCryptOpenP11StorageProviderEx LoadLibrary (some cell) modulePaths l).2.1 =
        some { library := p, p11 := true, modulePath := some p } ∧
      loadedPaths (NCryptOpenP11StorageProviderEx LoadLibrary (some cell) modulePaths l).2.2.calls =
        loadedPaths l.calls ++
          ((modulePaths.getD defaultPaths).takeWhile (fun q => !pathOpens LoadLibrary q) ++
            [p])) ∧
    ((modulePaths.getD defaultPaths).find? (pathOpens LoadLibrary) = none →
      (NCryptOpenP11StorageProviderEx LoadLibrary (some cell) modulePaths l).1 =
        (((modulePaths.getD defaultPaths).getLast?).map (pathFailure LoadLibrary)).getD
          .ERROR_INVALID_PARAMETER ∧
      (NCryptOpenP11StorageProviderEx LoadLibrary (some cell) modulePaths l).2.1 = cell ∧
      loadedPaths (NCryptOpenP11StorageProviderEx LoadLibrary (some cell) modulePaths l).2.2.calls =
        loadedPaths l.calls ++ modulePaths.getD defaultPaths) :=
  openProviderLoop_paths LoadLibrary (modulePaths.getD defaultPaths) .ERROR_INVALID_PARAMETER
    cell l hal

/-- Witness for C22 (amended): the default list when only `opensc-pkcs11.so`
is installed. -/
theorem openProvider_first_path_witness :
    (NCryptOpenP11StorageProviderEx
        (fun p => if p = ofString "opensc-pkcs11.so" then
          some { hasGetFunctionList := true, getFunctionListRv := 0, initializeRv := 0 }
          else none)
        (some none) none { calls := [], allocs := [] }).1 = .ERROR_SUCCESS ∧
    (NCryptOpenP11StorageProviderEx
        (fun p => if p = ofString "opensc-pkcs11.so" then
          some { hasGetFunctionList := true, getFunctionListRv := 0, initializeRv := 0 }
          else none)
        (some none) none { calls := [], allocs := [] }).2.1 =
      some { library := ofString "opensc-pkcs11.so", p11 := true,
             modulePath := some (ofString "opensc-pkcs11.so") } :=
  let h := (openProvider_first_path
    (fun p => if p = ofString "opensc-pkcs11.so" then
      some { hasGetFunctionList := true, getFunctionListRv := 0, initializeRv := 0 }
      else none)
    none none { calls := [], allocs := [] } rfl).1 (ofString "opensc-pkcs11.so") (by decide)
  ⟨h.1, h.2.1⟩

/-- C23 (counterexample). For the key type RSA and a destination of three
characters, which holds the name `RSA` without its terminator,
`convertKeyType` fails: it reports the length 3 and stores nothing. -/
theorem convertKeyType_small_destination :
    convertKeyType CKK_RSA (some 3) = (false, none, 3) := by
  decide

/-- C23 (amended). `convertKeyType` knows exactly the key types RSA, DSA, DH,
EC, RC2, RC4, DES and triple-DES, each with a name of its own (`RSA`, `DSA`,
`DH`, `ECDSA`, `RC2`, `RC4`, `DES`, `3DES`). For these it reports the length
of the name; it succeeds when there is no destination, succeeds and stores
the name when the destination holds the name and its terminator, and fails
storing nothing when the destination is shorter. For every other key type it
fails, reports the length 0 and stores the empty string in a destination of
non-zero capacity. -/
theorem convertKeyType_names (k : Nat) :
    (algorithmName CKK_RSA = some (ofString "RSA") ∧
      algorithmName CKK_DSA = some (ofString "DSA") ∧
      algorithmName CKK_DH = some (ofString "DH") ∧
      algorithmName CKK_EC = some (ofString "ECDSA") ∧
      algorithmName CKK_RC2 = some (ofString "RC2") ∧
      algorithmName CKK_RC4 = some (ofString "RC4") ∧
      algorithmName CKK_DES = some (ofString "DES") ∧
      algorithmName CKK_DES3 = some (ofString "3DES")) ∧
    ((algorithmName k).isSome = true ↔
      k = CKK_RSA ∨ k = CKK_DSA ∨ k = CKK_DH ∨ k = CKK_EC ∨ k = CKK_RC2 ∨ k = CKK_RC4 ∨
        k = CKK_DES ∨ k = CKK_DES3) ∧
    (∀ name, algorithmName k = some name →
      convertKeyType k none = (true, none, name.length) ∧
      ∀ len, convertKeyType k (some len) =
        if name.length + 1 ≤ len then (true, some name, name.length)
        else (false, none, name.length)) ∧
    (algorithmName k = none →
      convertKeyType k none = (false, none, 0) ∧
      convertKeyType k (some 0) = (false, none, 0) ∧
      ∀ len, 0 < len → convertKeyType k (some len) = (false, some [], 0)) := by
  refine ⟨by decide, ?_, ?_, ?_⟩
  · unfold algorithmName
    constructor
    · intro h
      split_ifs at h with h1 h2 h3 h4 h5 h6 h7 h8
      · exact Or.inl h1
      · exact Or.inr (Or.inl h2)
      · exact Or.inr (Or.inr (Or.inl h3))
      · exact Or.inr (Or.inr (Or.inr (Or.inl h4)))
      · exact Or.inr (Or.inr (Or.inr (Or.inr (Or.inl h5))))
      · exact Or.inr (Or.inr (Or.inr (Or.inr (Or.inr (Or.inl h6)))))
      · exact Or.inr (Or.inr (Or.inr (Or.inr (Or.inr (Or.inr (Or.inl h7))))))
      · exact Or.inr (Or.inr (Or.inr (Or.inr (Or.inr (Or.inr (Or.inr h8))))))
      · cases h
    · intro h
      rcases h with h | h | h | h | h | h | h | h <;> subst h <;> decide
  · intro name hname
    have hlen : name.length ≤ 5 := by
      unfold algorithmName at hname
      split_ifs at hname
      all_goals
        rw [← Option.some.inj hname]
        decide
    have hbig : ¬ name.length > 4294967295 := by omega
    unfold convertKeyType
    rw [hname]
    dsimp only
    rw [if_neg hbig]
    refine ⟨rfl, ?_⟩
    intro len
    by_cases hfit : name.length + 1 ≤ len
    · have hgt : ¬ name.length + 1 > len := by omega
      rw [if_pos hfit, if_neg hgt, if_neg hbig]
    · have hgt : name.length + 1 > len := by omega
      rw [if_neg hfit, if_pos hgt, if_neg hbig]
  · intro hnone
    unfold convertKeyType
    rw [hnone]
    refine ⟨rfl, rfl, ?_⟩
    intro len hlen
    dsimp only
    rw [if_pos hlen]

/-- Witness for C23 (amended): the key type EC and the unknown key type 31. -/
theorem convertKeyType_names_witness :
    convertKeyType CKK_EC none = (true, none, 5) ∧
    convertKeyType CKK_EC (some 6) = (true, some (ofString "ECDSA"), 5) ∧
    convertKeyType 31 (some 6) = (false, some [], 0) :=
  ⟨((convertKeyType_names CKK_EC).2.2.1 (ofString "ECDSA") (by decide)).1,
    (((convertKeyType_names CKK_EC).2.2.1 (ofString "ECDSA") (by decide)).2 6).trans
      (by decide),
    (convertKeyType_names 31).2.2.2 (by decide) |>.2.2 6 (by decide)⟩

/-- C24 (failing input). `check_for_piv_container_name` takes the label
`Cert` of length 4, a proper prefix of the first known label, and the empty
label of length 0 for PIV labels: asked with a null buffer it returns
`ERROR_SUCCESS` and the size 74 of a PIV container name instead of
`NTE_NOT_FOUND`. -/
theorem check_for_piv_accepts_prefixes :
    pivCheckOutcome (check_for_piv_container_name (tableModule [] 1 1 1) (cannedCard [] [])
      witnessHandle false 0 0 (ofString "Cert") 4 (World.init ()) (CardWorld.init ())) =
      some { status := .ERROR_SUCCESS, pcbResult := 74, pbOutput := none, cardCalls := [] } ∧
    pivCheckOutcome (check_for_piv_container_name (tableModule [] 1 1 1) (cannedCard [] [])
      witnessHandle false 0 0 [] 0 (World.init ()) (CardWorld.init ())) =
      some { status := .ERROR_SUCCESS, pcbResult := 74, pbOutput := none, cardCalls := [] } := by
  decide

/-- C25 (failing input). The certificate of the key is found, the read of
its value returns `CKR_FUNCTION_FAILED` and leaves the template as it was:
the certificate property, asked with a 16-byte buffer, returns
`ERROR_SUCCESS` with the size 16 and the buffer as it was, all zeros. -/
theorem certificateProperty_ignores_read_failure :
    propertyOutcome (NCryptP11KeyGetProperties lp64 (failingReadModule lp64 CKR_FUNCTION_FAILED)
      (cannedCard [] []) witnessHandle .NCRYPT_PROPERTY_CERTIFICATE true 16 0 (World.init ())
      (CardWorld.init ())) = some (.ERROR_SUCCESS, 16, some (List.replicate 16 0)) ∧
    propertyTrace (NCryptP11KeyGetProperties lp64 (failingReadModule lp64 CKR_FUNCTION_FAILED)
      (cannedCard [] []) witnessHandle .NCRYPT_PROPERTY_CERTIFICATE true 16 0 (World.init ())
      (CardWorld.init ())) =
      some [P11Call.mk P11Fn.C_OpenSession 1 0, P11Call.mk P11Fn.C_FindObjectsInit 2 0,
        P11Call.mk P11Fn.C_FindObjects 2 0, P11Call.mk P11Fn.C_GetAttributeValue 2 6,
        P11Call.mk P11Fn.C_FindObjectsFinal 2 0, P11Call.mk P11Fn.C_CloseSession 2 0] := by
  decide

/-- C26. In `get_piv_container_name`, the test applied to a card response of
at least two bytes (and at most the 258 the buffer holds) rejects it exactly
when neither its last two bytes are `90 00` nor its second-to-last byte is
`0x61`. When the response to the first APDU is rejected the exchange ends
with `NTE_BAD_KEY` after that one transmit; when it is accepted and the
response to the second APDU is rejected, the exchange ends with `NTE_BAD_KEY`
after those two transmits. -/
theorem apdu_status_acceptance {κ : Type} (sc : SCardApi κ) (card pci : Nat)
    (piv_tag : List Nat) (output_len : Nat) (c : CardWorld κ) (buf resp : List Nat)
    (h2 : 2 ≤ resp.length) (h258 : resp.length ≤ 258) (hbuf : buf.length = 258)
    (htransmit : (sc.SCardTransmit card pci APDU_PIV_SELECT_AID c.card).1.1 = SCARD_S_SUCCESS)
    (hresp : (sc.SCardTransmit card pci APDU_PIV_SELECT_AID c.card).1.2 = resp) :
    apduRejected (receive buf resp) resp.length = .ok (decide (¬ StatusAccepted resp)) ∧
    (¬ StatusAccepted resp →
      pivExchange sc card pci piv_tag output_len c =
        .ok (.NTE_BAD_KEY, none,
          c.called (.SCardTransmit card APDU_PIV_SELECT_AID)
            (sc.SCardTransmit card pci APDU_PIV_SELECT_AID c.card).2)) ∧
    (StatusAccepted resp →
      ∀ resp2 : List Nat, 2 ≤ resp2.length → resp2.length ≤ 258 →
        (sc.SCardTransmit card pci APDU_PIV_GET_CHUID
          (sc.SCardTransmit card pci APDU_PIV_SELECT_AID c.card).2).1.1 = SCARD_S_SUCCESS →
        (sc.SCardTransmit card pci APDU_PIV_GET_CHUID
          (sc.SCardTransmit card pci APDU_PIV_SELECT_AID c.card).2).1.2 = resp2 →
        ¬ StatusAccepted resp2 →
        pivExchange sc card pci piv_tag output_len c =
          .ok (.NTE_BAD_KEY, none,
            (c.called (.SCardTransmit card APDU_PIV_SELECT_AID)
              (sc.SCardTransmit card pci APDU_PIV_SELECT_AID c.card).2).called
              (.SCardTransmit card APDU_PIV_GET_CHUID)
              (sc.SCardTransmit card pci APDU_PIV_GET_CHUID
                (sc.SCardTransmit card pci APDU_PIV_SELECT_AID c.card).2).2)) := by
  have hbuf0 : (List.replicate 258 0).length = 258 := List.length_replicate _ _
  have r1 := apduRejected_status (List.replicate 258 0) resp h2 (by rw [hbuf0]; exact h258)
    (by rw [hbuf0])
  have hbuf1 : (receive (List.replicate 258 0) resp).length = 258 := by
    rw [receive_length _ _ (by rw [hbuf0]; exact h258), hbuf0]
  refine ⟨apduRejected_status buf resp h2 (by rw [hbuf]; exact h258) (by rw [hbuf]),
    fun hrej => ?_, fun hacc resp2 h22 h2258 ht2 hr2 hrej2 => ?_⟩
  · unfold pivExchange
    simp only [htransmit, hresp, ne_eq, not_true_eq_false, if_false, r1, hrej,
      not_false_eq_true, decide_True]
  · have r2 := apduRejected_status (receive (List.replicate 258 0) resp) resp2 h22
      (by rw [hbuf1]; exact h2258) (by rw [hbuf1])
    unfold pivExchange
    simp only [htransmit, hresp, ne_eq, not_true_eq_false, if_false, r1, hacc,
      not_false_eq_true, decide_True, decide_False, CardWorld.called, ht2, hr2, r2, hrej2]

/-- Witness for C26: a card that answers every APDU with the status `6A 82`. -/
theorem apdu_status_acceptance_witness :
    pivExchange (cannedCard [0x6A, 0x82] [0x6A, 0x82]) 1 1 [0x5F, 0xC1, 0x05] 74
        { card := (), calls := [] } =
      .ok (.NTE_BAD_KEY, none,
        { card := (), calls := [.SCardTransmit 1 APDU_PIV_SELECT_AID] }) :=
  (apdu_status_acceptance (cannedCard [0x6A, 0x82] [0x6A, 0x82]) 1 1 [0x5F, 0xC1, 0x05] 74
    { card := (), calls := [] } (List.replicate 258 0) [0x6A, 0x82] (by decide) (by decide)
    (by decide) (by decide) (by decide)).2.1 (by decide)

/-- C27. For a card transport whose successful transmits return between 2 and
258 bytes, `get_piv_container_name` returns, with one of the statuses
`ERROR_SUCCESS`, `NTE_BAD_KEY` and `NTE_NO_MEMORY`. It returns `NTE_BAD_KEY`
when the slot-info query fails, and, once the reader name is allocated, when
establishing the context, connecting, either transmit or either status check
fails or the CHUID object lacks the structure asked for (outer tag `0x53`,
first inner entry with tag `0x34` present and of length 16). -/
theorem piv_resolver_failure_uniform {σ κ : Type} (p11 : CK_FUNCTION_LIST σ) (sc : SCardApi κ)
    (key : NCryptP11KeyHandle) (piv_tag : List Nat) (output_len : Nat) (w : World σ)
    (c : CardWorld κ)
    (hresp : ∀ (card pci : Nat) (apdu : List Nat) (k : κ),
      (sc.SCardTransmit card pci apdu k).1.1 = SCARD_S_SUCCESS →
        2 ≤ (sc.SCardTransmit card pci apdu k).1.2.length ∧
        (sc.SCardTransmit card pci apdu k).1.2.length ≤ 258) :
    let si := p11.C_GetSlotInfo key.slotId w.token
    let m := (w.called P11Fn.C_GetSlotInfo key.slotId si.1.1 si.2).calloc
    let ec := sc.SCardEstablishContext c.card
    let cn := sc.SCardConnectW ec.1.2
      (cstr ((fix_padded_string si.1.2.slotDescription 64).take 64)) ec.2
    let pci := if cn.1.2.2 = SCARD_PROTOCOL_T0 then 0 else 1
    let t1 := sc.SCardTransmit cn.1.2.1 pci APDU_PIV_SELECT_AID cn.2
    let t2 := sc.SCardTransmit cn.1.2.1 pci APDU_PIV_GET_CHUID t1.2
    ∃ ret output w1 c1,
      get_piv_container_name p11 sc key piv_tag output_len w c = .ok (ret, output, w1, c1) ∧
      (ret = .ERROR_SUCCESS ∨ ret = .NTE_BAD_KEY ∨ ret = .NTE_NO_MEMORY) ∧
      (si.1.1 ≠ CKR_OK → ret = .NTE_BAD_KEY) ∧
      (si.1.1 = CKR_OK → m.1 = true →
        (ec.1.1 ≠ SCARD_S_SUCCESS ∨ cn.1.1 ≠ SCARD_S_SUCCESS ∨
          t1.1.1 ≠ SCARD_S_SUCCESS ∨ ¬ StatusAccepted t1.1.2 ∨
          t2.1.1 ≠ SCARD_S_SUCCESS ∨ ¬ StatusAccepted t2.1.2 ∨
          guidEntryFound t2.1.2 = false) →
        ret = .NTE_BAD_KEY) := by
  intro si m ec cn pci t1 t2
  unfold get_piv_container_name
  simp only [CardWorld.called]
  by_cases hsi : si.1.1 = CKR_OK
  swap
  · rw [if_pos hsi]
    exact ⟨_, _, _, _, rfl, Or.inr (Or.inl rfl), fun _ => rfl, fun h => absurd h hsi⟩
  rw [if_neg (not_not.mpr hsi)]
  by_cases hm : m.1 = false
  · rw [if_pos hm]
    refine ⟨_, _, _, _, rfl, Or.inr (Or.inr rfl), fun h => absurd hsi h, fun _ h => ?_⟩
    rw [hm] at h
    cases h
  rw [if_neg hm]
  by_cases hec : ec.1.1 = SCARD_S_SUCCESS
  swap
  · rw [if_pos hec]
    exact ⟨_, _, _, _, rfl, Or.inr (Or.inl rfl), fun _ => rfl, fun _ _ _ => rfl⟩
  rw [if_neg (not_not.mpr hec)]
  by_cases hcn : cn.1.1 = SCARD_S_SUCCESS
  swap
  · rw [if_pos hcn]
    exact ⟨_, _, _, _, rfl, Or.inr (Or.inl rfl), fun _ => rfl, fun _ _ _ => rfl⟩
  rw [if_neg (not_not.mpr hcn)]
  obtain ⟨ret, output, c3, hrun, hret, hok⟩ := pivExchange_outcome sc cn.1.2.1 pci piv_tag
    output_len ((c.called .SCardEstablishContext ec.2).called
      (.SCardConnectW ec.1.2 (cstr ((fix_padded_string si.1.2.slotDescription 64).take 64)))
      cn.2) hresp
  simp only [CardWorld.called] at hrun
  rw [hrun]
  refine ⟨_, _, _, _, rfl, ?_, fun h => absurd hsi h, fun _ _ hfail => ?_⟩
  · rcases hret with h | h
    · exact Or.inl h
    · exact Or.inr (Or.inl h)
  · rcases hret with h | h
    swap
    · exact h
    exfalso
    obtain ⟨h1, h2, h3, h4, len, dec, h5, h6, h7⟩ := hok h
    rcases hfail with hf | hf | hf | hf | hf | hf | hf
    · exact hf hec
    · exact hf hcn
    · exact hf h1
    · exact hf h2
    · exact hf h3
    · exact hf h4
    · obtain ⟨e, he, hl⟩ := scanForGuid_entries dec.length dec 0x53 len none (by decide) h6
      have h5a : WinPrAsn1DecReadTagAndLen t2.1.2 = some (0x53, len, dec) := h5
      unfold guidEntryFound at hf
      rw [h5a] at hf
      simp only [he, hl, h7] at hf
      revert hf
      decide

/-- Witness for C27: a card whose CHUID object has the outer tag `0x53` and
no inner entry. -/
theorem piv_resolver_failure_uniform_witness :
    ∃ output w1 c1,
      get_piv_container_name (certificateModule lp64 (ofString "ReaderA2") [] [])
        (cannedCard [0x90, 0x00] [0x53, 0x00, 0x90, 0x00]) witnessHandle [0x5F, 0xC1, 0x05] 74
        (World.init ()) (CardWorld.init ()) = .ok (.NTE_BAD_KEY, output, w1, c1) := by
  obtain ⟨ret, output, w1, c1, hrun, _, _, hfail⟩ :=
    piv_resolver_failure_uniform (certificateModule lp64 (ofString "ReaderA2") [] [])
      (cannedCard [0x90, 0x00] [0x53, 0x00, 0x90, 0x00]) witnessHandle [0x5F, 0xC1, 0x05] 74
      (World.init ()) (CardWorld.init ())
      (fun _ _ apdu _ _ => by
        unfold cannedCard
        dsimp only
        split <;> decide)
  have hret := hfail (by decide) (by decide)
    (Or.inr (Or.inr (Or.inr (Or.inr (Or.inr (Or.inr (by decide)))))))
  rw [hret] at hrun
  exact ⟨output, w1, c1, hrun⟩

/-- C28. `object_load_attributes` queries the module once or twice, and makes
no other call on it. When the first query returns `CKR_OK` and leaves no
attribute with a null buffer and an available length, the helper returns
`CKR_OK` after that one query; when the first query returns a status other
than `CKR_OK`, `CKR_ATTRIBUTE_SENSITIVE`, `CKR_ATTRIBUTE_TYPE_INVALID` and
`CKR_BUFFER_TOO_SMALL`, the helper returns that status after that one
query. -/
theorem object_load_attributes_queries {σ : Type} (abi : Abi) (p11 : CK_FUNCTION_LIST σ)
    (session object : Nat) (attributes : List CK_ATTRIBUTE) (w : World σ)
    (rv1 : Nat) (t1 : List CK_ATTRIBUTE) (w1 : World σ)
    (h1 : callGetAttributeValue p11 session object attributes w = (rv1, t1, w1)) :
    (∃ extra : List P11Call,
      (object_load_attributes abi p11 session object attributes w).2.2.trace = w.trace ++ extra ∧
      1 ≤ extra.length ∧ extra.length ≤ 2 ∧
      ∀ call ∈ extra, call.fn = P11Fn.C_GetAttributeValue) ∧
    (rv1 = CKR_OK → attributes_have_unallocated_buffers abi t1 = false →
      (object_load_attributes abi p11 session object attributes w).1 = CKR_OK ∧
      (object_load_attributes abi p11 session object attributes w).2.2.trace =
        w.trace ++ [P11Call.mk P11Fn.C_GetAttributeValue session CKR_OK]) ∧
    (rv1 ≠ CKR_OK → rv1 ≠ CKR_ATTRIBUTE_SENSITIVE → rv1 ≠ CKR_ATTRIBUTE_TYPE_INVALID →
      rv1 ≠ CKR_BUFFER_TOO_SMALL →
      (object_load_attributes abi p11 session object attributes w).1 = rv1 ∧
      (object_load_attributes abi p11 session object attributes w).2.2.trace =
        w.trace ++ [P11Call.mk P11Fn.C_GetAttributeValue session rv1]) := by
  have hw1 : w1.trace = w.trace ++ [P11Call.mk P11Fn.C_GetAttributeValue session rv1] := by
    have := callGetAttributeValue_trace p11 session object attributes w
    rw [h1] at this
    exact this
  have hdirect : ∀ (hstop : (rv1 = CKR_OK ∧ attributes_have_unallocated_buffers abi t1 = false) ∨
      ¬ (rv1 = CKR_OK ∨ rv1 = CKR_ATTRIBUTE_SENSITIVE ∨ rv1 = CKR_ATTRIBUTE_TYPE_INVALID ∨
        rv1 = CKR_BUFFER_TOO_SMALL)),
      object_load_attributes abi p11 session object attributes w = (rv1, t1, w1) := by
    intro hstop
    unfold object_load_attributes
    rw [h1]
    dsimp only
    rcases hstop with hs | hs
    · rw [if_pos hs]
    · have hn : ¬ (rv1 = CKR_OK ∧ attributes_have_unallocated_buffers abi t1 = false) :=
        fun hc => hs (Or.inl hc.1)
      rw [if_neg hn, if_neg hs]
  refine ⟨?_, ?_, ?_⟩
  · by_cases hstop : (rv1 = CKR_OK ∧ attributes_have_unallocated_buffers abi t1 = false) ∨
        ¬ (rv1 = CKR_OK ∨ rv1 = CKR_ATTRIBUTE_SENSITIVE ∨ rv1 = CKR_ATTRIBUTE_TYPE_INVALID ∨
          rv1 = CKR_BUFFER_TOO_SMALL)
    · rw [hdirect hstop]
      refine ⟨_, hw1, by simp, by simp, ?_⟩
      intro call hc
      rw [List.mem_singleton] at hc
      rw [hc]
    · have hretry : (rv1 = CKR_OK ∧ attributes_have_unallocated_buffers abi t1 = true) ∨
          rv1 = CKR_ATTRIBUTE_SENSITIVE ∨ rv1 = CKR_ATTRIBUTE_TYPE_INVALID ∨
          rv1 = CKR_BUFFER_TOO_SMALL := by
        rw [not_or, not_and, not_not] at hstop
        rcases hstop.2 with h | h | h | h
        · left
          refine ⟨h, ?_⟩
          cases hb : attributes_have_unallocated_buffers abi t1 with
          | true => rfl
          | false => exact absurd hb (hstop.1 h)
        · exact Or.inr (Or.inl h)
        · exact Or.inr (Or.inr (Or.inl h))
        · exact Or.inr (Or.inr (Or.inr h))
      have hr := object_load_attributes_retry abi p11 session object attributes w
        (by rw [h1]; exact hretry)
      rw [h1] at hr
      dsimp only at hr
      have hal := (allocate_buffers_trace abi t1 w1).1
      rw [hr]
      split_ifs
      · refine ⟨_, hal.trans hw1, by simp, by simp, ?_⟩
        intro call hc
        rw [List.mem_singleton] at hc
        rw [hc]
      · refine ⟨[P11Call.mk P11Fn.C_GetAttributeValue session rv1,
          P11Call.mk P11Fn.C_GetAttributeValue session
            (callGetAttributeValue p11 session object (attributes_allocate_buffers abi t1 w1).2.1
              (attributes_allocate_buffers abi t1 w1).2.2).1], ?_, by simp, by simp, ?_⟩
        · rw [callGetAttributeValue_trace, hal, hw1, List.append_assoc]
          rfl
        · intro call hc
          simp only [List.mem_cons, List.mem_singleton, List.not_mem_nil, or_false] at hc
          rcases hc with hc | hc <;> rw [hc]
  · intro hok hno
    rw [hdirect (Or.inl ⟨hok, hno⟩)]
    exact ⟨hok, by rw [hw1, hok]⟩
  · intro n1 n2 n3 n4
    have hs : ¬ (rv1 = CKR_OK ∨ rv1 = CKR_ATTRIBUTE_SENSITIVE ∨ rv1 = CKR_ATTRIBUTE_TYPE_INVALID ∨
        rv1 = CKR_BUFFER_TOO_SMALL) := by
      rintro (h | h | h | h)
      · exact n1 h
      · exact n2 h
      · exact n3 h
      · exact n4 h
    rw [hdirect (Or.inr hs)]
    exact ⟨rfl, hw1⟩

/-- Witness for C28: a module whose attribute read returns
`CKR_FUNCTION_FAILED`. -/
theorem object_load_attributes_queries_witness :
    (object_load_attributes lp64 (failingReadModule lp64 CKR_FUNCTION_FAILED) 1 1
        [{ type := CKA_LABEL, pValue := none, ulValueLen := 0 }] (World.init ())).1 =
      CKR_FUNCTION_FAILED ∧
    (object_load_attributes lp64 (failingReadModule lp64 CKR_FUNCTION_FAILED) 1 1
        [{ type := CKA_LABEL, pValue := none, ulValueLen := 0 }] (World.init ())).2.2.trace =
      (World.init ()).trace ++ [P11Call.mk P11Fn.C_GetAttributeValue 1 CKR_FUNCTION_FAILED] :=
  (object_load_attributes_queries lp64 (failingReadModule lp64 CKR_FUNCTION_FAILED) 1 1
    [{ type := CKA_LABEL, pValue := none, ulValueLen := 0 }] (World.init ())
    CKR_FUNCTION_FAILED [{ type := CKA_LABEL, pValue := none, ulValueLen := 0 }]
    { token := (), trace := [P11Call.mk P11Fn.C_GetAttributeValue 1 CKR_FUNCTION_FAILED],
      allocs := [] }
    (by decide)).2.2 (by decide) (by decide) (by decide) (by decide)

/-- C29. For every token module: when `collect_keys` returns, the calls it
made open a session only with none open and close one only with one open, with
none open at the start and none at the end, so that as many `C_OpenSession`
calls returned `CKR_OK` as `C_CloseSession` calls were made. The same holds of
each round of its loop over the slots, where the only session closed is the
one `C_OpenSession` handed out for that slot. -/
theorem collect_keys_sessions_balanced {σ : Type} (abi : Abi) (p11 : CK_FUNCTION_LIST σ)
    (state : P11EnumKeysState) (w : World σ) (tr : List P11Call)
    (h : collectTrace (collect_keys abi p11 state w) = some tr) :
    (∃ extra : List P11Call, tr = w.trace ++ extra ∧ sessionScan 0 extra = some 0 ∧
      countSuccessful P11Fn.C_OpenSession extra = countCalls P11Fn.C_CloseSession extra) ∧
    (∀ (i : Nat) (s0 : P11EnumKeysState) (w0 : World σ) (s1 : P11EnumKeysState) (w2 : World σ),
      collectSlot abi p11 i s0 w0 = .ok (s1, w2) →
        SessionsFollow w0 w2 0 0 ∧
        ∀ slot, s0.slots[i]? = some slot →
          ClosesOnly w0 w2 (p11.C_OpenSession slot
            (p11.C_GetTokenInfo slot (p11.C_GetSlotInfo slot w0.token).2).2).1.2) := by
  refine ⟨?_, fun i s0 w0 s1 w2 hslot => collectSlot_sessions abi p11 i s0 w0 s1 w2 hslot⟩
  cases hrun : collect_keys abi p11 state w with
  | error e =>
    rw [hrun] at h
    cases h
  | ok r =>
    obtain ⟨ret, st, w1⟩ := r
    rw [hrun] at h
    cases h
    obtain ⟨extra, ht, hs⟩ := collect_keys_follow abi p11 state w ret st w1 hrun
    exact ⟨extra, ht, hs, by simpa using sessionScan_counts extra 0 0 hs⟩

/-- Witness for C29: two slots with one key each. -/
theorem collect_keys_sessions_balanced_witness :
    ∃ extra : List P11Call,
      [P11Call.mk .C_GetSlotInfo 1 0, P11Call.mk .C_GetTokenInfo 1 0,
        P11Call.mk .C_OpenSession 1 0, P11Call.mk .C_FindObjectsInit 2 0,
        P11Call.mk .C_FindObjects 2 0, P11Call.mk .C_GetAttributeValue 2 0,
        P11Call.mk .C_FindObjectsFinal 2 0, P11Call.mk .C_CloseSession 2 0,
        P11Call.mk .C_GetSlotInfo 2 0, P11Call.mk .C_GetTokenInfo 2 0,
        P11Call.mk .C_OpenSession 2 0, P11Call.mk .C_FindObjectsInit 3 0,
        P11Call.mk .C_FindObjects 3 0, P11Call.mk .C_GetAttributeValue 3 0,
        P11Call.mk .C_FindObjectsFinal 3 0, P11Call.mk .C_CloseSession 3 0] =
        (World.init ()).trace ++ extra ∧
      sessionScan 0 extra = some 0 ∧
      countSuccessful P11Fn.C_OpenSession extra = countCalls P11Fn.C_CloseSession extra :=
  (collect_keys_sessions_balanced lp64 (tableModule [] 2 1 1)
    { nslots := 2, slots := fit 64 [1, 2], nKeys := 0, keys := [], keyIndex := 0 }
    (World.init ()) _ (by decide)).1

/-- C30. For a token module whose `C_OpenSession`, when it returns `CKR_OK`,
stores a handle other than 0: among the calls one call of `NCryptP11EnumKeys`
makes, table build included, no `C_OpenSession` returns `CKR_OK` while a
session opened earlier in the call is not yet closed; the same holds of
`collect_keys` alone, for every module. In the iteration, the step that
settles the session makes no call when a session is set and the row's slot is
the current one, calls `C_CloseSession` on the session set and then
`C_OpenSession` on the row's slot when a session is set and the slot differs,
and calls `C_OpenSession` alone when no session is set. -/
theorem enumKeys_one_session_at_a_time {σ : Type} (abi : Abi) (p11 : CK_FUNCTION_LIST σ)
    (checkNCryptHandle : SECURITY_STATUS) (pszScope : Option (List Nat))
    (ppKeyName : Option NCryptKeyName) (ppEnumState : Option P11EnumKeysState) (w : World σ)
    (tr : List P11Call) (hp : OpenSessionGivesHandle p11)
    (h : enumTrace (NCryptP11EnumKeys abi p11 checkNCryptHandle pszScope ppKeyName ppEnumState w)
      = some tr) :
    (∃ (extra : List P11Call) (m : Nat),
      tr = w.trace ++ extra ∧ oneSessionScan 0 extra = some m) ∧
    (∀ (state0 : P11EnumKeysState) (w0 : World σ) (tr0 : List P11Call),
      collectTrace (collect_keys abi p11 state0 w0) = some tr0 →
      ∃ extra : List P11Call, tr0 = w0.trace ++ extra ∧ oneSessionScan 0 extra = some 0) ∧
    (∀ (key : NCryptKeyEnum) (currentSlot currentSession : Nat) (w0 : World σ),
      (currentSession ≠ 0 → currentSlot = key.slotId →
        switchSession p11 key currentSlot currentSession w0 =
          (true, currentSlot, currentSession, w0)) ∧
      (currentSession ≠ 0 → currentSlot ≠ key.slotId →
        (switchSession p11 key currentSlot currentSession w0).2.2.2.trace =
          w0.trace ++
            [P11Call.mk P11Fn.C_CloseSession currentSession
              (p11.C_CloseSession currentSession w0.token).1,
             P11Call.mk P11Fn.C_OpenSession key.slotId
              (p11.C_OpenSession key.slotId
                (p11.C_CloseSession currentSession w0.token).2).1.1]) ∧
      (currentSession = 0 →
        (switchSession p11 key currentSlot currentSession w0).2.2.2.trace =
          w0.trace ++
            [P11Call.mk P11Fn.C_OpenSession key.slotId
              (p11.C_OpenSession key.slotId w0.token).1.1])) := by
  refine ⟨?_, fun state0 w0 tr0 h0 => ?_, fun key currentSlot currentSession w0 =>
    ⟨fun hs hslot => ?_, fun hs hslot => ?_, fun hs => ?_⟩⟩
  · cases hrun : NCryptP11EnumKeys abi p11 checkNCryptHandle pszScope ppKeyName ppEnumState w with
    | error e =>
      rw [hrun] at h
      cases h
    | ok r =>
      rw [hrun] at h
      cases h
      obtain ⟨m, extra, ht, hscan⟩ := enumKeys_one abi p11 checkNCryptHandle pszScope ppKeyName
        ppEnumState w r hp hrun
      exact ⟨extra, m, ht, hscan⟩
  · cases hrun : collect_keys abi p11 state0 w0 with
    | error e =>
      rw [hrun] at h0
      cases h0
    | ok r =>
      obtain ⟨ret, st, w1⟩ := r
      rw [hrun] at h0
      cases h0
      exact oneSession_of_sessionsFollow (collect_keys_follow abi p11 state0 w0 ret st w1 hrun)
  · unfold switchSession
    rw [if_neg (fun hc => hc.elim hs (fun hne => hne hslot))]
  · unfold switchSession
    rw [if_pos (Or.inr hslot)]
    dsimp only
    rw [if_pos hs]
    split_ifs <;> simp [World.called]
  · unfold switchSession
    rw [if_pos (Or.inl hs)]
    dsimp only
    rw [if_neg (not_not.mpr hs)]
    split_ifs <;> simp [World.called]

/-- Witness for C30: the first call on a module with two slots of one key
each. -/
theorem enumKeys_one_session_at_a_time_witness :
    ∃ (extra : List P11Call) (m : Nat),
      [P11Call.mk .C_GetSlotList 0 0, P11Call.mk .C_GetSlotList 2 0,
        P11Call.mk .C_GetSlotInfo 1 0, P11Call.mk .C_GetTokenInfo 1 0,
        P11Call.mk .C_OpenSession 1 0, P11Call.mk .C_FindObjectsInit 2 0,
        P11Call.mk .C_FindObjects 2 0, P11Call.mk .C_GetAttributeValue 2 0,
        P11Call.mk .C_FindObjectsFinal 2 0, P11Call.mk .C_CloseSession 2 0,
        P11Call.mk .C_GetSlotInfo 2 0, P11Call.mk .C_GetTokenInfo 2 0,
        P11Call.mk .C_OpenSession 2 0, P11Call.mk .C_FindObjectsInit 3 0,
        P11Call.mk .C_FindObjects 3 0, P11Call.mk .C_GetAttributeValue 3 0,
        P11Call.mk .C_FindObjectsFinal 3 0, P11Call.mk .C_CloseSession 3 0,
        P11Call.mk .C_OpenSession 1 0, P11Call.mk .C_FindObjectsInit 2 0,
        P11Call.mk .C_FindObjects 2 0, P11Call.mk .C_FindObjectsFinal 2 0] =
        (World.init ()).trace ++ extra ∧
      oneSessionScan 0 extra = some m :=
  (enumKeys_one_session_at_a_time lp64 (tableModule [] 2 1 1) .ERROR_SUCCESS none none none
    (World.init ()) _ (fun slot _ _ => Nat.succ_ne_zero slot) (by decide)).1

/-! ## Links of the doubly-linked list -/

theorem listEntry_ext (e1 e2 : WINPR_LIST_ENTRY) (hf : e1.Flink = e2.Flink)
    (hb : e1.Blink = e2.Blink) : e1 = e2 := by
  cases e1
  cases e2
  simp only at hf hb
  rw [hf, hb]

theorem setFlink_Flink (m : ListMemory) (p v a : Nat) :
    (setFlink m p v a).Flink = if a = p then v else (m a).Flink := by
  unfold setFlink
  split_ifs <;> rfl

theorem setFlink_Blink (m : ListMemory) (p v a : Nat) :
    (setFlink m p v a).Blink = (m a).Blink := by
  unfold setFlink
  split_ifs <;> rfl

theorem setBlink_Flink (m : ListMemory) (p v a : Nat) :
    (setBlink m p v a).Flink = (m a).Flink := by
  unfold setBlink
  split_ifs <;> rfl

theorem setBlink_Blink (m : ListMemory) (p v a : Nat) :
    (setBlink m p v a).Blink = if a = p then v else (m a).Blink := by
  unfold setBlink
  split_ifs <;> rfl

theorem insertHead_removeHead (m : ListMemory) (ListHead Entry : Nat) (h0 : ListHead ≠ 0)
    (he0 : Entry ≠ 0) (hne : Entry ≠ ListHead) (hf0 : (m ListHead).Flink ≠ 0)
    (hback : (m (m ListHead).Flink).Blink = ListHead) :
    ∃ m1 m2, InsertHeadList ListHead Entry m = some m1 ∧
      IsListEmpty ListHead m1 = some false ∧
      RemoveHeadList ListHead m1 = some (Entry, m2) ∧
      ∀ a, a ≠ Entry → m2 a = m a := by
  have hins : InsertHeadList ListHead Entry m =
      some (setFlink (setBlink (setBlink (setFlink m Entry (m ListHead).Flink) Entry ListHead)
        (m ListHead).Flink Entry) ListHead Entry) := by
    unfold InsertHeadList
    rw [if_neg (by simp [h0, he0])]
    dsimp only
    rw [if_neg hf0]
  have hflink : (setFlink (setBlink (setBlink (setFlink m Entry (m ListHead).Flink) Entry
      ListHead) (m ListHead).Flink Entry) ListHead Entry ListHead).Flink = Entry := by
    simp [setFlink_Flink]
  have hnext : (setFlink (setBlink (setBlink (setFlink m Entry (m ListHead).Flink) Entry
      ListHead) (m ListHead).Flink Entry) ListHead Entry Entry).Flink = (m ListHead).Flink := by
    simp [setFlink_Flink, setBlink_Flink, hne]
  refine ⟨_, setBlink (setFlink (setFlink (setBlink (setBlink (setFlink m Entry
    (m ListHead).Flink) Entry ListHead) (m ListHead).Flink Entry) ListHead Entry) ListHead
    (m ListHead).Flink) (m ListHead).Flink ListHead, hins, ?_, ?_, ?_⟩
  · unfold IsListEmpty
    rw [if_neg h0, hflink]
    simp [hne]
  · unfold RemoveHeadList
    rw [if_neg h0]
    dsimp only
    rw [hflink, if_neg he0, hnext, if_neg hf0]
  · intro a ha
    apply listEntry_ext
    · simp only [setFlink_Flink, setBlink_Flink, if_neg ha]
      split_ifs with h1
      · rw [h1]
      · rfl
    · simp only [setFlink_Blink, setBlink_Blink, if_neg ha]
      split_ifs with h1
      · rw [h1, hback]
      · rfl

theorem insertTail_removeTail (m : ListMemory) (ListHead Entry : Nat) (h0 : ListHead ≠ 0)
    (he0 : Entry ≠ 0) (hne : Entry ≠ ListHead) (hb0 : (m ListHead).Blink ≠ 0)
    (hback : (m (m ListHead).Blink).Flink = ListHead)
    (hfwd : (m (m ListHead).Flink).Blink = ListHead) :
    ∃ m1 m2, InsertTailList ListHead Entry m = some m1 ∧
      IsListEmpty ListHead m1 = some false ∧
      RemoveTailList ListHead m1 = some (Entry, m2) ∧
      ∀ a, a ≠ Entry → m2 a = m a := by
  have hins : InsertTailList ListHead Entry m =
      some (setBlink (setFlink (setBlink (setFlink m Entry ListHead) Entry (m ListHead).Blink)
        (m ListHead).Blink Entry) ListHead Entry) := by
    unfold InsertTailList
    rw [if_neg (by simp [h0, he0])]
    dsimp only
    rw [if_neg hb0]
  have hblink : (setBlink (setFlink (setBlink (setFlink m Entry ListHead) Entry
      (m ListHead).Blink) (m ListHead).Blink Entry) ListHead Entry ListHead).Blink = Entry := by
    simp [setBlink_Blink]
  have hprev : (setBlink (setFlink (setBlink (setFlink m Entry ListHead) Entry
      (m ListHead).Blink) (m ListHead).Blink Entry) ListHead Entry Entry).Blink =
      (m ListHead).Blink := by
    simp [setFlink_Blink, setBlink_Blink, hne]
  have hfront : (setBlink (setFlink (setBlink (setFlink m Entry ListHead) Entry
      (m ListHead).Blink) (m ListHead).Blink Entry) ListHead Entry ListHead).Flink ≠
      ListHead := by
    simp only [setFlink_Flink, setBlink_Flink, if_neg (Ne.symm hne)]
    split_ifs with h1
    · exact hne
    · intro hself
      apply h1
      rw [hself] at hfwd
      exact hfwd.symm
  refine ⟨_, setFlink (setBlink (setBlink (setFlink (setBlink (setFlink m Entry ListHead) Entry
    (m ListHead).Blink) (m ListHead).Blink Entry) ListHead Entry) ListHead
    (m ListHead).Blink) (m ListHead).Blink ListHead, hins, ?_, ?_, ?_⟩
  · unfold IsListEmpty
    rw [if_neg h0]
    simp [hfront]
  · unfold RemoveTailList
    rw [if_neg h0]
    dsimp only
    rw [hblink, if_neg he0, hprev, if_neg hb0]
  · intro a ha
    apply listEntry_ext
    · simp only [setFlink_Flink, setBlink_Flink, if_neg ha]
      split_ifs with h1
      · rw [h1, hback]
      · rfl
    · simp only [setFlink_Blink, setBlink_Blink, if_neg ha]
      split_ifs with h1
      · rw [h1]
      · rfl

/-! ## The lookup of a status text -/

theorem find_zip_of_nodup : ∀ (keys : List Nat) (vals : List (List Nat)) (i : Nat),
    keys.Nodup → i < keys.length → i < vals.length →
    (keys.zip vals).find? (fun e => e.1 == keys.getD i 0) = some (keys.getD i 0, vals.getD i [])
  | [], _, i, _, h, _ => by simp at h
  | _ :: _, [], i, _, _, h => by simp at h
  | k :: keys, v :: vals, 0, _, _, _ => by
    simp [List.zip_cons_cons, List.find?_cons]
  | k :: keys, v :: vals, i + 1, hnd, h1, h2 => by
    have hnd1 := List.nodup_cons.mp hnd
    have hi : i < keys.length := by simpa using h1
    have hmem : keys.getD i 0 ∈ keys := by
      rw [List.getD_eq_getElem keys 0 hi]
      exact List.getElem_mem hi
    have hne : k ≠ keys.getD i 0 := fun h => hnd1.1 (h ▸ hmem)
    rw [List.zip_cons_cons, List.getD_cons_succ, List.getD_cons_succ, List.find?_cons_of_neg]
    · exact find_zip_of_nodup keys vals i hnd1.2 hi (by simpa using h2)
    · simpa using hne

theorem find_zip_of_not_mem : ∀ (keys : List Nat) (vals : List (List Nat)) (rv : Nat),
    rv ∉ keys → (keys.zip vals).find? (fun e => e.1 == rv) = none
  | [], _, _, _ => by simp
  | _ :: _, [], _, _ => by simp
  | k :: keys, v :: vals, rv, h => by
    have hk : k ≠ rv := fun e => h (by simp [e])
    have hr : rv ∉ keys := fun e => h (by simp [e])
    rw [List.zip_cons_cons, List.find?_cons_of_neg]
    · exact find_zip_of_not_mem keys vals rv hr
    · simpa using hk

theorem errorEntries_nodup : errorEntries.Nodup := by
  decide

theorem digitValue_hexDigit : ∀ n, n < 16 → digitValue (hexDigit n) = n := by
  decide

theorem hexNumber_append (a : List Nat) (c : Nat) :
    hexNumber (a ++ [c]) = 16 * hexNumber a + digitValue c := by
  unfold hexNumber
  rw [List.foldl_append]
  rfl

theorem hexNumber_printHex : ∀ (digits n : Nat), n < 16 ^ digits →
    hexNumber (printHex digits n) = n
  | 0, n, h => by
    have hn : n = 0 := by simpa using h
    subst hn
    rfl
  | digits + 1, n, h => by
    unfold printHex
    by_cases hn : n < 16
    · rw [if_pos hn]
      show 16 * 0 + digitValue (hexDigit n) = n
      rw [digitValue_hexDigit n hn]
      omega
    · rw [if_neg hn]
      have hdiv : n / 16 < 16 ^ digits := by
        rw [Nat.div_lt_iff_lt_mul (by decide)]
        rw [pow_succ] at h
        exact h
      rw [hexNumber_append, hexNumber_printHex digits (n / 16) hdiv,
        digitValue_hexDigit _ (Nat.mod_lt _ (by decide))]
      omega

theorem printHex_ne_nil (digits n : Nat) : printHex (digits + 1) n ≠ [] := by
  unfold printHex
  split_ifs <;> simp

/-! ## Pairs of hexadecimal digits -/

theorem hexValue_of_isHexChar (c : Nat) (h : IsHexChar c) : hexValue c = some (digitValue c) := by
  unfold IsHexChar at h
  unfold hexValue digitValue
  split_ifs <;> first | rfl | (congr 1; omega)

theorem digitValue_lt (c : Nat) (h : IsHexChar c) : digitValue c < 16 := by
  unfold IsHexChar at h
  unfold digitValue
  split_ifs <;> omega

theorem parseHexLoop_pairs : ∀ (s : List Nat) (ret : Nat) (target : List Nat),
    (∀ c ∈ s, IsHexChar c) → s.length % 2 = 0 →
    parseHexLoop s ret target = (ret + s.length / 2, target ++ hexPairs s)
  | [], ret, target, _, _ => by simp [parseHexLoop, hexPairs]
  | [c], _, _, _, h => by simp at h
  | c1 :: c2 :: rest, ret, target, hs, hl => by
    have h1 : IsHexChar c1 := hs c1 (by simp)
    have h2 : IsHexChar c2 := hs c2 (by simp)
    have hr : ∀ c ∈ rest, IsHexChar c := fun c hc => hs c (by simp [hc])
    have hlr : rest.length % 2 = 0 := by
      simp only [List.length_cons] at hl
      omega
    rw [parseHexLoop]
    simp only [hexValue_of_isHexChar c1 h1, hexValue_of_isHexChar c2 h2]
    rw [parseHexLoop_pairs rest _ _ hr hlr,
      nibbles_combine _ (digitValue_lt c1 h1) _ (digitValue_lt c2 h2), hexPairs]
    simp only [List.length_cons, List.append_assoc, List.singleton_append, Prod.mk.injEq]
    constructor
    · omega
    · rw [Nat.mul_comm]

theorem hexPairs_getD : ∀ (s : List Nat) (i : Nat), 2 * i + 1 < s.length →
    (hexPairs s).getD i 0 =
      16 * digitValue (s.getD (2 * i) 0) + digitValue (s.getD (2 * i + 1) 0)
  | [], i, h => by simp at h
  | [c], i, h => by
    simp at h
  | c1 :: c2 :: rest, 0, _ => by simp [hexPairs]
  | c1 :: c2 :: rest, i + 1, h => by
    have hi : 2 * i + 1 < rest.length := by
      simp only [List.length_cons] at h
      omega
    have e1 : 2 * (i + 1) = (2 * i + 1) + 1 := by omega
    have e2 : 2 * (i + 1) + 1 = (2 * i + 1 + 1) + 1 := by omega
    rw [hexPairs, List.getD_cons_succ, hexPairs_getD rest i hi, e2, List.getD_cons_succ,
      List.getD_cons_succ, e1, List.getD_cons_succ]
    have e3 : 2 * i + 1 = (2 * i) + 1 := rfl
    rw [List.getD_cons_succ]

theorem hexPairs_length : ∀ (s : List Nat), (hexPairs s).length = s.length / 2
  | [] => rfl
  | [c] => by simp [hexPairs]
  | c1 :: c2 :: rest => by
    rw [hexPairs, List.length_cons, hexPairs_length rest]
    simp only [List.length_cons]
    omega

/-! ## Trimming a padded field -/

theorem set_middle (y : Nat) : ∀ (A : List Nat) (x : Nat) (B : List Nat),
    (A ++ x :: B).set A.length y = A ++ y :: B
  | [], _, _ => rfl
  | a :: A, x, B => by
    rw [List.cons_append, List.length_cons, List.set_cons_succ, set_middle y A x B]
    rfl

theorem getElem_middle : ∀ (A : List Nat) (x : Nat) (B : List Nat),
    (A ++ x :: B)[A.length]? = some x
  | [], _, _ => by simp
  | a :: A, x, B => by
    rw [List.cons_append, List.length_cons, List.getElem?_cons_succ]
    exact getElem_middle A x B

theorem fixPaddedLoop_spaces : ∀ (k : Nat) (pre zeros : List Nat), pre ≠ [] →
    (pre.length = 1 ∨ pre.getLast? ≠ some 32) →
    fixPaddedLoop (pre.length + k - 1) (pre ++ List.replicate k 32 ++ zeros) =
      pre ++ List.replicate k 0 ++ zeros := by
  intro k
  induction k with
  | zero =>
    intro pre zeros hne hstop
    simp only [List.replicate_zero, List.append_nil, Nat.add_zero]
    cases hp : pre.length - 1 with
    | zero => rfl
    | succ p =>
      have hlast : pre.getLast? ≠ some 32 := by
        rcases hstop with h | h
        · omega
        · exact h
      have hidx : (pre ++ zeros)[p + 1]? = pre.getLast? := by
        rw [List.getElem?_append_left (by omega), List.getLast?_eq_getElem?, hp]
      rw [fixPaddedLoop, hidx, if_neg hlast]
  | succ k ih =>
    intro pre zeros hne hstop
    have hlen : 1 ≤ pre.length := List.length_pos.mpr hne
    have hcount : pre.length + (k + 1) - 1 = (pre.length + k - 1) + 1 := by omega
    have hA : (pre ++ List.replicate k 32).length = pre.length + k - 1 + 1 := by
      simp
      omega
    have hshape : pre ++ List.replicate (k + 1) 32 ++ zeros =
        (pre ++ List.replicate k 32) ++ 32 :: zeros := by
      rw [List.replicate_succ']
      simp
    rw [hcount, fixPaddedLoop, hshape, ← hA, getElem_middle, if_pos rfl, set_middle]
    have hih := ih pre (0 :: zeros) hne hstop
    rw [hih, List.replicate_succ']
    simp

theorem fix_padded_string_trims (body : List Nat) (k : Nat) (hne : body ≠ [])
    (hlast : body.getLast? ≠ some 32) :
    fix_padded_string (body ++ List.replicate k 32) (body.length + k) =
      body ++ List.replicate k 0 := by
  have hlen : 1 ≤ body.length := List.length_pos.mpr hne
  unfold fix_padded_string
  rw [if_neg (by omega)]
  have h := fixPaddedLoop_spaces k body [] hne (Or.inr hlast)
  simpa using h

theorem fix_padded_string_spaces (k : Nat) :
    fix_padded_string (List.replicate (k + 1) 32) (k + 1) = 32 :: List.replicate k 0 := by
  unfold fix_padded_string
  rw [if_neg (by omega)]
  have h := fixPaddedLoop_spaces k [32] [] (by simp) (Or.inl rfl)
  rw [List.replicate_succ]
  simpa [Nat.add_comm] using h

theorem trimmedField_spaces (body : List Nat) (k : Nat)
    (hlast : body.getLast? ≠ some 32) :
    trimmedField (body ++ List.replicate k 32) = body ++ List.replicate k 0 := by
  have hrun : ((body ++ List.replicate k 32).reverse.takeWhile (fun c => c == 32)).length = k := by
    rw [List.reverse_append, List.reverse_replicate, List.takeWhile_append_of_pos]
    · cases hb : body.reverse with
      | nil => simp
      | cons b rest =>
        have hbl : body.getLast? = some b := by
          rw [List.getLast?_eq_head?_reverse, hb]
          rfl
        rw [hbl] at hlast
        have hb32 : b ≠ 32 := fun h => hlast (by rw [h])
        rw [List.takeWhile_cons_of_neg (by simpa using hb32)]
        simp
    · intro c hc
      rw [List.eq_of_mem_replicate hc]
      rfl
  unfold trimmedField
  rw [hrun]
  simp

/-! ## What the decoder stores -/

theorem parseHexLoop_stored : ∀ (s : List Nat) (ret : Nat) (target : List Nat),
    (parseHexLoop s ret target).2.length ≤ target.length + s.length / 2 ∧
    (parseHexLoop s ret target).1 ≤ ret + s.length / 2
  | [], ret, target => by simp [parseHexLoop]
  | [c1], ret, target => by
    rw [parseHexLoop]
    cases hexValue c1 <;> simp
  | c1 :: c2 :: rest, ret, target => by
    rw [parseHexLoop]
    have hl : (c1 :: c2 :: rest).length / 2 = rest.length / 2 + 1 := by
      simp only [List.length_cons]
      omega
    cases hexValue c1 with
    | none => simp
    | some hi =>
      cases hexValue c2 with
      | none => simp
      | some lo =>
        have ih := parseHexLoop_stored rest (ret + 1)
          (target ++ [((hi <<< 4) ||| lo) &&& 255])
        simp only [List.length_append, List.length_singleton] at ih
        simp only [hl]
        constructor
        · omega
        · omega

theorem parseHex_stored (s : List Nat) :
    (parseHex s).2.length ≤ s.length / 2 ∧ (parseHex s).1 ≤ s.length / 2 := by
  have h := parseHexLoop_stored s 0 []
  simpa [parseHex] using h

theorem strchr_lt : ∀ (s : List Nat) (c pos : Nat), strchr s c = some pos → pos < s.length
  | [], _, _, h => by simp [strchr] at h
  | x :: xs, c, pos, h => by
    rw [strchr] at h
    split_ifs at h with hx
    · cases h
      simp
    · cases hrec : strchr xs c with
      | none => rw [hrec] at h; cases h
      | some i =>
        rw [hrec] at h
        cases h
        have := strchr_lt xs c i hrec
        simp only [List.length_cons]
        omega

/-! ## Slots that fail during the table build -/

theorem collectSlot_skips {σ : Type} (abi : Abi) (p11 : CK_FUNCTION_LIST σ) (i slot : Nat)
    (state : P11EnumKeysState) (w : World σ) (hs : state.slots[i]? = some slot)
    (hfail : SlotFails abi p11 slot w.token) :
    ∃ w1, collectSlot abi p11 i state w = .ok (state, w1) ∧ w1.allocs = w.allocs := by
  unfold SlotFails at hfail
  unfold collectSlot
  rw [hs]
  simp only [World.called]
  split_ifs with h1 h2 h3 h4 h5
  · exact ⟨_, rfl, rfl⟩
  · exact ⟨_, rfl, rfl⟩
  · exact ⟨_, rfl, rfl⟩
  · exact ⟨_, rfl, rfl⟩
  · exact ⟨_, rfl, rfl⟩
  · exfalso
    rcases hfail with h | h | h | h | h
    · exact h1 h
    · exact h2 h
    · exact h3 h
    · exact h4 h
    · exact h5 h

theorem collectSlots_skip {σ : Type} (abi : Abi) (p11 : CK_FUNCTION_LIST σ) (i slot : Nat)
    (rest : List Nat) (state : P11EnumKeysState) (w : World σ)
    (hs : state.slots[i]? = some slot) (hfail : SlotFails abi p11 slot w.token) :
    ∃ w1, w1.allocs = w.allocs ∧
      collectSlots abi p11 (i :: rest) state w = collectSlots abi p11 rest state w1 := by
  obtain ⟨w1, hrun, hal⟩ := collectSlot_skips abi p11 i slot state w hs hfail
  refine ⟨w1, hal, ?_⟩
  rw [collectSlots, hrun]

theorem collectObjects_returns {σ : Type} (abi : Abi) (p11 : CK_FUNCTION_LIST σ) (slotId : Nat)
    (slotInfo : CK_SLOT_INFO) (session : Nat) : ∀ (objects : List Nat) (state : P11EnumKeysState)
    (w : World σ), state.nKeys + objects.length ≤ MAX_KEYS →
    ∃ st w1, collectObjects abi p11 slotId slotInfo session objects state w = .ok (st, w1) ∧
      st.nKeys ≤ state.nKeys + objects.length ∧ st.slots = state.slots := by
  intro objects
  induction objects with
  | nil =>
    intro state w _
    exact ⟨state, w, rfl, Nat.le_refl _, rfl⟩
  | cons object rest ih =>
    intro state w hcap
    simp only [List.length_cons] at hcap
    rw [collectObjects]
    rw [if_neg (by omega)]
    dsimp only
    split_ifs with hrv
    · obtain ⟨st, w1, hrun, hn, hsl⟩ := ih state _ (by omega)
      exact ⟨st, w1, hrun, by simp only [List.length_cons]; omega, hsl⟩
    · obtain ⟨st, w1, hrun, hn, hsl⟩ := ih
        { state with
          keys := state.keys.take state.nKeys ++
            [{ slotId := slotId
               slotInfo := slotInfo
               keyType := objectValue abi (attributeBuffer
                 (object_load_attributes abi p11 session object (key_or_certAttrs abi) w).2.1 3)
               keyLabel := fit 256 (attributeBuffer
                 (object_load_attributes abi p11 session object (key_or_certAttrs abi) w).2.1 2)
               idLen := attributeLength
                 (object_load_attributes abi p11 session object (key_or_certAttrs abi) w).2.1 0
               id := fit 64 (attributeBuffer
                 (object_load_attributes abi p11 session object (key_or_certAttrs abi) w).2.1
                 0) }],
          nKeys := state.nKeys + 1 }
        (object_load_attributes abi p11 session object (key_or_certAttrs abi) w).2.2
        (by simp only []; omega)
      exact ⟨st, w1, hrun, by simp only [List.length_cons] at hn ⊢; omega, hsl⟩

theorem collectSlot_returns {σ : Type} (abi : Abi) (p11 : CK_FUNCTION_LIST σ) (i k : Nat)
    (state : P11EnumKeysState) (w : World σ) (hi : i < state.slots.length)
    (hk : ∀ (session max : Nat) (t : σ), (p11.C_FindObjects session max t).1.2.length ≤ k)
    (hcap : state.nKeys + k ≤ MAX_KEYS) :
    ∃ st w1, collectSlot abi p11 i state w = .ok (st, w1) ∧
      st.nKeys ≤ state.nKeys + k ∧ st.slots = state.slots := by
  unfold collectSlot
  rw [List.getElem?_eq_getElem hi]
  dsimp only
  split_ifs with h1 h2 h3 h4 h5
  · exact ⟨_, _, rfl, Nat.le_add_right _ _, rfl⟩
  · exact ⟨_, _, rfl, Nat.le_add_right _ _, rfl⟩
  · exact ⟨_, _, rfl, Nat.le_add_right _ _, rfl⟩
  · exact ⟨_, _, rfl, Nat.le_add_right _ _, rfl⟩
  · exact ⟨_, _, rfl, Nat.le_add_right _ _, rfl⟩
  · obtain ⟨st, w1, hrun, hn, hsl⟩ := collectObjects_returns abi p11 state.slots[i]
      { (p11.C_GetSlotInfo state.slots[i] w.token).1.2 with
        slotDescription := fix_padded_string
          (p11.C_GetSlotInfo state.slots[i] w.token).1.2.slotDescription 64 }
      _ _ state _ (Nat.le_trans (Nat.add_le_add_left (hk _ _ _) _) hcap)
    rw [hrun]
    exact ⟨st, _, rfl, Nat.le_trans hn (Nat.add_le_add_left (hk _ _ _) _), hsl⟩

theorem collectSlots_returns {σ : Type} (abi : Abi) (p11 : CK_FUNCTION_LIST σ) (k : Nat)
    (hk : ∀ (session max : Nat) (t : σ), (p11.C_FindObjects session max t).1.2.length ≤ k) :
    ∀ (indices : List Nat) (state : P11EnumKeysState) (w : World σ),
      (∀ i ∈ indices, i < state.slots.length) →
      state.nKeys + indices.length * k ≤ MAX_KEYS →
      ∃ st w1, collectSlots abi p11 indices state w = .ok (st, w1) ∧
        st.nKeys ≤ state.nKeys + indices.length * k := by
  intro indices
  induction indices with
  | nil =>
    intro state w _ _
    exact ⟨state, w, rfl, Nat.le_add_right _ _⟩
  | cons i rest ih =>
    intro state w hin hcap
    simp only [List.length_cons, Nat.succ_mul] at hcap ⊢
    obtain ⟨st1, w1, hrun, hn, hsl⟩ := collectSlot_returns abi p11 i k state w
      (hin i (List.mem_cons_self _ _)) hk (by omega)
    obtain ⟨st, w2, hrest, hn2⟩ := ih st1 w1
      (fun j hj => hsl ▸ hin j (List.mem_cons_of_mem _ hj)) (by omega)
    rw [collectSlots, hrun]
    exact ⟨st, w2, hrest, by omega⟩

theorem collect_keys_returns {σ : Type} (abi : Abi) (p11 : CK_FUNCTION_LIST σ) (k : Nat)
    (state : P11EnumKeysState) (w : World σ)
    (hk : ∀ (session max : Nat) (t : σ), (p11.C_FindObjects session max t).1.2.length ≤ k)
    (hslots : state.nslots ≤ state.slots.length) (hcap : state.nslots * k ≤ MAX_KEYS) :
    ∃ st w1, collect_keys abi p11 state w = .ok (.ERROR_SUCCESS, st, w1) ∧
      st.nKeys ≤ state.nslots * k := by
  obtain ⟨st, w1, hrun, hn⟩ := collectSlots_returns abi p11 k hk (List.range state.nslots)
    { state with nKeys := 0 } w
    (fun i hi => Nat.lt_of_lt_of_le (List.mem_range.mp hi) hslots)
    (by simp only [List.length_range]; omega)
  unfold collect_keys
  rw [hrun]
  exact ⟨st, w1, rfl, by simpa using hn⟩

/-! ## Releasing a library whose initialization failed -/

theorem openProviderLoop_frees_twice (LoadLibrary : List Nat → Option ModuleImage)
    (modulePath : List Nat) (rest : List (List Nat)) (status : SECURITY_STATUS)
    (cell : Option NCryptP11ProviderHandle) (l : LoaderWorld) (image : ModuleImage)
    (hal : l.allocs = []) (himg : LoadLibrary modulePath = some image)
    (hentry : image.hasGetFunctionList = true)
    (hrv : image.getFunctionListRv ≠ CKR_OK ∨ image.initializeRv ≠ CKR_OK) :
    ∃ extra : List LoaderCall,
      openProviderLoop LoadLibrary (modulePath :: rest) status cell l =
        openProviderLoop LoadLibrary rest .NTE_PROVIDER_DLL_FAIL cell
          { calls := l.calls ++ extra, allocs := [] } ∧
      (extra.filter (fun call => decide (call = .FreeLibrary modulePath))).length = 2 := by
  have hcal : ((l.called (.LoadLibrary modulePath)).called
      (.GetProcAddress modulePath)).calloc = (true, (l.called (.LoadLibrary modulePath)).called
        (.GetProcAddress modulePath)) := by
    simp [LoaderWorld.calloc, LoaderWorld.called, hal]
  rw [openProviderLoop, himg]
  dsimp only
  rw [if_neg (by simp [hentry])]
  unfold initialize_pkcs11
  simp only [hcal, Bool.true_eq_false, if_false]
  by_cases hg : image.getFunctionListRv ≠ CKR_OK
  · simp only [if_pos hg, ne_eq, reduceCtorEq, not_false_eq_true, if_true]
    refine ⟨[.LoadLibrary modulePath, .GetProcAddress modulePath,
      .C_GetFunctionList modulePath, .FreeLibrary modulePath, .FreeLibrary modulePath], ?_, ?_⟩
    · simp [NCryptP11StorageProvider_dtor, LoaderWorld.called, hal]
    · simp
  · have hi : image.initializeRv ≠ CKR_OK := by
      rcases hrv with h | h
      · exact absurd h hg
      · exact h
    simp only [if_neg hg, if_pos hi, ne_eq, reduceCtorEq, not_false_eq_true, if_true]
    refine ⟨[.LoadLibrary modulePath, .GetProcAddress modulePath,
      .C_GetFunctionList modulePath, .C_Initialize modulePath, .C_Finalize modulePath,
      .FreeLibrary modulePath, .FreeLibrary modulePath], ?_, ?_⟩
    · simp [NCryptP11StorageProvider_dtor, LoaderWorld.called, hal]
    · simp

/-! ## The claims C31 to C40 -/

/-- C31 (failing input). A module with three token-present slots, the second
of which fails at `C_OpenSession`, the other two holding 33 public keys each:
`collect_keys` does not return; after the 64 rows of the table are filled it
hands the row `keys[64]`, outside the table, to the module. With one key in
each slot it returns `ERROR_SUCCESS` with the two rows of the slots 1 and 3,
the table it builds from the slot list without the failing slot. -/
theorem collect_keys_overruns_past_failed_slot :
    faultOf (collect_keys lp64 (brokenSlotModule [] 3 33 1 2)
      { P11EnumKeysState.zero with nslots := 3, slots := fit MAX_SLOTS [1, 2, 3] }
      (World.init ())) = some Fault.keyTableOverrun ∧
    (collectRows (collect_keys lp64 (brokenSlotModule [] 3 1 1 2)
      { P11EnumKeysState.zero with nslots := 3, slots := fit MAX_SLOTS [1, 2, 3] }
      (World.init ()))).map (fun r => (r.1, r.2.1, r.2.2.map (fun key => key.slotId))) =
      some (.ERROR_SUCCESS, 2, [1, 3]) ∧
    collectRows (collect_keys lp64 (brokenSlotModule [] 3 1 1 2)
      { P11EnumKeysState.zero with nslots := 3, slots := fit MAX_SLOTS [1, 2, 3] }
      (World.init ())) =
    collectRows (collect_keys lp64 (brokenSlotModule [] 3 1 1 2)
      { P11EnumKeysState.zero with nslots := 2, slots := fit MAX_SLOTS [1, 3] }
      (World.init ())) := by
  decide

/-- C32 (failing input). A field of 64 spaces, the description of a slot that
has none: `fix_padded_string` leaves the first space in place, so the field
reads as the string of one space, not as the empty string; with every space of
the trailing run replaced the field would be all NUL. -/
theorem fix_padded_string_keeps_first_space :
    fix_padded_string (List.replicate 64 32) 64 = 32 :: List.replicate 63 0 ∧
    cstr (fix_padded_string (List.replicate 64 32) 64) = [32] ∧
    trimmedField (List.replicate 64 32) = List.replicate 64 0 ∧
    fix_padded_string [32] 1 = [32] := by
  decide

/-- C33. For a text `s` (no NUL) handed to `parseHex`: when `s` is made of
`2n` hexadecimal digits with `n ≥ 1`, `parseHex` returns `n` and stores `n`
bytes, byte `i` being `16 * value(digit 2i) + value(digit 2i+1)`; when `s` is
empty, has an odd number of characters or holds a character that is not a
hexadecimal digit, it returns 0. -/
theorem parseHex_digits (s : List Nat) (hs : ∀ c ∈ s, c ≠ 0) :
    (∀ n, 1 ≤ n → s.length = 2 * n → (∀ c ∈ s, IsHexChar c) →
      (parseHex s).1 = n ∧ (parseHex s).2.length = n ∧
      ∀ i, i < n → (parseHex s).2.getD i 0 =
        16 * digitValue (s.getD (2 * i) 0) + digitValue (s.getD (2 * i + 1) 0)) ∧
    ((s = [] ∨ s.length % 2 = 1 ∨ ∃ c ∈ s, ¬ IsHexChar c) → (parseHex s).1 = 0) := by
  constructor
  · intro n _ hlen hhex
    have hrun := parseHexLoop_pairs s 0 [] hhex (by omega)
    unfold parseHex
    rw [hrun]
    refine ⟨by simp only []; omega, by simp [hexPairs_length]; omega, ?_⟩
    intro i hi
    simp only [List.nil_append]
    exact hexPairs_getD s i (by omega)
  · intro hbad
    by_contra hne
    obtain ⟨hhex, hlen⟩ := parseHex_ne_zero s hne
    rcases hbad with h | h | ⟨c, hc, hnot⟩
    · subst h
      exact hne rfl
    · omega
    · exact hnot (hhex c hc)

/-- Witness for C33: the text `1aF0`. -/
theorem parseHex_digits_witness :
    (parseHex (ofString "1aF0")).1 = 2 ∧ (parseHex (ofString "1aF0")).2.length = 2 ∧
    (parseHex (ofString "1aF0")).2.getD 1 0 = 16 * 15 + 0 ∧
    (parseHex (ofString "1aF")).1 = 0 :=
  ⟨((parseHex_digits (ofString "1aF0") (by decide)).1 2 (by decide) (by decide)
      (by decide)).1,
    ((parseHex_digits (ofString "1aF0") (by decide)).1 2 (by decide) (by decide)
      (by decide)).2.1,
    (((parseHex_digits (ofString "1aF0") (by decide)).1 2 (by decide) (by decide)
      (by decide)).2.2 1 (by decide)).trans (by decide),
    (parseHex_digits (ofString "1aF") (by decide)).2 (Or.inr (Or.inl (by decide)))⟩

/-- C34. `CK_RV_error_string` is defined for every status code. With the 85
constants of its `switch` standing for distinct values, it returns for each of
them the spelling of the constant, distinct codes giving distinct texts, and
for every other code the text `unknown 0x` followed by the code in
hexadecimal: digits that stand for the code, for every code an
`unsigned long` of 64 bits holds. -/
theorem CK_RV_error_string_total (values : List Nat)
    (hlen : values.length = errorEntries.length) (hnd : values.Nodup) :
    (∀ i, i < values.length →
      CK_RV_error_string values (values.getD i 0) = errorEntries.getD i []) ∧
    (∀ a ∈ values, ∀ b ∈ values, a ≠ b →
      CK_RV_error_string values a ≠ CK_RV_error_string values b) ∧
    (∀ rv, rv ∉ values →
      CK_RV_error_string values rv = ofString "unknown 0x" ++ printHex 16 rv) ∧
    (∀ rv, rv < 2 ^ 64 → hexNumber (printHex 16 rv) = rv ∧ printHex 16 rv ≠ []) := by
  have hknown : ∀ i, i < values.length →
      CK_RV_error_string values (values.getD i 0) = errorEntries.getD i [] := by
    intro i hi
    unfold CK_RV_error_string
    rw [find_zip_of_nodup values errorEntries i hnd hi (hlen ▸ hi)]
  refine ⟨hknown, ?_, ?_, ?_⟩
  · intro a ha b hb hab heq
    obtain ⟨i, hi, rfl⟩ := List.getElem_of_mem ha
    obtain ⟨j, hj, rfl⟩ := List.getElem_of_mem hb
    have hia := hknown i hi
    have hjb := hknown j hj
    rw [List.getD_eq_getElem values 0 hi] at hia
    rw [List.getD_eq_getElem values 0 hj] at hjb
    rw [hia, hjb, List.getD_eq_getElem _ _ (hlen ▸ hi),
      List.getD_eq_getElem _ _ (hlen ▸ hj)] at heq
    have hij : i = j :=
      (List.Nodup.getElem_inj_iff errorEntries_nodup).mp heq
    subst hij
    exact hab rfl
  · intro rv hrv
    unfold CK_RV_error_string
    rw [find_zip_of_not_mem values errorEntries rv hrv]
  · intro rv hrv
    exact ⟨hexNumber_printHex 16 rv (by
      have : (16 : Nat) ^ 16 = 2 ^ 64 := by norm_num
      omega), printHex_ne_nil 15 rv⟩

/-- Witness for C34: the values PKCS #11 gives the constants; the codes 0,
`0x150` and the unknown `0x1234`. -/
theorem CK_RV_error_string_total_witness :
    CK_RV_error_string pkcs11ReturnValues 0 = ofString "CKR_OK" ∧
    CK_RV_error_string pkcs11ReturnValues 0x150 = ofString "CKR_BUFFER_TOO_SMALL" ∧
    CK_RV_error_string pkcs11ReturnValues 0x1234 = ofString "unknown 0x1234" :=
  ⟨((CK_RV_error_string_total pkcs11ReturnValues (by decide) (by decide)).1 0
      (by decide)).trans (by decide),
    ((CK_RV_error_string_total pkcs11ReturnValues (by decide) (by decide)).1 76
      (by decide)).trans (by decide),
    ((CK_RV_error_string_total pkcs11ReturnValues (by decide) (by decide)).2.2.1 0x1234
      (by decide)).trans (by decide)⟩

/-- C35 (failing input). The scope `\\.\`, which passes the scope check, gives
the filter length `4 - 5` in `size_t` arithmetic, that is `2^64 - 1` on LP64
and `2^32 - 1` on ILP32; a scope with a reader name of 65 characters gives the
filter length 65. With either scope the first call of `NCryptP11EnumKeys` on
a module with one key compares past the 64 bytes of the slot description. -/
theorem scope_filter_length_out_of_range :
    (parseScope lp64 (ofString "\\\\.\\")).toOption.map (fun f => f.len) =
      some 18446744073709551615 ∧
    (parseScope ilp32 (ofString "\\\\.\\")).toOption.map (fun f => f.len) =
      some 4294967295 ∧
    (parseScope lp64 (ofString "\\\\.\\" ++ List.replicate 65 65 ++ [92])).toOption.map
      (fun f => f.len) = some 65 ∧
    NCryptP11EnumKeys lp64 (tableModule [] 1 1 1) .ERROR_SUCCESS (some (ofString "\\\\.\\"))
      none none (World.init ()) = .error Fault.memcmpOverread ∧
    NCryptP11EnumKeys lp64 (tableModule [] 1 1 1) .ERROR_SUCCESS
      (some (ofString "\\\\.\\" ++ List.replicate 65 65 ++ [92])) none none (World.init ()) =
      .error Fault.memcmpOverread := by
  decide

/-- C36 (failing input). For a key identifier of 64 bytes, the length a
key-table row can hold, `wprintKeyName` stores past `asciiName[128]`, with an
8-byte and with a 4-byte slot id: text and terminator take 147 and 139 bytes.
On LP64 the longest identifier whose text fits has 54 bytes. -/
theorem wprintKeyName_overruns_at_64_bytes :
    faultOf (wprintKeyName lp64 1 (List.replicate 64 171) 64) = some Fault.asciiNameOverrun ∧
    faultOf (wprintKeyName ilp32 1 (List.replicate 64 171) 64) = some Fault.asciiNameOverrun ∧
    (keyNameFormat (objectBytes lp64 1) (List.replicate 64 171)).length + 1 = 147 ∧
    (keyNameFormat (objectBytes ilp32 1) (List.replicate 64 171)).length + 1 = 139 ∧
    faultOf (wprintKeyName lp64 1 (List.replicate 64 171) 54) = none ∧
    faultOf (wprintKeyName lp64 1 (List.replicate 64 171) 55) = some Fault.asciiNameOverrun := by
  decide

/-- C37. For every key name given to `parseKeyName`: with `c :: tail` the
text `ConvertWCharToUtf8` leaves in `asciiKeyName[128]` and `pos` the offset
of the second backslash, within `2 * sizeof(CK_SLOT_ID)`, the first call of
`parseHex` stores at most `sizeof(CK_SLOT_ID)` bytes in the slot id and the
second at most 64 bytes in the identifier; and every name `parseKeyName`
accepts gives an identifier length between 1 and 64, with the 64-byte array as
its identifier. -/
theorem parseKeyName_stores_within (abi : Abi) (pszKeyName : List Nat) :
    (∀ (c : Nat) (tail : List Nat) (pos : Nat),
      ConvertWCharToUtf8 pszKeyName 128 = some (c :: tail) → strchr tail 92 = some pos →
      pos ≤ abi.sizeofSlotId * 2 →
      (parseHex (tail.take pos)).2.length ≤ abi.sizeofSlotId ∧
      (parseHex (tail.drop (pos + 1))).2.length ≤ 64) ∧
    (∀ r, parseKeyName abi pszKeyName = .ok r →
      1 ≤ r.idLen ∧ r.idLen ≤ 64 ∧ r.id.length = 64) := by
  have hsizes : ∀ (c : Nat) (tail : List Nat) (pos : Nat),
      ConvertWCharToUtf8 pszKeyName 128 = some (c :: tail) → strchr tail 92 = some pos →
      (parseHex (tail.take pos)).2.length ≤ pos / 2 ∧
      (parseHex (tail.drop (pos + 1))).2.length ≤ 62 ∧
      (parseHex (tail.drop (pos + 1))).1 ≤ 62 := by
    intro c tail pos hconv hpos
    have hlt := strchr_lt tail 92 pos hpos
    have htail : tail.length ≤ 126 := by
      unfold ConvertWCharToUtf8 at hconv
      split_ifs at hconv with hfit
      have hlen := congrArg List.length (Option.some.inj hconv)
      simp only [List.length_cons] at hlen
      omega
    have h1 := parseHex_stored (tail.take pos)
    have h2 := parseHex_stored (tail.drop (pos + 1))
    rw [List.length_take, Nat.min_eq_left (Nat.le_of_lt hlt)] at h1
    rw [List.length_drop] at h2
    exact ⟨h1.1, by omega, by omega⟩
  constructor
  · intro c tail pos hconv hpos hle
    obtain ⟨h1, h2, _⟩ := hsizes c tail pos hconv hpos
    exact ⟨by omega, by omega⟩
  · intro r hr
    unfold parseKeyName at hr
    cases hconv : ConvertWCharToUtf8 pszKeyName 128 with
    | none => rw [hconv] at hr; cases hr
    | some asciiKeyName =>
      rw [hconv] at hr
      cases asciiKeyName with
      | nil => cases hr
      | cons c tail =>
        dsimp only at hr
        split_ifs at hr with h92
        cases hpos : strchr tail 92 with
        | none => rw [hpos] at hr; cases hr
        | some pos =>
          rw [hpos] at hr
          dsimp only at hr
          split_ifs at hr with hbig hslot hkey
          obtain ⟨_, _, h3⟩ := hsizes c tail pos hconv hpos
          cases hr
          refine ⟨?_, ?_, fit_length 64 _⟩
          · show 1 ≤ (parseHex (tail.drop (pos + 1))).1
            omega
          · show (parseHex (tail.drop (pos + 1))).1 ≤ 64
            omega

/-- Witness for C37: the name `\0100000000000000\abcd` on LP64. -/
theorem parseKeyName_stores_within_witness :
    (parseHex ((ofString "0100000000000000\\abcd").take 16)).2.length ≤ 8 ∧
    (parseHex ((ofString "0100000000000000\\abcd").drop (16 + 1))).2.length ≤ 64 :=
  (parseKeyName_stores_within lp64 (ofString "\\0100000000000000\\abcd")).1 92
    (ofString "0100000000000000\\abcd") 16 (by decide) (by decide) (by decide)

/-- C38 (failing input). When the card answers the first APDU with success
and a response of no byte, or of one byte, the status test of
`get_piv_container_name` reads `buf[buf_len - 2]` with `buf_len - 2` computed
in `DWORD` arithmetic, at index `2^32 - 2` or `2^32 - 1`, outside the 258
bytes of `buf`. -/
theorem apdu_status_read_outside_response :
    faultOf (apduRejected (receive (List.replicate 258 0) []) 0) =
      some Fault.responseOverread ∧
    faultOf (apduRejected (receive (List.replicate 258 0) [0x90]) 1) =
      some Fault.responseOverread ∧
    (0 + 4294967294) % 4294967296 = 4294967294 ∧ (1 + 4294967294) % 4294967296 = 4294967295 ∧
    faultOf (get_piv_container_name (certificateModule lp64 (ofString "ReaderA2") [] [])
      (cannedCard [] []) witnessHandle [0x5F, 0xC1, 0x05] 74 (World.init ())
      (CardWorld.init ())) = some Fault.responseOverread ∧
    faultOf (get_piv_container_name (certificateModule lp64 (ofString "ReaderA2") [] [])
      (cannedCard [0x90] []) witnessHandle [0x5F, 0xC1, 0x05] 74 (World.init ())
      (CardWorld.init ())) = some Fault.responseOverread := by
  decide

/-- C39 (failing input). A module path whose library loads and exports
`C_GetFunctionList`, and whose `C_GetFunctionList` or `C_Initialize` fails:
`FreeLibrary` is called twice on the library, once by the destructor that
`initialize_pkcs11` runs and once more by the loop of
`NCryptOpenP11StorageProviderEx`. -/
theorem openProvider_frees_library_twice :
    NCryptOpenP11StorageProviderEx
        (fun _ => some { hasGetFunctionList := true, getFunctionListRv := 5, initializeRv := 0 })
        (some none) (some [ofString "a.so"]) { calls := [], allocs := [] } =
      (.NTE_PROVIDER_DLL_FAIL, none,
        { calls := [.LoadLibrary (ofString "a.so"), .GetProcAddress (ofString "a.so"),
                    .C_GetFunctionList (ofString "a.so"), .FreeLibrary (ofString "a.so"),
                    .FreeLibrary (ofString "a.so")], allocs := [] }) ∧
    NCryptOpenP11StorageProviderEx
        (fun _ => some { hasGetFunctionList := true, getFunctionListRv := 0, initializeRv := 5 })
        (some none) (some [ofString "a.so"]) { calls := [], allocs := [] } =
      (.NTE_PROVIDER_DLL_FAIL, none,
        { calls := [.LoadLibrary (ofString "a.so"), .GetProcAddress (ofString "a.so"),
                    .C_GetFunctionList (ofString "a.so"), .C_Initialize (ofString "a.so"),
                    .C_Finalize (ofString "a.so"), .FreeLibrary (ofString "a.so"),
                    .FreeLibrary (ofString "a.so")], allocs := [] }) := by
  decide

/-- C40. For a well-formed circular list in memory and an entry that is not
null and not one of its nodes: `InsertHeadList` followed by `RemoveHeadList`
hands back the entry and leaves every address other than the entry's, so
every link of the list, as it was before the insertion, and the list is not
empty in between; the same holds of `InsertTailList` followed by
`RemoveTailList`; and after `InitializeListHead` the list is empty. -/
theorem list_insert_remove_round_trip (m : ListMemory) (nodes : List Nat)
    (ListHead Entry : Nat) (hwf : WellFormedList m nodes) (hhead : ListHead ∈ nodes)
    (hentry : Entry ∉ nodes) (he0 : Entry ≠ 0) :
    (∃ m1 m2, InsertHeadList ListHead Entry m = some m1 ∧
      IsListEmpty ListHead m1 = some false ∧
      RemoveHeadList ListHead m1 = some (Entry, m2) ∧
      ∀ a, a ≠ Entry → m2 a = m a) ∧
    (∃ m1 m2, InsertTailList ListHead Entry m = some m1 ∧
      IsListEmpty ListHead m1 = some false ∧
      RemoveTailList ListHead m1 = some (Entry, m2) ∧
      ∀ a, a ≠ Entry → m2 a = m a) ∧
    (∃ m0, InitializeListHead ListHead m = some m0 ∧ IsListEmpty ListHead m0 = some true) := by
  obtain ⟨h0, hfin, hbin, hfback, hbback⟩ := hwf ListHead hhead
  have hne : Entry ≠ ListHead := fun h => hentry (h ▸ hhead)
  have hf0 : (m ListHead).Flink ≠ 0 := (hwf _ hfin).1
  have hb0 : (m ListHead).Blink ≠ 0 := (hwf _ hbin).1
  refine ⟨insertHead_removeHead m ListHead Entry h0 he0 hne hf0 hfback,
    insertTail_removeTail m ListHead Entry h0 he0 hne hb0 hbback hfback, ?_⟩
  refine ⟨setFlink (setBlink m ListHead ListHead) ListHead ListHead, ?_, ?_⟩
  · unfold InitializeListHead
    rw [if_neg h0]
  · unfold IsListEmpty
    rw [if_neg h0]
    simp [setFlink_Flink]

/-- Witness for C40: a head with one entry, and a new entry at address 3. -/
theorem list_insert_remove_round_trip_witness :
    (∃ m1 m2, InsertHeadList 1 3 twoNodeList = some m1 ∧
      IsListEmpty 1 m1 = some false ∧
      RemoveHeadList 1 m1 = some (3, m2) ∧
      ∀ a, a ≠ 3 → m2 a = twoNodeList a) ∧
    (∃ m1 m2, InsertTailList 1 3 twoNodeList = some m1 ∧
      IsListEmpty 1 m1 = some false ∧
      RemoveTailList 1 m1 = some (3, m2) ∧
      ∀ a, a ≠ 3 → m2 a = twoNodeList a) :=
  ⟨(list_insert_remove_round_trip twoNodeList [1, 2] 1 3 (by decide) (by decide) (by decide)
      (by decide)).1,
    (list_insert_remove_round_trip twoNodeList [1, 2] 1 3 (by decide) (by decide) (by decide)
      (by decide)).2.1⟩

end NCryptP11
